import Mathlib

/-!
# HaystackPPOS image store: shallow embedding of the storage engine

The C sources (`imgStore.h`, `error.h`, `dedup.c`, `imgst_create.c`,
`imgst_insert.c`, `imgst_delete.c`, `imgst_read.c`, `imgst_list.c`,
`imgst_gbcollect.c`, `image_content.c`, `tools.c`, and the commands `create`
and `gc` of `imgStoreMgr.c`) are embedded as pure functions over an explicit
store handle.

Conventions of the embedding:
* bytes and machine integers are `Nat`; a store into a `uintN_t` object is an
  explicit `% 2^N`;
* a `FILE *` is a value of type `FILE` (byte content, position indicator, open
  mode, and a schedule of injected device failures);
* pointer arguments are never `NULL` and allocations succeed, so the
  `M_REQUIRE_NON_NULL` / `ERR_OUT_OF_MEMORY` exits are not represented; the
  exception is do_open, which takes the outcome of its calloc as an argument;
* a function whose C execution would index outside an array returns `none`;
* file positions are below 2^63, so ftell returns them as they are and their
  store into a `uint64_t` offset keeps the value;
* SHA-256 and the JPEG codec are external collaborators, passed in as `Env`.
-/

namespace ImgStore

/-! ## Constants of `imgStore.h` -/

/-- The text of CAT_TXT, "EPFL ImgStore binary", as bytes. -/
abbrev CAT_TXT : List Nat :=
  [69, 80, 70, 76, 32, 73, 109, 103, 83, 116, 111, 114, 101, 32, 98, 105, 110, 97, 114, 121]

abbrev MAX_IMGST_NAME : Nat := 31
abbrev MAX_IMG_ID : Nat := 127
abbrev MAX_MAX_FILES : Nat := 100000
abbrev DEFAULT_MAX_FILES : Nat := 10

abbrev EMPTY : Nat := 0
abbrev NON_EMPTY : Nat := 1

abbrev RES_THUMB : Int := 0
abbrev RES_SMALL : Int := 1
abbrev RES_ORIG : Int := 2
abbrev NB_RES : Nat := 3

abbrev SHA256_DIGEST_LENGTH : Nat := 32

/-! ## Error codes of `error.h` (the enum `error_code`, as `int`) -/

abbrev ERR_NONE : Int := 0
abbrev ERR_IO : Int := 1
abbrev ERR_OUT_OF_MEMORY : Int := 2
abbrev ERR_NOT_ENOUGH_ARGUMENTS : Int := 3
abbrev ERR_INVALID_FILENAME : Int := 4
abbrev ERR_INVALID_COMMAND : Int := 5
abbrev ERR_INVALID_ARGUMENT : Int := 6
abbrev ERR_MAX_FILES : Int := 7
abbrev ERR_RESOLUTIONS : Int := 8
abbrev ERR_INVALID_IMGID : Int := 9
abbrev ERR_FULL_IMGSTORE : Int := 10
abbrev ERR_FILE_NOT_FOUND : Int := 11
abbrev NOT_IMPLEMENTED : Int := 12
abbrev ERR_DUPLICATE_ID : Int := 13
abbrev ERR_IMGLIB : Int := 14
abbrev ERR_DEBUG : Int := 15
abbrev NB_ERR : Int := 16

/-- The value of DUPLICATE_FOUND in `dedup.c`: NB_ERR + 10. -/
abbrev DUPLICATE_FOUND : Int := NB_ERR + 10
/-- The value of DUPLICATE_NOT_FOUND in `dedup.c`: NB_ERR + 20. -/
abbrev DUPLICATE_NOT_FOUND : Int := NB_ERR + 20

/-! ## C strings -/

/-- The characters of a C string: the bytes before the first NUL. -/
def c_str (s : List Nat) : List Nat := s.takeWhile (fun c => c != 0)

/-- The C library function strlen. -/
def strlen (s : List Nat) : Nat := (c_str s).length

/-- The C library function strncpy(dest, src, n): the first n bytes of dest
become the characters of src (at most n of them) padded with NUL; the bytes
of dest from index n on are kept. -/
def strncpy (dest src : List Nat) (n : Nat) : List Nat :=
  (c_str src).take n ++ List.replicate (n - ((c_str src).take n).length) 0 ++ dest.drop n

/-- The C library function strncmp(s1, s2, n); a list that ends is read as
ending in its NUL terminator. -/
def strncmp : List Nat → List Nat → Nat → Int
  | _, _, 0 => 0
  | s1, s2, n + 1 =>
    if s1.headD 0 ≠ s2.headD 0 then (s1.headD 0 : Int) - (s2.headD 0 : Int)
    else if s1.headD 0 = 0 then 0
    else strncmp s1.tail s2.tail n

/-- The C library function strcmp(s1, s2); a list that ends is read as ending
in its NUL terminator. -/
def strcmp : List Nat → List Nat → Int
  | [], [] => 0
  | [], c2 :: _ => - (c2 : Int)
  | c1 :: _, [] => (c1 : Int)
  | c1 :: r1, c2 :: r2 =>
    if c1 ≠ c2 then (c1 : Int) - (c2 : Int)
    else if c1 = 0 then 0
    else strcmp r1 r2

/-! ## Streams (`FILE *`) -/

/-- A stdio stream on a host file. `faults` is the schedule of injected device
failures: every fseek/fwrite/fread call consumes its first entry; `none` (or
an exhausted schedule) lets the call run normally, `some k` makes it fail
after transferring at most k bytes. -/
structure FILE where
  content : List Nat
  pos : Nat
  can_read : Bool
  can_write : Bool
  faults : List (Option Nat)
deriving DecidableEq

/-- Consume the next entry of the fault schedule. -/
def next_fault (f : FILE) : Option Nat × FILE :=
  match f.faults with
  | [] => (none, f)
  | x :: rest => (x, { f with faults := rest })

/-- The bytes of a file after `data` is written at byte offset `pos`
(a gap past the end of the file reads as zeros). -/
def write_at (content : List Nat) (pos : Nat) (data : List Nat) : List Nat :=
  if data = [] then content
  else
    (content ++ List.replicate (pos - content.length) 0).take pos ++ data
      ++ content.drop (pos + data.length)

inductive Whence where
  | SEEK_SET
  | SEEK_CUR
  | SEEK_END
deriving DecidableEq

/-- The position that `whence` names in a stream. -/
def seek_base (f : FILE) : Whence → Int
  | .SEEK_SET => 0
  | .SEEK_CUR => (f.pos : Int)
  | .SEEK_END => (f.content.length : Int)

/-- The stdio function fseek; returns 0 on success and -1 on failure. -/
def fseek (f : FILE) (offset : Int) (whence : Whence) : Int × FILE :=
  match next_fault f with
  | (some _, f1) => (-1, f1)
  | (none, f1) =>
    if seek_base f1 whence + offset < 0 then (-1, f1)
    else (0, { f1 with pos := (seek_base f1 whence + offset).toNat })

/-- The stdio function ftell. -/
def ftell (f : FILE) : Nat := f.pos

/-- The stdio function fwrite(ptr, size, nmemb, f): returns the number of
complete items written. -/
def fwrite (ptr : List Nat) (size nmemb : Nat) (f : FILE) : Nat × FILE :=
  match next_fault f with
  | (flt, f1) =>
    if f1.can_write = false then (0, f1)
    else
      let data := ptr.take (size * nmemb)
      let part :=
        match flt with
        | none => data
        | some k => data.take (min k (data.length - 1))
      (part.length / size,
        { f1 with content := write_at f1.content f1.pos part, pos := f1.pos + part.length })

/-- The stdio function fread(buf, size, nmemb, f): returns the number of
complete items read, and the bytes transferred. -/
def fread (size nmemb : Nat) (f : FILE) : Nat × List Nat × FILE :=
  match next_fault f with
  | (flt, f1) =>
    if f1.can_read = false then (0, [], f1)
    else
      let avail := (f1.content.drop f1.pos).take (size * nmemb)
      let data :=
        match flt with
        | none => avail
        | some k => avail.take (min k (avail.length - 1))
      (if flt.isSome then 0 else data.length / size, data, { f1 with pos := f1.pos + data.length })

/-! ## On-disk records -/

/-- The struct imgst_header. -/
structure imgst_header where
  imgst_name : List Nat
  imgst_version : Nat
  num_files : Nat
  max_files : Nat
  res_resized : List Nat
  unused_32 : Nat
  unused_64 : Nat
deriving DecidableEq

/-- An array indexed by resolution code: `T x[NB_RES]`, with
`thumb = x[RES_THUMB]`, `small = x[RES_SMALL]`, `orig = x[RES_ORIG]`. -/
structure res_table where
  thumb : Nat
  small : Nat
  orig : Nat
deriving DecidableEq

/-- The element `x[code]`, or `none` when `code` is outside the array. -/
def res_table.get? (x : res_table) (code : Int) : Option Nat :=
  if code = RES_THUMB then some x.thumb
  else if code = RES_SMALL then some x.small
  else if code = RES_ORIG then some x.orig
  else none

/-- The array after `x[code] = v` (for `code` RES_THUMB or RES_SMALL or RES_ORIG). -/
def res_table.set (x : res_table) (code : Int) (v : Nat) : res_table :=
  if code = RES_THUMB then { x with thumb := v }
  else if code = RES_SMALL then { x with small := v }
  else if code = RES_ORIG then { x with orig := v }
  else x

/-- The struct img_metadata. `res_orig` is the pair (res_orig[0], res_orig[1]). -/
structure img_metadata where
  img_id : List Nat
  SHA : List Nat
  res_orig : Nat × Nat
  size : res_table
  offset : res_table
  is_valid : Nat
  unused_16 : Nat
deriving DecidableEq

/-- A record as calloc returns it: all bytes zero. -/
def img_metadata.zero : img_metadata :=
  { img_id := List.replicate (MAX_IMG_ID + 1) 0
    SHA := List.replicate SHA256_DIGEST_LENGTH 0
    res_orig := (0, 0)
    size := ⟨0, 0, 0⟩
    offset := ⟨0, 0, 0⟩
    is_valid := 0
    unused_16 := 0 }

instance : Inhabited img_metadata := ⟨img_metadata.zero⟩

/-- The struct imgst_file: the store handle. `metadata` is the in-memory
mirror of the slot table, an array of `header.max_files` records. -/
structure imgst_file where
  file : FILE
  header : imgst_header
  metadata : List img_metadata
deriving DecidableEq

/-- The record `metadata[i]` of the mirror. -/
def imgst_file.slot (s : imgst_file) (i : Nat) : img_metadata := s.metadata.getD i default

/-- The handle after `metadata[i] = m`. -/
def imgst_file.set_slot (s : imgst_file) (i : Nat) (m : img_metadata) : imgst_file :=
  { s with metadata := s.metadata.set i m }

/-! ### Byte layout (x86-64 System V, little endian) -/

/-- The value of sizeof(struct imgst_header). -/
abbrev sizeof_imgst_header : Nat := 64
/-- The value of sizeof(struct img_metadata). -/
abbrev sizeof_img_metadata : Nat := 216

/-- A byte array of exactly n bytes: truncated or zero-padded. -/
def fix_len (n : Nat) (l : List Nat) : List Nat := (l ++ List.replicate n 0).take n

/-- The w bytes of an unsigned integer, least significant first. -/
def le_bytes (w x : Nat) : List Nat := (List.range w).map (fun i => x / 256 ^ i % 256)

/-- The unsigned integer stored in little-endian bytes. -/
def from_le (bs : List Nat) : Nat := bs.foldr (fun b acc => b % 256 + 256 * acc) 0

/-- The object representation of a header (what fwrite(&header, ...) writes). -/
def encode_header (h : imgst_header) : List Nat :=
  fix_len (MAX_IMGST_NAME + 1) h.imgst_name
    ++ le_bytes 4 h.imgst_version ++ le_bytes 4 h.num_files ++ le_bytes 4 h.max_files
    ++ le_bytes 2 (h.res_resized.getD 0 0) ++ le_bytes 2 (h.res_resized.getD 1 0)
    ++ le_bytes 2 (h.res_resized.getD 2 0) ++ le_bytes 2 (h.res_resized.getD 3 0)
    ++ le_bytes 4 h.unused_32 ++ le_bytes 8 h.unused_64

/-- The object representation of a slot record (padding bytes zero). -/
def encode_metadata (m : img_metadata) : List Nat :=
  fix_len (MAX_IMG_ID + 1) m.img_id ++ fix_len SHA256_DIGEST_LENGTH m.SHA
    ++ le_bytes 4 m.res_orig.1 ++ le_bytes 4 m.res_orig.2
    ++ le_bytes 4 m.size.thumb ++ le_bytes 4 m.size.small ++ le_bytes 4 m.size.orig
    ++ List.replicate 4 0
    ++ le_bytes 8 m.offset.thumb ++ le_bytes 8 m.offset.small ++ le_bytes 8 m.offset.orig
    ++ le_bytes 2 m.is_valid ++ le_bytes 2 m.unused_16
    ++ List.replicate 4 0

/-- The header stored in the 64 bytes of an object representation. -/
def decode_header (b : List Nat) : imgst_header :=
  { imgst_name := b.take 32
    imgst_version := from_le ((b.drop 32).take 4)
    num_files := from_le ((b.drop 36).take 4)
    max_files := from_le ((b.drop 40).take 4)
    res_resized := [from_le ((b.drop 44).take 2), from_le ((b.drop 46).take 2),
                    from_le ((b.drop 48).take 2), from_le ((b.drop 50).take 2)]
    unused_32 := from_le ((b.drop 52).take 4)
    unused_64 := from_le ((b.drop 56).take 8) }

/-- The slot record stored in the 216 bytes of an object representation. -/
def decode_metadata (b : List Nat) : img_metadata :=
  { img_id := b.take 128
    SHA := (b.drop 128).take 32
    res_orig := (from_le ((b.drop 160).take 4), from_le ((b.drop 164).take 4))
    size := ⟨from_le ((b.drop 168).take 4), from_le ((b.drop 172).take 4),
             from_le ((b.drop 176).take 4)⟩
    offset := ⟨from_le ((b.drop 184).take 8), from_le ((b.drop 192).take 8),
               from_le ((b.drop 200).take 8)⟩
    is_valid := from_le ((b.drop 208).take 2)
    unused_16 := from_le ((b.drop 210).take 2) }

/-! ## External collaborators -/

/-- The libraries the engine delegates to. `SHA256 b` is the digest of b;
`vips_jpegload_buffer b` is `none` when b does not decode as a JPEG and
otherwise the decoded image's (width, height); `vips_resize_jpegsave b r` is
the JPEG encoding of the image b resized by the ratio r (`none` when
vips_resize or vips_jpegsave_buffer fails). -/
structure Env where
  SHA256 : List Nat → List Nat
  vips_jpegload_buffer : List Nat → Option (Nat × Nat)
  vips_resize_jpegsave : List Nat → ℚ → Option (List Nat)

/-! ## `dedup.c` -/

/-- The static function are_equal of `dedup.c`: compares the
SHA256_DIGEST_LENGTH bytes of two digests. -/
def are_equal (sha_1 sha_2 : List Nat) : Bool :=
  (List.range SHA256_DIGEST_LENGTH).all (fun i => sha_1.getD i 0 == sha_2.getD i 0)

/-- The static function copy_attributes of `dedup.c`. -/
def copy_attributes (target src : img_metadata) : img_metadata :=
  { target with
    unused_16 := src.unused_16
    res_orig := (src.res_orig.1, src.res_orig.2)
    size := ⟨src.size.thumb, src.size.small, src.size.orig⟩
    offset := ⟨src.offset.thumb, src.offset.small, src.offset.orig⟩ }

/-- The loop of find_duplicate: n iterations remain, i is the loop variable,
c the value of *content_duplicate_index. -/
def find_duplicate_loop (s : imgst_file) (index : Nat) : Nat → Nat → Nat → Int × Nat
  | 0, _, c => (DUPLICATE_NOT_FOUND, c)
  | n + 1, i, c =>
    if (s.slot i).is_valid = NON_EMPTY ∧ i ≠ index then
      if strncmp (s.slot i).img_id (s.slot index).img_id MAX_IMG_ID = 0 then (ERR_DUPLICATE_ID, c)
      else if are_equal (s.slot i).SHA (s.slot index).SHA then (DUPLICATE_FOUND, c)
      else find_duplicate_loop s index n (i + 1) (c + 1)
    else find_duplicate_loop s index n (i + 1) (c + 1)

/-- The static function find_duplicate of `dedup.c`: the returned pair is the
return value and the final *content_duplicate_index. -/
def find_duplicate (s : imgst_file) (index : Nat) : Int × Nat :=
  find_duplicate_loop s index s.header.max_files 0 0

/-- The function do_name_and_content_dedup of `dedup.c`. -/
def do_name_and_content_dedup (s : imgst_file) (index : Nat) : Int × imgst_file :=
  if ¬ (index < s.header.max_files) then (ERR_INVALID_ARGUMENT, s)
  else
    match find_duplicate s index with
    | (content_duplicated, content_duplicate_index) =>
      if content_duplicated = DUPLICATE_FOUND then
        (ERR_NONE, s.set_slot index (copy_attributes (s.slot index) (s.slot content_duplicate_index)))
      else if content_duplicated = DUPLICATE_NOT_FOUND then
        (ERR_NONE, s.set_slot index
          { s.slot index with offset := { (s.slot index).offset with orig := 0 } })
      else (content_duplicated, s)

/-! ## `imgst_insert.c` -/

/-- The loop of find_first_free_meta: n iterations remain, i is the loop variable. -/
def find_first_free_meta_loop (s : imgst_file) : Nat → Nat → Nat
  | 0, _ => 2 ^ 32 - 1
  | n + 1, i => if (s.slot i).is_valid = EMPTY then i else find_first_free_meta_loop s n (i + 1)

/-- The static function find_first_free_meta of `imgst_insert.c`; its
`return -1` is the uint32_t value 2^32 - 1. -/
def find_first_free_meta (s : imgst_file) : Nat :=
  find_first_free_meta_loop s s.header.max_files 0

/-- The static function image_has_no_duplicate of `imgst_insert.c`. -/
def image_has_no_duplicate (img : img_metadata) : Bool := img.offset.orig == 0

/-- The static function complete_init of `imgst_insert.c`. -/
def complete_init (target_img : img_metadata) : img_metadata :=
  { target_img with
    size := { target_img.size with small := 0, thumb := 0 }
    offset := { target_img.offset with thumb := 0, small := 0 }
    unused_16 := 0 }

/-- The function get_resolution of `image_content.c`: the error code, then
the height and the width it stores. -/
def get_resolution (env : Env) (image_buffer : List Nat) : Int × Nat × Nat :=
  match env.vips_jpegload_buffer image_buffer with
  | none => (ERR_IMGLIB, 2 ^ 32 - 1, 2 ^ 32 - 1)
  | some (width, height) => (ERR_NONE, height % 2 ^ 32, width % 2 ^ 32)

/-- Part I of do_insert after the free slot is found: the slot
`metadata[insertion_index]` receives the digest, the identifier, the size and
the valid mark. -/
def insert_load (env : Env) (buffer img_id : List Nat) (s : imgst_file)
    (insertion_index : Nat) : imgst_file :=
  s.set_slot insertion_index
    { s.slot insertion_index with
      SHA := env.SHA256 buffer
      img_id := strncpy (s.slot insertion_index).img_id img_id MAX_IMG_ID
      size := { (s.slot insertion_index).size with orig := buffer.length % 2 ^ 32 }
      is_valid := NON_EMPTY }

/-- Part II of do_insert after the dedup call: the image content is appended
when the slot has no content duplicate. -/
def insert_write (buffer : List Nat) (s : imgst_file) (insertion_index : Nat) :
    Int × imgst_file :=
  if image_has_no_duplicate (s.slot insertion_index) then
    let s1 := s.set_slot insertion_index (complete_init (s.slot insertion_index))
    match fseek s1.file 0 .SEEK_END with
    | (r, f1) =>
      if r ≠ 0 then ( ERR_IO, { s1 with file := f1 })
      else
        let s2 := { s1 with file := f1 }.set_slot insertion_index
          { s1.slot insertion_index with
            offset := { (s1.slot insertion_index).offset with orig := ftell f1 } }
        match fwrite buffer 1 buffer.length f1 with
        | (w, f2) =>
          if w ≠ buffer.length then ( ERR_IO, { s2 with file := f2 })
          else (ERR_NONE, { s2 with file := f2 })
  else (ERR_NONE, s)

/-- Part III of do_insert: the resolution is recorded, the header counters
are incremented, and the header and the slot record are written. -/
def insert_update (env : Env) (buffer : List Nat) (s : imgst_file) (insertion_index : Nat) :
    Int × imgst_file :=
  match get_resolution env buffer with
  | (possible_err, height, width) =>
    if possible_err ≠ ERR_NONE then (possible_err, s)
    else
      let s1 := s.set_slot insertion_index { s.slot insertion_index with res_orig := (width, height) }
      let s2 := { s1 with
        header := { s1.header with
          num_files := (s1.header.num_files + 1) % 2 ^ 32
          imgst_version := (s1.header.imgst_version + 1) % 2 ^ 32 } }
      match fseek s2.file 0 .SEEK_SET with
      | (r1, f1) =>
        if r1 ≠ 0 then ( ERR_IO, { s2 with file := f1 })
        else
          match fwrite (encode_header s2.header) sizeof_imgst_header 1 f1 with
          | (w1, f2) =>
            if w1 ≠ 1 then ( ERR_IO, { s2 with file := f2 })
            else
              match fseek f2 ((sizeof_img_metadata * insertion_index : Nat) : Int) .SEEK_CUR with
              | (r2, f3) =>
                if r2 ≠ 0 then ( ERR_IO, { s2 with file := f3 })
                else
                  match fwrite (encode_metadata (s2.slot insertion_index)) sizeof_img_metadata 1 f3 with
                  | (w2, f4) =>
                    if w2 ≠ 1 then ( ERR_IO, { s2 with file := f4 })
                    else (ERR_NONE, { s2 with file := f4 })

/-- The function do_insert of `imgst_insert.c`, called with `size` equal to
the length of `buffer`. The test `size >= 0` and the test
`insertion_index >= 0` hold for every value of their unsigned types and have
no branch here. The result is `none` when `metadata[insertion_index]` is
outside the mirror. -/
def do_insert (env : Env) (buffer img_id : List Nat) (s : imgst_file) :
    Option (Int × imgst_file) :=
  if ¬ (strlen img_id < MAX_IMG_ID) then some (ERR_INVALID_IMGID, s)
  else if ¬ (s.header.num_files < s.header.max_files) then some (ERR_FULL_IMGSTORE, s)
  else
    let insertion_index := find_first_free_meta s
    if ¬ (insertion_index < s.metadata.length) then none
    else
      match do_name_and_content_dedup (insert_load env buffer img_id s insertion_index)
          insertion_index with
      | (possible_err, s2) =>
        if possible_err ≠ ERR_NONE then some (possible_err, s2)
        else
          match insert_write buffer s2 insertion_index with
          | (e3, s3) =>
            if e3 ≠ ERR_NONE then some (e3, s3)
            else some (insert_update env buffer s3 insertion_index)

/-! ## `imgst_create.c` and `tools.c` -/

/-- The stdio function fopen(path, mode). `disk` is the content of the file
at `path` (`none` when there is no such file); the first entry of `faults`
decides whether the call itself fails, the rest becomes the schedule of the
stream. The result `none` is the NULL pointer. -/
def fopen (disk : Option (List Nat)) (mode : String) (faults : List (Option Nat)) : Option FILE :=
  let plus := mode.toList.contains '+'
  let r := mode.toList.head? == some 'r'
  let w := mode.toList.head? == some 'w'
  match faults.head? with
  | some (some _) => none
  | _ =>
    if r then
      match disk with
      | none => none
      | some c => some ⟨c, 0, true, plus, faults.tail⟩
    else if w then some ⟨[], 0, plus, true, faults.tail⟩
    else none

/-- The loop of do_create that writes the metadata records: n iterations
remain, i is the loop variable; returns whether every fwrite returned 1. -/
def create_write_loop (metadata : List img_metadata) : Nat → Nat → FILE → Bool × FILE
  | 0, _, f => (true, f)
  | n + 1, i, f =>
    match fwrite (encode_metadata (metadata.getD i default)) sizeof_img_metadata 1 f with
    | (w, f1) => if w ≠ 1 then (false, f1) else create_write_loop metadata n (i + 1) f1

/-- The function do_create of `imgst_create.c`. The handle `s` comes in with
`header.max_files` and `header.res_resized` chosen by the caller. -/
def do_create (faults : List (Option Nat)) (s : imgst_file) : Int × imgst_file :=
  let name := (strncpy (fix_len (MAX_IMGST_NAME + 1) s.header.imgst_name) CAT_TXT MAX_IMGST_NAME).set
    MAX_IMGST_NAME 0
  let s0 := { s with header := { s.header with imgst_name := name } }
  match fopen none "wb" faults with
  | none => ( ERR_IO, s0)
  | some file =>
    let s1 := { s0 with
      file := file
      header := { s0.header with unused_32 := 0, unused_64 := 0, imgst_version := 0, num_files := 0 } }
    match fwrite (encode_header s1.header) sizeof_imgst_header 1 file with
    | (w, f1) =>
      if w ≠ 1 then ( ERR_IO, { s1 with file := f1 })
      else
        let s2 := { s1 with file := f1, metadata := List.replicate s1.header.max_files img_metadata.zero }
        match create_write_loop s2.metadata s2.header.max_files 0 f1 with
        | (ok, f2) =>
          if ok = false then ( ERR_IO, { s2 with file := f2 })
          else (ERR_NONE, { s2 with file := f2 })

/-- The loop of do_open that reads the metadata records: n iterations remain;
returns the records read, or `none` when an fread did not return 1. -/
def open_read_loop : Nat → FILE → Option (List img_metadata) × FILE
  | 0, f => (some [], f)
  | n + 1, f =>
    match fread sizeof_img_metadata 1 f with
    | (k, data, f1) =>
      if k ≠ 1 then (none, f1)
      else
        match open_read_loop n f1 with
        | (none, f2) => (none, f2)
        | (some rest, f2) => (some (decode_metadata data :: rest), f2)

/-- The function do_open of `tools.c`. `calloc_null` tells whether the calloc
of the `max_files` records of the mirror returns NULL. A short read of the
header leaves the bytes that were read in the header of the handle; the
freed or missing mirror (the NULL pointer) is the empty list. -/
def do_open (disk : Option (List Nat)) (open_mode : String) (faults : List (Option Nat))
    (calloc_null : Bool) (s : imgst_file) : Int × imgst_file :=
  match fopen disk open_mode faults with
  | none => ( ERR_IO, s)
  | some file =>
    match fread sizeof_imgst_header 1 file with
    | (k, data, f1) =>
      if k ≠ 1 then
        ( ERR_IO, { s with
          header := decode_header (data ++ (encode_header s.header).drop data.length) })
      else
        let s1 := { s with header := decode_header data }
        if calloc_null = true then (ERR_OUT_OF_MEMORY, { s1 with metadata := [] })
        else
          match open_read_loop s1.header.max_files f1 with
          | (none, _) => ( ERR_IO, { s1 with metadata := [] })
          | (some metadata, f2) => (ERR_NONE, { s1 with metadata := metadata, file := f2 })

/-! ## `imgst_delete.c` -/

/-- The body of the loop of do_delete at the first matching slot i. -/
def delete_at (s : imgst_file) (i : Nat) : Int × imgst_file :=
  let s1 := s.set_slot i { s.slot i with is_valid := EMPTY }
  match fseek s1.file ((sizeof_imgst_header + i * sizeof_img_metadata : Nat) : Int) .SEEK_SET with
  | (r1, f1) =>
    if r1 ≠ 0 then ( ERR_IO, { s1 with file := f1 })
    else
      match fwrite (encode_metadata (s1.slot i)) sizeof_img_metadata 1 f1 with
      | (w1, f2) =>
        if w1 ≠ 1 then ( ERR_IO, { s1 with file := f2 })
        else
          let s2 := { s1 with
            file := f2
            header := { s1.header with
              imgst_version := (s1.header.imgst_version + 1) % 2 ^ 32
              num_files := (s1.header.num_files + (2 ^ 32 - 1)) % 2 ^ 32 } }
          match fseek f2 0 .SEEK_SET with
          | (r2, f3) =>
            if r2 ≠ 0 then ( ERR_IO, { s2 with file := f3 })
            else
              match fwrite (encode_header s2.header) sizeof_imgst_header 1 f3 with
              | (w2, f4) =>
                if w2 ≠ 1 then ( ERR_IO, { s2 with file := f4 })
                else (ERR_NONE, { s2 with file := f4 })

/-- The loop of do_delete: n iterations remain, i is the loop variable. -/
def do_delete_loop (imgID : List Nat) (s : imgst_file) : Nat → Nat → Int × imgst_file
  | 0, _ => (ERR_FILE_NOT_FOUND, s)
  | n + 1, i =>
    if (s.slot i).is_valid = NON_EMPTY ∧ strcmp (s.slot i).img_id imgID = 0 then delete_at s i
    else do_delete_loop imgID s n (i + 1)

/-- The function do_delete of `imgst_delete.c`. -/
def do_delete (imgID : List Nat) (s : imgst_file) : Int × imgst_file :=
  if s.header.num_files = 0 then (ERR_FILE_NOT_FOUND, s)
  else do_delete_loop imgID s s.header.max_files 0

/-! ## `image_content.c` -/

/-- The conversion of a uint64_t value to long. -/
def to_long (x : Nat) : Int :=
  if x % 2 ^ 64 < 2 ^ 63 then ((x % 2 ^ 64 : Nat) : Int) else ((x % 2 ^ 64 : Nat) : Int) - 2 ^ 64

/-- The static function size_already_exists of `image_content.c`. -/
def size_already_exists (possible_offset : Nat) : Bool := possible_offset != 0

/-- The static function shrink_value of `image_content.c`, on an image of the
given width and height, with exact rationals in place of double. -/
def shrink_value (width height : Nat) (max_thumbnail_width max_thumbnail_height : Nat) : ℚ :=
  let h_shrink : ℚ := (max_thumbnail_width : ℚ) / (height : ℚ)
  let v_shrink : ℚ := (max_thumbnail_height : ℚ) / (width : ℚ)
  if h_shrink > v_shrink then v_shrink else h_shrink

/-- The static function load_and_compute_image of `image_content.c`, for
size_code RES_THUMB (0) or RES_SMALL (1): the error code, the output buffer
(whose length is *len), and the handle. -/
def load_and_compute_image (env : Env) (position : Nat) (s : imgst_file) (size_code : Nat) :
    Int × List Nat × imgst_file :=
  let offset_orig_imag := to_long (s.slot position).offset.orig
  let size_orig_image := (s.slot position).size.orig
  match fseek s.file offset_orig_imag .SEEK_SET with
  | (r, f1) =>
    if r ≠ 0 then ( ERR_IO, [], { s with file := f1 })
    else
      match fread size_orig_image 1 f1 with
      | (k, data_ptr, f2) =>
        if k ≠ 1 then ( ERR_IO, [], { s with file := f2 })
        else
          match env.vips_jpegload_buffer data_ptr with
          | none => (ERR_IMGLIB, [], { s with file := f2 })
          | some (width, height) =>
            let ratio := shrink_value width height (s.header.res_resized.getD (2 * size_code) 0)
              (s.header.res_resized.getD (2 * size_code + 1) 0)
            match env.vips_resize_jpegsave data_ptr ratio with
            | none => (ERR_IMGLIB, [], { s with file := f2 })
            | some out_data => (ERR_NONE, out_data, { s with file := f2 })

/-- The function lazily_resize of `image_content.c`. -/
def lazily_resize (env : Env) (size_code : Int) (s : imgst_file) (position : Nat) :
    Int × imgst_file :=
  if size_code = RES_ORIG then (ERR_NONE, s)
  else if ¬ (position < s.header.max_files) then (ERR_INVALID_ARGUMENT, s)
  else if ¬ (size_code = RES_THUMB ∨ size_code = RES_SMALL) then (ERR_RESOLUTIONS, s)
  else if size_already_exists (((s.slot position).offset.get? size_code).getD 0) then (ERR_NONE, s)
  else
    match load_and_compute_image env position s size_code.toNat with
    | (err, out_data, s1) =>
      if err ≠ ERR_NONE then (err, s1)
      else
        match fseek s1.file 0 .SEEK_END with
        | (r1, f1) =>
          if r1 ≠ 0 then ( ERR_IO, { s1 with file := f1 })
          else
            let offset_new_image := ftell f1
            match fwrite out_data out_data.length 1 f1 with
            | (w1, f2) =>
              if w1 ≠ 1 then ( ERR_IO, { s1 with file := f2 })
              else
                let s2 := { s1 with file := f2 }.set_slot position
                  { s1.slot position with
                    offset := (s1.slot position).offset.set size_code offset_new_image
                    size := (s1.slot position).size.set size_code
                      ((ftell f2 - offset_new_image) % 2 ^ 32) }
                match fseek f2 ((sizeof_imgst_header + position * sizeof_img_metadata : Nat) : Int)
                    .SEEK_SET with
                | (r2, f3) =>
                  if r2 ≠ 0 then ( ERR_IO, { s2 with file := f3 })
                  else
                    match fwrite (encode_metadata (s2.slot position)) sizeof_img_metadata 1 f3 with
                    | (w2, f4) =>
                      if w2 ≠ 1 then ( ERR_IO, { s2 with file := f4 })
                      else (ERR_NONE, { s2 with file := f4 })

/-! ## `imgst_read.c` -/

/-- The loop of find_name_matching: n iterations remain, i is the loop variable. -/
def find_name_matching_loop (s : imgst_file) (img_id : List Nat) : Nat → Nat → Nat
  | 0, _ => 2 ^ 64 - 1
  | n + 1, i =>
    if (s.slot i).is_valid = NON_EMPTY ∧ strncmp (s.slot i).img_id img_id MAX_IMG_ID = 0 then i
    else find_name_matching_loop s img_id n (i + 1)

/-- The static function find_name_matching of `imgst_read.c`; its `return -1`
is the size_t value 2^64 - 1. -/
def find_name_matching (s : imgst_file) (img_id : List Nat) : Nat :=
  find_name_matching_loop s img_id s.header.max_files 0

/-- The result of do_read: the return value, *image_buffer, *image_size and
the handle. -/
structure read_result where
  err : Int
  image_buffer : List Nat
  image_size : Nat
  handle : imgst_file
deriving DecidableEq

/-- The function do_read of `imgst_read.c`. The result is `none` when
`size[resolution]` is outside the array. -/
def do_read (env : Env) (img_id : List Nat) (resolution : Int) (s : imgst_file) :
    Option read_result :=
  let index := find_name_matching s img_id
  if index = 2 ^ 64 - 1 then some ⟨ERR_FILE_NOT_FOUND, [], 0, s⟩
  else
    match (s.slot index).size.get? resolution with
    | none => none
    | some sz =>
      match (if sz = 0 then lazily_resize env resolution s index else (ERR_NONE, s)) with
      | (err, s1) =>
        if err ≠ ERR_NONE then some ⟨err, [], 0, s1⟩
        else
          let offset := ((s1.slot index).offset.get? resolution).getD 0
          let image_size := ((s1.slot index).size.get? resolution).getD 0
          match fseek s1.file (to_long offset) .SEEK_SET with
          | (r, f1) =>
            if r ≠ 0 then some ⟨ ERR_IO, [], image_size, { s1 with file := f1 }⟩
            else
              match fread image_size 1 f1 with
              | (k, data, f2) =>
                if k ≠ 1 then some ⟨ ERR_IO, [], image_size, { s1 with file := f2 }⟩
                else some ⟨ERR_NONE, data, image_size, { s1 with file := f2 }⟩

/-! ## `imgst_list.c` -/

/-- The enum do_list_mode of `imgStore.h`. -/
inductive do_list_mode where
  | STDOUT
  | JSON
deriving DecidableEq

/-- The json-c values that do_list builds: json_object_new_string,
json_object_new_array with the elements added by json_object_array_add, and
json_object_new_object with the keys added by json_object_object_add. -/
inductive json_object where
  | new_string (s : List Nat)
  | new_array (items : List json_object)
  | new_object (fields : List (String × json_object))

/-- One call that writes to stdout: print_header and print_metadata of
`tools.c` (with the record they print), and fprintf of a fixed text. -/
inductive stdout_call where
  | print_header (header : imgst_header)
  | print_metadata (metadata : img_metadata)
  | fprintf (text : String)

/-- The loop of do_list in mode STDOUT: n iterations remain, i is the loop
variable, res the flag; returns the flag at the end of the loop and the calls
made. -/
def do_list_stdout_loop (s : imgst_file) : Nat → Nat → Bool → Bool × List stdout_call
  | 0, _, res => (res, [])
  | n + 1, i, res =>
    if (s.slot i).is_valid = NON_EMPTY then
      match do_list_stdout_loop s n (i + 1) true with
      | (r, out) => (r, stdout_call.print_metadata (s.slot i) :: out)
    else do_list_stdout_loop s n (i + 1) res

/-- The loop of do_list in mode JSON: n iterations remain, i is the index of
curr_meta, arr the elements of arr_strings so far. -/
def do_list_json_loop (s : imgst_file) : Nat → Nat → List json_object → List json_object
  | 0, _, arr => arr
  | n + 1, i, arr =>
    if (s.slot i).is_valid = NON_EMPTY then
      do_list_json_loop s n (i + 1) (arr ++ [json_object.new_string (c_str (s.slot i).img_id)])
    else do_list_json_loop s n (i + 1) arr

/-- The function do_list of `imgst_list.c`: the value returned and the calls
that wrote to stdout. In mode JSON the C function returns the text that
json_object_to_json_string gives for the document; the embedding returns the
document. The result `none` is the NULL pointer. -/
def do_list (s : imgst_file) (mode : do_list_mode) : Option json_object × List stdout_call :=
  match mode with
  | .STDOUT =>
    match do_list_stdout_loop s s.header.max_files 0 false with
    | (res, out) =>
      (none, stdout_call.print_header s.header :: out ++
        (if res = false then [stdout_call.fprintf "<< empty imgStore >>\n"] else []))
  | .JSON =>
    let arr_strings := json_object.new_array (do_list_json_loop s s.header.max_files 0 [])
    (some (json_object.new_object [("Images", arr_strings)]), [])

/-! ## `imgStoreMgr.c`: the command `create` -/

abbrev DEFAULT_RES_THUMB : Nat := 64
abbrev MAX_RES_THUMB : Nat := 128
abbrev DEFAULT_RES_SMALL : Nat := 256
abbrev MAX_RES_SMALL : Nat := 512

/-- The loop of do_create_parse_optionN: n iterations remain, k is the loop
variable, opts the values behind the pointers `opts[..]`. `atouintN` is the
conversion function of `util.c`. Returns whether every value passed the
bounds check. -/
def do_create_parse_option_loop (atouintN : List Nat → Nat) (argv : List (List Nat)) (i : Nat)
    (max : Nat) : Nat → Nat → List Nat → Bool × List Nat
  | 0, _, opts => (true, opts)
  | n + 1, k, opts =>
    let opts1 := opts.set k (atouintN (argv.getD (i + k + 1) []))
    if ¬ (0 < opts1.getD k 0 ∧ opts1.getD k 0 ≤ max) then (false, opts1)
    else do_create_parse_option_loop atouintN argv i max n (k + 1) opts1

/-- The static functions do_create_parse_option16 and do_create_parse_option32
of `imgStoreMgr.c`: the return value, the new `*i` and the values behind
`opts[..]`. -/
def do_create_parse_optionN (atouintN : List Nat → Nat) (args : Nat) (argv : List (List Nat))
    (i nb_options : Nat) (error_code : Int) (max : Nat) (opts : List Nat) :
    Int × Nat × List Nat :=
  if ¬ (i + nb_options < args) then (ERR_NOT_ENOUGH_ARGUMENTS, i, opts)
  else
    match do_create_parse_option_loop atouintN argv i max nb_options 0 opts with
    | (ok, opts1) =>
      if ok = false then (error_code, i, opts1)
      else (ERR_NONE, i + nb_options + 1, opts1)

/-- The local variables of do_create_cmd that the options set. -/
structure create_options where
  max_files : Nat
  thumb_res_x : Nat
  thumb_res_y : Nat
  small_res_x : Nat
  small_res_y : Nat
deriving DecidableEq

/-- The text "-max_files" as bytes. -/
abbrev OPT_MAX_FILES : List Nat := [45, 109, 97, 120, 95, 102, 105, 108, 101, 115]
/-- The text "-thumb_res" as bytes. -/
abbrev OPT_THUMB_RES : List Nat := [45, 116, 104, 117, 109, 98, 95, 114, 101, 115]
/-- The text "-small_res" as bytes. -/
abbrev OPT_SMALL_RES : List Nat := [45, 115, 109, 97, 108, 108, 95, 114, 101, 115]

/-- The loop `while (i < args)` of do_create_cmd, with a bound on the number
of iterations: the return value of the loop (ERR_NONE when it ends with
i >= args) and the options, or `none` when the bound is used up. -/
def do_create_cmd_loop (atouint32 atouint16 : List Nat → Nat) (args : Nat)
    (argv : List (List Nat)) : Nat → Nat → create_options → Option (Int × create_options)
  | 0, _, _ => none
  | fuel + 1, i, o =>
    if ¬ (i < args) then some (ERR_NONE, o)
    else
      let option := argv.getD i []
      if strncmp OPT_MAX_FILES option 10 = 0 then
        match do_create_parse_optionN atouint32 args argv i 1 ERR_MAX_FILES MAX_MAX_FILES
            [o.max_files] with
        | (possible_error, i1, opts) =>
          let o1 := { o with max_files := opts.getD 0 0 }
          if possible_error ≠ ERR_NONE then some (possible_error, o1)
          else do_create_cmd_loop atouint32 atouint16 args argv fuel i1 o1
      else if strncmp OPT_THUMB_RES option 10 = 0 then
        match do_create_parse_optionN atouint16 args argv i 2 ERR_RESOLUTIONS MAX_RES_THUMB
            [o.thumb_res_x, o.thumb_res_y] with
        | (possible_error, i1, opts) =>
          let o1 := { o with thumb_res_x := opts.getD 0 0, thumb_res_y := opts.getD 1 0 }
          if possible_error ≠ ERR_NONE then some (possible_error, o1)
          else do_create_cmd_loop atouint32 atouint16 args argv fuel i1 o1
      else if strncmp OPT_SMALL_RES option 10 = 0 then
        match do_create_parse_optionN atouint16 args argv i 2 ERR_RESOLUTIONS MAX_RES_SMALL
            [o.small_res_x, o.small_res_y] with
        | (possible_error, i1, opts) =>
          let o1 := { o with small_res_x := opts.getD 0 0, small_res_y := opts.getD 1 0 }
          if possible_error ≠ ERR_NONE then some (possible_error, o1)
          else do_create_cmd_loop atouint32 atouint16 args argv fuel i1 o1
      else some (ERR_INVALID_ARGUMENT, o)

/-- The function do_create_cmd of `imgStoreMgr.c`: the return value and the
handle that do_create was called on and left (`none` when do_create was not
called). The bound on the iterations of its loop is args + 1; the result is
`none` only if that bound is used up. -/
def do_create_cmd (atouint32 atouint16 : List Nat → Nat) (faults : List (Option Nat))
    (args : Nat) (argv : List (List Nat)) : Option (Int × Option imgst_file) :=
  if ¬ (args ≥ 2) then some (ERR_NOT_ENOUGH_ARGUMENTS, none)
  else
    match do_create_cmd_loop atouint32 atouint16 args argv (args + 1) 2
        ⟨DEFAULT_MAX_FILES, DEFAULT_RES_THUMB, DEFAULT_RES_THUMB, DEFAULT_RES_SMALL,
          DEFAULT_RES_SMALL⟩ with
    | none => none
    | some (e, o) =>
      if e ≠ ERR_NONE then some (e, none)
      else
        let imgst_file : imgst_file :=
          { file := ⟨[], 0, false, false, []⟩
            header := ⟨[], 0, 0, o.max_files,
              [o.thumb_res_x, o.thumb_res_y, o.small_res_x, o.small_res_y], 0, 0⟩
            metadata := [] }
        match do_create faults imgst_file with
        | (err_value, s) => some (err_value, some s)

/-! ## `tools.c`: resolution_atoi -/

abbrev MAX_SIZE_WORD : Nat := 9

/-- The macro STR_COMP of `tools.c`. -/
def STR_COMP (str1 str2 : List Nat) : Int := strncmp str1 str2 MAX_SIZE_WORD

/-- The text "thumb" as bytes. -/
abbrev TXT_THUMB : List Nat := [116, 104, 117, 109, 98]
/-- The text "thumbnail" as bytes. -/
abbrev TXT_THUMBNAIL : List Nat := [116, 104, 117, 109, 98, 110, 97, 105, 108]
/-- The text "small" as bytes. -/
abbrev TXT_SMALL : List Nat := [115, 109, 97, 108, 108]
/-- The text "orig" as bytes. -/
abbrev TXT_ORIG : List Nat := [111, 114, 105, 103]
/-- The text "original" as bytes. -/
abbrev TXT_ORIGINAL : List Nat := [111, 114, 105, 103, 105, 110, 97, 108]

/-- The function resolution_atoi of `tools.c`; the argument `none` is the
NULL pointer. -/
def resolution_atoi (resolution : Option (List Nat)) : Int :=
  match resolution with
  | none => ERR_RESOLUTIONS
  | some r =>
    if STR_COMP r TXT_THUMB = 0 ∨ STR_COMP r TXT_THUMBNAIL = 0 then RES_THUMB
    else if STR_COMP r TXT_SMALL = 0 then RES_SMALL
    else if STR_COMP r TXT_ORIG = 0 ∨ STR_COMP r TXT_ORIGINAL = 0 then RES_ORIG
    else ERR_RESOLUTIONS

/-! ## `imgst_gbcollect.c` and the command `gc` of `imgStoreMgr.c` -/

/-- The files at the two paths do_gbcollect is given: the content of the file
at imgst_path and of the file at imgst_tmp_bkp_path (`none`: no such file). -/
structure gc_disk where
  imgst_path : Option (List Nat)
  imgst_tmp_bkp_path : Option (List Nat)
deriving DecidableEq

/-- The C library call remove(imgst_path): 0 on success, -1 on failure.
`fails` is the outcome the host decides (the call also fails when there is no
such file). -/
def stdio_remove (fails : Bool) (d : gc_disk) : Int × gc_disk :=
  if fails = true ∨ d.imgst_path = none then (-1, d)
  else (0, { d with imgst_path := none })

/-- The C library call rename(imgst_tmp_bkp_path, imgst_path): 0 on success,
-1 on failure. `fails` is the outcome the host decides (the call also fails
when there is no temporary file). -/
def stdio_rename (fails : Bool) (d : gc_disk) : Int × gc_disk :=
  if fails = true ∨ d.imgst_tmp_bkp_path = none then (-1, d)
  else (0, { imgst_path := d.imgst_tmp_bkp_path, imgst_tmp_bkp_path := none })

/-- The outer loop of do_gbcollect: n iterations remain, i is the loop
variable; returns the error code (ERR_NONE when the loop ends) and the
handles old and temp. The inner loop `for (j = RES_ORIG; j < NB_RES; ++j)`
has the one iteration j = RES_ORIG. The result is `none` when
`old.metadata[i]` is outside the mirror or a callee is undefined. -/
def gbcollect_loop (env : Env) : Nat → Nat → imgst_file → imgst_file →
    Option (Int × imgst_file × imgst_file)
  | 0, _, old, temp => some (ERR_NONE, old, temp)
  | n + 1, i, old, temp =>
    if ¬ (i < old.metadata.length) then none
    else
      let name := (old.slot i).img_id
      if (old.slot i).is_valid = EMPTY then gbcollect_loop env n (i + 1) old temp
      else if (old.slot i).size.orig ≠ 0 then
        match do_read env name RES_ORIG old with
        | none => none
        | some r =>
          if r.err ≠ ERR_NONE then some (r.err, r.handle, temp)
          else
            match do_insert env r.image_buffer name temp with
            | none => none
            | some (err, temp1) =>
              if err ≠ ERR_NONE then some (err, r.handle, temp1)
              else gbcollect_loop env n (i + 1) r.handle temp1
      else gbcollect_loop env n (i + 1) old temp

/-- What do_gbcollect leaves: its return value, the files at the two paths,
and the handle temp of the store it built (`none` when the copy loop did not
complete). -/
structure gc_result where
  err : Int
  disk : gc_disk
  temp : Option imgst_file
deriving DecidableEq

/-- The function do_gbcollect of `imgst_gbcollect.c`. The arguments `old` and
`temp` are the indeterminate initial values of its two local handles: do_open
overwrites the header and the mirror of `old`, and do_create takes max_files
and res_resized from `temp` as it finds them. The stream of `old` is open on
imgst_path and the stream of `temp` on imgst_tmp_bkp_path. The calloc of
do_open succeeds here, as the allocations of the other functions do. The
final free(image_buffer) is not represented. -/
def do_gbcollect (env : Env) (faults_old faults_tmp : List (Option Nat))
    (remove_fails rename_fails : Bool) (old temp : imgst_file) (d : gc_disk) :
    Option gc_result :=
  match do_open d.imgst_path "r+b" faults_old false old with
  | (err, old1) =>
    if err ≠ ERR_NONE then some ⟨err, d, none⟩
    else
      match do_create faults_tmp temp with
      | (err1, temp1) =>
        let d1 : gc_disk :=
          if (fopen none "wb" faults_tmp).isSome then
            { d with imgst_tmp_bkp_path := some temp1.file.content }
          else d
        if err1 ≠ ERR_NONE then some ⟨err1, d1, none⟩
        else
          match gbcollect_loop env old1.header.num_files 0 old1 temp1 with
          | none => none
          | some (err2, old2, temp2) =>
            let d2 : gc_disk :=
              { imgst_path := some old2.file.content
                imgst_tmp_bkp_path := some temp2.file.content }
            if err2 ≠ ERR_NONE then some ⟨err2, d2, none⟩
            else
              match stdio_remove remove_fails d2 with
              | (r1, d3) =>
                if ¬ (r1 ≠ 0) then some ⟨ ERR_IO, d3, some temp2⟩
                else
                  match stdio_rename rename_fails d3 with
                  | (r2, d4) =>
                    if ¬ (r2 ≠ 0) then some ⟨ ERR_IO, d4, some temp2⟩
                    else some ⟨ERR_NONE, d4, some temp2⟩

/-- The function do_gc_cmd of `imgStoreMgr.c`, with the collaborators of
do_gbcollect as arguments: the return value and the files it leaves. -/
def do_gc_cmd (env : Env) (faults_old faults_tmp : List (Option Nat))
    (remove_fails rename_fails : Bool) (old temp : imgst_file) (args : Nat) (d : gc_disk) :
    Option (Int × gc_disk) :=
  if args < 3 then some (ERR_NOT_ENOUGH_ARGUMENTS, d)
  else
    match do_gbcollect env faults_old faults_tmp remove_fails rename_fails old temp d with
    | none => none
    | some r =>
      let err : Int := if r.err = ERR_NONE then 1 else 0
      if ¬ (err ≠ 0) then some (err, r.disk)
      else some (err, r.disk)

/-! ## Reachable handles -/

/-- The handles that do_create produces and that successful do_insert,
do_delete and lazily_resize calls lead to. The header handed to do_create
holds a uint32_t in `max_files`. -/
inductive Reachable (env : Env) : imgst_file → Prop
  | create (faults : List (Option Nat)) (t s : imgst_file)
      (hmax : t.header.max_files < 2 ^ 32)
      (h : do_create faults t = (ERR_NONE, s)) : Reachable env s
  | insert (buffer img_id : List Nat) (s s' : imgst_file) (hs : Reachable env s)
      (h : do_insert env buffer img_id s = some (ERR_NONE, s')) : Reachable env s'
  | delete (imgID : List Nat) (s s' : imgst_file) (hs : Reachable env s)
      (h : do_delete imgID s = (ERR_NONE, s')) : Reachable env s'
  | resize (size_code : Int) (position : Nat) (s s' : imgst_file) (hs : Reachable env s)
      (h : lazily_resize env size_code s position = (ERR_NONE, s')) : Reachable env s'

/-- The number of slots of the mirror with is_valid = NON_EMPTY. -/
def valid_count (s : imgst_file) : Nat := s.metadata.countP (fun m => m.is_valid == NON_EMPTY)

/-- The representation invariant of a handle: the mirror holds `max_files`
records and `max_files` is a uint32_t. -/
def wf (s : imgst_file) : Prop :=
  s.metadata.length = s.header.max_files ∧ s.header.max_files < 2 ^ 32

/-- The bytes of a file after the header of handle s is written at offset 0
and the record of its slot k at offset sizeof(header) + k * sizeof(metadata). -/
def flushed (content : List Nat) (s : imgst_file) (k : Nat) : List Nat :=
  write_at (write_at content 0 (encode_header s.header))
    (sizeof_imgst_header + sizeof_img_metadata * k) (encode_metadata (s.slot k))

/-- No valid slot of s other than slot k holds the identifier `id` or the
digest `sha`, among the slots below index n. -/
def no_match_below (s : imgst_file) (k n : Nat) (id sha : List Nat) : Prop :=
  ∀ j, j < n → (s.slot j).is_valid = NON_EMPTY → j ≠ k →
    strncmp (s.slot j).img_id id MAX_IMG_ID ≠ 0 ∧ are_equal (s.slot j).SHA sha = false

/-- The invariant behind content sharing: the mirror holds `max_files`
records, the file is not empty, every valid slot has a nonzero
offset[RES_ORIG], and two valid slots whose digests are_equal have the same
offset[RES_ORIG] and size[RES_ORIG]. -/
def share_inv (s : imgst_file) : Prop :=
  s.metadata.length = s.header.max_files ∧ 0 < s.file.content.length ∧
  (∀ i, (s.slot i).is_valid = NON_EMPTY → (s.slot i).offset.orig ≠ 0) ∧
  (∀ i j, (s.slot i).is_valid = NON_EMPTY → (s.slot j).is_valid = NON_EMPTY →
    are_equal (s.slot i).SHA (s.slot j).SHA = true →
    (s.slot i).offset.orig = (s.slot j).offset.orig ∧
    (s.slot i).size.orig = (s.slot j).size.orig)

/-! ## A test environment and test handles -/

/-- A test environment. Its digest is the buffer truncated or zero-padded to
32 bytes (different for any two different buffers of at most 32 nonzero
bytes); every non-empty buffer decodes, as an image of 2 x 1 pixels; resizing
keeps the first byte of the buffer. -/
def test_env : Env :=
  { SHA256 := fun b => fix_len SHA256_DIGEST_LENGTH b
    vips_jpegload_buffer := fun b => if b = [] then none else some (2, 1)
    vips_resize_jpegsave := fun b _ => some (b.take 1) }

/-- The handle a caller passes to do_create for a store of n slots with the
default resolutions (as do_create_cmd builds it). -/
def template (n : Nat) : imgst_file :=
  { file := ⟨[], 0, false, false, []⟩
    header := ⟨[], 0, 0, n, [64, 64, 256, 256], 0, 0⟩
    metadata := [] }

/-- The handle after do_create of a store of 3 slots. -/
def created3 : imgst_file := (do_create [] (template 3)).2

/-- The handle of the store of 3 slots after do_close and do_open in mode "r+b". -/
def opened3 : imgst_file := (do_open (some created3.file.content) "r+b" [] false (template 0)).2

/-- The handle after a do_insert call (the handle itself when the call is undefined). -/
def after_insert (env : Env) (buffer img_id : List Nat) (s : imgst_file) : imgst_file :=
  match do_insert env buffer img_id s with
  | some (_, s') => s'
  | none => s

/-- Test content "x.jpg": three bytes. -/
def img_x : List Nat := [1, 2, 3]
/-- Test content "y.jpg": two bytes, with a digest other than that of img_x. -/
def img_y : List Nat := [4, 5]
/-- The identifier "x". -/
def id_x : List Nat := [120]
/-- The identifier "a". -/
def id_a : List Nat := [97]

/-- The created store after do_insert of img_x as "x". -/
def st1 : imgst_file := after_insert test_env img_x id_x created3
/-- Then after do_insert of img_y as "a". -/
def st2 : imgst_file := after_insert test_env img_y id_a st1
/-- Then after do_insert of img_x as "a". -/
def st3 : imgst_file := after_insert test_env img_x id_a st2

/-- The reopened store after do_insert of img_x as "x". -/
def op1 : imgst_file := after_insert test_env img_x id_x opened3
/-- Then after do_insert of img_y as "a". -/
def op2 : imgst_file := after_insert test_env img_y id_a op1
/-- Then after do_insert of img_x as "a". -/
def op3 : imgst_file := after_insert test_env img_x id_a op2

/-- The handle st1 after the failing do_insert of img_y under the identifier
"x", which st1 already holds. -/
def st1_dup_id : imgst_file := after_insert test_env img_y id_x st1

/-- The handle st1 after do_insert of img_x (its content again) as "a". -/
def st1_same : imgst_file := after_insert test_env img_x id_a st1

/-- The handle op1 with the counter imgst_version at the largest uint32_t,
as do_open loads it from a file whose header holds that value. -/
def op1_max_version : imgst_file :=
  { op1 with header := { op1.header with imgst_version := 2 ^ 32 - 1 } }

/-- A buffer of 2^32 bytes. -/
def big_buffer : List Nat := List.replicate (2 ^ 32) 7

/-- The handle st1 on a stream whose second call from now fails after one
byte: in do_insert the fseek to the end of the file succeeds and the fwrite
of the image content fails. -/
def st1_faulty : imgst_file :=
  { st1 with file := { st1.file with faults := [none, some 1] } }

/-- The handle st1_faulty after the failing do_insert of img_y as "a". -/
def st1_blob_fail : imgst_file := after_insert test_env img_y id_a st1_faulty

/-- A test conversion function for the command line: the value of a text of
decimal digits. -/
def test_atouint (s : List Nat) : Nat := (c_str s).foldl (fun acc c => 10 * acc + (c - 48)) 0

/-- The command line `create store -max_files 0`: the bytes of "create",
"store", "-max_files" and "0". -/
def argv_max_files_0 : List (List Nat) :=
  [[99, 114, 101, 97, 116, 101], [115, 116, 111, 114, 101], OPT_MAX_FILES, [48]]

/-- The command line `create store -max_files 100001`. -/
def argv_max_files_100001 : List (List Nat) :=
  [[99, 114, 101, 97, 116, 101], [115, 116, 111, 114, 101], OPT_MAX_FILES,
    [49, 48, 48, 48, 48, 49]]

/-- The command line `create store -max_files 3`. -/
def argv_max_files_3 : List (List Nat) :=
  [[99, 114, 101, 97, 116, 101], [115, 116, 111, 114, 101], OPT_MAX_FILES, [51]]

/-- The created 3-slot store after the failing do_insert, as "x", of a buffer
that is not an image (the empty buffer, which test_env does not decode). -/
def created3_bad_image : imgst_file := after_insert test_env [] id_x created3

/-- The handle op1 after do_delete of "x". -/
def op1_deleted : imgst_file := (do_delete id_x op1).2

/-- The handle op1 after lazily_resize of slot 0 to RES_THUMB. -/
def op1_thumb : imgst_file := (lazily_resize test_env RES_THUMB op1 0).2

/-! ## Object representations and the table stored in a file -/

/-- The fields of a header fit their C types: char[32], uint32_t, uint16_t[4],
uint32_t and uint64_t. -/
def header_in_range (h : imgst_header) : Prop :=
  h.imgst_name.length = MAX_IMGST_NAME + 1 ∧ h.imgst_version < 2 ^ 32 ∧ h.num_files < 2 ^ 32 ∧
  h.max_files < 2 ^ 32 ∧ h.res_resized.length = 4 ∧ (∀ x, x ∈ h.res_resized → x < 2 ^ 16) ∧
  h.unused_32 < 2 ^ 32 ∧ h.unused_64 < 2 ^ 64

/-- The fields of a slot record fit their C types: char[128], unsigned
char[32], uint32_t[2], uint32_t[3], uint64_t[3], uint16_t, uint16_t. -/
def metadata_in_range (m : img_metadata) : Prop :=
  m.img_id.length = MAX_IMG_ID + 1 ∧ m.SHA.length = SHA256_DIGEST_LENGTH ∧
  m.res_orig.1 < 2 ^ 32 ∧ m.res_orig.2 < 2 ^ 32 ∧
  m.size.thumb < 2 ^ 32 ∧ m.size.small < 2 ^ 32 ∧ m.size.orig < 2 ^ 32 ∧
  m.offset.thumb < 2 ^ 64 ∧ m.offset.small < 2 ^ 64 ∧ m.offset.orig < 2 ^ 64 ∧
  m.is_valid < 2 ^ 16 ∧ m.unused_16 < 2 ^ 16

/-- The bytes of slot record i in a file: the sizeof(metadata) bytes at offset
sizeof(header) + i * sizeof(metadata). -/
def record_bytes (content : List Nat) (i : Nat) : List Nat :=
  (content.drop (sizeof_imgst_header + i * sizeof_img_metadata)).take sizeof_img_metadata

/-- The header and the slot table stored in the file decode to exactly the
header and the mirror of the handle: the file holds the header and the
max_files records, its first sizeof(header) bytes decode to the header, the
mirror has max_files records, and the bytes of record i decode to slot i. -/
def stored_table_matches (s : imgst_file) : Prop :=
  sizeof_imgst_header + s.header.max_files * sizeof_img_metadata ≤ s.file.content.length ∧
  decode_header (s.file.content.take sizeof_imgst_header) = s.header ∧
  s.metadata.length = s.header.max_files ∧
  ∀ i, i < s.header.max_files → decode_metadata (record_bytes s.file.content i) = s.slot i

/-- Test content "z.jpg": one byte, with a digest other than those of img_x
and img_y. -/
def img_z : List Nat := [6]

/-- The handle st3 after do_delete of "a". -/
def st3_deleted : imgst_file := (do_delete id_a st3).2

/-! ## Test inputs for do_gbcollect -/

/-- No file at either path. -/
def gc_disk_empty : gc_disk := ⟨none, none⟩

/-- The store file of op1 (one image "x") at imgst_path, no temporary file. -/
def gc_disk_op1 : gc_disk := ⟨some op1.file.content, none⟩

/-- The handle st1 in the middle of do_insert of img_x (the content of slot 0)
as "a": slot 1 is loaded and do_name_and_content_dedup is about to run. -/
def st1_loaded : imgst_file := insert_load test_env img_x id_a st1 1

/-- The handle op2 after do_delete of "x": slot 0 is EMPTY, slot 1 holds "a",
num_files = 1. -/
def op2_deleted : imgst_file := (do_delete id_x op2).2

/-- The store file of op2_deleted at imgst_path, no temporary file. -/
def gc_disk_op2_deleted : gc_disk := ⟨some op2_deleted.file.content, none⟩

/-- The store file of op1_thumb (one image "x" with its RES_THUMB variant) at
imgst_path, no temporary file. -/
def gc_disk_op1_thumb : gc_disk := ⟨some op1_thumb.file.content, none⟩

/-- The handle s on a stream whose first n calls from now run normally and
whose call number n + 1 fails without transferring a byte. -/
def with_fault_at (s : imgst_file) (n : Nat) : imgst_file :=
  { s with file := { s.file with faults := List.replicate n none ++ [some 0] } }

/-- No slot of the mirror records a RES_THUMB or RES_SMALL variant. -/
def no_variant (s : imgst_file) : Prop :=
  ∀ j, (s.slot j).size.thumb = 0 ∧ (s.slot j).size.small = 0 ∧
    (s.slot j).offset.thumb = 0 ∧ (s.slot j).offset.small = 0

/-! ## Handles reached with the file closed and opened again -/

/-- The handles reached from do_create through successful do_insert (of a
buffer shorter than `lim` bytes), do_delete and lazily_resize calls, and
through do_open of the store file in mode "r+b": the handle is closed and
the file opened again, as every command of imgStoreMgr does (the handle that
do_create leaves is on a stream opened with "wb", which cannot be read). The
template handed to do_create holds a uint32_t in max_files and four uint16_t
in res_resized, and the file stays shorter than 2^64 bytes. -/
inductive ReachableOpen (env : Env) (lim : Nat) : imgst_file → Prop
  | create (faults : List (Option Nat)) (t s : imgst_file)
      (hmax : t.header.max_files < 2 ^ 32) (hres : t.header.res_resized.length = 4)
      (hval : ∀ x, x ∈ t.header.res_resized → x < 2 ^ 16)
      (h : do_create faults t = (ERR_NONE, s)) : ReachableOpen env lim s
  | reopen (faults : List (Option Nat)) (calloc_null : Bool) (t s s' : imgst_file)
      (hs : ReachableOpen env lim s)
      (h : do_open (some s.file.content) "r+b" faults calloc_null t = (ERR_NONE, s')) :
      ReachableOpen env lim s'
  | insert (buffer img_id : List Nat) (s s' : imgst_file) (hs : ReachableOpen env lim s)
      (hbuf : buffer.length < lim) (hsize : s.file.content.length < 2 ^ 64)
      (h : do_insert env buffer img_id s = some (ERR_NONE, s')) : ReachableOpen env lim s'
  | delete (imgID : List Nat) (s s' : imgst_file) (hs : ReachableOpen env lim s)
      (h : do_delete imgID s = (ERR_NONE, s')) : ReachableOpen env lim s'
  | resize (size_code : Int) (position : Nat) (s s' : imgst_file)
      (hs : ReachableOpen env lim s) (hsize : s.file.content.length < 2 ^ 64)
      (h : lazily_resize env size_code s position = (ERR_NONE, s')) : ReachableOpen env lim s'

/-- The handles reached as in ReachableOpen by n successful do_insert calls,
with successful lazily_resize calls and reopening of the file in between, and
no do_delete. -/
inductive InsertRunOpen (env : Env) (lim : Nat) : Nat → imgst_file → Prop
  | create (faults : List (Option Nat)) (t s : imgst_file)
      (hmax : t.header.max_files < 2 ^ 32) (hres : t.header.res_resized.length = 4)
      (hval : ∀ x, x ∈ t.header.res_resized → x < 2 ^ 16)
      (h : do_create faults t = (ERR_NONE, s)) : InsertRunOpen env lim 0 s
  | reopen (n : Nat) (faults : List (Option Nat)) (calloc_null : Bool) (t s s' : imgst_file)
      (hs : InsertRunOpen env lim n s)
      (h : do_open (some s.file.content) "r+b" faults calloc_null t = (ERR_NONE, s')) :
      InsertRunOpen env lim n s'
  | insert (n : Nat) (buffer img_id : List Nat) (s s' : imgst_file)
      (hs : InsertRunOpen env lim n s)
      (hbuf : buffer.length < lim) (hsize : s.file.content.length < 2 ^ 64)
      (h : do_insert env buffer img_id s = some (ERR_NONE, s')) : InsertRunOpen env lim (n + 1) s'
  | resize (n : Nat) (size_code : Int) (position : Nat) (s s' : imgst_file)
      (hs : InsertRunOpen env lim n s) (hsize : s.file.content.length < 2 ^ 64)
      (h : lazily_resize env size_code s position = (ERR_NONE, s')) : InsertRunOpen env lim n s'

/-- The size and offset recorded for one resolution are either both 0 (the
variant is absent) or the size is positive and the offset is at or after the
byte offset `t` (the variant is present). -/
def absent_or_after (size offset t : Nat) : Prop :=
  (size = 0 ∧ offset = 0) ∨ (0 < size ∧ t ≤ offset)

/-- The layout invariant: the file holds the header and the slot table, and
every valid slot has size[RES_ORIG] > 0 and, for each resolution, a size and
an offset that are both 0 or a positive size with an offset at or after the
end of the slot table. -/
def layout_inv (s : imgst_file) : Prop :=
  sizeof_imgst_header + s.header.max_files * sizeof_img_metadata ≤ s.file.content.length ∧
  ∀ i, (s.slot i).is_valid = NON_EMPTY →
    0 < (s.slot i).size.orig ∧
    absent_or_after (s.slot i).size.thumb (s.slot i).offset.thumb
      (sizeof_imgst_header + s.header.max_files * sizeof_img_metadata) ∧
    absent_or_after (s.slot i).size.small (s.slot i).offset.small
      (sizeof_imgst_header + s.header.max_files * sizeof_img_metadata) ∧
    absent_or_after (s.slot i).size.orig (s.slot i).offset.orig
      (sizeof_imgst_header + s.header.max_files * sizeof_img_metadata)

/-- Every valid slot records the digest and the resolution of one decodable
buffer. -/
def res_inv (env : Env) (s : imgst_file) : Prop :=
  ∀ i, (s.slot i).is_valid = NON_EMPTY →
    ∃ b w h, (s.slot i).SHA = env.SHA256 b ∧ env.vips_jpegload_buffer b = some (w, h) ∧
      (s.slot i).res_orig = (w % 2 ^ 32, h % 2 ^ 32)

/-- The reopened store after do_insert of img_x as "x" and then as "a". -/
def op1_same : imgst_file := after_insert test_env img_x id_a op1

/-- The handle op1_same after lazily_resize of slot 0 to RES_THUMB. -/
def op1_same_thumb : imgst_file := (lazily_resize test_env RES_THUMB op1_same 0).2

/-- The handle op1_thumb after its file is opened again in mode "r+b". -/
def op1_thumb_reopened : imgst_file :=
  (do_open (some op1_thumb.file.content) "r+b" [] false (template 0)).2

/-- Then after do_insert of img_y as "a". -/
def op1_thumb_reopened_y : imgst_file := after_insert test_env img_y id_a op1_thumb_reopened

/-! ## The order of the writes of an operation -/

/-- The stream f with a schedule whose first n calls run normally and whose
call number n + 1 fails without transferring a byte. -/
def stream_fault_at (f : FILE) (n : Nat) : FILE :=
  { f with faults := List.replicate n none ++ [some 0] }

/-- The bytes of a file after the writes `ws`, each an offset and the bytes
written there, are applied in the order of the list. -/
def apply_writes (content : List Nat) (ws : List (Nat × List Nat)) : List Nat :=
  ws.foldl (fun c w => write_at c w.1 w.2) content

/-! ## Lemmas: byte layout -/

@[simp] theorem fix_len_length (n : Nat) (l : List Nat) : (fix_len n l).length = n := by
  simp [fix_len]

@[simp] theorem le_bytes_length (w x : Nat) : (le_bytes w x).length = w := by
  simp [le_bytes]

@[simp] theorem encode_header_length (h : imgst_header) :
    (encode_header h).length = sizeof_imgst_header := by
  simp [encode_header]

@[simp] theorem encode_metadata_length (m : img_metadata) :
    (encode_metadata m).length = sizeof_img_metadata := by
  simp [encode_metadata]
  rfl

/-! ## Lemmas: streams -/

theorem write_at_length (c : List Nat) (p : Nat) (d : List Nat) :
    (write_at c p d).length = if d = [] then c.length else max c.length (p + d.length) := by
  unfold write_at
  split
  · rfl
  · simp only [List.length_append, List.length_take, List.length_replicate, List.length_drop]
    omega

theorem write_at_length_ge (c : List Nat) (p : Nat) (d : List Nat) :
    c.length ≤ (write_at c p d).length := by
  rw [write_at_length]; split <;> omega

theorem write_at_length_inside (c : List Nat) (p : Nat) (d : List Nat)
    (h : p + d.length ≤ c.length) : (write_at c p d).length = c.length := by
  rw [write_at_length]; split <;> omega

theorem write_at_end (c d : List Nat) : write_at c c.length d = c ++ d := by
  unfold write_at
  split
  · next h => simp [h]
  · simp

theorem write_at_take (c : List Nat) (p q : Nat) (d : List Nat) (h1 : q ≤ p)
    (h2 : q ≤ c.length) : (write_at c p d).take q = c.take q := by
  unfold write_at
  split
  · rfl
  · rw [List.append_assoc, List.take_append_of_le_length (by simp; omega)]
    rw [List.take_take, Nat.min_eq_left h1, List.take_append_of_le_length h2]

theorem write_at_drop (c : List Nat) (p q : Nat) (d : List Nat) (h : p + d.length ≤ q) :
    (write_at c p d).drop q = c.drop q := by
  unfold write_at
  split
  · rfl
  · have hl : ((c ++ List.replicate (p - c.length) 0).take p ++ d).length = p + d.length := by
      simp only [List.length_append, List.length_take, List.length_replicate]; omega
    have hq : q = ((c ++ List.replicate (p - c.length) 0).take p ++ d).length + (q - (p + d.length)) := by
      omega
    rw [hq, List.drop_append, List.drop_drop, hl]

theorem next_fault_content (f : FILE) : (next_fault f).2.content = f.content := by
  unfold next_fault; split <;> rfl

theorem next_fault_pos (f : FILE) : (next_fault f).2.pos = f.pos := by
  unfold next_fault; split <;> rfl

theorem next_fault_can_write (f : FILE) : (next_fault f).2.can_write = f.can_write := by
  unfold next_fault; split <;> rfl

theorem next_fault_can_read (f : FILE) : (next_fault f).2.can_read = f.can_read := by
  unfold next_fault; split <;> rfl

theorem fseek_content (f : FILE) (off : Int) (w : Whence) :
    (fseek f off w).2.content = f.content := by
  have h := next_fault_content f
  unfold fseek
  generalize next_fault f = nf at h
  obtain ⟨flt, f0⟩ := nf
  cases flt with
  | some k => exact h
  | none => dsimp only; split <;> exact h

theorem fseek_ok (f f1 : FILE) (off : Int) (w : Whence) (h : fseek f off w = (0, f1)) :
    f1.content = f.content ∧ (f1.pos : Int) = seek_base f w + off := by
  have hc := next_fault_content f
  have hp := next_fault_pos f
  unfold fseek at h
  generalize next_fault f = nf at hc hp h
  obtain ⟨flt, f0⟩ := nf
  dsimp only at hc hp h
  have hb : seek_base f0 w = seek_base f w := by
    cases w <;> simp [seek_base, hc, hp]
  cases flt with
  | some k => simp at h
  | none =>
    dsimp only at h
    split at h
    · simp at h
    · simp only [Prod.mk.injEq, true_and] at h
      subst h
      refine ⟨hc, ?_⟩
      simp only
      rw [Int.toNat_of_nonneg (by omega), hb]

/-- The file after an fwrite holds, from the old position on, a prefix of the
requested bytes. -/
theorem fwrite_content (ptr : List Nat) (size nmemb : Nat) (f : FILE) :
    ∃ part, (fwrite ptr size nmemb f).2.content = write_at f.content f.pos part ∧
      (fwrite ptr size nmemb f).1 = part.length / size ∧
      (part = ptr.take (size * nmemb) ∨ part.length < (ptr.take (size * nmemb)).length ∨
        part = []) := by
  have hc := next_fault_content f
  have hp := next_fault_pos f
  unfold fwrite
  generalize next_fault f = nf at hc hp
  obtain ⟨flt, f0⟩ := nf
  dsimp only at hc hp ⊢
  split
  · refine ⟨[], ?_, by simp, Or.inr (Or.inr rfl)⟩
    simp [write_at, hc]
  · cases flt with
    | none =>
      refine ⟨ptr.take (size * nmemb), ?_, rfl, Or.inl rfl⟩
      simp [hc, hp]
    | some k =>
      refine ⟨(ptr.take (size * nmemb)).take (min k ((ptr.take (size * nmemb)).length - 1)),
        ?_, rfl, ?_⟩
      · simp only [hc, hp]
      · by_cases hz : (ptr.take (size * nmemb)).length = 0
        · right; right
          have : ptr.take (size * nmemb) = [] := List.length_eq_zero.mp hz
          rw [this]; simp
        · right; left
          rw [List.length_take]; omega

theorem fwrite_length_ge (ptr : List Nat) (size nmemb : Nat) (f : FILE) :
    f.content.length ≤ (fwrite ptr size nmemb f).2.content.length := by
  obtain ⟨part, h1, _, _⟩ := fwrite_content ptr size nmemb f
  rw [h1]; exact write_at_length_ge _ _ _

theorem fwrite_take (ptr : List Nat) (size nmemb : Nat) (f : FILE) (q : Nat)
    (h1 : q ≤ f.pos) (h2 : q ≤ f.content.length) :
    (fwrite ptr size nmemb f).2.content.take q = f.content.take q := by
  obtain ⟨part, h, _, _⟩ := fwrite_content ptr size nmemb f
  rw [h]; exact write_at_take _ _ _ _ h1 h2

/-- A complete fwrite of one item of `size` bytes. -/
theorem fwrite_one_ok (ptr : List Nat) (size : Nat) (f f1 : FILE) (hlen : ptr.length = size)
    (h : fwrite ptr size 1 f = (1, f1)) :
    f1.content = write_at f.content f.pos ptr ∧ f1.pos = f.pos + size ∧ 0 < size := by
  have hc := next_fault_content f
  have hp := next_fault_pos f
  unfold fwrite at h
  generalize next_fault f = nf at hc hp h
  obtain ⟨flt, f0⟩ := nf
  dsimp only at hc hp h
  have hsz : 0 < size := by
    by_contra hz
    have : size = 0 := by omega
    subst this
    split at h <;> simp at h
  have htk : ptr.take (size * 1) = ptr := by
    rw [Nat.mul_one, ← hlen]; exact List.take_length _
  split at h
  · simp at h
  · cases flt with
    | none =>
      simp only [htk, Prod.mk.injEq] at h
      obtain ⟨_, h⟩ := h
      subst h
      simp [hc, hp, hlen]
      exact hsz
    | some k =>
      simp only [htk, Prod.mk.injEq] at h
      obtain ⟨h, _⟩ := h
      exfalso
      have hl : (ptr.take (min k (ptr.length - 1))).length < size := by
        rw [List.length_take]; omega
      have := Nat.div_eq_of_lt hl
      omega

/-- A complete fwrite of a buffer as `buffer.length` items of one byte. -/
theorem fwrite_bytes_ok (buffer : List Nat) (f f1 : FILE)
    (h : fwrite buffer 1 buffer.length f = (buffer.length, f1)) :
    f1.content = write_at f.content f.pos buffer ∧ f1.pos = f.pos + buffer.length := by
  have hc := next_fault_content f
  have hp := next_fault_pos f
  unfold fwrite at h
  generalize next_fault f = nf at hc hp h
  obtain ⟨flt, f0⟩ := nf
  dsimp only at hc hp h
  have htk : buffer.take (1 * buffer.length) = buffer := by
    rw [Nat.one_mul]; exact List.take_length _
  split at h
  · simp only [Prod.mk.injEq] at h
    obtain ⟨h0, h⟩ := h
    subst h
    have : buffer = [] := List.length_eq_zero.mp h0.symm
    subst this
    simp [write_at, hc, hp]
  · cases flt with
    | none =>
      simp only [htk, Prod.mk.injEq] at h
      obtain ⟨_, h⟩ := h
      subst h
      simp [hc, hp]
    | some k =>
      simp only [htk, Prod.mk.injEq, Nat.div_one] at h
      obtain ⟨h0, h⟩ := h
      subst h
      rw [List.length_take] at h0
      have : buffer = [] := by
        apply List.length_eq_zero.mp; omega
      subst this
      simp [write_at, hc, hp]


theorem fseek_ok' (f : FILE) (off : Int) (w : Whence) (h : (fseek f off w).1 = 0) :
    (fseek f off w).2.content = f.content ∧ ((fseek f off w).2.pos : Int) = seek_base f w + off :=
  fseek_ok f _ off w (Prod.ext h rfl)

theorem fwrite_one_ok' (ptr : List Nat) (size : Nat) (f : FILE) (hlen : ptr.length = size)
    (h : (fwrite ptr size 1 f).1 = 1) :
    (fwrite ptr size 1 f).2.content = write_at f.content f.pos ptr ∧
    (fwrite ptr size 1 f).2.pos = f.pos + size ∧ 0 < size :=
  fwrite_one_ok ptr size f _ hlen (Prod.ext h rfl)

theorem fwrite_bytes_ok' (buffer : List Nat) (f : FILE)
    (h : (fwrite buffer 1 buffer.length f).1 = buffer.length) :
    (fwrite buffer 1 buffer.length f).2.content = write_at f.content f.pos buffer ∧
    (fwrite buffer 1 buffer.length f).2.pos = f.pos + buffer.length :=
  fwrite_bytes_ok buffer f _ (Prod.ext h rfl)

/-- The file after the four calls that end do_insert: fseek to the start,
fwrite of the header, fseek forward by `skip` bytes, fwrite of the record. -/
theorem flush_chain (f : FILE) (hdr rec : List Nat) (sh sr skip : Nat)
    (hh : hdr.length = sh) (hr : rec.length = sr)
    (h1 : (fseek f 0 Whence.SEEK_SET).1 = 0)
    (h2 : (fwrite hdr sh 1 (fseek f 0 Whence.SEEK_SET).2).1 = 1)
    (h3 : (fseek (fwrite hdr sh 1 (fseek f 0 Whence.SEEK_SET).2).2 (skip : Int)
      Whence.SEEK_CUR).1 = 0)
    (h4 : (fwrite rec sr 1 (fseek (fwrite hdr sh 1
      (fseek f 0 Whence.SEEK_SET).2).2 (skip : Int) Whence.SEEK_CUR).2).1 = 1) :
    (fwrite rec sr 1 (fseek (fwrite hdr sh 1
      (fseek f 0 Whence.SEEK_SET).2).2 (skip : Int) Whence.SEEK_CUR).2).2.content =
      write_at (write_at f.content 0 hdr) (sh + skip) rec := by
  obtain ⟨hc1, hp1⟩ := fseek_ok' _ _ _ h1
  obtain ⟨hc2, hp2, _⟩ := fwrite_one_ok' _ _ _ hh h2
  obtain ⟨hc3, hp3⟩ := fseek_ok' _ _ _ h3
  obtain ⟨hc4, _, _⟩ := fwrite_one_ok' _ _ _ hr h4
  simp only [seek_base] at hp1 hp3
  have hp1' : (fseek f 0 Whence.SEEK_SET).2.pos = 0 := by omega
  have hp3' : (fseek (fwrite hdr sh 1 (fseek f 0 Whence.SEEK_SET).2).2 (skip : Int)
      Whence.SEEK_CUR).2.pos = sh + skip := by
    rw [hp2, hp1'] at hp3; omega
  rw [hc4, hc3, hc2, hc1, hp3', hp1']

/-- The file after a successful fseek(f, offset, SEEK_SET) and fwrite of
one record. -/
theorem seek_write_chain (f : FILE) (rec : List Nat) (sr offset : Nat) (hr : rec.length = sr)
    (h1 : (fseek f (offset : Int) Whence.SEEK_SET).1 = 0)
    (h2 : (fwrite rec sr 1 (fseek f (offset : Int) Whence.SEEK_SET).2).1 = 1) :
    (fwrite rec sr 1 (fseek f (offset : Int) Whence.SEEK_SET).2).2.content =
      write_at f.content offset rec := by
  obtain ⟨hc1, hp1⟩ := fseek_ok' _ _ _ h1
  obtain ⟨hc2, _, _⟩ := fwrite_one_ok' _ _ _ hr h2
  simp only [seek_base] at hp1
  have hp1' : (fseek f (offset : Int) Whence.SEEK_SET).2.pos = offset := by omega
  rw [hc2, hc1, hp1']

/-! ## Lemmas: the slot mirror -/

theorem slot_set_slot_eq (s : imgst_file) (i : Nat) (m : img_metadata)
    (h : i < s.metadata.length) : (s.set_slot i m).slot i = m := by
  simp [imgst_file.slot, imgst_file.set_slot, h]

theorem slot_set_slot_ne (s : imgst_file) (i j : Nat) (m : img_metadata) (h : i ≠ j) :
    (s.set_slot i m).slot j = s.slot j := by
  simp [imgst_file.slot, imgst_file.set_slot, h]

theorem slot_set_slot (s : imgst_file) (i j : Nat) (m : img_metadata)
    (h : i < s.metadata.length) :
    (s.set_slot i m).slot j = if i = j then m else s.slot j := by
  by_cases hij : i = j
  · subst hij; simp [slot_set_slot_eq _ _ _ h]
  · simp [hij, slot_set_slot_ne _ _ _ _ hij]

@[simp] theorem set_slot_header (s : imgst_file) (i : Nat) (m : img_metadata) :
    (s.set_slot i m).header = s.header := rfl

@[simp] theorem set_slot_file (s : imgst_file) (i : Nat) (m : img_metadata) :
    (s.set_slot i m).file = s.file := rfl

@[simp] theorem set_slot_length (s : imgst_file) (i : Nat) (m : img_metadata) :
    (s.set_slot i m).metadata.length = s.metadata.length := by
  simp [imgst_file.set_slot]

theorem slot_of_length_le (s : imgst_file) (i : Nat) (h : s.metadata.length ≤ i) :
    s.slot i = img_metadata.zero := by
  unfold imgst_file.slot
  rw [List.getD_eq_default _ _ h]; rfl

@[simp] theorem slot_with_file (s : imgst_file) (f : FILE) (i : Nat) :
    ({ s with file := f } : imgst_file).slot i = s.slot i := rfl

@[simp] theorem slot_with_header (s : imgst_file) (h : imgst_header) (i : Nat) :
    ({ s with header := h } : imgst_file).slot i = s.slot i := rfl

/-! ## Lemmas: digests -/

theorem are_equal_iff (a b : List Nat) :
    are_equal a b = true ↔ ∀ i, i < SHA256_DIGEST_LENGTH → a.getD i 0 = b.getD i 0 := by
  simp [are_equal, List.all_eq_true]

theorem are_equal_refl (a : List Nat) : are_equal a a = true := by
  rw [are_equal_iff]; intros; rfl

theorem are_equal_symm (a b : List Nat) : are_equal a b = are_equal b a := by
  rw [Bool.eq_iff_iff, are_equal_iff, are_equal_iff]
  constructor <;> intro h i hi <;> exact (h i hi).symm

theorem are_equal_trans (a b c : List Nat) (h1 : are_equal a b = true)
    (h2 : are_equal b c = true) : are_equal a c = true := by
  rw [are_equal_iff] at *
  intro i hi; rw [h1 i hi, h2 i hi]

/-! ## Lemmas: the loops of `imgst_insert.c` and `dedup.c` -/

theorem find_first_free_meta_loop_spec (s : imgst_file) (n i : Nat) :
    (find_first_free_meta_loop s n i = 2 ^ 32 - 1 ∧
        ∀ j, i ≤ j → j < i + n → (s.slot j).is_valid ≠ EMPTY) ∨
    (i ≤ find_first_free_meta_loop s n i ∧ find_first_free_meta_loop s n i < i + n ∧
        (s.slot (find_first_free_meta_loop s n i)).is_valid = EMPTY ∧
        ∀ j, i ≤ j → j < find_first_free_meta_loop s n i → (s.slot j).is_valid ≠ EMPTY) := by
  induction n generalizing i with
  | zero => left; simp [find_first_free_meta_loop]; intro j h1 h2; omega
  | succ n ih =>
    unfold find_first_free_meta_loop
    by_cases h : (s.slot i).is_valid = EMPTY
    · right; rw [if_pos h]
      refine ⟨le_refl _, by omega, h, ?_⟩
      intro j h1 h2; omega
    · rw [if_neg h]
      rcases ih (i + 1) with ⟨h1, h2⟩ | ⟨h1, h2, h3, h4⟩
      · left; refine ⟨h1, ?_⟩
        intro j hj1 hj2
        by_cases hji : j = i
        · subst hji; exact h
        · exact h2 j (by omega) (by omega)
      · right; refine ⟨by omega, by omega, h3, ?_⟩
        intro j hj1 hj2
        by_cases hji : j = i
        · subst hji; exact h
        · exact h4 j (by omega) hj2

/-- What a slot scan of find_duplicate has established when it stops at
counter value c with return value r, having started at loop index i with
counter i. -/
theorem find_duplicate_loop_spec (s : imgst_file) (index n i : Nat) :
    ((find_duplicate_loop s index n i i).1 = DUPLICATE_NOT_FOUND ∧
      ∀ j, i ≤ j → j < i + n → (s.slot j).is_valid = NON_EMPTY → j ≠ index →
        strncmp (s.slot j).img_id (s.slot index).img_id MAX_IMG_ID ≠ 0 ∧
        are_equal (s.slot j).SHA (s.slot index).SHA = false) ∨
    (∃ c, find_duplicate_loop s index n i i = (DUPLICATE_FOUND, c) ∧ i ≤ c ∧ c < i + n ∧
      (s.slot c).is_valid = NON_EMPTY ∧ c ≠ index ∧
      strncmp (s.slot c).img_id (s.slot index).img_id MAX_IMG_ID ≠ 0 ∧
      are_equal (s.slot c).SHA (s.slot index).SHA = true ∧
      ∀ j, i ≤ j → j < c → (s.slot j).is_valid = NON_EMPTY → j ≠ index →
        strncmp (s.slot j).img_id (s.slot index).img_id MAX_IMG_ID ≠ 0 ∧
        are_equal (s.slot j).SHA (s.slot index).SHA = false) ∨
    (∃ c, find_duplicate_loop s index n i i = (ERR_DUPLICATE_ID, c) ∧ i ≤ c ∧ c < i + n ∧
      (s.slot c).is_valid = NON_EMPTY ∧ c ≠ index ∧
      strncmp (s.slot c).img_id (s.slot index).img_id MAX_IMG_ID = 0 ∧
      ∀ j, i ≤ j → j < c → (s.slot j).is_valid = NON_EMPTY → j ≠ index →
        strncmp (s.slot j).img_id (s.slot index).img_id MAX_IMG_ID ≠ 0 ∧
        are_equal (s.slot j).SHA (s.slot index).SHA = false) := by
  induction n generalizing i with
  | zero =>
    left; refine ⟨by simp [find_duplicate_loop], ?_⟩
    intro j h1 h2; omega
  | succ n ih =>
    unfold find_duplicate_loop
    by_cases hv : (s.slot i).is_valid = NON_EMPTY ∧ i ≠ index
    · rw [if_pos hv]
      by_cases hn : strncmp (s.slot i).img_id (s.slot index).img_id MAX_IMG_ID = 0
      · rw [if_pos hn]
        right; right
        exact ⟨i, rfl, le_refl _, by omega, hv.1, hv.2, hn, fun j h1 h2 => by omega⟩
      · rw [if_neg hn]
        by_cases he : are_equal (s.slot i).SHA (s.slot index).SHA = true
        · rw [if_pos he]
          right; left
          exact ⟨i, rfl, le_refl _, by omega, hv.1, hv.2, hn, he, fun j h1 h2 => by omega⟩
        · rw [if_neg he]
          have he' : are_equal (s.slot i).SHA (s.slot index).SHA = false := by
            simpa using he
          have step : ∀ j, i ≤ j → j < i + 1 → (s.slot j).is_valid = NON_EMPTY → j ≠ index →
              strncmp (s.slot j).img_id (s.slot index).img_id MAX_IMG_ID ≠ 0 ∧
              are_equal (s.slot j).SHA (s.slot index).SHA = false := by
            intro j h1 h2 _ _
            have : j = i := by omega
            subst this; exact ⟨hn, he'⟩
          rcases ih (i + 1) with ⟨h1, h2⟩ | ⟨c, h1, h2, h3, h4, h5, h6, h7, h8⟩ |
              ⟨c, h1, h2, h3, h4, h5, h6, h7⟩
          · left; refine ⟨h1, ?_⟩
            intro j hj1 hj2 hj3 hj4
            by_cases hji : j < i + 1
            · exact step j hj1 hji hj3 hj4
            · exact h2 j (by omega) (by omega) hj3 hj4
          · right; left
            refine ⟨c, h1, by omega, by omega, h4, h5, h6, h7, ?_⟩
            intro j hj1 hj2 hj3 hj4
            by_cases hji : j < i + 1
            · exact step j hj1 hji hj3 hj4
            · exact h8 j (by omega) hj2 hj3 hj4
          · right; right
            refine ⟨c, h1, by omega, by omega, h4, h5, h6, ?_⟩
            intro j hj1 hj2 hj3 hj4
            by_cases hji : j < i + 1
            · exact step j hj1 hji hj3 hj4
            · exact h7 j (by omega) hj2 hj3 hj4
    · rw [if_neg hv]
      have step : ∀ j, i ≤ j → j < i + 1 → (s.slot j).is_valid = NON_EMPTY → j ≠ index →
          strncmp (s.slot j).img_id (s.slot index).img_id MAX_IMG_ID ≠ 0 ∧
          are_equal (s.slot j).SHA (s.slot index).SHA = false := by
        intro j h1 h2 h3 h4
        have : j = i := by omega
        subst this; exact absurd ⟨h3, h4⟩ hv
      rcases ih (i + 1) with ⟨h1, h2⟩ | ⟨c, h1, h2, h3, h4, h5, h6, h7, h8⟩ |
          ⟨c, h1, h2, h3, h4, h5, h6, h7⟩
      · left; refine ⟨h1, ?_⟩
        intro j hj1 hj2 hj3 hj4
        by_cases hji : j < i + 1
        · exact step j hj1 hji hj3 hj4
        · exact h2 j (by omega) (by omega) hj3 hj4
      · right; left
        refine ⟨c, h1, by omega, by omega, h4, h5, h6, h7, ?_⟩
        intro j hj1 hj2 hj3 hj4
        by_cases hji : j < i + 1
        · exact step j hj1 hji hj3 hj4
        · exact h8 j (by omega) hj2 hj3 hj4
      · right; right
        refine ⟨c, h1, by omega, by omega, h4, h5, h6, ?_⟩
        intro j hj1 hj2 hj3 hj4
        by_cases hji : j < i + 1
        · exact step j hj1 hji hj3 hj4
        · exact h7 j (by omega) hj2 hj3 hj4


/-! ## Lemmas: the stages of do_insert -/

/-- Every outcome of do_name_and_content_dedup keeps the stream, the header
and all slots but `index`. -/
theorem dedup_frame (s s2 : imgst_file) (index : Nat) (e : Int)
    (h : do_name_and_content_dedup s index = (e, s2)) :
    s2.file = s.file ∧ s2.header = s.header ∧ s2.metadata.length = s.metadata.length ∧
    ∀ j, j ≠ index → s2.slot j = s.slot j := by
  unfold do_name_and_content_dedup at h
  split at h
  · simp only [Prod.mk.injEq] at h; obtain ⟨_, rfl⟩ := h; simp
  · generalize find_duplicate s index = fd at h
    obtain ⟨r, c⟩ := fd
    dsimp only at h
    split at h
    · simp only [Prod.mk.injEq] at h; obtain ⟨_, rfl⟩ := h
      refine ⟨rfl, rfl, by simp, ?_⟩
      intro j hj; exact slot_set_slot_ne _ _ _ _ (Ne.symm hj)
    · split at h
      · simp only [Prod.mk.injEq] at h; obtain ⟨_, rfl⟩ := h
        refine ⟨rfl, rfl, by simp, ?_⟩
        intro j hj; exact slot_set_slot_ne _ _ _ _ (Ne.symm hj)
      · simp only [Prod.mk.injEq] at h; obtain ⟨_, rfl⟩ := h; simp

/-- A successful do_name_and_content_dedup either found no valid slot with
the digest of slot `index` and cleared its offset[RES_ORIG], or copied the
attributes of the first valid slot c with that digest. -/
theorem dedup_ok (s s2 : imgst_file) (index : Nat) (hk : index < s.metadata.length)
    (h : do_name_and_content_dedup s index = (ERR_NONE, s2)) :
    index < s.header.max_files ∧
    ((s2.slot index = { s.slot index with offset := { (s.slot index).offset with orig := 0 } } ∧
      ∀ j, j < s.header.max_files → (s.slot j).is_valid = NON_EMPTY → j ≠ index →
        strncmp (s.slot j).img_id (s.slot index).img_id MAX_IMG_ID ≠ 0 ∧
        are_equal (s.slot j).SHA (s.slot index).SHA = false) ∨
     (∃ c, c < s.header.max_files ∧ (s.slot c).is_valid = NON_EMPTY ∧ c ≠ index ∧
        are_equal (s.slot c).SHA (s.slot index).SHA = true ∧
        s2.slot index = copy_attributes (s.slot index) (s.slot c) ∧
        ∀ j, j < c → (s.slot j).is_valid = NON_EMPTY → j ≠ index →
          strncmp (s.slot j).img_id (s.slot index).img_id MAX_IMG_ID ≠ 0 ∧
          are_equal (s.slot j).SHA (s.slot index).SHA = false)) := by
  unfold do_name_and_content_dedup at h
  split at h
  · simp at h
  · next hlt =>
    have hlt' : index < s.header.max_files := by simpa using hlt
    refine ⟨hlt', ?_⟩
    have spec := find_duplicate_loop_spec s index s.header.max_files 0
    unfold find_duplicate at h
    rcases spec with ⟨h1, h2⟩ | ⟨c, h1, _, h3, h4, h5, h6, h7, h8⟩ | ⟨c, h1, _⟩
    · generalize find_duplicate_loop s index s.header.max_files 0 0 = fd at h h1
      obtain ⟨r, c⟩ := fd
      dsimp only at h h1
      subst h1
      simp at h
      subst h
      left
      refine ⟨slot_set_slot_eq _ _ _ hk, ?_⟩
      intro j hj hv hne
      exact h2 j (Nat.zero_le _) (by omega) hv hne
    · rw [h1] at h
      dsimp only at h
      rw [if_pos rfl] at h
      simp only [Prod.mk.injEq, true_and] at h
      subst h
      right
      exact ⟨c, by omega, h4, h5, h7, slot_set_slot_eq _ _ _ hk,
        fun j hj hv hne => h8 j (Nat.zero_le _) hj hv hne⟩
    · rw [h1] at h
      dsimp only at h
      rw [if_neg (by decide), if_neg (by decide)] at h
      simp at h

/-- A failing do_name_and_content_dedup leaves the handle as it was. -/
theorem dedup_err (s s2 : imgst_file) (index : Nat) (e : Int) (he : e ≠ ERR_NONE)
    (h : do_name_and_content_dedup s index = (e, s2)) : s2 = s := by
  unfold do_name_and_content_dedup at h
  split at h
  · simp only [Prod.mk.injEq] at h; exact h.2.symm
  · generalize find_duplicate s index = fd at h
    obtain ⟨r, c⟩ := fd
    dsimp only at h
    split at h
    · simp only [Prod.mk.injEq] at h; exact absurd h.1.symm he
    · split at h
      · simp only [Prod.mk.injEq] at h; exact absurd h.1.symm he
      · simp only [Prod.mk.injEq] at h; exact h.2.symm

/-- Every outcome of insert_write keeps the header and all slots but
`insertion_index`, and the bytes the file already had. -/
theorem insert_write_frame (buffer : List Nat) (s s3 : imgst_file) (k : Nat) (e : Int)
    (h : insert_write buffer s k = (e, s3)) :
    s3.header = s.header ∧ s3.metadata.length = s.metadata.length ∧
    (∀ j, j ≠ k → s3.slot j = s.slot j) ∧
    s.file.content.length ≤ s3.file.content.length ∧
    ∀ q, q ≤ s.file.content.length → s3.file.content.take q = s.file.content.take q := by
  unfold insert_write at h
  split at h
  · dsimp only at h
    generalize hfs : fseek (s.set_slot k (complete_init (s.slot k))).file 0 Whence.SEEK_END = fs at h
    obtain ⟨r, f1⟩ := fs
    have hc1 : f1.content = s.file.content := by
      have := fseek_content (s.set_slot k (complete_init (s.slot k))).file 0 Whence.SEEK_END
      rw [hfs] at this; simpa using this
    dsimp only at h
    split at h
    · simp only [Prod.mk.injEq] at h; obtain ⟨_, rfl⟩ := h
      refine ⟨rfl, by simp, ?_, by simp [hc1], ?_⟩
      · intro j hj
        simp only [slot_with_file]
        exact slot_set_slot_ne _ _ _ _ (Ne.symm hj)
      · intro q _; simp [hc1]
    · next hr =>
      have hr0 : r = 0 := by simpa using hr
      subst hr0
      have hp1 : f1.pos = s.file.content.length := by
        have := (fseek_ok _ _ _ _ hfs).2
        simp [seek_base] at this
        exact this
      generalize hfw : fwrite buffer 1 buffer.length f1 = fw at h
      obtain ⟨w, f2⟩ := fw
      have hge : f1.content.length ≤ f2.content.length := by
        have := fwrite_length_ge buffer 1 buffer.length f1
        rw [hfw] at this; exact this
      have htk : ∀ q, q ≤ s.file.content.length → f2.content.take q = s.file.content.take q := by
        intro q hq
        have := fwrite_take buffer 1 buffer.length f1 q (by omega) (by rw [hc1]; exact hq)
        rw [hfw] at this; rw [this, hc1]
      have hfr : ∀ j, j ≠ k →
          (({ s.set_slot k (complete_init (s.slot k)) with file := f1 } : imgst_file).set_slot k
            { (s.set_slot k (complete_init (s.slot k))).slot k with
              offset := { ((s.set_slot k (complete_init (s.slot k))).slot k).offset with
                orig := ftell f1 } }).slot j = s.slot j := by
        intro j hj
        rw [slot_set_slot_ne _ _ _ _ (Ne.symm hj)]
        simp only [slot_with_file]
        exact slot_set_slot_ne _ _ _ _ (Ne.symm hj)
      dsimp only at h
      split at h
      · simp only [Prod.mk.injEq] at h; obtain ⟨_, rfl⟩ := h
        refine ⟨rfl, by simp, ?_, by rw [← hc1]; exact hge, htk⟩
        intro j hj
        simp only [slot_with_file]
        exact hfr j hj
      · simp only [Prod.mk.injEq] at h; obtain ⟨_, rfl⟩ := h
        refine ⟨rfl, by simp, ?_, by rw [← hc1]; exact hge, htk⟩
        intro j hj
        simp only [slot_with_file]
        exact hfr j hj
  · simp only [Prod.mk.injEq] at h; obtain ⟨_, rfl⟩ := h
    exact ⟨rfl, rfl, fun _ _ => rfl, le_refl _, fun _ _ => rfl⟩

/-- A successful insert_write either wrote nothing (the slot already has an
offset[RES_ORIG]) or appended the whole buffer at the end of the file and
recorded the old file length as offset[RES_ORIG]. -/
theorem insert_write_ok (buffer : List Nat) (s s3 : imgst_file) (k : Nat)
    (hk : k < s.metadata.length) (h : insert_write buffer s k = (ERR_NONE, s3)) :
    ((s.slot k).offset.orig ≠ 0 ∧ s3 = s) ∨
    ((s.slot k).offset.orig = 0 ∧
      s3.slot k = { complete_init (s.slot k) with
        offset := { (complete_init (s.slot k)).offset with orig := s.file.content.length } } ∧
      s3.file.content = s.file.content ++ buffer) := by
  unfold insert_write at h
  split at h
  · next hnd =>
    right
    have h0 : (s.slot k).offset.orig = 0 := by simpa [image_has_no_duplicate] using hnd
    refine ⟨h0, ?_⟩
    dsimp only at h
    generalize hfs : fseek (s.set_slot k (complete_init (s.slot k))).file 0 Whence.SEEK_END = fs at h
    obtain ⟨r, f1⟩ := fs
    dsimp only at h
    split at h
    · simp at h
    · next hr =>
      have hr0 : r = 0 := by simpa using hr
      subst hr0
      obtain ⟨hc1, hp1⟩ := fseek_ok _ _ _ _ hfs
      simp [seek_base] at hp1 hc1
      generalize hfw : fwrite buffer 1 buffer.length f1 = fw at h
      obtain ⟨w, f2⟩ := fw
      dsimp only at h
      split at h
      · simp at h
      · next hw =>
        have hw0 : w = buffer.length := by simpa using hw
        subst hw0
        obtain ⟨hc2, _⟩ := fwrite_bytes_ok _ _ _ hfw
        simp only [Prod.mk.injEq, true_and] at h
        subst h
        constructor
        · simp only [slot_with_file]
          rw [slot_set_slot_eq _ _ _ (by simpa using hk)]
          rw [slot_set_slot_eq _ _ _ hk]
          simp [ftell, hp1]
        · simp only [hc2, hp1, hc1]
          exact write_at_end _ _
  · next hnd =>
    left
    simp only [Prod.mk.injEq, true_and] at h
    refine ⟨?_, h.symm⟩
    simpa [image_has_no_duplicate] using hnd

/-- The outcomes of insert_update: either the buffer does not decode and the
handle is untouched, or the resolution is stored in the slot, both header
counters are incremented, and (on success) the header is written at offset 0
and the slot record at offset sizeof(header) + sizeof(metadata) * index. -/
theorem insert_update_cases (env : Env) (buffer : List Nat) (s s' : imgst_file) (k : Nat) (e : Int)
    (h : insert_update env buffer s k = (e, s')) :
    (e = ERR_IMGLIB ∧ s' = s ∧ env.vips_jpegload_buffer buffer = none) ∨
    (∃ width height, env.vips_jpegload_buffer buffer = some (width, height) ∧
      s'.header = { s.header with
        num_files := (s.header.num_files + 1) % 2 ^ 32
        imgst_version := (s.header.imgst_version + 1) % 2 ^ 32 } ∧
      s'.metadata = (s.set_slot k
        { s.slot k with res_orig := (width % 2 ^ 32, height % 2 ^ 32) }).metadata ∧
      (e = ERR_NONE ∨ e = ERR_IO) ∧
      (e = ERR_NONE → s'.file.content =
        write_at (write_at s.file.content 0 (encode_header s'.header))
          (sizeof_imgst_header + sizeof_img_metadata * k) (encode_metadata (s'.slot k)))) := by
  unfold insert_update at h
  unfold get_resolution at h
  cases hl : env.vips_jpegload_buffer buffer with
  | none =>
    left
    rw [hl] at h
    simp at h
    exact ⟨h.1.symm, h.2.symm, rfl⟩
  | some wh =>
    obtain ⟨width, height⟩ := wh
    right
    refine ⟨width, height, rfl, ?_⟩
    rw [hl] at h
    dsimp only at h
    rw [if_neg (by simp)] at h
    split at h
    · simp only [Prod.mk.injEq] at h; obtain ⟨rfl, rfl⟩ := h
      exact ⟨rfl, rfl, Or.inr rfl, by intro hc; simp at hc⟩
    · next hr1 =>
      split at h
      · simp only [Prod.mk.injEq] at h; obtain ⟨rfl, rfl⟩ := h
        exact ⟨rfl, rfl, Or.inr rfl, by intro hc; simp at hc⟩
      · next hw1 =>
        split at h
        · simp only [Prod.mk.injEq] at h; obtain ⟨rfl, rfl⟩ := h
          exact ⟨rfl, rfl, Or.inr rfl, by intro hc; simp at hc⟩
        · next hr2 =>
          split at h
          · simp only [Prod.mk.injEq] at h; obtain ⟨rfl, rfl⟩ := h
            exact ⟨rfl, rfl, Or.inr rfl, by intro hc; simp at hc⟩
          · next hw2 =>
            simp only [Prod.mk.injEq] at h; obtain ⟨rfl, rfl⟩ := h
            refine ⟨rfl, rfl, Or.inl rfl, ?_⟩
            intro _
            exact flush_chain s.file _ _ sizeof_imgst_header sizeof_img_metadata
              (sizeof_img_metadata * k) (encode_header_length _) (encode_metadata_length _)
              (not_not.mp hr1) (not_not.mp hw1) (not_not.mp hr2) (not_not.mp hw2)

/-- The stages a do_insert call went through, whatever it returned. -/
theorem do_insert_cases (env : Env) (buffer img_id : List Nat) (s : imgst_file)
    (r : Option (Int × imgst_file)) (h : do_insert env buffer img_id s = r) :
    (¬ strlen img_id < MAX_IMG_ID ∧ r = some (ERR_INVALID_IMGID, s)) ∨
    (strlen img_id < MAX_IMG_ID ∧ ¬ s.header.num_files < s.header.max_files ∧
      r = some (ERR_FULL_IMGSTORE, s)) ∨
    (strlen img_id < MAX_IMG_ID ∧ s.header.num_files < s.header.max_files ∧
      ¬ find_first_free_meta s < s.metadata.length ∧ r = none) ∨
    (strlen img_id < MAX_IMG_ID ∧ s.header.num_files < s.header.max_files ∧
      find_first_free_meta s < s.metadata.length ∧
      ∃ e2 s2, do_name_and_content_dedup
          (insert_load env buffer img_id s (find_first_free_meta s)) (find_first_free_meta s)
          = (e2, s2) ∧
        ((e2 ≠ ERR_NONE ∧ r = some (e2, s2)) ∨
         (e2 = ERR_NONE ∧ ∃ e3 s3, insert_write buffer s2 (find_first_free_meta s) = (e3, s3) ∧
            ((e3 ≠ ERR_NONE ∧ r = some (e3, s3)) ∨
             (e3 = ERR_NONE ∧
               r = some (insert_update env buffer s3 (find_first_free_meta s))))))) := by
  unfold do_insert at h
  by_cases h1 : strlen img_id < MAX_IMG_ID
  · rw [if_neg (not_not.mpr h1)] at h
    by_cases h2 : s.header.num_files < s.header.max_files
    · rw [if_neg (not_not.mpr h2)] at h
      dsimp only at h
      by_cases h3 : find_first_free_meta s < s.metadata.length
      · rw [if_neg (not_not.mpr h3)] at h
        right; right; right
        refine ⟨h1, h2, h3, ?_⟩
        generalize hd : do_name_and_content_dedup
          (insert_load env buffer img_id s (find_first_free_meta s)) (find_first_free_meta s) = d at h
        obtain ⟨e2, s2⟩ := d
        refine ⟨e2, s2, rfl, ?_⟩
        dsimp only at h
        by_cases he2 : e2 = ERR_NONE
        · right
          rw [if_neg (not_not.mpr he2)] at h
          refine ⟨he2, ?_⟩
          generalize hw : insert_write buffer s2 (find_first_free_meta s) = w at h
          obtain ⟨e3, s3⟩ := w
          refine ⟨e3, s3, rfl, ?_⟩
          dsimp only at h
          by_cases he3 : e3 = ERR_NONE
          · right
            rw [if_neg (not_not.mpr he3)] at h
            exact ⟨he3, h.symm⟩
          · left
            rw [if_pos he3] at h
            exact ⟨he3, h.symm⟩
        · left
          rw [if_pos he2] at h
          exact ⟨he2, h.symm⟩
      · rw [if_pos h3] at h
        right; right; left
        exact ⟨h1, h2, h3, h.symm⟩
    · rw [if_pos h2] at h
      right; left
      exact ⟨h1, h2, h.symm⟩
  · rw [if_pos h1] at h
    left
    exact ⟨h1, h.symm⟩

/-- The stages of a successful do_insert. -/
theorem do_insert_ok (env : Env) (buffer img_id : List Nat) (s s' : imgst_file)
    (h : do_insert env buffer img_id s = some (ERR_NONE, s')) :
    strlen img_id < MAX_IMG_ID ∧ s.header.num_files < s.header.max_files ∧
    find_first_free_meta s < s.metadata.length ∧
    ∃ s2 s3, do_name_and_content_dedup
        (insert_load env buffer img_id s (find_first_free_meta s)) (find_first_free_meta s)
        = (ERR_NONE, s2) ∧
      insert_write buffer s2 (find_first_free_meta s) = (ERR_NONE, s3) ∧
      insert_update env buffer s3 (find_first_free_meta s) = (ERR_NONE, s') := by
  rcases do_insert_cases env buffer img_id s _ h with ⟨_, hr⟩ | ⟨_, _, hr⟩ | ⟨_, _, _, hr⟩ |
    ⟨h1, h2, h3, e2, s2, hd, hr⟩
  · simp at hr
  · simp at hr
  · simp at hr
  · refine ⟨h1, h2, h3, ?_⟩
    rcases hr with ⟨he2, hr⟩ | ⟨he2, e3, s3, hw, hr⟩
    · simp only [Option.some.injEq, Prod.mk.injEq] at hr
      exact absurd hr.1.symm he2
    · subst he2
      rcases hr with ⟨he3, hr⟩ | ⟨he3, hr⟩
      · simp only [Option.some.injEq, Prod.mk.injEq] at hr
        exact absurd hr.1.symm he3
      · subst he3
        simp only [Option.some.injEq] at hr
        exact ⟨s2, s3, hd, hw, hr.symm⟩


/-! ## Lemmas: do_delete -/

/-- The outcomes of the loop body of do_delete at slot i: the slot is marked
EMPTY in the mirror in every case; on success both header counters are
updated, the record is written at its offset and the header at offset 0. -/
theorem delete_at_cases (s s' : imgst_file) (i : Nat) (e : Int) (h : delete_at s i = (e, s')) :
    s'.metadata = (s.set_slot i { s.slot i with is_valid := EMPTY }).metadata ∧
    (e = ERR_NONE ∨ e = ERR_IO) ∧
    (e = ERR_NONE →
      s'.header = { s.header with
        imgst_version := (s.header.imgst_version + 1) % 2 ^ 32
        num_files := (s.header.num_files + (2 ^ 32 - 1)) % 2 ^ 32 } ∧
      s'.file.content = write_at
        (write_at s.file.content (sizeof_imgst_header + i * sizeof_img_metadata)
          (encode_metadata (s'.slot i))) 0 (encode_header s'.header)) ∧
    (e ≠ ERR_NONE → s'.header = s.header ∨
      s'.header = { s.header with
        imgst_version := (s.header.imgst_version + 1) % 2 ^ 32
        num_files := (s.header.num_files + (2 ^ 32 - 1)) % 2 ^ 32 }) := by
  unfold delete_at at h
  dsimp only at h
  split at h
  · simp only [Prod.mk.injEq] at h; obtain ⟨rfl, rfl⟩ := h
    exact ⟨rfl, Or.inr rfl, by intro hc; simp at hc, fun _ => Or.inl rfl⟩
  · next hr1 =>
    split at h
    · simp only [Prod.mk.injEq] at h; obtain ⟨rfl, rfl⟩ := h
      exact ⟨rfl, Or.inr rfl, by intro hc; simp at hc, fun _ => Or.inl rfl⟩
    · next hw1 =>
      split at h
      · simp only [Prod.mk.injEq] at h; obtain ⟨rfl, rfl⟩ := h
        exact ⟨rfl, Or.inr rfl, by intro hc; simp at hc, fun _ => Or.inr rfl⟩
      · next hr2 =>
        split at h
        · simp only [Prod.mk.injEq] at h; obtain ⟨rfl, rfl⟩ := h
          exact ⟨rfl, Or.inr rfl, by intro hc; simp at hc, fun _ => Or.inr rfl⟩
        · next hw2 =>
          simp only [Prod.mk.injEq] at h; obtain ⟨rfl, rfl⟩ := h
          refine ⟨rfl, Or.inl rfl, fun _ => ⟨rfl, ?_⟩, fun hc => absurd rfl hc⟩
          have h1 := seek_write_chain s.file _ sizeof_img_metadata
            (sizeof_imgst_header + i * sizeof_img_metadata) (encode_metadata_length _)
            (not_not.mp hr1) (not_not.mp hw1)
          have h2 := seek_write_chain _ _ sizeof_imgst_header 0 (encode_header_length _)
            (not_not.mp hr2) (not_not.mp hw2)
          exact h2.trans (congrArg (fun c => write_at c 0 (encode_header _)) h1)

theorem do_delete_loop_cases (imgID : List Nat) (s s' : imgst_file) (n i0 : Nat) (e : Int)
    (h : do_delete_loop imgID s n i0 = (e, s')) :
    (e = ERR_FILE_NOT_FOUND ∧ s' = s ∧
      ∀ j, i0 ≤ j → j < i0 + n →
        ¬ ((s.slot j).is_valid = NON_EMPTY ∧ strcmp (s.slot j).img_id imgID = 0)) ∨
    (∃ i, i0 ≤ i ∧ i < i0 + n ∧ (s.slot i).is_valid = NON_EMPTY ∧
      strcmp (s.slot i).img_id imgID = 0 ∧
      (∀ j, i0 ≤ j → j < i →
        ¬ ((s.slot j).is_valid = NON_EMPTY ∧ strcmp (s.slot j).img_id imgID = 0)) ∧
      delete_at s i = (e, s')) := by
  induction n generalizing i0 with
  | zero =>
    left
    simp only [do_delete_loop, Prod.mk.injEq] at h
    exact ⟨h.1.symm, h.2.symm, fun j h1 h2 => by omega⟩
  | succ n ih =>
    unfold do_delete_loop at h
    by_cases hm : (s.slot i0).is_valid = NON_EMPTY ∧ strcmp (s.slot i0).img_id imgID = 0
    · rw [if_pos hm] at h
      right
      exact ⟨i0, le_refl _, by omega, hm.1, hm.2, fun j h1 h2 => by omega, h⟩
    · rw [if_neg hm] at h
      rcases ih (i0 + 1) h with ⟨h1, h2, h3⟩ | ⟨i, h1, h2, h3, h4, h5, h6⟩
      · left
        refine ⟨h1, h2, ?_⟩
        intro j hj1 hj2
        by_cases hji : j = i0
        · subst hji; exact hm
        · exact h3 j (by omega) (by omega)
      · right
        refine ⟨i, by omega, by omega, h3, h4, ?_, h6⟩
        intro j hj1 hj2
        by_cases hji : j = i0
        · subst hji; exact hm
        · exact h5 j (by omega) hj2

/-- The outcomes of do_delete: ERR_FILE_NOT_FOUND with the handle untouched,
or the loop body run at the first valid slot i whose identifier is imgID. -/
theorem do_delete_cases (imgID : List Nat) (s s' : imgst_file) (e : Int)
    (h : do_delete imgID s = (e, s')) :
    (e = ERR_FILE_NOT_FOUND ∧ s' = s) ∨
    (∃ i, i < s.header.max_files ∧ s.header.num_files ≠ 0 ∧ (s.slot i).is_valid = NON_EMPTY ∧
      strcmp (s.slot i).img_id imgID = 0 ∧
      (∀ j, j < i →
        ¬ ((s.slot j).is_valid = NON_EMPTY ∧ strcmp (s.slot j).img_id imgID = 0)) ∧
      delete_at s i = (e, s')) := by
  unfold do_delete at h
  split at h
  · simp only [Prod.mk.injEq] at h
    exact Or.inl ⟨h.1.symm, h.2.symm⟩
  · next hn =>
    rcases do_delete_loop_cases imgID s s' _ 0 e h with ⟨h1, h2, _⟩ | ⟨i, _, h2, h3, h4, h5, h6⟩
    · exact Or.inl ⟨h1, h2⟩
    · right
      exact ⟨i, by omega, hn, h3, h4, fun j hj => h5 j (Nat.zero_le _) hj, h6⟩


/-! ## Lemmas: lazily_resize -/

theorem slot_set_slot_if (s : imgst_file) (i j : Nat) (m : img_metadata) :
    (s.set_slot i m).slot j = if i = j ∧ i < s.metadata.length then m else s.slot j := by
  by_cases hij : i = j
  · subst hij
    by_cases hl : i < s.metadata.length
    · simp [hl, slot_set_slot_eq _ _ _ hl]
    · simp only [hl, and_false, if_false]
      simp only [imgst_file.slot, imgst_file.set_slot]
      rw [List.set_eq_of_length_le (by omega)]
  · simp [hij, slot_set_slot_ne _ _ _ _ hij]

theorem fread_content (size nmemb : Nat) (f : FILE) :
    (fread size nmemb f).2.2.content = f.content := by
  have hc := next_fault_content f
  unfold fread
  generalize next_fault f = nf at hc
  obtain ⟨flt, f0⟩ := nf
  dsimp only at hc ⊢
  split <;> exact hc

theorem load_and_compute_image_frame (env : Env) (position : Nat) (s : imgst_file)
    (size_code : Nat) :
    (load_and_compute_image env position s size_code).2.2.header = s.header ∧
    (load_and_compute_image env position s size_code).2.2.metadata = s.metadata ∧
    (load_and_compute_image env position s size_code).2.2.file.content = s.file.content := by
  have h1 := fseek_content s.file (to_long (s.slot position).offset.orig) Whence.SEEK_SET
  have h2 := fread_content (s.slot position).size.orig 1
    (fseek s.file (to_long (s.slot position).offset.orig) Whence.SEEK_SET).2
  unfold load_and_compute_image
  dsimp only
  split
  · exact ⟨rfl, rfl, h1⟩
  · split
    · exact ⟨rfl, rfl, h2.trans h1⟩
    · split
      · exact ⟨rfl, rfl, h2.trans h1⟩
      · split
        · exact ⟨rfl, rfl, h2.trans h1⟩
        · exact ⟨rfl, rfl, h2.trans h1⟩

theorem res_table_set_orig (x : res_table) (code : Int) (v : Nat)
    (h : code = RES_THUMB ∨ code = RES_SMALL) : (x.set code v).orig = x.orig := by
  rcases h with h | h <;> subst h <;> rfl

/-- Every outcome of lazily_resize keeps the header, the number of slots and,
in every slot, everything but size and offset of the requested resolution;
the file only grows. -/
theorem lazily_resize_frame (env : Env) (size_code : Int) (s s' : imgst_file) (position : Nat)
    (e : Int) (h : lazily_resize env size_code s position = (e, s')) :
    s'.header = s.header ∧ s'.metadata.length = s.metadata.length ∧
    s.file.content.length ≤ s'.file.content.length ∧
    ∀ j, (s'.slot j).is_valid = (s.slot j).is_valid ∧ (s'.slot j).SHA = (s.slot j).SHA ∧
      (s'.slot j).img_id = (s.slot j).img_id ∧ (s'.slot j).res_orig = (s.slot j).res_orig ∧
      (s'.slot j).offset.orig = (s.slot j).offset.orig ∧
      (s'.slot j).size.orig = (s.slot j).size.orig := by
  have same : ∀ t : imgst_file, t.metadata = s.metadata →
      ∀ j, (t.slot j).is_valid = (s.slot j).is_valid ∧ (t.slot j).SHA = (s.slot j).SHA ∧
      (t.slot j).img_id = (s.slot j).img_id ∧ (t.slot j).res_orig = (s.slot j).res_orig ∧
      (t.slot j).offset.orig = (s.slot j).offset.orig ∧
      (t.slot j).size.orig = (s.slot j).size.orig := by
    intro t ht j
    simp [imgst_file.slot, ht]
  unfold lazily_resize at h
  split at h
  · simp only [Prod.mk.injEq] at h; obtain ⟨_, rfl⟩ := h
    exact ⟨rfl, rfl, le_refl _, same _ rfl⟩
  · split at h
    · simp only [Prod.mk.injEq] at h; obtain ⟨_, rfl⟩ := h
      exact ⟨rfl, rfl, le_refl _, same _ rfl⟩
    · split at h
      · simp only [Prod.mk.injEq] at h; obtain ⟨_, rfl⟩ := h
        exact ⟨rfl, rfl, le_refl _, same _ rfl⟩
      · next hcode =>
        have hcode' : size_code = RES_THUMB ∨ size_code = RES_SMALL := not_not.mp hcode
        split at h
        · simp only [Prod.mk.injEq] at h; obtain ⟨_, rfl⟩ := h
          exact ⟨rfl, rfl, le_refl _, same _ rfl⟩
        · obtain ⟨lh, lm, lc⟩ := load_and_compute_image_frame env position s size_code.toNat
          generalize load_and_compute_image env position s size_code.toNat = lci at h lh lm lc
          obtain ⟨err, out_data, s1⟩ := lci
          dsimp only at h lh lm lc
          have upd : ∀ (f : FILE) (o z : Nat) j,
              ((({ s1 with file := f } : imgst_file).set_slot position
                { s1.slot position with
                  offset := (s1.slot position).offset.set size_code o
                  size := (s1.slot position).size.set size_code z }).slot j).is_valid
                = (s.slot j).is_valid ∧
              ((({ s1 with file := f } : imgst_file).set_slot position
                { s1.slot position with
                  offset := (s1.slot position).offset.set size_code o
                  size := (s1.slot position).size.set size_code z }).slot j).SHA
                = (s.slot j).SHA ∧
              ((({ s1 with file := f } : imgst_file).set_slot position
                { s1.slot position with
                  offset := (s1.slot position).offset.set size_code o
                  size := (s1.slot position).size.set size_code z }).slot j).img_id
                = (s.slot j).img_id ∧
              ((({ s1 with file := f } : imgst_file).set_slot position
                { s1.slot position with
                  offset := (s1.slot position).offset.set size_code o
                  size := (s1.slot position).size.set size_code z }).slot j).res_orig
                = (s.slot j).res_orig ∧
              ((({ s1 with file := f } : imgst_file).set_slot position
                { s1.slot position with
                  offset := (s1.slot position).offset.set size_code o
                  size := (s1.slot position).size.set size_code z }).slot j).offset.orig
                = (s.slot j).offset.orig ∧
              ((({ s1 with file := f } : imgst_file).set_slot position
                { s1.slot position with
                  offset := (s1.slot position).offset.set size_code o
                  size := (s1.slot position).size.set size_code z }).slot j).size.orig
                = (s.slot j).size.orig := by
            intro f o z j
            have hsj : ∀ i, s1.slot i = s.slot i := by
              intro i; simp [imgst_file.slot, lm]
            rw [slot_set_slot_if]
            split
            · next hc =>
              obtain ⟨rfl, _⟩ := hc
              simp [res_table_set_orig _ _ _ hcode', hsj]
            · simp [hsj]
          have m1 : s.file.content.length ≤
              (fwrite out_data out_data.length 1 (fseek s1.file 0 Whence.SEEK_END).2).2.content.length :=
            calc s.file.content.length
                = (fseek s1.file 0 Whence.SEEK_END).2.content.length := by rw [fseek_content, lc]
              _ ≤ _ := fwrite_length_ge _ _ _ _
          have m2 : ∀ rec off, s.file.content.length ≤
              (fwrite rec sizeof_img_metadata 1 (fseek (fwrite out_data out_data.length 1
                (fseek s1.file 0 Whence.SEEK_END).2).2 off Whence.SEEK_SET).2).2.content.length := by
            intro rec off
            calc s.file.content.length
                ≤ (fwrite out_data out_data.length 1
                    (fseek s1.file 0 Whence.SEEK_END).2).2.content.length := m1
              _ = (fseek (fwrite out_data out_data.length 1
                    (fseek s1.file 0 Whence.SEEK_END).2).2 off Whence.SEEK_SET).2.content.length := by
                  rw [fseek_content]
              _ ≤ _ := fwrite_length_ge _ _ _ _
          split at h
          · simp only [Prod.mk.injEq] at h; obtain ⟨_, rfl⟩ := h
            exact ⟨lh, by rw [lm], by rw [lc], same _ lm⟩
          · split at h
            · simp only [Prod.mk.injEq] at h; obtain ⟨_, rfl⟩ := h
              refine ⟨lh, by simp [lm], ?_, same _ lm⟩
              simp only [fseek_content, lc, le_refl]
            · split at h
              · simp only [Prod.mk.injEq] at h; obtain ⟨_, rfl⟩ := h
                exact ⟨lh, by simp [lm], m1, same _ lm⟩
              · split at h
                · simp only [Prod.mk.injEq] at h; obtain ⟨_, rfl⟩ := h
                  refine ⟨lh, by simp [lm], ?_, fun j => upd _ _ _ j⟩
                  simp only [set_slot_file]
                  rw [fseek_content]; exact m1
                · split at h
                  · simp only [Prod.mk.injEq] at h; obtain ⟨_, rfl⟩ := h
                    exact ⟨lh, by simp [lm], m2 _ _, fun j => upd _ _ _ j⟩
                  · simp only [Prod.mk.injEq] at h; obtain ⟨_, rfl⟩ := h
                    exact ⟨lh, by simp [lm], m2 _ _, fun j => upd _ _ _ j⟩


/-! ## Lemmas: do_create -/

theorem create_write_loop_ok (metadata : List img_metadata) (n i : Nat) (f f' : FILE)
    (hp : f.pos = f.content.length)
    (h : create_write_loop metadata n i f = (true, f')) :
    f'.content.length = f.content.length + sizeof_img_metadata * n ∧
    f'.pos = f'.content.length ∧
    f'.content.take f.content.length = f.content := by
  induction n generalizing i f with
  | zero =>
    simp only [create_write_loop, Prod.mk.injEq, true_and] at h
    subst h
    exact ⟨by simp, hp, by simp⟩
  | succ n ih =>
    unfold create_write_loop at h
    dsimp only at h
    split at h
    · simp at h
    · next hw =>
      obtain ⟨hc, hpos, _⟩ := fwrite_one_ok' _ _ _ (encode_metadata_length _) (not_not.mp hw)
      rw [hp, write_at_end] at hc
      have hp' : (fwrite (encode_metadata (metadata.getD i default)) sizeof_img_metadata 1 f).2.pos
          = (fwrite (encode_metadata (metadata.getD i default)) sizeof_img_metadata 1
              f).2.content.length := by
        rw [hpos, hc, hp]; simp
      obtain ⟨h1, h2, h3⟩ := ih (i + 1) _ hp' h
      rw [hc] at h1 h3
      simp only [List.length_append, encode_metadata_length] at h1 h3
      refine ⟨by rw [h1]; ring, h2, ?_⟩
      have e1 : f'.content.take f.content.length
          = (f'.content.take (f.content.length + sizeof_img_metadata)).take f.content.length := by
        rw [List.take_take]; congr 1; omega
      rw [e1, h3, List.take_append_of_le_length (le_refl _), List.take_length]

/-- The handle and the file after a successful do_create. -/
theorem do_create_ok (faults : List (Option Nat)) (t s : imgst_file)
    (h : do_create faults t = (ERR_NONE, s)) :
    s.header = { t.header with
      imgst_name := (strncpy (fix_len (MAX_IMGST_NAME + 1) t.header.imgst_name) CAT_TXT
        MAX_IMGST_NAME).set MAX_IMGST_NAME 0
      unused_32 := 0, unused_64 := 0, imgst_version := 0, num_files := 0 } ∧
    s.metadata = List.replicate t.header.max_files img_metadata.zero ∧
    s.file.content.length = sizeof_imgst_header + sizeof_img_metadata * t.header.max_files ∧
    s.file.content.take sizeof_imgst_header = encode_header s.header := by
  unfold do_create at h
  dsimp only at h
  split at h
  · simp at h
  · next file hfo =>
    have hfile : file.content = [] ∧ file.pos = 0 := by
      unfold fopen at hfo
      simp only [String.toList] at hfo
      split at hfo
      · simp at hfo
      · simp at hfo
        obtain ⟨_, rfl⟩ := hfo
        exact ⟨rfl, rfl⟩
    split at h
    · simp at h
    · next hw =>
      have hw' := not_not.mp hw
      obtain ⟨hc, hpos, _⟩ := fwrite_one_ok' _ _ _ (encode_header_length _) hw'
      rw [hfile.1, hfile.2] at hc
      rw [hfile.2] at hpos
      have hc' := hc.trans (write_at_end [] _)
      split at h
      · simp at h
      · next hok =>
        simp only [Prod.mk.injEq, true_and] at h
        subst h
        refine ⟨rfl, rfl, ?_, ?_⟩
        · obtain ⟨h1, _, _⟩ := create_write_loop_ok _ _ _ _ _ (by rw [hpos, hc']; simp)
            (Prod.ext (by simpa using hok) rfl)
          dsimp only
          rw [h1, hc']
          simp
        · obtain ⟨_, _, h3⟩ := create_write_loop_ok _ _ _ _ _ (by rw [hpos, hc']; simp)
            (Prod.ext (by simpa using hok) rfl)
          rw [hc'] at h3
          simp only [List.nil_append, encode_header_length] at h3
          exact h3


/-! ## Lemmas: the effect of a successful do_insert -/

theorem insert_load_slot_eq (env : Env) (buffer img_id : List Nat) (s : imgst_file) (k : Nat)
    (hk : k < s.metadata.length) :
    (insert_load env buffer img_id s k).slot k =
      { s.slot k with
        SHA := env.SHA256 buffer
        img_id := strncpy (s.slot k).img_id img_id MAX_IMG_ID
        size := { (s.slot k).size with orig := buffer.length % 2 ^ 32 }
        is_valid := NON_EMPTY } := by
  unfold insert_load
  exact slot_set_slot_eq _ _ _ hk

theorem insert_load_slot_ne (env : Env) (buffer img_id : List Nat) (s : imgst_file) (k j : Nat)
    (hj : j ≠ k) : (insert_load env buffer img_id s k).slot j = s.slot j := by
  unfold insert_load
  exact slot_set_slot_ne _ _ _ _ (Ne.symm hj)

/-- The slot a successful do_insert fills, the slots it keeps, the header it
leaves, and the bytes it leaves in the file, in each of its three courses:
no valid slot holds the content (the buffer is appended); a valid slot c
holds it with a nonzero offset[RES_ORIG] (nothing is appended); a valid slot
c holds it with offset[RES_ORIG] = 0 (the buffer is appended). -/
theorem do_insert_ok_effect (env : Env) (buffer img_id : List Nat) (s s' : imgst_file) (k : Nat)
    (hkdef : find_first_free_meta s = k)
    (h : do_insert env buffer img_id s = some (ERR_NONE, s')) :
    strlen img_id < MAX_IMG_ID ∧ s.header.num_files < s.header.max_files ∧
    k < s.metadata.length ∧ k < s.header.max_files ∧
    s'.metadata.length = s.metadata.length ∧
    s'.header = { s.header with
      num_files := (s.header.num_files + 1) % 2 ^ 32
      imgst_version := (s.header.imgst_version + 1) % 2 ^ 32 } ∧
    (∀ j, j ≠ k → s'.slot j = s.slot j) ∧
    (s'.slot k).is_valid = NON_EMPTY ∧
    (s'.slot k).SHA = env.SHA256 buffer ∧
    (s'.slot k).img_id = strncpy (s.slot k).img_id img_id MAX_IMG_ID ∧
    (∃ width height, env.vips_jpegload_buffer buffer = some (width, height) ∧
      (s'.slot k).res_orig = (width % 2 ^ 32, height % 2 ^ 32)) ∧
    ((no_match_below s k s.header.max_files (strncpy (s.slot k).img_id img_id MAX_IMG_ID)
          (env.SHA256 buffer) ∧
        (s'.slot k).size = ⟨0, 0, buffer.length % 2 ^ 32⟩ ∧
        (s'.slot k).offset = ⟨0, 0, s.file.content.length⟩ ∧
        (s'.slot k).unused_16 = 0 ∧
        s'.file.content = flushed (s.file.content ++ buffer) s' k) ∨
     (∃ c, c < s.header.max_files ∧ c ≠ k ∧ (s.slot c).is_valid = NON_EMPTY ∧
        are_equal (s.slot c).SHA (env.SHA256 buffer) = true ∧
        no_match_below s k c (strncpy (s.slot k).img_id img_id MAX_IMG_ID) (env.SHA256 buffer) ∧
        (((s.slot c).offset.orig ≠ 0 ∧
          (s'.slot k).size = (s.slot c).size ∧
          (s'.slot k).offset = (s.slot c).offset ∧
          (s'.slot k).unused_16 = (s.slot c).unused_16 ∧
          s'.file.content = flushed s.file.content s' k) ∨
         ((s.slot c).offset.orig = 0 ∧
          (s'.slot k).size = ⟨0, 0, (s.slot c).size.orig⟩ ∧
          (s'.slot k).offset = ⟨0, 0, s.file.content.length⟩ ∧
          (s'.slot k).unused_16 = 0 ∧
          s'.file.content = flushed (s.file.content ++ buffer) s' k)))) := by
  obtain ⟨h1, h2, hk, s2, s3, hd, hw, hu⟩ := do_insert_ok env buffer img_id s s' h
  rw [hkdef] at hk hd hw hu
  have hk1 : k < (insert_load env buffer img_id s k).metadata.length := by
    simpa [insert_load] using hk
  obtain ⟨df1, df2, df3, df4⟩ := dedup_frame _ _ _ _ hd
  obtain ⟨hkmax, dcase⟩ := dedup_ok _ _ _ hk1 hd
  have hkmax' : k < s.header.max_files := by simpa [insert_load] using hkmax
  have hk2 : k < s2.metadata.length := by rw [df3]; exact hk1
  obtain ⟨wf1, wf2, wf3, _, _⟩ := insert_write_frame _ _ _ _ _ hw
  have hk3 : k < s3.metadata.length := by rw [wf2]; exact hk2
  have wcase := insert_write_ok _ _ _ _ hk2 hw
  have ucase := insert_update_cases _ _ _ _ _ _ hu
  rcases ucase with ⟨hc, _⟩ | ⟨width, height, hload, uh, um, _, ufile⟩
  · simp at hc
  have ufile := ufile rfl
  have hs2file : s2.file.content = s.file.content := by rw [df1]; rfl
  have hs2hdr : s2.header = s.header := by rw [df2]; rfl
  have hs3hdr : s3.header = s.header := by rw [wf1, hs2hdr]
  have uslot : ∀ j, s'.slot j = (s3.set_slot k
      { s3.slot k with res_orig := (width % 2 ^ 32, height % 2 ^ 32) }).slot j := by
    intro j; simp [imgst_file.slot, um]
  have uk : s'.slot k = { s3.slot k with res_orig := (width % 2 ^ 32, height % 2 ^ 32) } := by
    rw [uslot, slot_set_slot_eq _ _ _ hk3]
  have l1k := insert_load_slot_eq env buffer img_id s k hk
  have l1ne : ∀ j, j ≠ k → (insert_load env buffer img_id s k).slot j = s.slot j :=
    fun j hj => insert_load_slot_ne env buffer img_id s k j hj
  have hlen : s'.metadata.length = s.metadata.length := by
    rw [um]; simp only [set_slot_length]; rw [wf2, df3]; simp [insert_load]
  have hhdr : s'.header = { s.header with
      num_files := (s.header.num_files + 1) % 2 ^ 32
      imgst_version := (s.header.imgst_version + 1) % 2 ^ 32 } := by
    rw [uh, hs3hdr]
  have hframe : ∀ j, j ≠ k → s'.slot j = s.slot j := by
    intro j hj
    rw [uslot, slot_set_slot_ne _ _ _ _ (Ne.symm hj), wf3 j hj, df4 j hj, l1ne j hj]
  have hmaxl : (insert_load env buffer img_id s k).header.max_files = s.header.max_files := rfl
  have nm : ∀ n, (∀ j, j < n → ((insert_load env buffer img_id s k).slot j).is_valid = NON_EMPTY →
      j ≠ k →
      strncmp ((insert_load env buffer img_id s k).slot j).img_id
        ((insert_load env buffer img_id s k).slot k).img_id MAX_IMG_ID ≠ 0 ∧
      are_equal ((insert_load env buffer img_id s k).slot j).SHA
        ((insert_load env buffer img_id s k).slot k).SHA = false) →
      no_match_below s k n (strncpy (s.slot k).img_id img_id MAX_IMG_ID) (env.SHA256 buffer) := by
    intro n hn j hj hv hne
    have := hn j hj (by rw [l1ne j hne]; exact hv) hne
    rw [l1ne j hne, l1k] at this
    exact this
  refine ⟨h1, h2, hk, hkmax', hlen, hhdr, hframe, ?_, ?_, ?_, ⟨width, height, hload, ?_⟩, ?_⟩
  · rw [uk]
    rcases wcase with ⟨_, rfl⟩ | ⟨_, w2, _⟩ <;> rcases dcase with ⟨d1, _⟩ | ⟨c, _, _, _, _, d1, _⟩
    · simp [d1, l1k]
    · simp [d1, l1k, copy_attributes]
    · simp [w2, d1, l1k, complete_init]
    · simp [w2, d1, l1k, complete_init, copy_attributes]
  · rw [uk]
    rcases wcase with ⟨_, rfl⟩ | ⟨_, w2, _⟩ <;> rcases dcase with ⟨d1, _⟩ | ⟨c, _, _, _, _, d1, _⟩
    · simp [d1, l1k]
    · simp [d1, l1k, copy_attributes]
    · simp [w2, d1, l1k, complete_init]
    · simp [w2, d1, l1k, complete_init, copy_attributes]
  · rw [uk]
    rcases wcase with ⟨_, rfl⟩ | ⟨_, w2, _⟩ <;> rcases dcase with ⟨d1, _⟩ | ⟨c, _, _, _, _, d1, _⟩
    · simp [d1, l1k]
    · simp [d1, l1k, copy_attributes]
    · simp [w2, d1, l1k, complete_init]
    · simp [w2, d1, l1k, complete_init, copy_attributes]
  · rw [uk]
  · rcases dcase with ⟨d1, d2⟩ | ⟨c, dc1, dc2, dc3, dc4, d1, d2⟩
    · left
      rcases wcase with ⟨w1, _⟩ | ⟨_, w2, w3⟩
      · exfalso; apply w1; rw [d1]
      · refine ⟨nm _ (by rw [hmaxl] at d2; exact d2), ?_, ?_, ?_, ?_⟩
        · rw [uk]; simp [w2, d1, l1k, complete_init]
        · rw [uk]; simp [w2, d1, l1k, complete_init, hs2file]
        · rw [uk]; simp [w2, d1, l1k, complete_init]
        · rw [ufile, w3, hs2file]; rfl
    · right
      have hcs : (insert_load env buffer img_id s k).slot c = s.slot c := l1ne c dc3
      rw [hcs] at dc2 dc4 d1
      rw [l1k] at dc4 d1
      refine ⟨c, dc1, dc3, dc2, dc4, nm _ d2, ?_⟩
      rcases wcase with ⟨w1, rfl⟩ | ⟨w1, w2, w3⟩
      · left
        rw [d1] at w1
        refine ⟨by simpa [copy_attributes] using w1, ?_, ?_, ?_, ?_⟩
        · rw [uk]; simp [d1, copy_attributes]
        · rw [uk]; simp [d1, copy_attributes]
        · rw [uk]; simp [d1, copy_attributes]
        · rw [ufile, hs2file]; rfl
      · right
        rw [d1] at w1
        refine ⟨by simpa [copy_attributes] using w1, ?_, ?_, ?_, ?_⟩
        · rw [uk]; simp [w2, d1, complete_init, copy_attributes]
        · rw [uk]; simp [w2, d1, complete_init, copy_attributes, hs2file]
        · rw [uk]; simp [w2, d1, complete_init, copy_attributes]
        · rw [ufile, w3, hs2file]; rfl


/-! ## Lemmas: counting valid slots -/

theorem slot_eq_getElem (s : imgst_file) (j : Nat) (h : j < s.metadata.length) :
    s.slot j = s.metadata[j] := by
  simp [imgst_file.slot, h]

theorem metadata_eq_set (s s' : imgst_file) (k : Nat)
    (hlen : s'.metadata.length = s.metadata.length)
    (hfr : ∀ j, j ≠ k → s'.slot j = s.slot j) :
    s'.metadata = s.metadata.set k (s'.slot k) := by
  apply List.ext_getElem
  · simp [hlen]
  · intro j h1 h2
    by_cases hjk : j = k
    · subst hjk
      rw [List.getElem_set_self]
      exact (slot_eq_getElem s' j h1).symm
    · rw [List.getElem_set_ne (Ne.symm hjk)]
      have := hfr j hjk
      rw [slot_eq_getElem s' j h1, slot_eq_getElem s j (by rw [← hlen]; exact h1)] at this
      exact this

theorem metadata_eq_of_slots (s s' : imgst_file)
    (hlen : s'.metadata.length = s.metadata.length)
    (hfr : ∀ j, s'.slot j = s.slot j) : s'.metadata = s.metadata := by
  apply List.ext_getElem hlen
  intro j h1 h2
  have := hfr j
  rw [slot_eq_getElem s' j h1, slot_eq_getElem s j h2] at this
  exact this

theorem valid_count_le (s : imgst_file) : valid_count s ≤ s.metadata.length :=
  List.countP_le_length _

theorem valid_count_set (s : imgst_file) (k : Nat) (m : img_metadata)
    (hk : k < s.metadata.length) :
    valid_count (s.set_slot k m) =
      valid_count s - (if (s.slot k).is_valid = NON_EMPTY then 1 else 0)
        + (if m.is_valid = NON_EMPTY then 1 else 0) := by
  unfold valid_count imgst_file.set_slot
  simp only
  rw [List.countP_set _ _ _ _ hk, slot_eq_getElem s k hk]
  simp

theorem valid_count_pos_of_valid (s : imgst_file) (k : Nat)
    (hv : (s.slot k).is_valid = NON_EMPTY) : 0 < valid_count s := by
  unfold valid_count
  rw [List.countP_pos_iff]
  by_cases hk : k < s.metadata.length
  · exact ⟨s.metadata[k], List.getElem_mem _, by
      rw [← slot_eq_getElem s k hk]; simp [hv]⟩
  · rw [slot_of_length_le s k (by omega)] at hv
    simp [img_metadata.zero] at hv

theorem valid_count_congr (s s' : imgst_file) (hm : s'.metadata = s.metadata) :
    valid_count s' = valid_count s := by
  unfold valid_count; rw [hm]

theorem valid_count_of_is_valid (s s' : imgst_file)
    (hlen : s'.metadata.length = s.metadata.length)
    (hv : ∀ j, (s'.slot j).is_valid = (s.slot j).is_valid) :
    valid_count s' = valid_count s := by
  unfold valid_count
  have e : ∀ l : List img_metadata, l.countP (fun m => m.is_valid == NON_EMPTY)
      = (l.map (fun m => m.is_valid)).countP (fun v => v == NON_EMPTY) := by
    intro l; rw [List.countP_map]; rfl
  rw [e, e]
  congr 1
  apply List.ext_getElem
  · simp [hlen]
  · intro j h1 h2
    simp only [List.length_map] at h1 h2
    simp only [List.getElem_map]
    have := hv j
    rw [slot_eq_getElem s' j h1, slot_eq_getElem s j h2] at this
    exact this

/-- The index find_first_free_meta returns, when it is a slot index of a
store of fewer than 2^32 slots, is the lowest index of an EMPTY slot. -/
theorem find_first_free_meta_lowest (s : imgst_file) (hmax : s.header.max_files < 2 ^ 32)
    (hk : find_first_free_meta s < s.header.max_files) :
    (s.slot (find_first_free_meta s)).is_valid = EMPTY ∧
    ∀ j, j < find_first_free_meta s → (s.slot j).is_valid ≠ EMPTY := by
  unfold find_first_free_meta at hk ⊢
  rcases find_first_free_meta_loop_spec s s.header.max_files 0 with ⟨h1, _⟩ | ⟨_, _, h3, h4⟩
  · omega
  · exact ⟨h3, fun j hj => h4 j (Nat.zero_le _) hj⟩

/-! ## Lemmas: the invariant "num_files counts the valid slots" -/

theorem count_inv_create (faults : List (Option Nat)) (t s : imgst_file)
    (hmax : t.header.max_files < 2 ^ 32) (h : do_create faults t = (ERR_NONE, s)) :
    wf s ∧ s.header.num_files = 0 ∧ valid_count s = 0 := by
  obtain ⟨hh, hm, _, _⟩ := do_create_ok faults t s h
  refine ⟨⟨?_, ?_⟩, ?_, ?_⟩
  · rw [hm, hh]; simp
  · rw [hh]; exact hmax
  · rw [hh]
  · unfold valid_count
    rw [hm, List.countP_eq_zero]
    intro a ha
    rw [List.eq_of_mem_replicate ha]
    simp [img_metadata.zero]

theorem count_inv_insert (env : Env) (buffer img_id : List Nat) (s s' : imgst_file)
    (hwf : wf s) (h : do_insert env buffer img_id s = some (ERR_NONE, s')) :
    wf s' ∧ s'.header.num_files = s.header.num_files + 1 ∧
    valid_count s' = valid_count s + 1 := by
  obtain ⟨_, hnf, hk, hkm, hlen, hh, hfr, hv, _⟩ :=
    do_insert_ok_effect env buffer img_id s s' _ rfl h
  obtain ⟨hempty, _⟩ := find_first_free_meta_lowest s hwf.2 hkm
  refine ⟨⟨?_, ?_⟩, ?_, ?_⟩
  · rw [hlen, hh]; exact hwf.1
  · rw [hh]; exact hwf.2
  · rw [hh]; simp only
    have := hwf.2
    rw [Nat.mod_eq_of_lt (by omega)]
  · have hm := metadata_eq_set s s' _ hlen hfr
    have : valid_count s' = valid_count (s.set_slot (find_first_free_meta s)
        (s'.slot (find_first_free_meta s))) := valid_count_congr _ _ hm
    rw [this, valid_count_set _ _ _ hk, hempty, hv]
    simp

theorem count_inv_delete (imgID : List Nat) (s s' : imgst_file) (hwf : wf s)
    (hc : s.header.num_files = valid_count s) (h : do_delete imgID s = (ERR_NONE, s')) :
    wf s' ∧ s'.header.num_files = valid_count s' := by
  rcases do_delete_cases imgID s s' _ h with ⟨he, _⟩ | ⟨i, hi, hn, hv, _, _, hd⟩
  · simp at he
  · obtain ⟨hm, _, hok, _⟩ := delete_at_cases s s' i _ hd
    obtain ⟨hh, _⟩ := hok rfl
    have hil : i < s.metadata.length := by rw [hwf.1]; exact hi
    have hvc : valid_count s' = valid_count s - 1 := by
      rw [valid_count_congr _ _ hm, valid_count_set _ _ _ hil, hv]
      simp
    have hle := valid_count_le s
    have h1 := hwf.1
    have h2 := hwf.2
    refine ⟨⟨?_, ?_⟩, ?_⟩
    · rw [hm, hh]; simpa using hwf.1
    · rw [hh]; exact hwf.2
    · rw [hvc, hh]; simp only
      omega

theorem count_inv_resize (env : Env) (size_code : Int) (position : Nat) (s s' : imgst_file)
    (e : Int) (hwf : wf s) (h : lazily_resize env size_code s position = (e, s')) :
    wf s' ∧ s'.header.num_files = s.header.num_files ∧ valid_count s' = valid_count s := by
  obtain ⟨hh, hlen, _, hsl⟩ := lazily_resize_frame env size_code s s' position e h
  refine ⟨⟨?_, ?_⟩, ?_, ?_⟩
  · rw [hlen, hh]; exact hwf.1
  · rw [hh]; exact hwf.2
  · rw [hh]
  · exact valid_count_of_is_valid s s' hlen (fun j => (hsl j).1)

theorem count_inv_reachable (env : Env) (s : imgst_file) (hs : Reachable env s) :
    wf s ∧ s.header.num_files = valid_count s := by
  induction hs with
  | create faults t s hmax h =>
    obtain ⟨h1, h2, h3⟩ := count_inv_create faults t s hmax h
    exact ⟨h1, by rw [h2, h3]⟩
  | insert buffer img_id s s' _ h ih =>
    obtain ⟨h1, h2, h3⟩ := count_inv_insert env buffer img_id s s' ih.1 h
    exact ⟨h1, by rw [h2, h3, ih.2]⟩
  | delete imgID s s' _ h ih => exact count_inv_delete imgID s s' ih.1 ih.2 h
  | resize size_code position s s' _ h ih =>
    obtain ⟨h1, h2, h3⟩ := count_inv_resize env size_code position s s' _ ih.1 h
    exact ⟨h1, by rw [h2, h3, ih.2]⟩

/-! ## Lemmas: the sharing invariant -/

theorem flushed_length_ge (content : List Nat) (s : imgst_file) (k : Nat) :
    content.length ≤ (flushed content s k).length := by
  unfold flushed
  exact le_trans (write_at_length_ge _ _ _) (write_at_length_ge _ _ _)

theorem flushed_length (content : List Nat) (s : imgst_file) (k : Nat)
    (h : sizeof_imgst_header + sizeof_img_metadata * (k + 1) ≤ content.length) :
    (flushed content s k).length = content.length := by
  unfold flushed
  simp only [sizeof_imgst_header, sizeof_img_metadata] at h
  have h1 : (write_at content 0 (encode_header s.header)).length = content.length :=
    write_at_length_inside _ _ _ (by
      rw [encode_header_length]; simp only [sizeof_imgst_header]; omega)
  rw [write_at_length_inside _ _ _ (by
    rw [encode_metadata_length, h1]; simp only [sizeof_imgst_header, sizeof_img_metadata]; omega), h1]

theorem flushed_drop (content : List Nat) (s : imgst_file) (k q : Nat)
    (h : sizeof_imgst_header + sizeof_img_metadata * (k + 1) ≤ q) :
    (flushed content s k).drop q = content.drop q := by
  unfold flushed
  simp only [sizeof_imgst_header, sizeof_img_metadata] at h
  rw [write_at_drop _ _ _ _ (by
      rw [encode_metadata_length]; simp only [sizeof_imgst_header, sizeof_img_metadata]; omega),
    write_at_drop _ _ _ _ (by
      rw [encode_header_length]; simp only [sizeof_imgst_header]; omega)]

theorem valid_lt_length (s : imgst_file) (j : Nat) (hv : (s.slot j).is_valid = NON_EMPTY) :
    j < s.metadata.length := by
  by_contra hc
  rw [slot_of_length_le s j (by omega)] at hv
  simp [img_metadata.zero] at hv

theorem share_inv_create (faults : List (Option Nat)) (t s : imgst_file)
    (h : do_create faults t = (ERR_NONE, s)) : share_inv s := by
  obtain ⟨hh, hm, hl, _⟩ := do_create_ok faults t s h
  have nov : ∀ i, (s.slot i).is_valid ≠ NON_EMPTY := by
    intro i
    unfold imgst_file.slot
    rw [hm]
    by_cases hi : i < t.header.max_files
    · simp [List.getD, hi, img_metadata.zero]
    · rw [List.getD_eq_default _ _ (by simp; omega)]
      simp [default, img_metadata.zero]
  refine ⟨?_, ?_, ?_, ?_⟩
  · rw [hm, hh]; simp
  · rw [hl]; simp
  · intro i hv; exact absurd hv (nov i)
  · intro i j hv; exact absurd hv (nov i)

theorem share_inv_insert (env : Env) (buffer img_id : List Nat) (s s' : imgst_file)
    (hinv : share_inv s) (h : do_insert env buffer img_id s = some (ERR_NONE, s')) :
    share_inv s' := by
  obtain ⟨i1, i2, i3, i4⟩ := hinv
  obtain ⟨_, _, hk, hkm, hlen, hh, hfr, hv, hsha, _, _, course⟩ :=
    do_insert_ok_effect env buffer img_id s s' _ rfl h
  generalize find_first_free_meta s = k at *
  have hmax : s'.header.max_files = s.header.max_files := by rw [hh]
  have hlen' : 0 < s'.file.content.length := by
    rcases course with ⟨_, _, _, _, hc⟩ | ⟨c, _, _, _, _, _, ⟨_, _, _, _, hc⟩ | ⟨_, _, _, _, hc⟩⟩
    · rw [hc]
      exact lt_of_lt_of_le (by simp; omega) (flushed_length_ge _ _ _)
    · rw [hc]
      exact lt_of_lt_of_le i2 (flushed_length_ge _ _ _)
    · rw [hc]
      exact lt_of_lt_of_le (by simp; omega) (flushed_length_ge _ _ _)
  -- the facts about the new slot, in the two courses a state with the invariant allows
  have key : (s'.slot k).offset.orig ≠ 0 ∧
      ∀ j, j ≠ k → (s.slot j).is_valid = NON_EMPTY →
        (are_equal (s'.slot k).SHA (s.slot j).SHA = true ∨
          are_equal (s.slot j).SHA (s'.slot k).SHA = true) →
        (s'.slot k).offset.orig = (s.slot j).offset.orig ∧
        (s'.slot k).size.orig = (s.slot j).size.orig := by
    rcases course with ⟨nm, _, ho, _, _⟩ |
      ⟨c, hc1, hc2, hc3, hc4, _, ⟨hc5, hsz, hof, _, _⟩ | ⟨hc5, _⟩⟩
    · refine ⟨by rw [ho]; show s.file.content.length ≠ 0; omega, ?_⟩
      intro j hj hvj he
      exfalso
      have hjl := valid_lt_length s j hvj
      have := (nm j (by rw [← i1]; exact hjl) hvj hj).2
      rw [hsha] at he
      rcases he with he | he
      · rw [are_equal_symm] at he; rw [he] at this; simp at this
      · rw [he] at this; simp at this
    · refine ⟨by rw [hof]; exact hc5, ?_⟩
      intro j hj hvj he
      have hcj : are_equal (s.slot c).SHA (s.slot j).SHA = true := by
        rw [hsha] at he
        rcases he with he | he
        · exact are_equal_trans _ _ _ hc4 he
        · rw [are_equal_symm] at he
          exact are_equal_trans _ _ _ hc4 he
      have := i4 c j hc3 hvj hcj
      rw [hof, hsz]
      exact this
    · exact absurd hc5 (i3 c hc3)
  refine ⟨by rw [hlen, hmax]; exact i1, hlen', ?_, ?_⟩
  · intro i hvi
    by_cases hik : i = k
    · subst hik; exact key.1
    · rw [hfr i hik] at hvi ⊢
      exact i3 i hvi
  · intro i j hvi hvj he
    by_cases hik : i = k <;> by_cases hjk : j = k
    · subst hik; subst hjk; exact ⟨rfl, rfl⟩
    · subst hik
      rw [hfr j hjk] at hvj he ⊢
      exact key.2 j hjk hvj (Or.inl he)
    · subst hjk
      rw [hfr i hik] at hvi he ⊢
      obtain ⟨a, b⟩ := key.2 i hik hvi (Or.inr he)
      exact ⟨a.symm, b.symm⟩
    · rw [hfr i hik] at hvi he ⊢
      rw [hfr j hjk] at hvj he ⊢
      exact i4 i j hvi hvj he

theorem share_inv_delete (imgID : List Nat) (s s' : imgst_file)
    (hinv : share_inv s) (h : do_delete imgID s = (ERR_NONE, s')) : share_inv s' := by
  obtain ⟨i1, i2, i3, i4⟩ := hinv
  rcases do_delete_cases imgID s s' _ h with ⟨he, _⟩ | ⟨i, hi, hn, hv, _, _, hd⟩
  · simp at he
  · obtain ⟨hm, _, hok, _⟩ := delete_at_cases s s' i _ hd
    obtain ⟨hh, hc⟩ := hok rfl
    have hsl : ∀ j, s'.slot j = (s.set_slot i { s.slot i with is_valid := EMPTY }).slot j := by
      intro j; simp [imgst_file.slot, hm]
    have hsv : ∀ j, (s'.slot j).is_valid = NON_EMPTY →
        s'.slot j = s.slot j := by
      intro j hvj
      rw [hsl, slot_set_slot_if] at hvj ⊢
      split at hvj
      · simp at hvj
      · next hne => rw [if_neg hne]
    refine ⟨?_, ?_, ?_, ?_⟩
    · rw [hm, hh]; simpa using i1
    · rw [hc]
      exact lt_of_lt_of_le i2 (le_trans (write_at_length_ge _ _ _) (write_at_length_ge _ _ _))
    · intro j hvj
      have := hsv j hvj
      rw [this] at hvj ⊢
      exact i3 j hvj
    · intro a b hva hvb he
      have ea := hsv a hva
      have eb := hsv b hvb
      rw [ea] at hva he ⊢
      rw [eb] at hvb he ⊢
      exact i4 a b hva hvb he

theorem share_inv_resize (env : Env) (size_code : Int) (position : Nat) (s s' : imgst_file)
    (e : Int) (hinv : share_inv s) (h : lazily_resize env size_code s position = (e, s')) :
    share_inv s' := by
  obtain ⟨i1, i2, i3, i4⟩ := hinv
  obtain ⟨hh, hlen, hge, hsl⟩ := lazily_resize_frame env size_code s s' position e h
  refine ⟨by rw [hlen, hh]; exact i1, lt_of_lt_of_le i2 hge, ?_, ?_⟩
  · intro i hv
    obtain ⟨a, _, _, _, b, _⟩ := hsl i
    rw [a] at hv; rw [b]
    exact i3 i hv
  · intro i j hvi hvj he
    obtain ⟨a1, a2, _, _, a5, a6⟩ := hsl i
    obtain ⟨b1, b2, _, _, b5, b6⟩ := hsl j
    rw [a1] at hvi; rw [b1] at hvj; rw [a2, b2] at he
    rw [a5, a6, b5, b6]
    exact i4 i j hvi hvj he

theorem share_inv_reachable (env : Env) (s : imgst_file) (hs : Reachable env s) :
    share_inv s := by
  induction hs with
  | create faults t s _ h => exact share_inv_create faults t s h
  | insert buffer img_id s s' _ h ih => exact share_inv_insert env buffer img_id s s' ih h
  | delete imgID s s' _ h ih => exact share_inv_delete imgID s s' ih h
  | resize size_code position s s' _ h ih =>
    exact share_inv_resize env size_code position s s' _ ih h


/-! ## Lemmas: calls that succeed -/

theorem fseek_no_fault (f : FILE) (off : Int) (w : Whence) (hf : f.faults = [])
    (h : 0 ≤ seek_base f w + off) :
    fseek f off w = (0, { f with pos := (seek_base f w + off).toNat }) := by
  have hn : next_fault f = (none, f) := by unfold next_fault; rw [hf]
  unfold fseek
  rw [hn]
  simp only
  rw [if_neg (by omega)]

theorem fwrite_no_fault (ptr : List Nat) (size nmemb : Nat) (f : FILE) (hf : f.faults = [])
    (hw : f.can_write = true) :
    fwrite ptr size nmemb f = ((ptr.take (size * nmemb)).length / size,
      { f with
        content := write_at f.content f.pos (ptr.take (size * nmemb))
        pos := f.pos + (ptr.take (size * nmemb)).length }) := by
  have hn : next_fault f = (none, f) := by unfold next_fault; rw [hf]
  unfold fwrite
  rw [hn]
  simp only [hw]
  rfl

theorem fwrite_one_no_fault (rec : List Nat) (size : Nat) (f : FILE) (hlen : rec.length = size)
    (hpos : 0 < size) (hf : f.faults = []) (hw : f.can_write = true) :
    fwrite rec size 1 f = (1, { f with
        content := write_at f.content f.pos rec
        pos := f.pos + size }) := by
  rw [fwrite_no_fault _ _ _ _ hf hw]
  have : rec.take (size * 1) = rec := by rw [Nat.mul_one, ← hlen, List.take_length]
  rw [this, hlen, Nat.div_self hpos]

theorem fwrite_bytes_no_fault (buffer : List Nat) (f : FILE) (hf : f.faults = [])
    (hw : f.can_write = true) :
    fwrite buffer 1 buffer.length f = (buffer.length, { f with
        content := write_at f.content f.pos buffer
        pos := f.pos + buffer.length }) := by
  rw [fwrite_no_fault _ _ _ _ hf hw]
  have : buffer.take (1 * buffer.length) = buffer := by rw [Nat.one_mul, List.take_length]
  rw [this, Nat.div_one]

/-- On a writable stream with no failure scheduled, insert_write returns
ERR_NONE. -/
theorem insert_write_succeeds (buffer : List Nat) (s : imgst_file) (k : Nat)
    (hf : s.file.faults = []) (hw : s.file.can_write = true) :
    ∃ s3, insert_write buffer s k = (ERR_NONE, s3) ∧ s3.file.faults = [] ∧
      s3.file.can_write = true := by
  unfold insert_write
  split
  · dsimp only
    rw [set_slot_file, fseek_no_fault _ _ _ hf (by simp [seek_base])]
    rw [if_neg (not_not.mpr rfl)]
    rw [fwrite_bytes_no_fault _ _ (by simp [hf]) (by simp [hw])]
    rw [if_neg (not_not.mpr rfl)]
    exact ⟨_, rfl, hf, hw⟩
  · exact ⟨s, rfl, hf, hw⟩

/-- On a writable stream with no failure scheduled and with a buffer that
decodes, insert_update returns ERR_NONE. -/
theorem insert_update_succeeds (env : Env) (buffer : List Nat) (s : imgst_file) (k : Nat)
    (hdec : env.vips_jpegload_buffer buffer ≠ none)
    (hf : s.file.faults = []) (hw : s.file.can_write = true) :
    ∃ s', insert_update env buffer s k = (ERR_NONE, s') := by
  unfold insert_update get_resolution
  cases hl : env.vips_jpegload_buffer buffer with
  | none => exact absurd hl hdec
  | some wh =>
    obtain ⟨width, height⟩ := wh
    dsimp only
    rw [if_neg (by simp)]
    rw [set_slot_file, fseek_no_fault _ _ _ hf (by simp [seek_base])]
    rw [if_neg (not_not.mpr rfl)]
    rw [fwrite_one_no_fault _ _ _ (encode_header_length _) (by decide) (by simp [hf])
      (by simp [hw])]
    rw [if_neg (not_not.mpr rfl)]
    rw [fseek_no_fault _ _ _ (by simp [hf]) (by simp [seek_base]; omega)]
    rw [if_neg (not_not.mpr rfl)]
    rw [fwrite_one_no_fault _ _ _ (encode_metadata_length _) (by decide) (by simp [hf])
      (by simp [hw])]
    rw [if_neg (not_not.mpr rfl)]
    exact ⟨_, rfl⟩

/-- The conditions under which do_insert returns ERR_NONE: an identifier
shorter than MAX_IMG_ID, a store with room whose first free slot k is a slot
of the mirror, no valid slot other than k holding the identifier, a buffer
that decodes, and a writable stream with no failure scheduled. -/
theorem do_insert_succeeds (env : Env) (buffer img_id : List Nat) (s : imgst_file)
    (hid : strlen img_id < MAX_IMG_ID) (hroom : s.header.num_files < s.header.max_files)
    (hk : find_first_free_meta s < s.metadata.length)
    (hkm : find_first_free_meta s < s.header.max_files)
    (hname : ∀ j, j < s.header.max_files → (s.slot j).is_valid = NON_EMPTY →
      j ≠ find_first_free_meta s →
      strncmp (s.slot j).img_id
        (strncpy (s.slot (find_first_free_meta s)).img_id img_id MAX_IMG_ID) MAX_IMG_ID ≠ 0)
    (hdec : env.vips_jpegload_buffer buffer ≠ none)
    (hf : s.file.faults = []) (hw : s.file.can_write = true) :
    ∃ s', do_insert env buffer img_id s = some (ERR_NONE, s') := by
  generalize hkdef : find_first_free_meta s = k at *
  have l1k := insert_load_slot_eq env buffer img_id s k hk
  have l1ne : ∀ j, j ≠ k → (insert_load env buffer img_id s k).slot j = s.slot j :=
    fun j hj => insert_load_slot_ne env buffer img_id s k j hj
  -- the dedup stage
  have hd : ∃ s2, do_name_and_content_dedup (insert_load env buffer img_id s k) k
      = (ERR_NONE, s2) := by
    unfold do_name_and_content_dedup
    rw [if_neg (by simpa [insert_load] using hkm)]
    unfold find_duplicate
    rcases find_duplicate_loop_spec (insert_load env buffer img_id s k) k
        (insert_load env buffer img_id s k).header.max_files 0 with
      ⟨h1, _⟩ | ⟨c, h1, _⟩ | ⟨c, _, _, h3, h4, h5, h6, _⟩
    · generalize find_duplicate_loop (insert_load env buffer img_id s k) k
        (insert_load env buffer img_id s k).header.max_files 0 0 = fd at h1
      obtain ⟨r, c⟩ := fd
      dsimp only at h1 ⊢
      subst h1
      rw [if_neg (by decide), if_pos rfl]
      exact ⟨_, rfl⟩
    · rw [h1]
      dsimp only
      rw [if_pos rfl]
      exact ⟨_, rfl⟩
    · exfalso
      rw [l1ne c h5] at h4 h6
      rw [l1k] at h6
      exact hname c (by simpa [insert_load] using h3) h4 h5 h6
  obtain ⟨s2, hd⟩ := hd
  obtain ⟨df1, _, _, _⟩ := dedup_frame _ _ _ _ hd
  have hf2 : s2.file.faults = [] := by rw [df1]; exact hf
  have hw2 : s2.file.can_write = true := by rw [df1]; exact hw
  obtain ⟨s3, hw3, hf3, hcw3⟩ := insert_write_succeeds buffer s2 k hf2 hw2
  obtain ⟨s', hu⟩ := insert_update_succeeds env buffer s3 k hdec hf3 hcw3
  refine ⟨s', ?_⟩
  unfold do_insert
  rw [if_neg (not_not.mpr hid), if_neg (not_not.mpr hroom)]
  dsimp only
  rw [hkdef, if_neg (not_not.mpr hk), hd]
  dsimp only
  rw [if_neg (by simp), hw3]
  dsimp only
  rw [if_neg (by simp), hu]


/-! ## Lemmas: inserts into a freshly created store -/

theorem created_slot_zero (faults : List (Option Nat)) (t s : imgst_file)
    (h : do_create faults t = (ERR_NONE, s)) (j : Nat) : s.slot j = img_metadata.zero := by
  obtain ⟨_, hm, _, _⟩ := do_create_ok faults t s h
  unfold imgst_file.slot
  rw [hm]
  by_cases hj : j < t.header.max_files
  · simp [List.getD, hj]
  · rw [List.getD_eq_default _ _ (by simp; omega)]; rfl

theorem zero_not_valid : img_metadata.zero.is_valid ≠ NON_EMPTY := by decide

/-- The index find_first_free_meta returns, when it is a slot index, is
either 2^32 - 1 with no EMPTY slot below max_files, or the lowest index of
an EMPTY slot. -/
theorem find_first_free_meta_spec (s : imgst_file) :
    (find_first_free_meta s = 2 ^ 32 - 1 ∧
      ∀ j, j < s.header.max_files → (s.slot j).is_valid ≠ EMPTY) ∨
    (find_first_free_meta s < s.header.max_files ∧
      (s.slot (find_first_free_meta s)).is_valid = EMPTY ∧
      ∀ j, j < find_first_free_meta s → (s.slot j).is_valid ≠ EMPTY) := by
  unfold find_first_free_meta
  rcases find_first_free_meta_loop_spec s s.header.max_files 0 with ⟨h1, h2⟩ | ⟨_, h2, h3, h4⟩
  · exact Or.inl ⟨h1, fun j hj => h2 j (Nat.zero_le _) (by omega)⟩
  · exact Or.inr ⟨by omega, h3, fun j hj => h4 j (Nat.zero_le _) hj⟩

/-- The file lengths along do_create, a successful do_insert of a buffer and
a second successful do_insert of the same buffer. -/
theorem same_bytes_twice (env : Env) (faults : List (Option Nat)) (t s0 s1 s2 : imgst_file)
    (buffer id1 id2 : List Nat)
    (hc : do_create faults t = (ERR_NONE, s0))
    (h1 : do_insert env buffer id1 s0 = some (ERR_NONE, s1))
    (h2 : do_insert env buffer id2 s1 = some (ERR_NONE, s2)) :
    s0.file.content.length = sizeof_imgst_header + sizeof_img_metadata * s0.header.max_files ∧
    s1.file.content.length = s0.file.content.length + buffer.length ∧
    s2.file.content.length = s1.file.content.length := by
  obtain ⟨hh0, _, hl0, _⟩ := do_create_ok faults t s0 hc
  have hmax0 : s0.header.max_files = t.header.max_files := by rw [hh0]
  have hz := created_slot_zero faults t s0 hc
  -- first insert
  obtain ⟨_, _, _, hkm0, _, hhdr1, hfr1, hv1, hsha1, _, _, course1⟩ :=
    do_insert_ok_effect env buffer id1 s0 s1 _ rfl h1
  generalize find_first_free_meta s0 = k0 at *
  have fresh1 : (s1.slot k0).offset = ⟨0, 0, s0.file.content.length⟩ ∧
      s1.file.content = flushed (s0.file.content ++ buffer) s1 k0 := by
    rcases course1 with ⟨_, _, ho, _, hcn⟩ | ⟨c, _, _, hvc, _⟩
    · exact ⟨ho, hcn⟩
    · rw [hz c] at hvc; exact absurd hvc zero_not_valid
  have hl1 : s1.file.content.length = s0.file.content.length + buffer.length := by
    rw [fresh1.2, flushed_length _ _ _ (by
      simp only [List.length_append, hl0, sizeof_imgst_header, sizeof_img_metadata] at *
      have : k0 + 1 ≤ t.header.max_files := by omega
      have := Nat.mul_le_mul_left 216 this
      omega)]
    simp
  have hmax1 : s1.header.max_files = s0.header.max_files := by rw [hhdr1]
  have hs1 : ∀ j, j ≠ k0 → s1.slot j = img_metadata.zero := by
    intro j hj; rw [hfr1 j hj, hz j]
  -- second insert
  obtain ⟨_, _, _, hkm1, _, _, _, _, _, _, _, course2⟩ :=
    do_insert_ok_effect env buffer id2 s1 s2 _ rfl h2
  have hk1 : find_first_free_meta s1 ≠ k0 := by
    intro heq
    rcases find_first_free_meta_spec s1 with ⟨_, hall⟩ | ⟨_, he, _⟩
    · rw [heq] at hkm1
      have := hall k0 hkm1
      by_cases hk00 : k0 = 0
      · have h1z := hs1 (k0 + 1) (by omega)
        have hnf : s1.header.num_files < s1.header.max_files :=
          (do_insert_ok_effect env buffer id2 s1 s2 _ rfl h2).2.1
        rw [hhdr1, hh0] at hnf
        simp only at hnf
        have hlt : k0 + 1 < s1.header.max_files := by
          rw [hmax1, hmax0]
          have : (0 + 1) % 2 ^ 32 = 1 := by norm_num
          omega
        exact hall (k0 + 1) hlt (by rw [h1z]; rfl)
      · exact hall 0 (by omega) (by rw [hs1 0 (by omega)]; rfl)
    · rw [heq, hv1] at he
      exact absurd he (by decide)
  generalize find_first_free_meta s1 = k1 at *
  have hl2 : s2.file.content.length = s1.file.content.length := by
    have hroom : sizeof_imgst_header + sizeof_img_metadata * (k1 + 1)
        ≤ s1.file.content.length := by
      rw [hl1, hl0]
      simp only [sizeof_imgst_header, sizeof_img_metadata] at *
      have : k1 + 1 ≤ t.header.max_files := by omega
      have := Nat.mul_le_mul_left 216 this
      omega
    rcases course2 with ⟨nm, _⟩ | ⟨c, _, hck, hvc, _, _, ⟨_, _, _, _, hcn⟩ | ⟨hoz, _⟩⟩
    · exfalso
      have hk0 : k0 < s1.header.max_files := by rw [hmax1]; exact hkm0
      have := (nm k0 hk0 hv1 (Ne.symm hk1)).2
      rw [hsha1, are_equal_refl] at this
      simp at this
    · rw [hcn, flushed_length _ _ _ hroom]
    · exfalso
      have hc0 : c = k0 := by
        by_contra hne
        rw [hs1 c hne] at hvc
        exact absurd hvc zero_not_valid
      rw [hc0, fresh1.1] at hoz
      simp only at hoz
      rw [hl0] at hoz
      simp only [sizeof_imgst_header] at hoz
      omega
  exact ⟨by rw [hl0, hmax0], hl1, hl2⟩


/-! ## Lemmas: a do_insert of new content -/

theorem c_str_append_zero (l r : List Nat) (h : ∀ c ∈ l, c ≠ 0) :
    c_str (l ++ 0 :: r) = l := by
  unfold c_str
  induction l with
  | nil => simp
  | cons a l ih =>
    have ha : a ≠ 0 := h a (List.mem_cons_self _ _)
    simp only [List.cons_append, List.takeWhile_cons, bne_iff_ne, ne_eq, ha, not_false_eq_true,
      if_true, List.cons.injEq, true_and]
    exact ih (fun c hc => h c (List.mem_cons_of_mem _ hc))

theorem c_str_no_zero (s : List Nat) : ∀ c ∈ c_str s, c ≠ 0 := by
  intro c hc
  unfold c_str at hc
  have := List.mem_takeWhile_imp hc
  simpa using this

/-- The identifier strncpy leaves in a record, read as a C string, is the
identifier copied, when that one is shorter than the n bytes copied. -/
theorem c_str_strncpy (dest src : List Nat) (n : Nat) (h : strlen src < n) :
    c_str (strncpy dest src n) = c_str src := by
  unfold strncpy
  unfold strlen at h
  rw [List.take_of_length_le (by omega)]
  obtain ⟨m, hm⟩ : ∃ m, n - (c_str src).length = m + 1 := ⟨n - (c_str src).length - 1, by omega⟩
  rw [hm, List.replicate_succ, List.append_assoc, List.cons_append]
  exact c_str_append_zero _ _ (c_str_no_zero src)

theorem flushed_tail (content buffer : List Nat) (s : imgst_file) (k : Nat)
    (h : sizeof_imgst_header + sizeof_img_metadata * (k + 1) ≤ content.length) :
    (flushed (content ++ buffer) s k).length = content.length + buffer.length ∧
    (flushed (content ++ buffer) s k).drop content.length = buffer := by
  constructor
  · rw [flushed_length _ _ _ (by simp; omega)]; simp
  · rw [flushed_drop _ _ _ _ h]; simp

/-- What a successful do_insert does when no valid slot holds the digest of
the buffer (the statement of C9 with size[RES_ORIG] as the code stores it,
modulo 2^32). -/
theorem insert_fresh_content (env : Env) (buffer img_id : List Nat) (s s' : imgst_file)
    (hwf : wf s)
    (hfile : sizeof_imgst_header + s.header.max_files * sizeof_img_metadata
      ≤ s.file.content.length)
    (hfresh : ∀ j, (s.slot j).is_valid = NON_EMPTY →
      are_equal (s.slot j).SHA (env.SHA256 buffer) = false)
    (h : do_insert env buffer img_id s = some (ERR_NONE, s')) :
    ∃ k, k < s.header.max_files ∧ (s.slot k).is_valid = EMPTY ∧
      (∀ j, j < k → (s.slot j).is_valid ≠ EMPTY) ∧
      c_str (s'.slot k).img_id = c_str img_id ∧
      (s'.slot k).SHA = env.SHA256 buffer ∧
      (s'.slot k).size = ⟨0, 0, buffer.length % 2 ^ 32⟩ ∧
      (s'.slot k).offset = ⟨0, 0, s.file.content.length⟩ ∧
      (s'.slot k).is_valid = NON_EMPTY ∧
      s'.metadata.length = s.metadata.length ∧
      (∀ j, j ≠ k → s'.slot j = s.slot j) ∧
      s'.file.content.length = s.file.content.length + buffer.length ∧
      s'.file.content.drop s.file.content.length = buffer := by
  obtain ⟨hid, _, _, hkm, hlen, _, hfr, hv, hsha, hname, _, course⟩ :=
    do_insert_ok_effect env buffer img_id s s' _ rfl h
  obtain ⟨hempty, hlow⟩ := find_first_free_meta_lowest s hwf.2 hkm
  generalize find_first_free_meta s = k at *
  have hroom : sizeof_imgst_header + sizeof_img_metadata * (k + 1) ≤ s.file.content.length := by
    simp only [sizeof_imgst_header, sizeof_img_metadata] at *
    have : k + 1 ≤ s.header.max_files := by omega
    have := Nat.mul_le_mul_left 216 this
    omega
  rcases course with ⟨_, hsz, hof, _, hcn⟩ | ⟨c, _, _, hvc, hec, _⟩
  · obtain ⟨t1, t2⟩ := flushed_tail s.file.content buffer s' k hroom
    refine ⟨k, hkm, hempty, hlow, ?_, hsha, hsz, hof, hv, hlen, hfr, ?_, ?_⟩
    · rw [hname]; exact c_str_strncpy _ _ _ hid
    · rw [hcn]; exact t1
    · rw [hcn]; exact t2
  · rw [hfresh c hvc] at hec
    simp at hec


/-! ## Lemmas: creation, opening, listing, deletion and the on-disk table -/

set_option maxRecDepth 100000
set_option maxHeartbeats 4000000

/-! ## Lemmas: do_create on a stream without failures, and the bytes it writes -/

theorem encode_metadata_zero :
    encode_metadata img_metadata.zero = List.replicate sizeof_img_metadata 0 := by decide!

theorem create_write_loop_zero (metadata : List img_metadata) (n i : Nat) (f f' : FILE)
    (hz : ∀ j, metadata.getD j default = img_metadata.zero)
    (hp : f.pos = f.content.length)
    (h : create_write_loop metadata n i f = (true, f')) :
    f'.content = f.content ++ List.replicate (sizeof_img_metadata * n) 0 := by
  induction n generalizing i f with
  | zero =>
    simp only [create_write_loop, Prod.mk.injEq, true_and] at h
    subst h
    simp
  | succ n ih =>
    unfold create_write_loop at h
    dsimp only at h
    split at h
    · simp at h
    · next hw =>
      obtain ⟨hc, hpos, _⟩ := fwrite_one_ok' _ _ _ (encode_metadata_length _) (not_not.mp hw)
      rw [hp, write_at_end] at hc
      have hrec : encode_metadata (metadata.getD i default)
          = List.replicate sizeof_img_metadata 0 := by rw [hz, encode_metadata_zero]
      have hp' : (fwrite (encode_metadata (metadata.getD i default)) sizeof_img_metadata 1 f).2.pos
          = (fwrite (encode_metadata (metadata.getD i default)) sizeof_img_metadata 1
              f).2.content.length := by
        rw [hpos, hc, hp]; simp
      rw [ih (i + 1) _ hp' h, hc, hrec, List.append_assoc, ← List.replicate_add]
      congr 2
      ring

theorem create_write_loop_no_fault (metadata : List img_metadata) (n i : Nat) (f : FILE)
    (hf : f.faults = []) (hw : f.can_write = true) :
    (create_write_loop metadata n i f).1 = true := by
  induction n generalizing i f with
  | zero => rfl
  | succ n ih =>
    unfold create_write_loop
    rw [fwrite_one_no_fault _ _ f (encode_metadata_length _) (by decide) hf hw]
    dsimp only
    rw [if_neg (not_not.mpr rfl)]
    exact ih (i + 1) _ hf hw

theorem do_create_no_fault (t : imgst_file) : (do_create [] t).1 = ERR_NONE := by
  unfold do_create
  dsimp only
  have hfo : fopen none "wb" [] = some ⟨[], 0, false, true, []⟩ := by decide
  rw [hfo]
  dsimp only
  rw [fwrite_one_no_fault _ _ _ (encode_header_length _) (by decide) rfl rfl]
  dsimp only
  rw [if_neg (not_not.mpr rfl)]
  split
  · next hok =>
    have := create_write_loop_no_fault
      (List.replicate t.header.max_files img_metadata.zero) t.header.max_files 0
      ⟨write_at [] 0 (encode_header
        { t.header with
          imgst_name := (strncpy (fix_len (MAX_IMGST_NAME + 1) t.header.imgst_name) CAT_TXT
            MAX_IMGST_NAME).set MAX_IMGST_NAME 0
          unused_32 := 0, unused_64 := 0, imgst_version := 0, num_files := 0 }),
        0 + sizeof_imgst_header, false, true, []⟩ rfl rfl
    rw [hok] at this
    exact absurd this (by decide)
  · rfl

theorem do_create_max_files (faults : List (Option Nat)) (t : imgst_file) :
    (do_create faults t).2.header.max_files = t.header.max_files ∧
    (do_create faults t).2.header.res_resized = t.header.res_resized := by
  unfold do_create
  dsimp only
  split
  · exact ⟨rfl, rfl⟩
  · split
    · exact ⟨rfl, rfl⟩
    · split
      · exact ⟨rfl, rfl⟩
      · exact ⟨rfl, rfl⟩

theorem created_name (name : List Nat) :
    (strncpy (fix_len (MAX_IMGST_NAME + 1) name) CAT_TXT MAX_IMGST_NAME).set MAX_IMGST_NAME 0
      = CAT_TXT ++ List.replicate 12 0 := by
  have hl : ((fix_len (MAX_IMGST_NAME + 1) name).drop MAX_IMGST_NAME).length = 1 := by
    rw [List.length_drop, fix_len_length]
    decide
  obtain ⟨x, hx⟩ := List.length_eq_one.mp hl
  unfold strncpy
  rw [hx]
  have hc : c_str CAT_TXT = CAT_TXT := by decide
  rw [hc]
  simp [List.set]

theorem replicate_zero_getD (n j : Nat) :
    (List.replicate n img_metadata.zero).getD j default = img_metadata.zero := by
  rw [List.getD_eq_getElem?_getD]
  by_cases hj : j < n
  · rw [List.getElem?_eq_getElem (by simpa using hj)]
    simp
  · rw [List.getElem?_eq_none (by simpa using hj)]
    rfl

/-- The bytes of the file after a successful do_create. -/
theorem do_create_content (faults : List (Option Nat)) (t s : imgst_file)
    (h : do_create faults t = (ERR_NONE, s)) :
    s.file.content = encode_header s.header
      ++ List.replicate (sizeof_img_metadata * t.header.max_files) 0 := by
  unfold do_create at h
  dsimp only at h
  split at h
  · simp at h
  · next file hfo =>
    have hfile : file.content = [] ∧ file.pos = 0 := by
      unfold fopen at hfo
      simp only [String.toList] at hfo
      split at hfo
      · simp at hfo
      · simp at hfo
        obtain ⟨_, rfl⟩ := hfo
        exact ⟨rfl, rfl⟩
    split at h
    · simp at h
    · next hw =>
      have hw' := not_not.mp hw
      obtain ⟨hc, hpos, _⟩ := fwrite_one_ok' _ _ _ (encode_header_length _) hw'
      rw [hfile.1, hfile.2] at hc
      rw [hfile.2] at hpos
      have hc' := hc.trans (write_at_end [] _)
      split at h
      · simp at h
      · next hok =>
        simp only [Prod.mk.injEq, true_and] at h
        subst h
        have h1 := create_write_loop_zero _ _ _ _ _ (replicate_zero_getD _)
          (by rw [hpos, hc']; simp) (Prod.ext (by simpa using hok) rfl)
        dsimp only
        rw [h1, hc']
        rfl

/-! ## Lemmas: the command `create` -/

theorem parse_option_one (atouintN : List Nat → Nat) (args : Nat) (argv : List (List Nat))
    (i : Nat) (error_code : Int) (max v0 : Nat) :
    do_create_parse_optionN atouintN args argv i 1 error_code max [v0] =
      if ¬ (i + 1 < args) then (ERR_NOT_ENOUGH_ARGUMENTS, i, [v0])
      else if ¬ (0 < atouintN (argv.getD (i + 1) []) ∧ atouintN (argv.getD (i + 1) []) ≤ max)
        then (error_code, i, [atouintN (argv.getD (i + 1) [])])
      else (ERR_NONE, i + 2, [atouintN (argv.getD (i + 1) [])]) := by
  unfold do_create_parse_optionN
  by_cases h1 : i + 1 < args
  · rw [if_neg (not_not.mpr h1), if_neg (not_not.mpr h1)]
    simp only [do_create_parse_option_loop, List.set_cons_zero, List.getD_cons_zero,
      Nat.add_zero, Nat.zero_add]
    by_cases h2 : 0 < atouintN (argv.getD (i + 1) []) ∧ atouintN (argv.getD (i + 1) []) ≤ max
    · rw [if_neg (not_not.mpr h2), if_neg (not_not.mpr h2)]
      simp
    · rw [if_pos h2, if_pos h2]
      simp
  · rw [if_pos h1, if_pos h1]

theorem parse_option_index (atouintN : List Nat → Nat) (args : Nat) (argv : List (List Nat))
    (i nb : Nat) (error_code : Int) (max : Nat) (opts : List Nat)
    (h : (do_create_parse_optionN atouintN args argv i nb error_code max opts).1 = ERR_NONE)
    (he : error_code ≠ ERR_NONE) :
    (do_create_parse_optionN atouintN args argv i nb error_code max opts).2.1 = i + nb + 1 := by
  unfold do_create_parse_optionN at h ⊢
  split
  · next hn =>
    rw [if_pos hn] at h
    have h9 : ERR_NOT_ENOUGH_ARGUMENTS ≠ ERR_NONE := by decide
    exact absurd h h9
  · next hn =>
    rw [if_neg hn] at h
    dsimp only at h ⊢
    split
    · next hok => rw [if_pos hok] at h; exact absurd h he
    · rfl

/-- The loop of do_create_cmd ends within args - i + 1 iterations. -/
theorem do_create_cmd_loop_ends (atouint32 atouint16 : List Nat → Nat) (args : Nat)
    (argv : List (List Nat)) (fuel i : Nat) (o : create_options) (hf : args - i + 1 ≤ fuel) :
    (do_create_cmd_loop atouint32 atouint16 args argv fuel i o).isSome = true := by
  induction fuel generalizing i o with
  | zero => omega
  | succ fuel ih =>
    unfold do_create_cmd_loop
    split
    · rfl
    · next hi =>
      have hi' : i < args := not_not.mp hi
      dsimp only
      split
      · split
        · rfl
        · next hpe =>
          have hidx := parse_option_index atouint32 args argv i 1 ERR_MAX_FILES MAX_MAX_FILES
            [o.max_files] (not_not.mp hpe) (by decide)
          exact ih _ _ (by rw [hidx]; omega)
      · split
        · split
          · rfl
          · next hpe =>
            have hidx := parse_option_index atouint16 args argv i 2 ERR_RESOLUTIONS MAX_RES_THUMB
              [o.thumb_res_x, o.thumb_res_y] (not_not.mp hpe) (by decide)
            exact ih _ _ (by rw [hidx]; omega)
        · split
          · split
            · rfl
            · next hpe =>
              have hidx := parse_option_index atouint16 args argv i 2 ERR_RESOLUTIONS
                MAX_RES_SMALL [o.small_res_x, o.small_res_y] (not_not.mp hpe) (by decide)
              exact ih _ _ (by rw [hidx]; omega)
          · rfl

/-- When the loop of do_create_cmd ends with ERR_NONE, max_files is the
default or a value that passed the bounds check. -/
theorem do_create_cmd_loop_max_files (atouint32 atouint16 : List Nat → Nat) (args : Nat)
    (argv : List (List Nat)) (fuel i : Nat) (o o' : create_options)
    (ho : 0 < o.max_files ∧ o.max_files ≤ MAX_MAX_FILES)
    (h : do_create_cmd_loop atouint32 atouint16 args argv fuel i o = some (ERR_NONE, o')) :
    0 < o'.max_files ∧ o'.max_files ≤ MAX_MAX_FILES := by
  induction fuel generalizing i o with
  | zero => simp [do_create_cmd_loop] at h
  | succ fuel ih =>
    unfold do_create_cmd_loop at h
    split at h
    · simp only [Option.some.injEq, Prod.mk.injEq, true_and] at h
      rw [← h]; exact ho
    · dsimp only at h
      split at h
      · rw [parse_option_one] at h
        split at h
        · simp at h
        · split at h
          · simp at h
          · next hv =>
            dsimp only at h
            rw [if_neg (not_not.mpr rfl)] at h
            exact ih _ _ (by simpa using not_not.mp hv) h
      · split at h
        · split at h
          · next hpe =>
            simp only [Option.some.injEq, Prod.mk.injEq] at h
            exact absurd h.1 hpe
          · exact ih _ _ (by exact ho) h
        · split at h
          · split at h
            · next hpe =>
              simp only [Option.some.injEq, Prod.mk.injEq] at h
              exact absurd h.1 hpe
            · exact ih _ _ (by exact ho) h
          · simp at h

/-! ## Lemmas: the effect of a successful lazily_resize -/

theorem fread_one_nonempty (size : Nat) (f : FILE) (h : (fread size 1 f).1 = 1) :
    0 < f.content.length := by
  have hc := next_fault_content f
  unfold fread at h
  generalize next_fault f = nf at hc h
  obtain ⟨flt, f0⟩ := nf
  dsimp only at hc h
  split at h
  · simp at h
  · cases flt with
    | some k => simp at h
    | none =>
      simp only [Option.isSome_none, Bool.false_eq_true, if_false, Nat.mul_one] at h
      have hpos : 0 < ((f0.content.drop f0.pos).take size).length := by
        by_contra hz
        have : ((f0.content.drop f0.pos).take size).length = 0 := by omega
        rw [this] at h
        simp at h
      rw [List.length_take, List.length_drop, hc] at hpos
      omega

theorem load_and_compute_image_nonempty (env : Env) (position : Nat) (s : imgst_file)
    (size_code : Nat) (h : (load_and_compute_image env position s size_code).1 = ERR_NONE) :
    0 < s.file.content.length := by
  have h1 := fseek_content s.file (to_long (s.slot position).offset.orig) Whence.SEEK_SET
  have h9 : ( ERR_IO : Int) ≠ ERR_NONE := by decide
  unfold load_and_compute_image at h
  dsimp only at h
  split at h
  · exact absurd h h9
  · split at h
    · exact absurd h h9
    · next hk =>
      rw [← h1]
      exact fread_one_nonempty _ _ (not_not.mp hk)

/-- The buffer that a successful load_and_compute_image returns is an output
of the encoder. -/
theorem load_and_compute_image_out (env : Env) (position : Nat) (s s1 : imgst_file)
    (size_code : Nat) (out : List Nat)
    (h : load_and_compute_image env position s size_code = (ERR_NONE, out, s1)) :
    ∃ b r, env.vips_resize_jpegsave b r = some out := by
  have h9 : ( ERR_IO : Int) ≠ ERR_NONE := by decide
  have h8 : (ERR_IMGLIB : Int) ≠ ERR_NONE := by decide
  unfold load_and_compute_image at h
  dsimp only at h
  split at h
  · exact absurd (congrArg Prod.fst h) h9
  · split at h
    · exact absurd (congrArg Prod.fst h) h9
    · split at h
      · exact absurd (congrArg Prod.fst h) h8
      · split at h
        · exact absurd (congrArg Prod.fst h) h8
        · next out_data ho =>
          have e : out_data = out := congrArg (fun p => p.2.1) h
          rw [e] at ho
          exact ⟨_, _, ho⟩

/-- A successful lazily_resize either leaves the handle as it is (resolution
RES_ORIG, or a variant that exists already), or appends the new variant (an
output of the encoder) at the old end of the file, records its offset and
size in the slot, and writes the slot record in place. -/
theorem lazily_resize_ok_effect (env : Env) (size_code : Int) (s s' : imgst_file)
    (position : Nat) (h : lazily_resize env size_code s position = (ERR_NONE, s')) :
    (s' = s ∧ (size_code = RES_ORIG ∨
      ((s.slot position).offset.get? size_code).getD 0 ≠ 0)) ∨
    (position < s.header.max_files ∧ (size_code = RES_THUMB ∨ size_code = RES_SMALL) ∧
      ((s.slot position).offset.get? size_code).getD 0 = 0 ∧
      0 < s.file.content.length ∧
      ∃ out_data : List Nat, 0 < out_data.length ∧
        s'.header = s.header ∧
        s'.metadata = (s.set_slot position
          { s.slot position with
            offset := (s.slot position).offset.set size_code s.file.content.length
            size := (s.slot position).size.set size_code
              (out_data.length % 2 ^ 32) }).metadata ∧
        s'.file.content = write_at (s.file.content ++ out_data)
          (sizeof_imgst_header + position * sizeof_img_metadata)
          (encode_metadata (s'.slot position)) ∧
        ∃ b r, env.vips_resize_jpegsave b r = some out_data) := by
  unfold lazily_resize at h
  split at h
  · next ho =>
    simp only [Prod.mk.injEq, true_and] at h
    exact Or.inl ⟨h.symm, Or.inl ho⟩
  · split at h
    · simp only [Prod.mk.injEq] at h
      exact absurd h.1 (by decide)
    · next hpos =>
      split at h
      · simp only [Prod.mk.injEq] at h
        exact absurd h.1 (by decide)
      · next hcode =>
        have hcode' : size_code = RES_THUMB ∨ size_code = RES_SMALL := not_not.mp hcode
        split at h
        · next hex =>
          simp only [Prod.mk.injEq, true_and] at h
          refine Or.inl ⟨h.symm, Or.inr ?_⟩
          simpa [size_already_exists] using hex
        · next hex =>
          have hoff : ((s.slot position).offset.get? size_code).getD 0 = 0 := by
            simpa [size_already_exists] using hex
          obtain ⟨lh, lm, lc⟩ := load_and_compute_image_frame env position s size_code.toNat
          have lne := load_and_compute_image_nonempty env position s size_code.toNat
          have lenc := fun out s1 =>
            load_and_compute_image_out env position s s1 size_code.toNat out
          generalize load_and_compute_image env position s size_code.toNat = lci
            at h lh lm lc lne lenc
          obtain ⟨err, out_data, s1⟩ := lci
          dsimp only at h lh lm lc lne lenc
          split at h
          · next he =>
            simp only [Prod.mk.injEq] at h
            exact absurd h.1 he
          · next he =>
            have hne := lne (not_not.mp he)
            split at h
            · simp only [Prod.mk.injEq] at h
              exact absurd h.1 (by decide)
            · next hr1 =>
              split at h
              · simp only [Prod.mk.injEq] at h
                exact absurd h.1 (by decide)
              · next hw1 =>
                split at h
                · simp only [Prod.mk.injEq] at h
                  exact absurd h.1 (by decide)
                · next hr2 =>
                  split at h
                  · simp only [Prod.mk.injEq] at h
                    exact absurd h.1 (by decide)
                  · next hw2 =>
                    obtain ⟨hc1, hp1⟩ := fseek_ok' _ _ _ (not_not.mp hr1)
                    obtain ⟨hc2, hp2, hlen⟩ := fwrite_one_ok' _ _ _ rfl (not_not.mp hw1)
                    have hc3 := seek_write_chain _ _ _ _ (encode_metadata_length _)
                      (not_not.mp hr2) (not_not.mp hw2)
                    simp only [seek_base] at hp1
                    have hp1' : (fseek s1.file 0 Whence.SEEK_END).2.pos
                        = s.file.content.length := by
                      rw [← lc]; omega
                    have hsl : s1.slot position = s.slot position := by
                      simp [imgst_file.slot, lm]
                    simp only [Prod.mk.injEq, true_and] at h
                    refine Or.inr ⟨not_not.mp hpos, hcode', hoff, hne, out_data, hlen, ?_, ?_, ?_,
                      lenc out_data s1 (by rw [not_not.mp he])⟩
                    · rw [← h]; exact lh
                    · rw [← h]
                      simp only [imgst_file.set_slot, ftell, hp2, hp1', hsl, lm]
                      congr 4
                      omega
                    · rw [← h]
                      dsimp only
                      rw [hc3, hc2, hc1, hp1', lc, write_at_end]
                      rfl

/-! ## Lemmas: do_list -/

theorem do_list_json_loop_eq (s : imgst_file) (n i : Nat) (arr : List json_object) :
    do_list_json_loop s n i arr = arr ++
      ((List.range' i n).filter (fun j => (s.slot j).is_valid == NON_EMPTY)).map
        (fun j => json_object.new_string (c_str (s.slot j).img_id)) := by
  induction n generalizing i arr with
  | zero => simp [do_list_json_loop]
  | succ n ih =>
    unfold do_list_json_loop
    rw [List.range'_succ]
    by_cases hv : (s.slot i).is_valid = NON_EMPTY
    · rw [if_pos hv, ih, List.filter_cons_of_pos (by simpa using hv), List.map_cons,
        List.append_assoc]
      rfl
    · rw [if_neg hv, ih, List.filter_cons_of_neg (by simpa using hv)]

theorem do_list_stdout_loop_eq (s : imgst_file) (n i : Nat) (res : Bool) :
    (do_list_stdout_loop s n i res).2 =
      ((List.range' i n).filter (fun j => (s.slot j).is_valid == NON_EMPTY)).map
        (fun j => stdout_call.print_metadata (s.slot j)) ∧
    ((do_list_stdout_loop s n i res).1 = false ↔
      res = false ∧ ∀ j, i ≤ j → j < i + n → (s.slot j).is_valid ≠ NON_EMPTY) := by
  induction n generalizing i res with
  | zero =>
    refine ⟨by simp [do_list_stdout_loop], ?_⟩
    simp only [do_list_stdout_loop]
    constructor
    · intro h
      exact ⟨h, fun j h1 h2 => by omega⟩
    · intro h
      exact h.1
  | succ n ih =>
    unfold do_list_stdout_loop
    rw [List.range'_succ]
    by_cases hv : (s.slot i).is_valid = NON_EMPTY
    · rw [if_pos hv, List.filter_cons_of_pos (by simpa using hv), List.map_cons]
      obtain ⟨h1, h2⟩ := ih (i + 1) true
      refine ⟨by dsimp only; rw [h1], ?_⟩
      dsimp only
      constructor
      · intro h
        have := (h2.mp h).1
        exact absurd this (by decide)
      · intro h
        exact absurd hv (h.2 i (le_refl _) (by omega))
    · rw [if_neg hv, List.filter_cons_of_neg (by simpa using hv)]
      obtain ⟨h1, h2⟩ := ih (i + 1) res
      refine ⟨h1, ?_⟩
      rw [h2]
      constructor
      · intro h
        refine ⟨h.1, fun j hj1 hj2 => ?_⟩
        by_cases hij : j = i
        · rw [hij]; exact hv
        · exact h.2 j (by omega) (by omega)
      · intro h
        exact ⟨h.1, fun j hj1 hj2 => h.2 j (by omega) (by omega)⟩

/-! ## Lemmas: decoding an object representation -/

theorem from_le_le_bytes_2 (x : Nat) (h : x < 2 ^ 16) : from_le (le_bytes 2 x) = x := by
  simp [le_bytes, from_le, List.range, List.range.loop]
  omega

theorem from_le_le_bytes_4 (x : Nat) (h : x < 2 ^ 32) : from_le (le_bytes 4 x) = x := by
  simp [le_bytes, from_le, List.range, List.range.loop]
  omega

theorem from_le_le_bytes_8 (x : Nat) (h : x < 2 ^ 64) : from_le (le_bytes 8 x) = x := by
  simp [le_bytes, from_le, List.range, List.range.loop]
  omega

theorem from_le_lt (bs : List Nat) : from_le bs < 256 ^ bs.length := by
  induction bs with
  | nil => simp [from_le]
  | cons b r ih =>
    have e : from_le (b :: r) = b % 256 + 256 * from_le r := rfl
    rw [e, List.length_cons, pow_succ]
    have := Nat.mod_lt b (show 256 > 0 by decide)
    nlinarith

theorem from_le_take_lt (bs : List Nat) (w : Nat) : from_le (bs.take w) < 256 ^ w := by
  have h1 := from_le_lt (bs.take w)
  have h2 : (bs.take w).length ≤ w := by rw [List.length_take]; omega
  exact lt_of_lt_of_le h1 (Nat.pow_le_pow_right (by decide) h2)

theorem drop_append_len (a r : List Nat) (n k : Nat) (ha : a.length = n) (hk : n ≤ k) :
    (a ++ r).drop k = r.drop (k - n) := by
  rw [List.drop_append_eq_append_drop, List.drop_eq_nil_of_le (by omega), ha, List.nil_append]

theorem take_append_len (a r : List Nat) (n : Nat) (ha : a.length = n) :
    (a ++ r).take n = a := by
  rw [← ha]; exact List.take_left _ _

theorem fix_len_self (n : Nat) (l : List Nat) (h : l.length = n) : fix_len n l = l := by
  unfold fix_len
  rw [← h]; exact List.take_left _ _

theorem le_bytes_2_eq (x : Nat) : le_bytes 2 x = [x % 256, x / 256 % 256] := by
  simp [le_bytes, List.range, List.range.loop]

theorem le_bytes_4_eq (x : Nat) :
    le_bytes 4 x = [x % 256, x / 256 % 256, x / 65536 % 256, x / 16777216 % 256] := by
  simp [le_bytes, List.range, List.range.loop]

theorem le_bytes_8_eq (x : Nat) :
    le_bytes 8 x = [x % 256, x / 256 % 256, x / 65536 % 256, x / 16777216 % 256,
      x / 4294967296 % 256, x / 1099511627776 % 256, x / 281474976710656 % 256,
      x / 72057594037927936 % 256] := by
  simp [le_bytes, List.range, List.range.loop]

/-- Decoding the object representation of a header whose fields fit their C
types gives the header back. -/
theorem decode_encode_header (h : imgst_header) (hr : header_in_range h) :
    decode_header (encode_header h) = h := by
  obtain ⟨h1, h2, h3, h4, h5, h6, h7, h8⟩ := hr
  obtain ⟨name, ver, nf, mf, res, u32, u64⟩ := h
  dsimp only at h1 h2 h3 h4 h5 h6 h7 h8
  match res, h5, h6 with
  | [a, b, c, d], _, h6 =>
    have ha := h6 a (by simp)
    have hb := h6 b (by simp)
    have hc := h6 c (by simp)
    have hd := h6 d (by simp)
    unfold encode_header decode_header
    simp only [List.append_assoc, List.getD_cons_zero, List.getD_cons_succ]
    rw [fix_len_self _ _ h1]
    rw [take_append_len _ _ 32 h1]
    simp only [drop_append_len name _ 32 _ h1 (by decide : 32 ≤ 32),
      drop_append_len name _ 32 _ h1 (by decide : 32 ≤ 36),
      drop_append_len name _ 32 _ h1 (by decide : 32 ≤ 40),
      drop_append_len name _ 32 _ h1 (by decide : 32 ≤ 44),
      drop_append_len name _ 32 _ h1 (by decide : 32 ≤ 46),
      drop_append_len name _ 32 _ h1 (by decide : 32 ≤ 48),
      drop_append_len name _ 32 _ h1 (by decide : 32 ≤ 50),
      drop_append_len name _ 32 _ h1 (by decide : 32 ≤ 52),
      drop_append_len name _ 32 _ h1 (by decide : 32 ≤ 56)]
    simp only [le_bytes_2_eq, le_bytes_4_eq, le_bytes_8_eq, List.cons_append, List.nil_append,
      Nat.reduceSub, List.drop_succ_cons, List.drop_zero, List.take_succ_cons, List.take_zero,
      from_le, List.foldr, imgst_header.mk.injEq, List.cons.injEq, true_and, and_true]
    refine ⟨?_, ?_, ?_, ⟨?_, ?_, ?_, ?_⟩, ?_, ?_⟩ <;> omega
/-- Decoding the object representation of a slot record whose fields fit
their C types gives the record back. -/
theorem decode_encode_metadata (m : img_metadata) (hr : metadata_in_range m) :
    decode_metadata (encode_metadata m) = m := by
  obtain ⟨h1, h2, h3, h4, h5, h6, h7, h8, h9, h10, h11, h12⟩ := hr
  obtain ⟨id, sha, ⟨w, ht⟩, ⟨s0, s1, s2⟩, ⟨o0, o1, o2⟩, v, u⟩ := m
  dsimp only at h1 h2 h3 h4 h5 h6 h7 h8 h9 h10 h11 h12
  unfold encode_metadata decode_metadata
  simp only [List.append_assoc]
  rw [fix_len_self _ _ h1, fix_len_self _ _ h2]
  rw [take_append_len _ _ 128 h1]
  simp only [drop_append_len id _ 128 _ h1 (by decide : 128 ≤ 128),
      drop_append_len id _ 128 _ h1 (by decide : 128 ≤ 160),
      drop_append_len id _ 128 _ h1 (by decide : 128 ≤ 164),
      drop_append_len id _ 128 _ h1 (by decide : 128 ≤ 168),
      drop_append_len id _ 128 _ h1 (by decide : 128 ≤ 172),
      drop_append_len id _ 128 _ h1 (by decide : 128 ≤ 176),
      drop_append_len id _ 128 _ h1 (by decide : 128 ≤ 184),
      drop_append_len id _ 128 _ h1 (by decide : 128 ≤ 192),
      drop_append_len id _ 128 _ h1 (by decide : 128 ≤ 200),
      drop_append_len id _ 128 _ h1 (by decide : 128 ≤ 208),
      drop_append_len id _ 128 _ h1 (by decide : 128 ≤ 210)]
  simp only [Nat.reduceSub, List.drop_zero]
  rw [take_append_len _ _ 32 h2]
  simp only [drop_append_len sha _ 32 _ h2 (by decide : 32 ≤ 32),
      drop_append_len sha _ 32 _ h2 (by decide : 32 ≤ 36),
      drop_append_len sha _ 32 _ h2 (by decide : 32 ≤ 40),
      drop_append_len sha _ 32 _ h2 (by decide : 32 ≤ 44),
      drop_append_len sha _ 32 _ h2 (by decide : 32 ≤ 48),
      drop_append_len sha _ 32 _ h2 (by decide : 32 ≤ 56),
      drop_append_len sha _ 32 _ h2 (by decide : 32 ≤ 64),
      drop_append_len sha _ 32 _ h2 (by decide : 32 ≤ 72),
      drop_append_len sha _ 32 _ h2 (by decide : 32 ≤ 80),
      drop_append_len sha _ 32 _ h2 (by decide : 32 ≤ 82)]
  simp only [le_bytes_2_eq, le_bytes_4_eq, le_bytes_8_eq, List.cons_append, List.nil_append,
    Nat.reduceSub, List.drop_succ_cons, List.drop_zero, List.take_succ_cons, List.take_zero,
    List.replicate, from_le, List.foldr, img_metadata.mk.injEq, res_table.mk.injEq,
    Prod.mk.injEq, true_and, and_true]
  refine ⟨⟨?_, ?_⟩, ⟨?_, ?_, ?_⟩, ⟨?_, ?_, ?_⟩, ?_, ?_⟩ <;> omega

/-- Every header decoded from at least 32 bytes has fields that fit their C
types. -/
theorem decode_header_in_range (b : List Nat) (hb : 32 ≤ b.length) :
    header_in_range (decode_header b) := by
  unfold header_in_range decode_header
  dsimp only
  refine ⟨by rw [List.length_take]; simp only [MAX_IMGST_NAME]; omega,
    from_le_take_lt _ 4, from_le_take_lt _ 4,
    from_le_take_lt _ 4, rfl, ?_, from_le_take_lt _ 4, from_le_take_lt _ 8⟩
  intro x hx
  simp only [List.mem_cons, List.mem_singleton, List.not_mem_nil, or_false] at hx
  rcases hx with hx | hx | hx | hx <;> rw [hx] <;> exact from_le_take_lt _ 2

/-- Every slot record decoded from at least 160 bytes has fields that fit
their C types. -/
theorem decode_metadata_in_range (b : List Nat) (hb : 160 ≤ b.length) :
    metadata_in_range (decode_metadata b) := by
  unfold metadata_in_range decode_metadata
  dsimp only
  exact ⟨by rw [List.length_take]; simp only [MAX_IMG_ID]; omega,
    by rw [List.length_take, List.length_drop]; simp only [SHA256_DIGEST_LENGTH]; omega,
    from_le_take_lt _ 4, from_le_take_lt _ 4, from_le_take_lt _ 4, from_le_take_lt _ 4,
    from_le_take_lt _ 4, from_le_take_lt _ 8, from_le_take_lt _ 8, from_le_take_lt _ 8,
    from_le_take_lt _ 2, from_le_take_lt _ 2⟩

/-! ## Lemmas: fread and do_open -/

/-- A complete fread of one item of `size` bytes. -/
theorem fread_one_ok (size : Nat) (f : FILE) (h : (fread size 1 f).1 = 1) :
    (fread size 1 f).2.1 = (f.content.drop f.pos).take size ∧
    f.pos + size ≤ f.content.length ∧ 0 < size ∧
    (fread size 1 f).2.2.pos = f.pos + size ∧
    (fread size 1 f).2.2.content = f.content ∧
    (fread size 1 f).2.2.faults = f.faults.tail ∧
    (fread size 1 f).2.2.can_read = f.can_read := by
  have hc := next_fault_content f
  have hp := next_fault_pos f
  have hr := next_fault_can_read f
  have hfl : (next_fault f).2.faults = f.faults.tail := by
    unfold next_fault; split <;> simp [*]
  unfold fread at h ⊢
  generalize next_fault f = nf at hc hp hr hfl h
  obtain ⟨flt, f0⟩ := nf
  dsimp only at hc hp hr hfl h ⊢
  split at h
  · simp at h
  · next hcr =>
    rw [if_neg hcr]
    cases flt with
    | some k => simp at h
    | none =>
      simp only [Option.isSome_none, Bool.false_eq_true, if_false, Nat.mul_one] at h
      dsimp only
      simp only [Nat.mul_one]
      have hle : ((f0.content.drop f0.pos).take size).length ≤ size := by
        rw [List.length_take]; omega
      have hsz : 0 < size := by
        by_contra hz
        have : size = 0 := by omega
        rw [this] at h
        simp at h
      have hge : size ≤ ((f0.content.drop f0.pos).take size).length := by
        by_contra hlt
        rw [Nat.div_eq_of_lt (by omega)] at h
        exact absurd h (by decide)
      have heq : ((f0.content.drop f0.pos).take size).length = size := by omega
      rw [hc, hp] at heq ⊢
      refine ⟨rfl, ?_, hsz, by rw [heq], rfl, hfl, hr⟩
      rw [List.length_take, List.length_drop] at heq
      omega

/-- On a readable stream without failures, fread of one item that the file
holds returns 1. -/
theorem fread_one_no_fault (size : Nat) (f : FILE) (hf : f.faults = [])
    (hr : f.can_read = true) (hs : 0 < size) (hl : f.pos + size ≤ f.content.length) :
    fread size 1 f = (1, (f.content.drop f.pos).take size, { f with pos := f.pos + size }) := by
  have hlen : ((f.content.drop f.pos).take size).length = size := by
    rw [List.length_take, List.length_drop]; omega
  unfold fread next_fault
  rw [hf]
  dsimp only
  rw [if_neg (by rw [hr]; decide)]
  simp only [Option.isSome_none, Bool.false_eq_true, if_false, Nat.mul_one, hlen,
    Nat.div_self hs]
  rw [hf]

/-- The records that a successful open_read_loop returns. -/
theorem open_read_loop_ok (n : Nat) (f f2 : FILE) (md : List img_metadata)
    (hp : f.pos ≤ f.content.length)
    (h : open_read_loop n f = (some md, f2)) :
    f.pos + n * sizeof_img_metadata ≤ f.content.length ∧
    md = (List.range n).map (fun i => decode_metadata
      ((f.content.drop (f.pos + i * sizeof_img_metadata)).take sizeof_img_metadata)) ∧
    f2.content = f.content := by
  induction n generalizing f md with
  | zero =>
    simp only [open_read_loop, Prod.mk.injEq, Option.some.injEq] at h
    obtain ⟨rfl, rfl⟩ := h
    exact ⟨by omega, rfl, rfl⟩
  | succ n ih =>
    unfold open_read_loop at h
    dsimp only at h
    split at h
    · simp at h
    · next hk =>
      obtain ⟨hd, hle, _, hpos, hcont, _, _⟩ := fread_one_ok _ _ (not_not.mp hk)
      split at h
      · simp at h
      · next rest f3 hrec =>
        simp only [Prod.mk.injEq, Option.some.injEq] at h
        obtain ⟨rfl, rfl⟩ := h
        obtain ⟨i1, i2, i3⟩ := ih _ rest (by rw [hpos, hcont]; exact hle) hrec
        rw [hpos, hcont] at i1 i2
        refine ⟨by simp only [sizeof_img_metadata] at *; omega, ?_, i3.trans hcont⟩
        rw [List.range_succ_eq_map, List.map_cons, hd, i2, List.map_map]
        congr 1
        apply List.map_congr_left
        intro i _
        simp only [Function.comp, sizeof_img_metadata]
        congr 3
        simp only [Nat.succ_eq_add_one]
        ring

/-- On a readable stream without failures, open_read_loop returns the n
records when the file holds them. -/
theorem open_read_loop_no_fault (n : Nat) (f : FILE) (hf : f.faults = [])
    (hr : f.can_read = true) (hl : f.pos + n * sizeof_img_metadata ≤ f.content.length) :
    ∃ md f2, open_read_loop n f = (some md, f2) := by
  induction n generalizing f with
  | zero => exact ⟨[], f, rfl⟩
  | succ n ih =>
    unfold open_read_loop
    rw [fread_one_no_fault _ f hf hr (by decide)
      (by simp only [sizeof_img_metadata] at *; omega)]
    dsimp only
    rw [if_neg (not_not.mpr rfl)]
    obtain ⟨md, f2, h2⟩ := ih { f with pos := f.pos + sizeof_img_metadata } hf hr
      (by simp only [sizeof_img_metadata] at *; omega)
    rw [h2]
    exact ⟨_, _, rfl⟩

theorem fopen_some (disk : Option (List Nat)) (mode : String) (faults : List (Option Nat))
    (f : FILE) (h : fopen disk mode faults = some f) :
    f.pos = 0 ∧ (disk = some f.content ∨ f.content = []) := by
  unfold fopen at h
  dsimp only at h
  split at h
  · simp at h
  · split at h
    · split at h
      · simp at h
      · simp only [Option.some.injEq] at h
        rw [← h]
        exact ⟨rfl, Or.inl rfl⟩
    · split at h
      · simp only [Option.some.injEq] at h
        rw [← h]
        exact ⟨rfl, Or.inr rfl⟩
      · simp at h

theorem fopen_read (c : List Nat) (mode : String) (hm : mode.toList.head? = some 'r') :
    fopen (some c) mode [] = some ⟨c, 0, true, mode.toList.contains '+', []⟩ := by
  unfold fopen
  dsimp only
  rw [hm]
  simp

/-- The outcome of do_open: ERR_IO, ERR_OUT_OF_MEMORY or ERR_NONE. With
ERR_OUT_OF_MEMORY the header was read and the calloc returned NULL; with
ERR_NONE the calloc succeeded, the file exists, holds the header and as many
records as the header says, and the handle receives the decoded header and
records. -/
theorem do_open_cases (disk : Option (List Nat)) (mode : String) (faults : List (Option Nat))
    (calloc_null : Bool) (s s' : imgst_file) (e : Int)
    (h : do_open disk mode faults calloc_null s = (e, s')) :
    e = ERR_IO ∨
    (e = ERR_OUT_OF_MEMORY ∧ calloc_null = true ∧ ∃ c, disk = some c ∧
      sizeof_imgst_header ≤ c.length ∧
      s'.header = decode_header (c.take sizeof_imgst_header) ∧ s'.metadata = []) ∨
    (e = ERR_NONE ∧ calloc_null = false ∧ ∃ c, disk = some c ∧
      sizeof_imgst_header + (decode_header (c.take sizeof_imgst_header)).max_files
        * sizeof_img_metadata ≤ c.length ∧
      s'.header = decode_header (c.take sizeof_imgst_header) ∧
      s'.metadata = (List.range s'.header.max_files).map
        (fun i => decode_metadata (record_bytes c i)) ∧
      s'.file.content = c) := by
  unfold do_open at h
  split at h
  · simp only [Prod.mk.injEq] at h
    exact Or.inl h.1.symm
  · next file hfo =>
    obtain ⟨hp0, hdisk⟩ := fopen_some disk mode faults file hfo
    dsimp only at h
    split at h
    · simp only [Prod.mk.injEq] at h
      exact Or.inl h.1.symm
    · next hk =>
      obtain ⟨hd, hle, _, hpos, hcont, _, _⟩ := fread_one_ok _ _ (not_not.mp hk)
      rw [hp0] at hd hle hpos
      simp only [List.drop_zero, Nat.zero_add] at hd hle hpos
      split at h
      · next hnull =>
        simp only [Prod.mk.injEq] at h
        obtain ⟨he, hs⟩ := h
        rcases hdisk with hdisk | hnil
        · refine Or.inr (Or.inl ⟨he.symm, hnull, file.content, hdisk, hle, ?_, ?_⟩)
          · rw [← hs, ← hd]
          · rw [← hs]
        · rw [hnil] at hle
          simp at hle
      · next hnull =>
        split at h
        · simp only [Prod.mk.injEq] at h
          exact Or.inl h.1.symm
        · next md f2 hloop =>
          simp only [Prod.mk.injEq] at h
          obtain ⟨he, hs⟩ := h
          obtain ⟨l1, l2, l3⟩ := open_read_loop_ok _ _ _ _ (by rw [hpos, hcont]; exact hle) hloop
          rw [hpos, hcont] at l1 l2
          rw [hcont] at l3
          rcases hdisk with hdisk | hnil
          · refine Or.inr (Or.inr ⟨he.symm, by simpa using hnull, file.content, hdisk, ?_, ?_,
              ?_, ?_⟩)
            · rw [← hd]; exact l1
            · rw [← hs, ← hd]
            · rw [← hs]
              dsimp only
              rw [l2]
              rfl
            · rw [← hs]; exact l3
          · rw [hnil] at hle
            simp at hle

/-- On a file that holds the header and the records, opened for reading
without failures and with the mirror allocated, do_open returns ERR_NONE. -/
theorem do_open_no_fault (c : List Nat) (mode : String) (s : imgst_file)
    (hm : mode.toList.head? = some 'r')
    (hl : sizeof_imgst_header + (decode_header (c.take sizeof_imgst_header)).max_files
      * sizeof_img_metadata ≤ c.length) :
    (do_open (some c) mode [] false s).1 = ERR_NONE := by
  unfold do_open
  rw [fopen_read c mode hm]
  dsimp only
  rw [fread_one_no_fault _ _ rfl rfl (by decide)
    (by simp only [sizeof_imgst_header] at *; omega)]
  dsimp only
  rw [if_neg (not_not.mpr rfl)]
  simp only [List.drop_zero]
  obtain ⟨md, f2, h2⟩ := open_read_loop_no_fault
    (decode_header (c.take sizeof_imgst_header)).max_files
    ⟨c, 0 + sizeof_imgst_header, true, mode.toList.contains '+', []⟩ rfl rfl
    (by simp only [sizeof_imgst_header, sizeof_img_metadata] at *; omega)
  rw [if_neg (by decide)]
  rw [h2]

/-- On a file that holds a header, opened for reading without failures, do_open
returns ERR_OUT_OF_MEMORY when the calloc of the mirror returns NULL. -/
theorem do_open_calloc_null (c : List Nat) (mode : String) (s : imgst_file)
    (hm : mode.toList.head? = some 'r') (hl : sizeof_imgst_header ≤ c.length) :
    (do_open (some c) mode [] true s).1 = ERR_OUT_OF_MEMORY := by
  unfold do_open
  rw [fopen_read c mode hm]
  dsimp only
  rw [fread_one_no_fault _ _ rfl rfl (by decide)
    (by simp only [sizeof_imgst_header] at *; omega)]
  dsimp only
  rw [if_neg (not_not.mpr rfl)]
  rw [if_pos rfl]

/-- The bytes of every record of a freshly created file are zero. -/
theorem created_record_bytes (faults : List (Option Nat)) (t s : imgst_file)
    (h : do_create faults t = (ERR_NONE, s)) (i : Nat) (hi : i < s.header.max_files) :
    record_bytes s.file.content i = List.replicate sizeof_img_metadata 0 := by
  obtain ⟨hh, _, _, _⟩ := do_create_ok faults t s h
  have hmax : s.header.max_files = t.header.max_files := by rw [hh]
  unfold record_bytes
  rw [do_create_content faults t s h, ← hmax,
    drop_append_len _ _ sizeof_imgst_header _ (encode_header_length _) (by omega),
    List.drop_replicate, List.take_replicate]
  congr 1
  have : (i + 1) * sizeof_img_metadata ≤ sizeof_img_metadata * s.header.max_files := by
    rw [Nat.mul_comm]; exact Nat.mul_le_mul_left _ hi
  simp only [sizeof_imgst_header, sizeof_img_metadata] at this ⊢
  omega

theorem decode_metadata_zero :
    decode_metadata (List.replicate sizeof_img_metadata 0) = img_metadata.zero := by decide!

/-- The header of a freshly created store fits the C types when max_files and
res_resized of the template do. -/
theorem created_header_in_range (faults : List (Option Nat)) (t s : imgst_file)
    (hmax : t.header.max_files < 2 ^ 32) (hres : t.header.res_resized.length = 4)
    (hval : ∀ x, x ∈ t.header.res_resized → x < 2 ^ 16)
    (h : do_create faults t = (ERR_NONE, s)) : header_in_range s.header := by
  obtain ⟨hh, _, _, _⟩ := do_create_ok faults t s h
  rw [hh]
  unfold header_in_range
  dsimp only
  rw [created_name]
  exact ⟨by decide, by decide, by decide, hmax, hres, hval, by decide, by decide⟩

/-- The handle that do_open builds from a freshly created file: the created
header and max_files all-zero records. -/
theorem do_open_created (faults : List (Option Nat)) (t s0 s : imgst_file) (mode : String)
    (hmax : t.header.max_files < 2 ^ 32) (hres : t.header.res_resized.length = 4)
    (hval : ∀ x, x ∈ t.header.res_resized → x < 2 ^ 16)
    (h : do_create faults t = (ERR_NONE, s0)) (hm : mode.toList.head? = some 'r') :
    (do_open (some s0.file.content) mode [] false s).1 = ERR_NONE ∧
    (do_open (some s0.file.content) mode [] false s).2.header = s0.header ∧
    (do_open (some s0.file.content) mode [] false s).2.metadata
      = List.replicate s0.header.max_files img_metadata.zero := by
  obtain ⟨hh, _, hl, htake⟩ := do_create_ok faults t s0 h
  have hdec : decode_header (s0.file.content.take sizeof_imgst_header) = s0.header := by
    rw [htake]
    exact decode_encode_header _ (created_header_in_range faults t s0 hmax hres hval h)
  have hmf : s0.header.max_files = t.header.max_files := by rw [hh]
  have hok := do_open_no_fault s0.file.content mode s hm (by
    rw [hdec, hl, hmf]; simp only [sizeof_imgst_header, sizeof_img_metadata]; omega)
  rcases do_open_cases (some s0.file.content) mode [] false s
      (do_open (some s0.file.content) mode [] false s).2
      (do_open (some s0.file.content) mode [] false s).1
      rfl with he | ⟨_, hnull, _⟩ | ⟨_, _, c, hc, _, h2, h3, _⟩
  · rw [hok] at he
    exact absurd he (by decide)
  · exact absurd hnull (by decide)
  · simp only [Option.some.injEq] at hc
    rw [← hc, hdec] at h2
    refine ⟨hok, h2, ?_⟩
    rw [h3, h2, ← hc]
    apply List.ext_getElem
    · simp
    · intro i h1 h2'
      simp only [List.length_map, List.length_range] at h1
      simp only [List.getElem_map, List.getElem_range, List.getElem_replicate]
      rw [created_record_bytes faults t s0 h i h1, decode_metadata_zero]

/-! ## Lemmas: the records of a file after a write -/

theorem write_at_self (c : List Nat) (p : Nat) (d : List Nat) :
    ((write_at c p d).drop p).take d.length = d := by
  unfold write_at
  split
  · next h => rw [h]; simp
  · have hl : ((c ++ List.replicate (p - c.length) 0).take p).length = p := by
      simp only [List.length_append, List.length_take, List.length_replicate]; omega
    rw [List.append_assoc, drop_append_len _ _ p p hl (le_refl _), Nat.sub_self, List.drop_zero]
    exact List.take_left _ _

theorem take_drop_eq (l : List Nat) (q n : Nat) :
    (l.drop q).take n = (l.take (q + n)).drop q := by
  rw [List.drop_take, Nat.add_sub_cancel_left]

theorem write_at_slice (c : List Nat) (p : Nat) (d : List Nat) (q n : Nat)
    (h : q + n ≤ p ∨ p + d.length ≤ q) (hq : q + n ≤ c.length) :
    ((write_at c p d).drop q).take n = (c.drop q).take n := by
  rcases h with h | h
  · rw [take_drop_eq, take_drop_eq c, write_at_take _ _ _ _ h hq]
  · rw [write_at_drop _ _ _ _ h]

theorem record_bytes_length (c : List Nat) (i : Nat)
    (h : sizeof_imgst_header + (i + 1) * sizeof_img_metadata ≤ c.length) :
    (record_bytes c i).length = sizeof_img_metadata := by
  unfold record_bytes
  rw [List.length_take, List.length_drop]
  simp only [sizeof_imgst_header, sizeof_img_metadata] at *
  omega

theorem record_bytes_write_self (c : List Nat) (k : Nat) (rec : List Nat)
    (hr : rec.length = sizeof_img_metadata) :
    record_bytes (write_at c (sizeof_imgst_header + k * sizeof_img_metadata) rec) k = rec := by
  unfold record_bytes
  rw [← hr]
  exact write_at_self _ _ _

theorem record_bytes_write_other (c : List Nat) (p : Nat) (d : List Nat) (i : Nat)
    (h : sizeof_imgst_header + (i + 1) * sizeof_img_metadata ≤ p ∨
      p + d.length ≤ sizeof_imgst_header + i * sizeof_img_metadata)
    (hl : sizeof_imgst_header + (i + 1) * sizeof_img_metadata ≤ c.length) :
    record_bytes (write_at c p d) i = record_bytes c i := by
  unfold record_bytes
  apply write_at_slice
  · simp only [sizeof_imgst_header, sizeof_img_metadata] at *
    omega
  · simp only [sizeof_imgst_header, sizeof_img_metadata] at *
    omega

theorem record_bytes_append (c b : List Nat) (i : Nat)
    (hl : sizeof_imgst_header + (i + 1) * sizeof_img_metadata ≤ c.length) :
    record_bytes (c ++ b) i = record_bytes c i := by
  unfold record_bytes
  rw [take_drop_eq, take_drop_eq c, List.take_append_of_le_length (by
    simp only [sizeof_imgst_header, sizeof_img_metadata] at *
    omega)]

theorem write_at_zero_take (c d : List Nat) (n : Nat) (hd : d.length = n) :
    (write_at c 0 d).take n = d := by
  have := write_at_self c 0 d
  rw [List.drop_zero, hd] at this
  exact this

/-- A slot of a handle whose stored table matches fits the C types. -/
theorem stored_slot_in_range (s : imgst_file) (hinv : stored_table_matches s) (i : Nat)
    (hi : i < s.header.max_files) : metadata_in_range (s.slot i) := by
  obtain ⟨h1, _, _, h4⟩ := hinv
  rw [← h4 i hi]
  apply decode_metadata_in_range
  rw [record_bytes_length _ _ (by
    have : (i + 1) * sizeof_img_metadata ≤ s.header.max_files * sizeof_img_metadata :=
      Nat.mul_le_mul_right _ hi
    omega)]
  decide

/-- The header of a handle whose stored table matches fits the C types. -/
theorem stored_header_in_range (s : imgst_file) (hinv : stored_table_matches s) :
    header_in_range s.header := by
  obtain ⟨h1, h2, _, _⟩ := hinv
  rw [← h2]
  apply decode_header_in_range
  rw [List.length_take]
  simp only [sizeof_imgst_header] at *
  omega

/-- The stored table matches the handle s' when, relative to a handle s whose
stored table matches, the file still holds the table, its first bytes decode
to the header of s', the bytes of record k are the encoding of slot k of s',
and the other records and slots are those of s. -/
theorem stored_of_slices (s s' : imgst_file) (k : Nat) (hinv : stored_table_matches s)
    (hmax : s'.header.max_files = s.header.max_files)
    (hlen : s'.metadata.length = s.metadata.length)
    (hoth : ∀ j, j ≠ k → s'.slot j = s.slot j)
    (hmr : metadata_in_range (s'.slot k))
    (ha : sizeof_imgst_header + s.header.max_files * sizeof_img_metadata
      ≤ s'.file.content.length)
    (hb : decode_header (s'.file.content.take sizeof_imgst_header) = s'.header)
    (hc : record_bytes s'.file.content k = encode_metadata (s'.slot k))
    (hd : ∀ i, i < s.header.max_files → i ≠ k →
      record_bytes s'.file.content i = record_bytes s.file.content i) :
    stored_table_matches s' := by
  obtain ⟨h1, h2, h3, h4⟩ := hinv
  refine ⟨by rw [hmax]; exact ha, hb, by rw [hlen, hmax]; exact h3, ?_⟩
  intro i hi
  rw [hmax] at hi
  by_cases hik : i = k
  · rw [hik, hc]
    exact decode_encode_metadata _ hmr
  · rw [hd i hi hik, h4 i hi, hoth i hik]

/-! ## Lemmas: the stored table after a successful mutation -/

theorem strncpy_length (dest src : List Nat) (n : Nat) (h : n ≤ dest.length) :
    (strncpy dest src n).length = dest.length := by
  unfold strncpy
  simp only [List.length_append, List.length_take, List.length_replicate, List.length_drop]
  omega

theorem record_bytes_flushed_other (X : List Nat) (s' : imgst_file) (k i : Nat) (hik : i ≠ k)
    (hl : sizeof_imgst_header + (i + 1) * sizeof_img_metadata ≤ X.length) :
    record_bytes (flushed X s' k) i = record_bytes X i := by
  unfold flushed
  have h0 : X.length ≤ (write_at X 0 (encode_header s'.header)).length :=
    write_at_length_ge _ _ _
  rw [record_bytes_write_other _ _ _ _ (by
      rw [encode_metadata_length]
      simp only [sizeof_imgst_header, sizeof_img_metadata]
      omega) (by omega),
    record_bytes_write_other _ _ _ _ (by
      rw [encode_header_length]
      simp only [sizeof_imgst_header, sizeof_img_metadata]
      omega) hl]

theorem record_bytes_flushed_self (X : List Nat) (s' : imgst_file) (k : Nat) :
    record_bytes (flushed X s' k) k = encode_metadata (s'.slot k) := by
  unfold flushed
  rw [Nat.mul_comm]
  exact record_bytes_write_self _ _ _ (encode_metadata_length _)

theorem flushed_take_header (X : List Nat) (s' : imgst_file) (k : Nat)
    (hl : sizeof_imgst_header ≤ X.length) :
    (flushed X s' k).take sizeof_imgst_header = encode_header s'.header := by
  unfold flushed
  rw [write_at_take _ _ _ _ (by omega) (le_trans hl (write_at_length_ge _ _ _)),
    write_at_zero_take _ _ _ (encode_header_length _)]

/-- After a successful do_insert on a handle whose stored table matches, the
stored table matches again, and the bytes of record k, k the insertion index,
are the encoding of the new slot. -/
theorem stored_after_insert (env : Env) (buffer img_id : List Nat) (s s' : imgst_file)
    (hinv : stored_table_matches s) (hsha : (env.SHA256 buffer).length = SHA256_DIGEST_LENGTH)
    (hsize : s.file.content.length < 2 ^ 64)
    (h : do_insert env buffer img_id s = some (ERR_NONE, s')) :
    stored_table_matches s' ∧
    record_bytes s'.file.content (find_first_free_meta s)
      = encode_metadata (s'.slot (find_first_free_meta s)) := by
  obtain ⟨_, _, hk, hkmax, hlen, hh, hoth, hv, hs, hid, ⟨w, ht, _, hres⟩, course⟩ :=
    do_insert_ok_effect env buffer img_id s s' _ rfl h
  have hinv' := hinv
  obtain ⟨i1, i2, i3, i4⟩ := hinv
  have hkr := stored_slot_in_range s hinv' _ hkmax
  have hhr := stored_header_in_range s hinv'
  have hktab : sizeof_imgst_header + (find_first_free_meta s + 1) * sizeof_img_metadata
      ≤ s.file.content.length := by
    have : (find_first_free_meta s + 1) * sizeof_img_metadata
        ≤ s.header.max_files * sizeof_img_metadata := Nat.mul_le_mul_right _ hkmax
    omega
  -- the file is the flush of the old content followed by some bytes
  have hfile : ∃ b, s'.file.content = flushed (s.file.content ++ b) s' (find_first_free_meta s) := by
    rcases course with ⟨_, _, _, _, hc⟩ | ⟨c, _, _, _, _, _, ⟨_, _, _, _, hc⟩ | ⟨_, _, _, _, hc⟩⟩
    · exact ⟨buffer, hc⟩
    · exact ⟨[], by rw [List.append_nil]; exact hc⟩
    · exact ⟨buffer, hc⟩
  obtain ⟨b, hfile⟩ := hfile
  -- the new slot fits the C types
  have hrange : metadata_in_range (s'.slot (find_first_free_meta s)) := by
    obtain ⟨r1, r2, r3, r4, r5, r6, r7, r8, r9, r10, r11, r12⟩ := hkr
    have hidl : (s'.slot (find_first_free_meta s)).img_id.length = MAX_IMG_ID + 1 := by
      rw [hid, strncpy_length _ _ _ (by rw [r1]; decide), r1]
    have hr1 : (s'.slot (find_first_free_meta s)).res_orig.1 < 2 ^ 32 := by
      rw [hres]; exact Nat.mod_lt _ (by decide)
    have hr2 : (s'.slot (find_first_free_meta s)).res_orig.2 < 2 ^ 32 := by
      rw [hres]; exact Nat.mod_lt _ (by decide)
    have hval : (s'.slot (find_first_free_meta s)).is_valid < 2 ^ 16 := by
      rw [hv]; decide
    have hmod : buffer.length % 2 ^ 32 < 2 ^ 32 := Nat.mod_lt _ (by decide)
    rcases course with ⟨_, hsz, hof, hu, _⟩ |
      ⟨c, hc, _, _, _, _, ⟨_, hsz, hof, hu, _⟩ | ⟨_, hsz, hof, hu, _⟩⟩
    · refine ⟨hidl, by rw [hs]; exact hsha, hr1, hr2, ?_, ?_, ?_, ?_, ?_, ?_, hval, ?_⟩
      · rw [hsz]; show (0 : Nat) < 2 ^ 32; decide
      · rw [hsz]; show (0 : Nat) < 2 ^ 32; decide
      · rw [hsz]; exact hmod
      · rw [hof]; show (0 : Nat) < 2 ^ 64; decide
      · rw [hof]; show (0 : Nat) < 2 ^ 64; decide
      · rw [hof]; exact hsize
      · rw [hu]; show (0 : Nat) < 2 ^ 16; decide
    · obtain ⟨_, _, _, _, c5, c6, c7, c8, c9, c10, _, c12⟩ := stored_slot_in_range s hinv' c hc
      refine ⟨hidl, by rw [hs]; exact hsha, hr1, hr2, ?_, ?_, ?_, ?_, ?_, ?_, hval, ?_⟩
      · rw [hsz]; exact c5
      · rw [hsz]; exact c6
      · rw [hsz]; exact c7
      · rw [hof]; exact c8
      · rw [hof]; exact c9
      · rw [hof]; exact c10
      · rw [hu]; exact c12
    · obtain ⟨_, _, _, _, c5, c6, c7, c8, c9, c10, _, c12⟩ := stored_slot_in_range s hinv' c hc
      refine ⟨hidl, by rw [hs]; exact hsha, hr1, hr2, ?_, ?_, ?_, ?_, ?_, ?_, hval, ?_⟩
      · rw [hsz]; show (0 : Nat) < 2 ^ 32; decide
      · rw [hsz]; show (0 : Nat) < 2 ^ 32; decide
      · rw [hsz]; exact c7
      · rw [hof]; show (0 : Nat) < 2 ^ 64; decide
      · rw [hof]; show (0 : Nat) < 2 ^ 64; decide
      · rw [hof]; exact hsize
      · rw [hu]; show (0 : Nat) < 2 ^ 16; decide
  have hhr' : header_in_range s'.header := by
    obtain ⟨r1, r2, r3, r4, r5, r6, r7, r8⟩ := hhr
    rw [hh]
    exact ⟨r1, Nat.mod_lt _ (by decide), Nat.mod_lt _ (by decide), r4, r5, r6, r7, r8⟩
  have hXl : s.file.content.length ≤ (s.file.content ++ b).length := by simp
  have hself : record_bytes s'.file.content (find_first_free_meta s)
      = encode_metadata (s'.slot (find_first_free_meta s)) := by
    rw [hfile]; exact record_bytes_flushed_self _ _ _
  refine ⟨stored_of_slices s s' (find_first_free_meta s) hinv' (by rw [hh]) hlen hoth hrange
    ?_ ?_ hself ?_, hself⟩
  · rw [hfile]
    exact le_trans (le_trans i1 hXl) (flushed_length_ge _ _ _)
  · rw [hfile, flushed_take_header _ _ _ (by omega)]
    exact decode_encode_header _ hhr'
  · intro i hi hik
    have hitab : sizeof_imgst_header + (i + 1) * sizeof_img_metadata
        ≤ s.file.content.length := by
      have : (i + 1) * sizeof_img_metadata
          ≤ s.header.max_files * sizeof_img_metadata := Nat.mul_le_mul_right _ hi
      omega
    rw [hfile, record_bytes_flushed_other _ _ _ _ hik (by omega),
      record_bytes_append _ _ _ hitab]
/-- After a successful do_delete on a handle whose stored table matches, the
stored table matches again. -/
theorem stored_after_delete (imgID : List Nat) (s s' : imgst_file)
    (hinv : stored_table_matches s) (h : do_delete imgID s = (ERR_NONE, s')) :
    stored_table_matches s' := by
  rcases do_delete_cases imgID s s' _ h with ⟨hc, _⟩ | ⟨i, hi, _, hv, _, _, hd⟩
  · exact absurd hc (by decide)
  · obtain ⟨hm, _, hok, _⟩ := delete_at_cases s s' i _ hd
    obtain ⟨hh, hcont⟩ := hok rfl
    have hinv' := hinv
    obtain ⟨i1, i2, i3, i4⟩ := hinv
    have hil : i < s.metadata.length := valid_lt_length s i hv
    have hs : ∀ j, s'.slot j = (s.set_slot i { s.slot i with is_valid := EMPTY }).slot j :=
      fun j => congrArg (fun m => m.getD j default) hm
    have hsi : s'.slot i = { s.slot i with is_valid := EMPTY } := by
      rw [hs i]; exact slot_set_slot_eq _ _ _ hil
    have htab : ∀ j, j < s.header.max_files →
        sizeof_imgst_header + (j + 1) * sizeof_img_metadata ≤ s.file.content.length := by
      intro j hj
      have : (j + 1) * sizeof_img_metadata
          ≤ s.header.max_files * sizeof_img_metadata := Nat.mul_le_mul_right _ hj
      omega
    have hhr' : header_in_range s'.header := by
      obtain ⟨r1, r2, r3, r4, r5, r6, r7, r8⟩ := stored_header_in_range s hinv'
      rw [hh]
      exact ⟨r1, Nat.mod_lt _ (by decide), Nat.mod_lt _ (by decide), r4, r5, r6, r7, r8⟩
    have hrange : metadata_in_range (s'.slot i) := by
      obtain ⟨r1, r2, r3, r4, r5, r6, r7, r8, r9, r10, r11, r12⟩ :=
        stored_slot_in_range s hinv' i hi
      rw [hsi]
      exact ⟨r1, r2, r3, r4, r5, r6, r7, r8, r9, r10, (by decide : (0 : Nat) < 2 ^ 16), r12⟩
    have hge1 : s.file.content.length ≤ (write_at s.file.content
        (sizeof_imgst_header + i * sizeof_img_metadata)
        (encode_metadata (s'.slot i))).length := write_at_length_ge _ _ _
    refine stored_of_slices s s' i hinv' (by rw [hh]) (by rw [hm]; exact set_slot_length _ _ _)
      (fun j hj => by rw [hs j]; exact slot_set_slot_ne _ _ _ _ (Ne.symm hj)) hrange ?_ ?_ ?_ ?_
    · rw [hcont]
      exact le_trans (le_trans i1 hge1) (write_at_length_ge _ _ _)
    · rw [hcont, write_at_zero_take _ _ _ (encode_header_length _)]
      exact decode_encode_header _ hhr'
    · rw [hcont, record_bytes_write_other _ _ _ _ (by
          rw [encode_header_length]
          simp only [sizeof_imgst_header, sizeof_img_metadata]
          omega) (le_trans (htab i hi) hge1)]
      exact record_bytes_write_self _ _ _ (encode_metadata_length _)
    · intro j hj hji
      rw [hcont, record_bytes_write_other _ _ _ _ (by
          rw [encode_header_length]
          simp only [sizeof_imgst_header, sizeof_img_metadata]
          omega) (le_trans (htab j hj) hge1),
        record_bytes_write_other _ _ _ _ (by
          rw [encode_metadata_length]
          simp only [sizeof_imgst_header, sizeof_img_metadata]
          omega) (htab j hj)]

/-- After a successful lazily_resize on a handle whose stored table matches,
the stored table matches again. -/
theorem stored_after_resize (env : Env) (size_code : Int) (s s' : imgst_file) (position : Nat)
    (hinv : stored_table_matches s) (hsize : s.file.content.length < 2 ^ 64)
    (h : lazily_resize env size_code s position = (ERR_NONE, s')) :
    stored_table_matches s' := by
  rcases lazily_resize_ok_effect env size_code s s' position h with ⟨hs, _⟩ |
    ⟨hpos, hcode, _, _, out_data, _, hh, hm, hcont, _⟩
  · rw [hs]; exact hinv
  · have hinv' := hinv
    obtain ⟨i1, i2, i3, i4⟩ := hinv
    have hs : ∀ j, s'.slot j = (s.set_slot position
        { s.slot position with
          offset := (s.slot position).offset.set size_code s.file.content.length
          size := (s.slot position).size.set size_code (out_data.length % 2 ^ 32) }).slot j :=
      fun j => congrArg (fun m => m.getD j default) hm
    have hsi : s'.slot position = { s.slot position with
          offset := (s.slot position).offset.set size_code s.file.content.length
          size := (s.slot position).size.set size_code (out_data.length % 2 ^ 32) } := by
      rw [hs position]; exact slot_set_slot_eq _ _ _ (by omega)
    have htab : ∀ j, j < s.header.max_files →
        sizeof_imgst_header + (j + 1) * sizeof_img_metadata ≤ s.file.content.length := by
      intro j hj
      have : (j + 1) * sizeof_img_metadata
          ≤ s.header.max_files * sizeof_img_metadata := Nat.mul_le_mul_right _ hj
      omega
    have hmod : out_data.length % 2 ^ 32 < 2 ^ 32 := Nat.mod_lt _ (by decide)
    have hrange : metadata_in_range (s'.slot position) := by
      obtain ⟨r1, r2, r3, r4, r5, r6, r7, r8, r9, r10, r11, r12⟩ :=
        stored_slot_in_range s hinv' position hpos
      rw [hsi]
      rcases hcode with hc | hc <;> subst hc
      · exact ⟨r1, r2, r3, r4, hmod, r6, r7, hsize, r9, r10, r11, r12⟩
      · exact ⟨r1, r2, r3, r4, r5, hmod, r7, r8, hsize, r10, r11, r12⟩
    have hXl : s.file.content.length ≤ (s.file.content ++ out_data).length := by simp
    refine stored_of_slices s s' position hinv' (by rw [hh]) (by rw [hm]; exact set_slot_length _ _ _)
      (fun j hj => by rw [hs j]; exact slot_set_slot_ne _ _ _ _ (Ne.symm hj)) hrange ?_ ?_ ?_ ?_
    · rw [hcont]
      exact le_trans (le_trans i1 hXl) (write_at_length_ge _ _ _)
    · rw [hcont, write_at_take _ _ _ _ (by omega) (by omega),
        List.take_append_of_le_length (by omega), hh]
      exact i2
    · rw [hcont]
      exact record_bytes_write_self _ _ _ (encode_metadata_length _)
    · intro j hj hji
      rw [hcont, record_bytes_write_other _ _ _ _ (by
          rw [encode_metadata_length]
          simp only [sizeof_imgst_header, sizeof_img_metadata]
          omega) (le_trans (htab j hj) hXl),
        record_bytes_append _ _ _ (htab j hj)]

/-! ## Lemmas: do_gbcollect -/

theorem no_variant_create (faults : List (Option Nat)) (t s : imgst_file)
    (h : do_create faults t = (ERR_NONE, s)) : no_variant s := by
  intro j
  rw [created_slot_zero faults t s h j]
  exact ⟨rfl, rfl, rfl, rfl⟩

theorem no_variant_insert (env : Env) (buffer img_id : List Nat) (s s' : imgst_file)
    (hs : no_variant s) (h : do_insert env buffer img_id s = some (ERR_NONE, s')) :
    no_variant s' := by
  obtain ⟨_, _, _, _, _, _, hoth, _, _, _, _, course⟩ :=
    do_insert_ok_effect env buffer img_id s s' _ rfl h
  intro j
  by_cases hj : j = find_first_free_meta s
  · rw [hj]
    rcases course with ⟨_, hsz, hof, _, _⟩ |
      ⟨c, _, _, _, _, _, ⟨_, hsz, hof, _, _⟩ | ⟨_, hsz, hof, _, _⟩⟩
    · rw [hsz, hof]; exact ⟨rfl, rfl, rfl, rfl⟩
    · rw [hsz, hof]; exact hs c
    · rw [hsz, hof]; exact ⟨rfl, rfl, rfl, rfl⟩
  · rw [hoth j hj]; exact hs j

theorem gbcollect_loop_no_variant (env : Env) (n i : Nat) (old temp old' temp' : imgst_file)
    (hs : no_variant temp)
    (h : gbcollect_loop env n i old temp = some (ERR_NONE, old', temp')) :
    no_variant temp' := by
  induction n generalizing i old temp with
  | zero =>
    simp only [gbcollect_loop, Option.some.injEq, Prod.mk.injEq, true_and] at h
    rw [← h.2]; exact hs
  | succ n ih =>
    unfold gbcollect_loop at h
    split at h
    · simp at h
    · dsimp only at h
      split at h
      · exact ih _ _ _ hs h
      · split at h
        · split at h
          · simp at h
          · next r hr =>
            split at h
            · next he =>
              simp only [Option.some.injEq, Prod.mk.injEq] at h
              exact absurd h.1 he
            · split at h
              · simp at h
              · next err temp1 hins =>
                split at h
                · next he =>
                  simp only [Option.some.injEq, Prod.mk.injEq] at h
                  exact absurd h.1 he
                · next he =>
                  have he' : err = ERR_NONE := not_not.mp he
                  rw [he'] at hins
                  exact ih _ _ _ (no_variant_insert env _ _ _ _ hs hins) h
        · exact ih _ _ _ hs h

/-- The handle temp that do_gbcollect reports is the handle after do_create
and the copy loop. -/
theorem do_gbcollect_temp (env : Env) (faults_old faults_tmp : List (Option Nat))
    (remove_fails rename_fails : Bool) (old temp : imgst_file) (d : gc_disk) (r : gc_result)
    (t : imgst_file)
    (h : do_gbcollect env faults_old faults_tmp remove_fails rename_fails old temp d = some r)
    (ht : r.temp = some t) :
    ∃ old1 temp1 old2, do_open d.imgst_path "r+b" faults_old false old = (ERR_NONE, old1) ∧
      do_create faults_tmp temp = (ERR_NONE, temp1) ∧
      gbcollect_loop env old1.header.num_files 0 old1 temp1 = some (ERR_NONE, old2, t) := by
  unfold do_gbcollect at h
  dsimp only at h
  split at h
  · simp only [Option.some.injEq] at h
    rw [← h] at ht
    simp at ht
  · next he0 =>
    split at h
    · simp only [Option.some.injEq] at h
      rw [← h] at ht
      simp at ht
    · next he1 =>
      split at h
      · simp at h
      · next err2 old2 temp2 hloop =>
        have hop : do_open d.imgst_path "r+b" faults_old false old
            = (ERR_NONE, (do_open d.imgst_path "r+b" faults_old false old).2) :=
          Prod.ext (not_not.mp he0) rfl
        have hcr : do_create faults_tmp temp = (ERR_NONE, (do_create faults_tmp temp).2) :=
          Prod.ext (not_not.mp he1) rfl
        split at h
        · simp only [Option.some.injEq] at h
          rw [← h] at ht
          simp at ht
        · next he2 =>
          have he2' : err2 = ERR_NONE := not_not.mp he2
          have htt : temp2 = t := by
            split at h
            · simp only [Option.some.injEq] at h
              rw [← h] at ht
              simpa using ht
            · split at h
              · simp only [Option.some.injEq] at h
                rw [← h] at ht
                simpa using ht
              · simp only [Option.some.injEq] at h
                rw [← h] at ht
                simpa using ht
          rw [he2', htt] at hloop
          exact ⟨_, _, old2, hop, hcr, hloop⟩

/-- When do_gbcollect returns ERR_NONE, remove and rename both returned a
nonzero value. -/
theorem do_gbcollect_ok_only_if_both_fail (env : Env)
    (faults_old faults_tmp : List (Option Nat)) (remove_fails rename_fails : Bool)
    (old temp : imgst_file) (d : gc_disk) (r : gc_result)
    (h : do_gbcollect env faults_old faults_tmp remove_fails rename_fails old temp d = some r)
    (he : r.err = ERR_NONE) : remove_fails = true ∧ rename_fails = true := by
  have h9 : ( ERR_IO : Int) ≠ ERR_NONE := by decide
  unfold do_gbcollect at h
  dsimp only at h
  split at h
  · next he0 =>
    simp only [Option.some.injEq] at h
    rw [← h] at he
    exact absurd he he0
  · split at h
    · next he1 =>
      simp only [Option.some.injEq] at h
      rw [← h] at he
      exact absurd he he1
    · split at h
      · simp at h
      · next err2 old2 temp2 hloop =>
        split at h
        · next he2 =>
          simp only [Option.some.injEq] at h
          rw [← h] at he
          exact absurd he he2
        · split at h
          · simp only [Option.some.injEq] at h
            rw [← h] at he
            exact absurd he h9
          · next hr1 =>
            split at h
            · simp only [Option.some.injEq] at h
              rw [← h] at he
              exact absurd he h9
            · next hr2 =>
              have h1 : remove_fails = true := by
                by_contra hc
                apply hr1
                simp [stdio_remove, hc]
              refine ⟨h1, ?_⟩
              by_contra hc
              apply hr2
              simp [stdio_remove, stdio_rename, h1, hc]

/-! ## Lemmas: handles reached with the file closed and opened again -/

theorem slot_congr (s s' : imgst_file) (hm : s'.metadata = s.metadata) (j : Nat) :
    s'.slot j = s.slot j := by
  unfold imgst_file.slot
  rw [hm]

/-- On a handle whose stored table matches, do_open of the store file gives a
handle with the same header, the same mirror and the same file content. -/
theorem reopen_same (s s' t : imgst_file) (mode : String) (faults : List (Option Nat))
    (calloc_null : Bool) (hinv : stored_table_matches s)
    (h : do_open (some s.file.content) mode faults calloc_null t = (ERR_NONE, s')) :
    s'.header = s.header ∧ s'.metadata = s.metadata ∧ s'.file.content = s.file.content := by
  obtain ⟨i1, i2, i3, i4⟩ := hinv
  rcases do_open_cases _ _ _ _ _ _ _ h with he | ⟨he, _⟩ | ⟨_, _, c, hc, _, h2, h3, h4⟩
  · exact absurd he (by decide)
  · exact absurd he (by decide)
  · simp only [Option.some.injEq] at hc
    rw [← hc] at h2 h3 h4
    rw [i2] at h2
    refine ⟨h2, ?_, h4⟩
    rw [h3, h2]
    apply List.ext_getElem
    · simp [i3]
    · intro i h1 h2'
      simp only [List.length_map, List.length_range] at h1
      simp only [List.getElem_map, List.getElem_range]
      rw [i4 i h1, slot_eq_getElem s i h2']

theorem stored_table_matches_congr (s s' : imgst_file) (hh : s'.header = s.header)
    (hm : s'.metadata = s.metadata) (hc : s'.file.content = s.file.content)
    (hinv : stored_table_matches s) : stored_table_matches s' := by
  obtain ⟨i1, i2, i3, i4⟩ := hinv
  unfold stored_table_matches
  rw [hh, hm, hc]
  exact ⟨i1, i2, i3, fun i hi => by rw [slot_congr s s' hm i]; exact i4 i hi⟩

theorem share_inv_congr (s s' : imgst_file) (hh : s'.header = s.header)
    (hm : s'.metadata = s.metadata) (hc : s'.file.content = s.file.content)
    (hinv : share_inv s) : share_inv s' := by
  obtain ⟨i1, i2, i3, i4⟩ := hinv
  unfold share_inv
  simp only [slot_congr s s' hm]
  rw [hh, hm, hc]
  exact ⟨i1, i2, i3, i4⟩

theorem layout_inv_congr (s s' : imgst_file) (hh : s'.header = s.header)
    (hm : s'.metadata = s.metadata) (hc : s'.file.content = s.file.content)
    (hinv : layout_inv s) : layout_inv s' := by
  obtain ⟨i1, i2⟩ := hinv
  unfold layout_inv
  simp only [slot_congr s s' hm]
  rw [hh, hc]
  exact ⟨i1, i2⟩

theorem res_inv_congr (env : Env) (s s' : imgst_file) (hm : s'.metadata = s.metadata)
    (hinv : res_inv env s) : res_inv env s' := by
  unfold res_inv
  simp only [slot_congr s s' hm]
  exact hinv

/-! ### The recorded digest and resolution of every valid slot -/

theorem res_inv_create (env : Env) (faults : List (Option Nat)) (t s : imgst_file)
    (h : do_create faults t = (ERR_NONE, s)) : res_inv env s := by
  intro i hv
  rw [created_slot_zero faults t s h i] at hv
  exact absurd hv zero_not_valid

theorem res_inv_insert (env : Env) (buffer img_id : List Nat) (s s' : imgst_file)
    (hinv : res_inv env s) (h : do_insert env buffer img_id s = some (ERR_NONE, s')) :
    res_inv env s' := by
  obtain ⟨_, _, _, _, _, _, hoth, _, hs, _, ⟨w, ht, hd, hres⟩, _⟩ :=
    do_insert_ok_effect env buffer img_id s s' _ rfl h
  intro i hv
  by_cases hi : i = find_first_free_meta s
  · rw [hi]
    exact ⟨buffer, w, ht, hs, hd, hres⟩
  · rw [hoth i hi] at hv ⊢
    exact hinv i hv

theorem res_inv_delete (env : Env) (imgID : List Nat) (s s' : imgst_file)
    (hinv : res_inv env s) (h : do_delete imgID s = (ERR_NONE, s')) : res_inv env s' := by
  rcases do_delete_cases imgID s s' _ h with ⟨hc, _⟩ | ⟨i, _, _, hv, _, _, hd⟩
  · exact absurd hc (by decide)
  · obtain ⟨hm, _, _, _⟩ := delete_at_cases s s' i _ hd
    have hil : i < s.metadata.length := valid_lt_length s i hv
    have hs : ∀ j, s'.slot j = (s.set_slot i { s.slot i with is_valid := EMPTY }).slot j :=
      fun j => congrArg (fun m => m.getD j default) hm
    intro j hvj
    by_cases hj : j = i
    · rw [hj, hs i, slot_set_slot_eq _ _ _ hil] at hvj
      have h01 : EMPTY ≠ NON_EMPTY := by decide
      exact absurd hvj h01
    · rw [hs j, slot_set_slot_ne _ _ _ _ (Ne.symm hj)] at hvj ⊢
      exact hinv j hvj

theorem res_inv_resize (env : Env) (size_code : Int) (position : Nat) (s s' : imgst_file)
    (e : Int) (hinv : res_inv env s) (h : lazily_resize env size_code s position = (e, s')) :
    res_inv env s' := by
  obtain ⟨_, _, _, hfr⟩ := lazily_resize_frame env size_code s s' position e h
  intro i hv
  obtain ⟨f1, f2, _, f4, _, _⟩ := hfr i
  rw [f1] at hv
  rw [f2, f4]
  exact hinv i hv

/-- In every handle reached also through do_open, the stored table matches
the handle, content is shared, and every valid slot records the digest and
the resolution of a decodable buffer. -/
theorem reachable_open_inv (env : Env) (lim : Nat) (s : imgst_file)
    (hsha : ∀ b, (env.SHA256 b).length = SHA256_DIGEST_LENGTH)
    (hs : ReachableOpen env lim s) :
    stored_table_matches s ∧ share_inv s ∧ res_inv env s := by
  induction hs with
  | create faults t s hmax hres hval h =>
    refine ⟨?_, share_inv_create faults t s h, res_inv_create env faults t s h⟩
    obtain ⟨hh, hm, hl, htake⟩ := do_create_ok faults t s h
    have hmf : s.header.max_files = t.header.max_files := by rw [hh]
    refine ⟨by rw [hl, hmf]; simp only [sizeof_imgst_header, sizeof_img_metadata]; omega, ?_,
      by rw [hm, hmf]; simp, ?_⟩
    · rw [htake]
      exact decode_encode_header _ (created_header_in_range faults t s hmax hres hval h)
    · intro i hi
      rw [created_record_bytes faults t s h i hi, decode_metadata_zero,
        created_slot_zero faults t s h i]
  | reopen faults calloc_null t s s' _ h ih =>
    obtain ⟨hh, hm, hc⟩ := reopen_same s s' t _ faults calloc_null ih.1 h
    exact ⟨stored_table_matches_congr s s' hh hm hc ih.1, share_inv_congr s s' hh hm hc ih.2.1,
      res_inv_congr env s s' hm ih.2.2⟩
  | insert buffer img_id s s' _ _ hsize h ih =>
    exact ⟨(stored_after_insert env buffer img_id s s' ih.1 (hsha buffer) hsize h).1,
      share_inv_insert env buffer img_id s s' ih.2.1 h,
      res_inv_insert env buffer img_id s s' ih.2.2 h⟩
  | delete imgID s s' _ h ih =>
    exact ⟨stored_after_delete imgID s s' ih.1 h, share_inv_delete imgID s s' ih.2.1 h,
      res_inv_delete env imgID s s' ih.2.2 h⟩
  | resize size_code position s s' _ hsize h ih =>
    exact ⟨stored_after_resize env size_code s s' position ih.1 hsize h,
      share_inv_resize env size_code position s s' _ ih.2.1 h,
      res_inv_resize env size_code position s s' _ ih.2.2 h⟩

/-! ### The layout invariant -/

theorem layout_inv_create (faults : List (Option Nat)) (t s : imgst_file)
    (h : do_create faults t = (ERR_NONE, s)) : layout_inv s := by
  obtain ⟨hh, _, hl, _⟩ := do_create_ok faults t s h
  have hmf : s.header.max_files = t.header.max_files := by rw [hh]
  refine ⟨by rw [hl, hmf]; simp only [sizeof_imgst_header, sizeof_img_metadata]; omega, ?_⟩
  intro i hv
  rw [created_slot_zero faults t s h i] at hv
  exact absurd hv zero_not_valid

theorem layout_inv_insert (env : Env) (buffer img_id : List Nat) (s s' : imgst_file)
    (hinv : layout_inv s) (hbuf : buffer.length < 2 ^ 32)
    (hdec : env.vips_jpegload_buffer [] = none)
    (h : do_insert env buffer img_id s = some (ERR_NONE, s')) : layout_inv s' := by
  obtain ⟨_, _, _, _, _, hh, hoth, _, _, _, ⟨w, ht, hd, _⟩, course⟩ :=
    do_insert_ok_effect env buffer img_id s s' _ rfl h
  obtain ⟨i1, i2⟩ := hinv
  have hmf : s'.header.max_files = s.header.max_files := by rw [hh]
  have hne : 0 < buffer.length := by
    by_contra hc
    have : buffer = [] := List.length_eq_zero.mp (by omega)
    rw [this, hdec] at hd
    simp at hd
  have hcl : s.file.content.length ≤ s'.file.content.length := by
    rcases course with ⟨_, _, _, _, hc⟩ | ⟨c, _, _, _, _, _, ⟨_, _, _, _, hc⟩ | ⟨_, _, _, _, hc⟩⟩
    · rw [hc]
      exact le_trans (by simp) (flushed_length_ge _ _ _)
    · rw [hc]
      exact flushed_length_ge _ _ _
    · rw [hc]
      exact le_trans (by simp) (flushed_length_ge _ _ _)
  unfold layout_inv
  rw [hmf]
  refine ⟨le_trans i1 hcl, ?_⟩
  intro i hv
  by_cases hi : i = find_first_free_meta s
  · rw [hi]
    have h64 : 0 < sizeof_imgst_header + s.header.max_files * sizeof_img_metadata := by
      simp only [sizeof_imgst_header]; omega
    rcases course with ⟨_, hsz, hof, _, _⟩ |
      ⟨c, _, _, hcv, _, _, ⟨_, hsz, hof, _, _⟩ | ⟨hc0, _, _, _, _⟩⟩
    · rw [hsz, hof]
      have hm : buffer.length % 2 ^ 32 = buffer.length := Nat.mod_eq_of_lt hbuf
      refine ⟨by show 0 < buffer.length % 2 ^ 32; omega, Or.inl ⟨rfl, rfl⟩, Or.inl ⟨rfl, rfl⟩,
        Or.inr ⟨by show 0 < buffer.length % 2 ^ 32; omega, i1⟩⟩
    · rw [hsz, hof]
      exact i2 c hcv
    · obtain ⟨p1, _, _, p4⟩ := i2 c hcv
      rcases p4 with ⟨q, _⟩ | ⟨_, q⟩
      · omega
      · omega
  · rw [hoth i hi] at hv ⊢
    exact i2 i hv

theorem layout_inv_delete (imgID : List Nat) (s s' : imgst_file)
    (hinv : layout_inv s) (h : do_delete imgID s = (ERR_NONE, s')) : layout_inv s' := by
  rcases do_delete_cases imgID s s' _ h with ⟨hc, _⟩ | ⟨i, _, _, hv, _, _, hd⟩
  · exact absurd hc (by decide)
  · obtain ⟨hm, _, hok, _⟩ := delete_at_cases s s' i _ hd
    obtain ⟨hh, hcont⟩ := hok rfl
    obtain ⟨i1, i2⟩ := hinv
    have hmf : s'.header.max_files = s.header.max_files := by rw [hh]
    have hil : i < s.metadata.length := valid_lt_length s i hv
    have hs : ∀ j, s'.slot j = (s.set_slot i { s.slot i with is_valid := EMPTY }).slot j :=
      fun j => congrArg (fun m => m.getD j default) hm
    unfold layout_inv
    rw [hmf]
    refine ⟨?_, ?_⟩
    · rw [hcont]
      exact le_trans (le_trans i1 (write_at_length_ge _ _ _)) (write_at_length_ge _ _ _)
    · intro j hvj
      by_cases hj : j = i
      · rw [hj, hs i, slot_set_slot_eq _ _ _ hil] at hvj
        have h01 : EMPTY ≠ NON_EMPTY := by decide
        exact absurd hvj h01
      · rw [hs j, slot_set_slot_ne _ _ _ _ (Ne.symm hj)] at hvj ⊢
        exact i2 j hvj

theorem layout_inv_resize (env : Env) (size_code : Int) (position : Nat) (s s' : imgst_file)
    (hinv : layout_inv s) (hlen : s.metadata.length = s.header.max_files)
    (henc : ∀ b r out, env.vips_resize_jpegsave b r = some out → out.length < 2 ^ 32)
    (h : lazily_resize env size_code s position = (ERR_NONE, s')) : layout_inv s' := by
  rcases lazily_resize_ok_effect env size_code s s' position h with ⟨hs, _⟩ |
    ⟨hpos, hcode, hz, _, out_data, hpos_out, hh, hm, hcont, b, r, hout⟩
  · rw [hs]; exact hinv
  · obtain ⟨i1, i2⟩ := hinv
    have hmf : s'.header.max_files = s.header.max_files := by rw [hh]
    have hs : ∀ j, s'.slot j = (s.set_slot position
        { s.slot position with
          offset := (s.slot position).offset.set size_code s.file.content.length
          size := (s.slot position).size.set size_code (out_data.length % 2 ^ 32) }).slot j :=
      fun j => congrArg (fun m => m.getD j default) hm
    have hsize : 0 < out_data.length % 2 ^ 32 := by
      rw [Nat.mod_eq_of_lt (henc b r out_data hout)]; exact hpos_out
    unfold layout_inv
    rw [hmf]
    refine ⟨?_, ?_⟩
    · rw [hcont]
      exact le_trans (le_trans i1 (by simp)) (write_at_length_ge _ _ _)
    · intro j hvj
      by_cases hj : j = position
      · rw [hj, hs position, slot_set_slot_eq _ _ _ (by omega)] at hvj ⊢
        obtain ⟨p1, p2, p3, p4⟩ := i2 position hvj
        rcases hcode with hc | hc <;> subst hc
        · exact ⟨p1, Or.inr ⟨hsize, i1⟩, p3, p4⟩
        · exact ⟨p1, p2, Or.inr ⟨hsize, i1⟩, p4⟩
      · rw [hs j, slot_set_slot_ne _ _ _ _ (Ne.symm hj)] at hvj ⊢
        exact i2 j hvj

/-- The layout invariant holds in every handle reached through do_insert of
buffers shorter than 2^32 bytes, when the codec does not decode the empty
buffer and encodes every variant in fewer than 2^32 bytes. -/
theorem reachable_open_layout (env : Env) (s : imgst_file)
    (hsha : ∀ b, (env.SHA256 b).length = SHA256_DIGEST_LENGTH)
    (hdec : env.vips_jpegload_buffer [] = none)
    (henc : ∀ b r out, env.vips_resize_jpegsave b r = some out → out.length < 2 ^ 32)
    (hs : ReachableOpen env (2 ^ 32) s) : layout_inv s := by
  induction hs with
  | create faults t s _ _ _ h => exact layout_inv_create faults t s h
  | reopen faults calloc_null t s s' hs h ih =>
    obtain ⟨hh, hm, hc⟩ := reopen_same s s' t _ faults calloc_null
      (reachable_open_inv env _ s hsha hs).1 h
    exact layout_inv_congr s s' hh hm hc ih
  | insert buffer img_id s s' _ hbuf _ h ih =>
    exact layout_inv_insert env buffer img_id s s' ih hbuf hdec h
  | delete imgID s s' _ h ih => exact layout_inv_delete imgID s s' ih h
  | resize size_code position s s' hs _ h ih =>
    exact layout_inv_resize env size_code position s s' ih
      (reachable_open_inv env _ s hsha hs).1.2.2.1 henc h

/-! ### Content sharing at insertion -/

theorem are_equal_eq (a b : List Nat) (ha : a.length = SHA256_DIGEST_LENGTH)
    (hb : b.length = SHA256_DIGEST_LENGTH) (h : are_equal a b = true) : a = b := by
  rw [are_equal_iff] at h
  apply List.ext_getElem (by rw [ha, hb])
  intro n h1 h2
  have := h n (by rw [← ha]; exact h1)
  rw [List.getD_eq_getElem _ _ h1, List.getD_eq_getElem _ _ h2] at this
  exact this

theorem reachable_open_max_files (env : Env) (lim : Nat) (s : imgst_file)
    (hsha : ∀ b, (env.SHA256 b).length = SHA256_DIGEST_LENGTH)
    (hs : ReachableOpen env lim s) : s.header.max_files < 2 ^ 32 := by
  induction hs with
  | create faults t s hmax _ _ h =>
    obtain ⟨hh, _⟩ := do_create_ok faults t s h
    rw [hh]; exact hmax
  | reopen faults calloc_null t s s' hs h ih =>
    obtain ⟨hh, _, _⟩ := reopen_same s s' t _ faults calloc_null (reachable_open_inv env _ s hsha hs).1 h
    rw [hh]; exact ih
  | insert buffer img_id s s' _ _ _ h ih =>
    obtain ⟨_, _, _, _, _, hh, _⟩ := do_insert_ok_effect env buffer img_id s s' _ rfl h
    rw [hh]; exact ih
  | delete imgID s s' _ h ih =>
    rcases do_delete_cases imgID s s' _ h with ⟨hc, _⟩ | ⟨i, _, _, _, _, _, hd⟩
    · exact absurd hc (by decide)
    · obtain ⟨_, _, hok, _⟩ := delete_at_cases s s' i _ hd
      rw [(hok rfl).1]; exact ih
  | resize size_code position s s' _ _ h ih =>
    rcases lazily_resize_ok_effect env size_code s s' position h with ⟨hs, _⟩ |
      ⟨_, _, _, _, _, _, hh, _⟩
    · rw [hs]; exact ih
    · rw [hh]; exact ih

/-- A successful do_insert of content that a valid slot already holds gives
the new slot the three sizes and the three offsets of a valid slot with that
content. -/
theorem insert_duplicate_copies (env : Env) (buffer img_id : List Nat) (s s' : imgst_file)
    (hinv : share_inv s) (hmax : s.header.max_files < 2 ^ 32)
    (h : do_insert env buffer img_id s = some (ERR_NONE, s'))
    (j : Nat) (hvj : (s.slot j).is_valid = NON_EMPTY)
    (hej : are_equal (s.slot j).SHA (env.SHA256 buffer) = true) :
    ∃ c, c ≠ find_first_free_meta s ∧ (s'.slot c).is_valid = NON_EMPTY ∧
      are_equal (s'.slot c).SHA (s'.slot (find_first_free_meta s)).SHA = true ∧
      (s'.slot (find_first_free_meta s)).is_valid = NON_EMPTY ∧
      (s'.slot (find_first_free_meta s)).size = (s'.slot c).size ∧
      (s'.slot (find_first_free_meta s)).offset = (s'.slot c).offset := by
  obtain ⟨i1, _, i3, _⟩ := hinv
  obtain ⟨_, _, _, hkm, _, _, hfr, hv, hsha, _, _, course⟩ :=
    do_insert_ok_effect env buffer img_id s s' _ rfl h
  obtain ⟨hempty, _⟩ := find_first_free_meta_lowest s hmax hkm
  generalize find_first_free_meta s = k at *
  have hjk : j ≠ k := by
    intro hc
    rw [hc, hempty] at hvj
    exact absurd hvj (by decide)
  rcases course with ⟨nm, _⟩ | ⟨c, _, hck, hvc, hec, _, ⟨_, hsz, hof, _, _⟩ | ⟨hc0, _⟩⟩
  · have hjl := valid_lt_length s j hvj
    have := (nm j (by rw [← i1]; exact hjl) hvj hjk).2
    rw [hej] at this
    simp at this
  · refine ⟨c, hck, ?_, ?_, hv, ?_, ?_⟩
    · rw [hfr c hck]; exact hvc
    · rw [hfr c hck, hsha]; exact hec
    · rw [hfr c hck]; exact hsz
    · rw [hfr c hck]; exact hof
  · exact absurd hc0 (i3 c hvc)

/-! ### The count invariant on reopened handles -/

theorem reachable_open_count (env : Env) (lim : Nat) (s : imgst_file)
    (hsha : ∀ b, (env.SHA256 b).length = SHA256_DIGEST_LENGTH)
    (hs : ReachableOpen env lim s) : wf s ∧ s.header.num_files = valid_count s := by
  induction hs with
  | create faults t s hmax _ _ h =>
    obtain ⟨h1, h2, h3⟩ := count_inv_create faults t s hmax h
    exact ⟨h1, by rw [h2, h3]⟩
  | reopen faults calloc_null t s s' hs h ih =>
    obtain ⟨hh, hm, _⟩ := reopen_same s s' t _ faults calloc_null
      (reachable_open_inv env _ s hsha hs).1 h
    exact ⟨⟨by rw [hm, hh]; exact ih.1.1, by rw [hh]; exact ih.1.2⟩,
      by rw [hh, valid_count_congr s s' hm]; exact ih.2⟩
  | insert buffer img_id s s' _ _ _ h ih =>
    obtain ⟨h1, h2, h3⟩ := count_inv_insert env buffer img_id s s' ih.1 h
    exact ⟨h1, by rw [h2, h3, ih.2]⟩
  | delete imgID s s' _ h ih => exact count_inv_delete imgID s s' ih.1 ih.2 h
  | resize size_code position s s' _ _ h ih =>
    obtain ⟨h1, h2, h3⟩ := count_inv_resize env size_code position s s' _ ih.1 h
    exact ⟨h1, by rw [h2, h3, ih.2]⟩

theorem insert_run_open_reachable (env : Env) (lim n : Nat) (s : imgst_file)
    (hs : InsertRunOpen env lim n s) : ReachableOpen env lim s := by
  induction hs with
  | create faults t s hmax hres hval h => exact ReachableOpen.create faults t s hmax hres hval h
  | reopen n faults calloc_null t s s' _ h ih =>
    exact ReachableOpen.reopen faults calloc_null t s s' ih h
  | insert n buffer img_id s s' _ hbuf hsize h ih =>
    exact ReachableOpen.insert buffer img_id s s' ih hbuf hsize h
  | resize n size_code position s s' _ hsize h ih =>
    exact ReachableOpen.resize size_code position s s' ih hsize h

theorem insert_run_open_count (env : Env) (lim n : Nat) (s : imgst_file)
    (hsha : ∀ b, (env.SHA256 b).length = SHA256_DIGEST_LENGTH)
    (hs : InsertRunOpen env lim n s) : wf s ∧ s.header.num_files = n := by
  induction hs with
  | create faults t s hmax _ _ h =>
    obtain ⟨h1, h2, _⟩ := count_inv_create faults t s hmax h
    exact ⟨h1, h2⟩
  | reopen n faults calloc_null t s s' hs h ih =>
    obtain ⟨hh, hm, _⟩ := reopen_same s s' t _ faults calloc_null
      (reachable_open_inv env _ s hsha (insert_run_open_reachable env lim n s hs)).1 h
    exact ⟨⟨by rw [hm, hh]; exact ih.1.1, by rw [hh]; exact ih.1.2⟩, by rw [hh]; exact ih.2⟩
  | insert n buffer img_id s s' _ _ _ h ih =>
    obtain ⟨h1, h2, _⟩ := count_inv_insert env buffer img_id s s' ih.1 h
    exact ⟨h1, by rw [h2, ih.2]⟩
  | resize n size_code position s s' _ _ h ih =>
    obtain ⟨h1, h2, _⟩ := count_inv_resize env size_code position s s' _ ih.1 h
    exact ⟨h1, by rw [h2, ih.2]⟩

/-! ### Streams that fail at a given call -/

theorem with_fault_at_eq (s : imgst_file) (n : Nat) :
    with_fault_at s n = { s with file := stream_fault_at s.file n } := rfl

theorem fseek_faults_nil (f : FILE) (off : Int) (w : Whence) (hf : f.faults = []) :
    (fseek f off w).2.faults = [] := by
  unfold fseek next_fault
  rw [hf]
  dsimp only
  split <;> exact hf

theorem fwrite_faults_nil (ptr : List Nat) (size nmemb : Nat) (f : FILE) (hf : f.faults = []) :
    (fwrite ptr size nmemb f).2.faults = [] := by
  unfold fwrite next_fault
  rw [hf]
  dsimp only
  split <;> exact hf

theorem fread_faults_nil (size nmemb : Nat) (f : FILE) (hf : f.faults = []) :
    (fread size nmemb f).2.2.faults = [] := by
  unfold fread next_fault
  rw [hf]
  dsimp only
  split <;> exact hf

theorem fseek_fault_zero (f : FILE) (off : Int) (w : Whence) (hf : f.faults = []) :
    fseek (stream_fault_at f 0) off w = (-1, f) := by
  obtain ⟨c, p, r, wr, fl⟩ := f
  simp only at hf
  subst hf
  simp [fseek, next_fault, stream_fault_at]

theorem fseek_fault_succ (f : FILE) (off : Int) (w : Whence) (n : Nat) (hf : f.faults = []) :
    fseek (stream_fault_at f (n + 1)) off w
      = ((fseek f off w).1, stream_fault_at (fseek f off w).2 n) := by
  obtain ⟨c, p, r, wr, fl⟩ := f
  simp only at hf
  subst hf
  simp only [fseek, next_fault, stream_fault_at, List.replicate_succ, List.cons_append]
  cases w <;> simp only [seek_base] <;> split <;> rfl

theorem fwrite_fault_zero (ptr : List Nat) (size nmemb : Nat) (f : FILE) (hf : f.faults = []) :
    fwrite ptr size nmemb (stream_fault_at f 0) = (0, f) := by
  obtain ⟨c, p, r, wr, fl⟩ := f
  simp only at hf
  subst hf
  cases wr <;> simp [fwrite, next_fault, stream_fault_at, write_at]

theorem fwrite_fault_succ (ptr : List Nat) (size nmemb : Nat) (f : FILE) (n : Nat)
    (hf : f.faults = []) :
    fwrite ptr size nmemb (stream_fault_at f (n + 1))
      = ((fwrite ptr size nmemb f).1, stream_fault_at (fwrite ptr size nmemb f).2 n) := by
  obtain ⟨c, p, r, wr, fl⟩ := f
  simp only at hf
  subst hf
  cases wr <;>
    simp [fwrite, next_fault, stream_fault_at, List.replicate_succ]

theorem fread_fault_zero (size nmemb : Nat) (f : FILE) (hf : f.faults = []) :
    fread size nmemb (stream_fault_at f 0) = (0, [], f) := by
  obtain ⟨c, p, r, wr, fl⟩ := f
  simp only at hf
  subst hf
  cases r <;> simp [fread, next_fault, stream_fault_at]

theorem fread_fault_succ (size nmemb : Nat) (f : FILE) (n : Nat) (hf : f.faults = []) :
    fread size nmemb (stream_fault_at f (n + 1))
      = ((fread size nmemb f).1, (fread size nmemb f).2.1,
        stream_fault_at (fread size nmemb f).2.2 n) := by
  obtain ⟨c, p, r, wr, fl⟩ := f
  simp only at hf
  subst hf
  cases r <;>
    simp [fread, next_fault, stream_fault_at, List.replicate_succ]

theorem stream_fault_at_content (f : FILE) (n : Nat) : (stream_fault_at f n).content = f.content :=
  rfl

theorem apply_writes_nil (c : List Nat) : apply_writes c [] = c := rfl

theorem apply_writes_cons (c : List Nat) (w : Nat × List Nat) (ws : List (Nat × List Nat)) :
    apply_writes c (w :: ws) = apply_writes (write_at c w.1 w.2) ws := rfl

theorem set_slot_with_file (s : imgst_file) (g : FILE) (i : Nat) (x : img_metadata) :
    ({ s with file := g } : imgst_file).set_slot i x = { s.set_slot i x with file := g } := rfl

/-- The run of delete_at on a stream that fails at call m + 1 performs the
first m / 2 of the two writes of the run without failure: the slot record,
then the header. -/
theorem delete_at_fault (s s' : imgst_file) (i m : Nat) (hf : s.file.faults = [])
    (h : delete_at s i = (ERR_NONE, s')) :
    (delete_at (with_fault_at s m) i).1 = (if m < 4 then ERR_IO else ERR_NONE) ∧
    (delete_at (with_fault_at s m) i).2.file.content = apply_writes s.file.content
      ([(sizeof_imgst_header + i * sizeof_img_metadata, encode_metadata (s'.slot i)),
        (0, encode_header s'.header)].take (m / 2)) := by
  have h9 : ( ERR_IO : Int) ≠ ERR_NONE := by decide
  rw [with_fault_at_eq]
  obtain ⟨rec, hrec⟩ : ∃ rec, encode_metadata
      ((s.set_slot i { s.slot i with is_valid := EMPTY }).slot i) = rec := ⟨_, rfl⟩
  obtain ⟨hdr, hhdr⟩ : ∃ hdr, encode_header { s.header with
      imgst_version := (s.header.imgst_version + 1) % 2 ^ 32
      num_files := (s.header.num_files + (2 ^ 32 - 1)) % 2 ^ 32 } = hdr := ⟨_, rfl⟩
  have hrl : rec.length = sizeof_img_metadata := by rw [← hrec]; exact encode_metadata_length _
  have hhl : hdr.length = sizeof_imgst_header := by rw [← hhdr]; exact encode_header_length _
  unfold delete_at at h ⊢
  simp only [set_slot_with_file, set_slot_file, set_slot_header, imgst_file.slot] at h hrec ⊢
  simp only [hrec, hhdr] at h ⊢
  split at h
  · exact absurd (congrArg Prod.fst h) h9
  · next hr1 =>
    split at h
    · exact absurd (congrArg Prod.fst h) h9
    · next hw1 =>
      split at h
      · exact absurd (congrArg Prod.fst h) h9
      · next hr2 =>
        split at h
        · exact absurd (congrArg Prod.fst h) h9
        · next hw2 =>
          have hs' := (congrArg Prod.snd h).symm
          dsimp only at hs'
          have hr1' := not_not.mp hr1
          have hw1' := not_not.mp hw1
          have hr2' := not_not.mp hr2
          have hw2' := not_not.mp hw2
          have e1 : encode_metadata (s'.metadata.getD i default) = rec := by
            rw [hs']; exact hrec
          have e2 : encode_header s'.header = hdr := by rw [hs', ← hhdr]
          rw [e1, e2]
          have hfa := fseek_faults_nil s.file
            ((sizeof_imgst_header + i * sizeof_img_metadata : Nat) : Int) .SEEK_SET hf
          have hfb := fwrite_faults_nil rec sizeof_img_metadata 1 _ hfa
          have hfc := fseek_faults_nil _ 0 .SEEK_SET hfb
          have c1 := seek_write_chain s.file rec sizeof_img_metadata
            (sizeof_imgst_header + i * sizeof_img_metadata) hrl hr1' hw1'
          have c2 := seek_write_chain _ hdr sizeof_imgst_header 0 hhl hr2' hw2'
          rcases m with _ | _ | _ | _ | m
          · rw [fseek_fault_zero _ _ _ hf]
            simp [apply_writes]
          · rw [fseek_fault_succ _ _ _ _ hf]
            simp only [hr1', ne_eq, not_true_eq_false, if_false]
            rw [fwrite_fault_zero _ _ _ _ hfa]
            simp [apply_writes, fseek_content]
          · rw [fseek_fault_succ _ _ _ _ hf]
            simp only [hr1', ne_eq, not_true_eq_false, if_false]
            rw [fwrite_fault_succ _ _ _ _ _ hfa]
            simp only [hw1', ne_eq, not_true_eq_false, if_false]
            rw [fseek_fault_zero _ _ _ hfb]
            exact ⟨by simp, c1⟩
          · rw [fseek_fault_succ _ _ _ _ hf]
            simp only [hr1', ne_eq, not_true_eq_false, if_false]
            rw [fwrite_fault_succ _ _ _ _ _ hfa]
            simp only [hw1', ne_eq, not_true_eq_false, if_false]
            rw [fseek_fault_succ _ _ _ _ hfb]
            simp only [hr2', ne_eq, not_true_eq_false, if_false]
            rw [fwrite_fault_zero _ _ _ _ hfc]
            dsimp only
            rw [if_pos (show ¬ (0 : Nat) = 1 by decide)]
            refine ⟨by simp, ?_⟩
            dsimp only
            rw [fseek_content]
            exact c1
          · rw [fseek_fault_succ _ _ _ _ hf]
            simp only [hr1', ne_eq, not_true_eq_false, if_false]
            rw [fwrite_fault_succ _ _ _ _ _ hfa]
            simp only [hw1', ne_eq, not_true_eq_false, if_false]
            rw [fseek_fault_succ _ _ _ _ hfb]
            simp only [hr2', ne_eq, not_true_eq_false, if_false]
            rw [fwrite_fault_succ _ _ _ _ _ hfc]
            simp only [hw2', ne_eq, not_true_eq_false, if_false]
            have hm : 2 ≤ (m + 1 + 1 + 1 + 1) / 2 := by omega
            rw [List.take_of_length_le (by simpa using hm)]
            refine ⟨by rw [if_neg (by omega)], ?_⟩
            simp only [stream_fault_at_content, apply_writes, List.foldl]
            exact c2.trans (by rw [c1])

theorem do_delete_loop_found (imgID : List Nat) (t : imgst_file) (n i0 i : Nat)
    (h1 : i0 ≤ i) (h2 : i < i0 + n)
    (hm : (t.slot i).is_valid = NON_EMPTY ∧ strcmp (t.slot i).img_id imgID = 0)
    (hlow : ∀ j, i0 ≤ j → j < i →
      ¬ ((t.slot j).is_valid = NON_EMPTY ∧ strcmp (t.slot j).img_id imgID = 0)) :
    do_delete_loop imgID t n i0 = delete_at t i := by
  induction n generalizing i0 with
  | zero => omega
  | succ n ih =>
    unfold do_delete_loop
    by_cases hi : i0 = i
    · subst hi
      rw [if_pos hm]
    · rw [if_neg (hlow i0 (Nat.le_refl _) (by omega))]
      exact ih (i0 + 1) (by omega) (by omega) (fun j hj1 hj2 => hlow j (by omega) hj2)

/-- The run of do_delete on a stream that fails at call m + 1 performs the
first m / 2 of the two writes of the run without failure: the record of the
slot that is deleted, then the header. -/
theorem do_delete_fault (imgID : List Nat) (s s' : imgst_file)
    (hf : s.file.faults = []) (h : do_delete imgID s = (ERR_NONE, s')) :
    ∃ i, i < s.header.max_files ∧ (s.slot i).is_valid = NON_EMPTY ∧
      (s'.slot i).is_valid = EMPTY ∧
      s'.file.content = apply_writes s.file.content
        [(sizeof_imgst_header + i * sizeof_img_metadata, encode_metadata (s'.slot i)),
          (0, encode_header s'.header)] ∧
      ∀ m,
        (do_delete imgID (with_fault_at s m)).1 = (if m < 4 then ERR_IO else ERR_NONE) ∧
        (do_delete imgID (with_fault_at s m)).2.file.content = apply_writes s.file.content
          ([(sizeof_imgst_header + i * sizeof_img_metadata, encode_metadata (s'.slot i)),
            (0, encode_header s'.header)].take (m / 2)) := by
  rcases do_delete_cases imgID s s' _ h with ⟨hc, _⟩ | ⟨i, hi, hn, hv, hid, hlow, hd⟩
  · exact absurd hc (by decide)
  · have hrun : ∀ m, do_delete imgID (with_fault_at s m) = delete_at (with_fault_at s m) i := by
      intro m
      unfold do_delete
      rw [if_neg (show ¬ (with_fault_at s m).header.num_files = 0 from hn)]
      exact do_delete_loop_found imgID (with_fault_at s m) _ 0 i (Nat.zero_le _)
        (by rw [Nat.zero_add]; exact hi) ⟨hv, hid⟩ (fun j _ hj => hlow j hj)
    obtain ⟨hm, _, hok, _⟩ := delete_at_cases s s' i _ hd
    have hil : i < s.metadata.length := valid_lt_length s i hv
    have hemp : (s'.slot i).is_valid = EMPTY := by
      have := congrArg (fun md => (md.getD i default).is_valid) hm
      simp only [imgst_file.set_slot] at this
      unfold imgst_file.slot
      rw [this]
      simp [List.getD_eq_getElem?_getD, List.getElem?_set, hil]
    refine ⟨i, hi, hv, hemp, (hok rfl).2, fun m => ?_⟩
    rw [hrun m]
    exact delete_at_fault s s' i m hf hd

/-- The run of part III of do_insert on a stream that fails at call m + 1
performs the first m / 2 of the two writes of the run without failure: the
header, then the slot record. -/
theorem insert_update_fault (env : Env) (buffer : List Nat) (x x' : imgst_file) (k m : Nat)
    (hf : x.file.faults = []) (h : insert_update env buffer x k = (ERR_NONE, x')) :
    (insert_update env buffer { x with file := stream_fault_at x.file m } k).1
      = (if m < 4 then ERR_IO else ERR_NONE) ∧
    (insert_update env buffer { x with file := stream_fault_at x.file m } k).2.file.content
      = apply_writes x.file.content
        ([(0, encode_header x'.header),
          (sizeof_imgst_header + sizeof_img_metadata * k, encode_metadata (x'.slot k))].take
            (m / 2)) := by
  have h9 : ( ERR_IO : Int) ≠ ERR_NONE := by decide
  unfold insert_update at h ⊢
  dsimp only at h ⊢
  split at h
  · next hres =>
    exact absurd (congrArg Prod.fst h) hres
  · next hres =>
    rw [if_neg hres]
    obtain ⟨hdr, hhdr⟩ : ∃ hdr, encode_header { x.header with
        num_files := (x.header.num_files + 1) % 2 ^ 32
        imgst_version := (x.header.imgst_version + 1) % 2 ^ 32 } = hdr := ⟨_, rfl⟩
    obtain ⟨rec, hrec⟩ : ∃ rec, encode_metadata ((x.set_slot k { x.slot k with
        res_orig := ((get_resolution env buffer).2.2, (get_resolution env buffer).2.1) }).slot k)
        = rec := ⟨_, rfl⟩
    have hrl : rec.length = sizeof_img_metadata := by rw [← hrec]; exact encode_metadata_length _
    have hhl : hdr.length = sizeof_imgst_header := by rw [← hhdr]; exact encode_header_length _
    simp only [set_slot_with_file, set_slot_file, set_slot_header, imgst_file.slot] at h hrec ⊢
    simp only [hrec, hhdr] at h ⊢
    split at h
    · exact absurd (congrArg Prod.fst h) h9
    · next hr1 =>
      split at h
      · exact absurd (congrArg Prod.fst h) h9
      · next hw1 =>
        split at h
        · exact absurd (congrArg Prod.fst h) h9
        · next hr2 =>
          split at h
          · exact absurd (congrArg Prod.fst h) h9
          · next hw2 =>
            have hs' := (congrArg Prod.snd h).symm
            dsimp only at hs'
            have hr1' := not_not.mp hr1
            have hw1' := not_not.mp hw1
            have hr2' := not_not.mp hr2
            have hw2' := not_not.mp hw2
            have e1 : encode_metadata (x'.metadata.getD k default) = rec := by
              rw [hs']; exact hrec
            have e2 : encode_header x'.header = hdr := by rw [hs', ← hhdr]
            rw [e1, e2]
            have hfa := fseek_faults_nil x.file 0 .SEEK_SET hf
            have hfb := fwrite_faults_nil hdr sizeof_imgst_header 1 _ hfa
            have hfc := fseek_faults_nil _ ((sizeof_img_metadata * k : Nat) : Int) .SEEK_CUR hfb
            have c1 := seek_write_chain x.file hdr sizeof_imgst_header 0 hhl hr1' hw1'
            have c2 := flush_chain x.file hdr rec sizeof_imgst_header sizeof_img_metadata
              (sizeof_img_metadata * k) hhl hrl hr1' hw1' hr2' hw2'
            rcases m with _ | _ | _ | _ | m
            · rw [fseek_fault_zero _ _ _ hf]
              simp [apply_writes]
            · rw [fseek_fault_succ _ _ _ _ hf]
              simp only [hr1', ne_eq, not_true_eq_false, if_false]
              rw [fwrite_fault_zero _ _ _ _ hfa]
              simp [apply_writes, fseek_content]
            · rw [fseek_fault_succ _ _ _ _ hf]
              simp only [hr1', ne_eq, not_true_eq_false, if_false]
              rw [fwrite_fault_succ _ _ _ _ _ hfa]
              simp only [hw1', ne_eq, not_true_eq_false, if_false]
              rw [fseek_fault_zero _ _ _ hfb]
              exact ⟨by simp, c1⟩
            · rw [fseek_fault_succ _ _ _ _ hf]
              simp only [hr1', ne_eq, not_true_eq_false, if_false]
              rw [fwrite_fault_succ _ _ _ _ _ hfa]
              simp only [hw1', ne_eq, not_true_eq_false, if_false]
              rw [fseek_fault_succ _ _ _ _ hfb]
              simp only [hr2', ne_eq, not_true_eq_false, if_false]
              rw [fwrite_fault_zero _ _ _ _ hfc]
              dsimp only
              rw [if_pos (show ¬ (0 : Nat) = 1 by decide)]
              refine ⟨by simp, ?_⟩
              dsimp only
              rw [fseek_content]
              exact c1
            · rw [fseek_fault_succ _ _ _ _ hf]
              simp only [hr1', ne_eq, not_true_eq_false, if_false]
              rw [fwrite_fault_succ _ _ _ _ _ hfa]
              simp only [hw1', ne_eq, not_true_eq_false, if_false]
              rw [fseek_fault_succ _ _ _ _ hfb]
              simp only [hr2', ne_eq, not_true_eq_false, if_false]
              rw [fwrite_fault_succ _ _ _ _ _ hfc]
              simp only [hw2', ne_eq, not_true_eq_false, if_false]
              have hm : 2 ≤ (m + 1 + 1 + 1 + 1) / 2 := by omega
              rw [List.take_of_length_le (by simpa using hm)]
              refine ⟨by rw [if_neg (by omega)], ?_⟩
              simp only [stream_fault_at_content, apply_writes, List.foldl]
              exact c2

/-- The run of part II of do_insert on a stream that fails at call m + 1:
with a content duplicate there is no call; without one, the image content is
appended by the second call. -/
theorem insert_write_fault (buffer : List Nat) (x x3 : imgst_file) (k m : Nat)
    (hf : x.file.faults = []) (hne : buffer ≠ [])
    (h : insert_write buffer x k = (ERR_NONE, x3)) :
    ((x.slot k).offset.orig ≠ 0 ∧ x3 = x ∧
      insert_write buffer { x with file := stream_fault_at x.file m } k
        = (ERR_NONE, { x with file := stream_fault_at x.file m })) ∨
    ((x.slot k).offset.orig = 0 ∧ x3.file.faults = [] ∧
      x3.file.content = x.file.content ++ buffer ∧
      (m < 2 →
        (insert_write buffer { x with file := stream_fault_at x.file m } k).1 = ERR_IO ∧
        (insert_write buffer { x with file := stream_fault_at x.file m } k).2.file.content
          = x.file.content) ∧
      (2 ≤ m → insert_write buffer { x with file := stream_fault_at x.file m } k
        = (ERR_NONE, { x3 with file := stream_fault_at x3.file (m - 2) }))) := by
  have h9 : ( ERR_IO : Int) ≠ ERR_NONE := by decide
  unfold insert_write at h ⊢
  simp only [slot_with_file] at h ⊢
  by_cases hd : image_has_no_duplicate (x.slot k) = true
  · rw [if_pos hd] at h ⊢
    have hz : (x.slot k).offset.orig = 0 := by
      simpa [image_has_no_duplicate] using hd
    simp only [set_slot_with_file, set_slot_file, imgst_file.slot] at h ⊢
    split at h
    · exact absurd (congrArg Prod.fst h) h9
    · next hr1 =>
      split at h
      · exact absurd (congrArg Prod.fst h) h9
      · next hw1 =>
        have hs' := (congrArg Prod.snd h).symm
        dsimp only at hs'
        have hr1' := not_not.mp hr1
        have hw1' := not_not.mp hw1
        have hfa := fseek_faults_nil x.file 0 .SEEK_END hf
        have hfb := fwrite_faults_nil buffer 1 buffer.length _ hfa
        obtain ⟨s1, s2⟩ := fseek_ok' x.file 0 .SEEK_END hr1'
        obtain ⟨w1, _⟩ := fwrite_bytes_ok' buffer _ hw1'
        have hpos : (fseek x.file 0 .SEEK_END).2.pos = x.file.content.length := by
          simp only [seek_base, add_zero] at s2
          exact_mod_cast s2
        refine Or.inr ⟨hz, by rw [hs']; exact hfb, ?_, ?_, ?_⟩
        · rw [hs']
          dsimp only
          rw [w1, s1, hpos, write_at_end]
        · intro hm
          rcases m with _ | _ | m
          · rw [fseek_fault_zero _ _ _ hf]
            simp
          · rw [fseek_fault_succ _ _ _ _ hf]
            simp only [hr1', ne_eq, not_true_eq_false, if_false]
            rw [fwrite_fault_zero _ _ _ _ hfa]
            dsimp only
            rw [if_pos (fun hc => hne (List.length_eq_zero.mp hc.symm))]
            exact ⟨rfl, s1⟩
          · omega
        · intro hm
          obtain ⟨n, rfl⟩ : ∃ n, m = n + 1 + 1 := ⟨m - 2, by omega⟩
          rw [fseek_fault_succ _ _ _ _ hf]
          simp only [hr1', ne_eq, not_true_eq_false, if_false]
          rw [fwrite_fault_succ _ _ _ _ _ hfa]
          simp only [hw1', ne_eq, not_true_eq_false, if_false]
          rw [hs']
          rfl
  · rw [if_neg hd] at h ⊢
    have hz : (x.slot k).offset.orig ≠ 0 := by
      simpa [image_has_no_duplicate] using hd
    exact Or.inl ⟨hz, (congrArg Prod.snd h).symm, rfl⟩

theorem find_first_free_meta_loop_with_file (s : imgst_file) (g : FILE) (n i : Nat) :
    find_first_free_meta_loop { s with file := g } n i = find_first_free_meta_loop s n i := by
  induction n generalizing i with
  | zero => rfl
  | succ n ih =>
    unfold find_first_free_meta_loop
    rw [slot_with_file, ih]

theorem find_first_free_meta_with_file (s : imgst_file) (g : FILE) :
    find_first_free_meta { s with file := g } = find_first_free_meta s :=
  find_first_free_meta_loop_with_file s g _ 0

theorem find_duplicate_loop_with_file (s : imgst_file) (g : FILE) (index n i c : Nat) :
    find_duplicate_loop { s with file := g } index n i c = find_duplicate_loop s index n i c := by
  induction n generalizing i c with
  | zero => rfl
  | succ n ih =>
    unfold find_duplicate_loop
    simp only [slot_with_file, ih]

theorem dedup_with_file (s : imgst_file) (g : FILE) (index : Nat) :
    do_name_and_content_dedup { s with file := g } index
      = ((do_name_and_content_dedup s index).1,
        { (do_name_and_content_dedup s index).2 with file := g }) := by
  unfold do_name_and_content_dedup find_duplicate
  simp only [find_duplicate_loop_with_file, slot_with_file, set_slot_with_file]
  split
  · rfl
  · split
    · rfl
    · split <;> rfl

theorem insert_load_with_file (env : Env) (buffer img_id : List Nat) (s : imgst_file) (g : FILE)
    (k : Nat) :
    insert_load env buffer img_id { s with file := g } k
      = { insert_load env buffer img_id s k with file := g } := rfl

theorem apply_writes_take_succ (c : List Nat) (w : Nat × List Nat) (ws : List (Nat × List Nat))
    (n : Nat) :
    apply_writes c ((w :: ws).take (n + 1)) = apply_writes (write_at c w.1 w.2) (ws.take n) := rfl

/-- The run of do_insert on a stream that fails at call m + 1 performs the
first m / 2 of the writes of the run without failure: the image content at
the end of the file (when the content has no duplicate), then the header,
then the slot record. -/
theorem do_insert_fault (env : Env) (buffer img_id : List Nat) (s s' : imgst_file)
    (hf : s.file.faults = []) (hne : buffer ≠ [])
    (h : do_insert env buffer img_id s = some (ERR_NONE, s')) :
    ∃ blob : List (Nat × List Nat),
      (blob = [(s.file.content.length, buffer)] ∨ blob = []) ∧
      s'.file.content = apply_writes s.file.content
        (blob ++ [(0, encode_header s'.header),
          (sizeof_imgst_header + sizeof_img_metadata * find_first_free_meta s,
            encode_metadata (s'.slot (find_first_free_meta s)))]) ∧
      ∀ m,
        (do_insert env buffer img_id (with_fault_at s m)).map Prod.fst
          = some (if m < 2 * (blob.length + 2) then ERR_IO else ERR_NONE) ∧
        (do_insert env buffer img_id (with_fault_at s m)).map (fun r => r.2.file.content)
          = some (apply_writes s.file.content
            ((blob ++ [(0, encode_header s'.header),
              (sizeof_imgst_header + sizeof_img_metadata * find_first_free_meta s,
                encode_metadata (s'.slot (find_first_free_meta s)))]).take (m / 2))) := by
  obtain ⟨h1, h2, hk, s2, s3, hd, hw, hu⟩ := do_insert_ok env buffer img_id s s' h
  obtain ⟨hfile2, _⟩ := dedup_frame _ _ _ _ hd
  have hfile2' : s2.file = s.file := hfile2
  have hf2 : s2.file.faults = [] := by rw [hfile2']; exact hf
  -- the run on the failing stream, up to the stream calls
  have hrun : ∀ m, do_insert env buffer img_id (with_fault_at s m)
      = (if (insert_write buffer { s2 with file := stream_fault_at s2.file m }
            (find_first_free_meta s)).1 ≠ ERR_NONE then
          some (insert_write buffer { s2 with file := stream_fault_at s2.file m }
            (find_first_free_meta s))
        else some (insert_update env buffer
          (insert_write buffer { s2 with file := stream_fault_at s2.file m }
            (find_first_free_meta s)).2 (find_first_free_meta s))) := by
    intro m
    rw [with_fault_at_eq]
    unfold do_insert
    rw [if_neg (not_not.mpr h1)]
    rw [if_neg (show ¬ ¬ (({ s with file := stream_fault_at s.file m } : imgst_file).header.num_files
      < ({ s with file := stream_fault_at s.file m } : imgst_file).header.max_files)
      from not_not.mpr h2)]
    simp only [find_first_free_meta_with_file]
    rw [if_neg (show ¬ ¬ (find_first_free_meta s
      < ({ s with file := stream_fault_at s.file m } : imgst_file).metadata.length)
      from not_not.mpr hk)]
    rw [insert_load_with_file, dedup_with_file, hd]
    dsimp only
    rw [if_neg (not_not.mpr rfl), hfile2']
  generalize find_first_free_meta s = k at *
  have hfin : s'.file.content = write_at (write_at s3.file.content 0 (encode_header s'.header))
      (sizeof_imgst_header + sizeof_img_metadata * k) (encode_metadata (s'.slot k)) := by
    rcases insert_update_cases env buffer s3 s' k _ hu with ⟨he, _⟩ | ⟨_, _, _, _, _, _, hcont⟩
    · exact absurd he (by decide)
    · exact hcont rfl
  rcases insert_write_fault buffer s2 s3 k 0 hf2 hne hw with ⟨hz, h32, _⟩ | ⟨hz, hf3, hc3, _, _⟩
  · -- the content has a duplicate: no image is written
    refine ⟨[], Or.inr rfl, ?_, fun m => ?_⟩
    · simp only [List.nil_append, apply_writes, List.foldl_cons, List.foldl_nil]
      rw [hfin, h32, hfile2']
    rcases insert_write_fault buffer s2 s3 k m hf2 hne hw with ⟨_, _, hwm⟩ | ⟨hz', _⟩
    · rw [h32] at hu
      rw [hrun m, hwm]
      dsimp only
      rw [if_neg (not_not.mpr rfl)]
      obtain ⟨a, b⟩ := insert_update_fault env buffer s2 s' k m hf2 hu
      simp only [Option.map_some', List.length_nil, List.nil_append]
      rw [a, b, hfile2']
      exact ⟨rfl, rfl⟩
    · exact absurd hz' hz
  · -- no duplicate: the image content is written first
    refine ⟨[(s.file.content.length, buffer)], Or.inl rfl, ?_, fun m => ?_⟩
    · simp only [List.singleton_append, apply_writes, List.foldl_cons, List.foldl_nil]
      rw [write_at_end, hfin, hc3, hfile2']
    rcases insert_write_fault buffer s2 s3 k m hf2 hne hw with ⟨hz', _⟩ | ⟨_, _, _, hlt, hge⟩
    · exact absurd hz hz'
    · by_cases hm : m < 2
      · obtain ⟨e1, e2⟩ := hlt hm
        rw [hrun m, if_pos (by rw [e1]; decide)]
        simp only [Option.map_some', List.length_singleton]
        rw [e1, e2, hfile2']
        have hm2 : m / 2 = 0 := by omega
        rw [hm2]
        exact ⟨by rw [if_pos (by omega)], rfl⟩
      · have hm' : 2 ≤ m := by omega
        rw [hrun m, hge hm']
        dsimp only
        rw [if_neg (not_not.mpr rfl)]
        obtain ⟨a, b⟩ := insert_update_fault env buffer s3 s' k (m - 2) hf3 hu
        simp only [Option.map_some', List.length_singleton]
        rw [a, b, hc3, hfile2']
        obtain ⟨n, rfl⟩ : ∃ n, m = n + 2 := ⟨m - 2, by omega⟩
        have hn2 : (n + 2) / 2 = n / 2 + 1 := by omega
        rw [hn2]
        simp only [Nat.add_sub_cancel, List.singleton_append]
        rw [apply_writes_take_succ, write_at_end]
        refine ⟨?_, rfl⟩
        by_cases hn : n < 4
        · rw [if_pos hn, if_pos (by omega)]
        · rw [if_neg hn, if_neg (by omega)]

theorem ftell_stream_fault_at (f : FILE) (n : Nat) : ftell (stream_fault_at f n) = ftell f := rfl

/-- The run of load_and_compute_image on a stream that fails at call m + 1:
the two calls read the original and write nothing. -/
theorem load_and_compute_image_fault (env : Env) (position : Nat) (s s1 : imgst_file)
    (size_code m : Nat) (out : List Nat) (hf : s.file.faults = [])
    (h : load_and_compute_image env position s size_code = (ERR_NONE, out, s1)) :
    s1.file.faults = [] ∧ s1.file.content = s.file.content ∧ s1.header = s.header ∧
    s1.metadata = s.metadata ∧
    (m < 2 →
      (load_and_compute_image env position { s with file := stream_fault_at s.file m }
        size_code).1 = ERR_IO ∧
      (load_and_compute_image env position { s with file := stream_fault_at s.file m }
        size_code).2.2.file.content = s.file.content) ∧
    (2 ≤ m →
      load_and_compute_image env position { s with file := stream_fault_at s.file m } size_code
        = (ERR_NONE, out, { s1 with file := stream_fault_at s1.file (m - 2) })) := by
  have h9 : ( ERR_IO : Int) ≠ ERR_NONE := by decide
  have h8 : ( ERR_IMGLIB : Int) ≠ ERR_NONE := by decide
  unfold load_and_compute_image at h ⊢
  simp only [slot_with_file] at h ⊢
  split at h
  · exact absurd (congrArg Prod.fst h) h9
  · next hr1 =>
    split at h
    · exact absurd (congrArg Prod.fst h) h9
    · next hk1 =>
      have hr1' := not_not.mp hr1
      have hk1' := not_not.mp hk1
      have hfa := fseek_faults_nil s.file (to_long (s.slot position).offset.orig) .SEEK_SET hf
      have hfb := fread_faults_nil (s.slot position).size.orig 1 _ hfa
      split at h
      · exact absurd (congrArg Prod.fst h) h8
      · next width height hdec =>
        split at h
        · exact absurd (congrArg Prod.fst h) h8
        · next out_data henc =>
          simp only [Prod.mk.injEq, true_and] at h
          obtain ⟨hout, hs1⟩ := h
          refine ⟨by rw [← hs1]; exact hfb, ?_, by rw [← hs1], by rw [← hs1], ?_, ?_⟩
          · rw [← hs1]
            dsimp only
            rw [fread_content, fseek_content]
          · intro hm
            rcases m with _ | _ | m
            · rw [fseek_fault_zero _ _ _ hf]
              simp
            · rw [fseek_fault_succ _ _ _ _ hf]
              simp only [hr1', ne_eq, not_true_eq_false, if_false]
              rw [fread_fault_zero _ _ _ hfa]
              dsimp only
              rw [if_pos (show ¬ (0 : Nat) = 1 by decide)]
              exact ⟨rfl, fseek_content _ _ _⟩
            · omega
          · intro hm
            obtain ⟨n, rfl⟩ : ∃ n, m = n + 1 + 1 := ⟨m - 2, by omega⟩
            rw [fseek_fault_succ _ _ _ _ hf]
            simp only [hr1', ne_eq, not_true_eq_false, if_false]
            rw [fread_fault_succ _ _ _ _ hfa]
            simp only [hk1', ne_eq, not_true_eq_false, if_false]
            rw [hdec]
            dsimp only
            rw [henc]
            dsimp only
            rw [← hs1, hout]
            rfl

/-- The run of lazily_resize on a stream that fails at call m + 1: the first
two calls read the original; the run then performs the first (m - 2) / 2 of
the two writes of the run without failure, the variant at the end of the
file and then the slot record. A call that finds the variant present, or is
asked for RES_ORIG, makes no call on the stream. -/
theorem lazily_resize_fault (env : Env) (size_code : Int) (position : Nat) (s s' : imgst_file)
    (hf : s.file.faults = [])
    (h : lazily_resize env size_code s position = (ERR_NONE, s')) :
    ∃ ws : List (Nat × List Nat),
      ((ws = [] ∧ s' = s) ∨
        ∃ out, out ≠ [] ∧ ws = [(s.file.content.length, out),
          (sizeof_imgst_header + position * sizeof_img_metadata,
            encode_metadata (s'.slot position))]) ∧
      s'.file.content = apply_writes s.file.content ws ∧
      ∀ m,
        (lazily_resize env size_code (with_fault_at s m) position).1
          = (if m < 3 * ws.length then ERR_IO else ERR_NONE) ∧
        (lazily_resize env size_code (with_fault_at s m) position).2.file.content
          = apply_writes s.file.content (ws.take ((m - 2) / 2)) := by
  have h9 : ( ERR_IO : Int) ≠ ERR_NONE := by decide
  have h6 : ( ERR_INVALID_ARGUMENT : Int) ≠ ERR_NONE := by decide
  have h8 : ( ERR_RESOLUTIONS : Int) ≠ ERR_NONE := by decide
  unfold lazily_resize at h
  by_cases c1 : size_code = RES_ORIG
  · rw [if_pos c1] at h
    refine ⟨[], Or.inl ⟨rfl, (congrArg Prod.snd h).symm⟩,
      by rw [show s' = s from (congrArg Prod.snd h).symm]; rfl, fun m => ?_⟩
    unfold lazily_resize
    rw [if_pos c1]
    exact ⟨rfl, by rw [List.take_nil]; rfl⟩
  · rw [if_neg c1] at h
    by_cases c2 : ¬ position < s.header.max_files
    · rw [if_pos c2] at h
      exact absurd (congrArg Prod.fst h) h6
    · rw [if_neg c2] at h
      by_cases c3 : ¬ (size_code = RES_THUMB ∨ size_code = RES_SMALL)
      · rw [if_pos c3] at h
        exact absurd (congrArg Prod.fst h) h8
      · rw [if_neg c3] at h
        by_cases c4 : size_already_exists (((s.slot position).offset.get? size_code).getD 0)
            = true
        · rw [if_pos c4] at h
          refine ⟨[], Or.inl ⟨rfl, (congrArg Prod.snd h).symm⟩,
            by rw [show s' = s from (congrArg Prod.snd h).symm]; rfl, fun m => ?_⟩
          unfold lazily_resize
          rw [if_neg c1, if_neg (show ¬ ¬ position < (with_fault_at s m).header.max_files from c2),
            if_neg c3, if_pos (show size_already_exists ((((with_fault_at s m).slot
              position).offset.get? size_code).getD 0) = true from c4)]
          exact ⟨rfl, by rw [List.take_nil]; rfl⟩
        · rw [if_neg c4] at h
          rcases hL : load_and_compute_image env position s size_code.toNat with ⟨err, out, s1⟩
          rw [hL] at h
          dsimp only at h
          split at h
          · next he => exact absurd (congrArg Prod.fst h) he
          · next he =>
            have he' : err = ERR_NONE := not_not.mp he
            rw [he'] at hL
            obtain ⟨hf1, hc1, hh1, hm1, _, _⟩ :=
              load_and_compute_image_fault env position s s1 size_code.toNat 0 out hf hL
            simp only [set_slot_with_file, set_slot_file, slot_with_file] at h
            split at h
            · exact absurd (congrArg Prod.fst h) h9
            · next hr1 =>
              split at h
              · exact absurd (congrArg Prod.fst h) h9
              · next hw1 =>
                split at h
                · exact absurd (congrArg Prod.fst h) h9
                · next hr2 =>
                  split at h
                  · exact absurd (congrArg Prod.fst h) h9
                  · next hw2 =>
                    have hs' := (congrArg Prod.snd h).symm
                    dsimp only at hs'
                    have hr1' := not_not.mp hr1
                    have hw1' := not_not.mp hw1
                    have hr2' := not_not.mp hr2
                    have hw2' := not_not.mp hw2
                    have e1 : encode_metadata (s'.slot position) = encode_metadata
                        ((s1.set_slot position
                          { s1.slot position with
                            offset := (s1.slot position).offset.set size_code
                              (ftell (fseek s1.file 0 .SEEK_END).2)
                            size := (s1.slot position).size.set size_code
                              ((ftell (fwrite out out.length 1 (fseek s1.file 0 .SEEK_END).2).2
                                - ftell (fseek s1.file 0 .SEEK_END).2) % 2 ^ 32) }).slot
                            position) := by
                      rw [hs']; rfl
                    have k2' := seek_write_chain
                      (fwrite out out.length 1 (fseek s1.file 0 .SEEK_END).2).2 _
                      sizeof_img_metadata
                      (sizeof_imgst_header + position * sizeof_img_metadata)
                      (encode_metadata_length _) hr2' hw2'
                    rw [← e1] at hw2'
                    have hfa := fseek_faults_nil s1.file 0 .SEEK_END hf1
                    have hfb := fwrite_faults_nil out out.length 1 _ hfa
                    have hfc := fseek_faults_nil _
                      ((sizeof_imgst_header + position * sizeof_img_metadata : Nat) : Int)
                      .SEEK_SET hfb
                    obtain ⟨q1, q2⟩ := fseek_ok' s1.file 0 .SEEK_END hr1'
                    have hpos : (fseek s1.file 0 .SEEK_END).2.pos = s.file.content.length := by
                      simp only [seek_base, add_zero] at q2
                      rw [← hc1]
                      exact_mod_cast q2
                    obtain ⟨w1, _, hout0⟩ := fwrite_one_ok' out out.length _ rfl hw1'
                    have k1 : (fwrite out out.length 1 (fseek s1.file 0 .SEEK_END).2).2.content
                        = s.file.content ++ out := by
                      rw [w1, q1, hpos, hc1, write_at_end]
                    have k2 := seek_write_chain
                      (fwrite out out.length 1 (fseek s1.file 0 .SEEK_END).2).2
                      (encode_metadata (s'.slot position)) sizeof_img_metadata
                      (sizeof_imgst_header + position * sizeof_img_metadata)
                      (encode_metadata_length _) hr2' hw2'
                    rw [k1] at k2
                    have hne : out ≠ [] := by
                      intro hc
                      rw [hc] at hout0
                      simp at hout0
                    have hfin : s'.file.content = write_at (s.file.content ++ out)
                        (sizeof_imgst_header + position * sizeof_img_metadata)
                        (encode_metadata (s'.slot position)) := by
                      rw [e1]
                      refine Eq.trans ?_ (k2'.trans (by rw [k1]))
                      rw [hs']
                    have hw0 : write_at s.file.content s.file.content.length out
                        = s.file.content ++ out := write_at_end _ _
                    refine ⟨_, Or.inr ⟨out, hne, rfl⟩, ?_, fun m => ?_⟩
                    · simp only [apply_writes, List.foldl]
                      rw [hw0]
                      exact hfin
                    have hpre : lazily_resize env size_code (with_fault_at s m) position
                        = (match load_and_compute_image env position
                            { s with file := stream_fault_at s.file m } size_code.toNat with
                          | (err, out_data, t1) =>
                            if err ≠ ERR_NONE then (err, t1)
                            else
                              match fseek t1.file 0 .SEEK_END with
                              | (r1, f1) =>
                                if r1 ≠ 0 then ( ERR_IO, { t1 with file := f1 })
                                else
                                  let offset_new_image := ftell f1
                                  match fwrite out_data out_data.length 1 f1 with
                                  | (w1, f2) =>
                                    if w1 ≠ 1 then ( ERR_IO, { t1 with file := f2 })
                                    else
                                      let s2 := { t1 with file := f2 }.set_slot position
                                        { t1.slot position with
                                          offset := (t1.slot position).offset.set size_code
                                            offset_new_image
                                          size := (t1.slot position).size.set size_code
                                            ((ftell f2 - offset_new_image) % 2 ^ 32) }
                                      match fseek f2 ((sizeof_imgst_header
                                          + position * sizeof_img_metadata : Nat) : Int)
                                          .SEEK_SET with
                                      | (r2, f3) =>
                                        if r2 ≠ 0 then ( ERR_IO, { s2 with file := f3 })
                                        else
                                          match fwrite (encode_metadata (s2.slot position))
                                              sizeof_img_metadata 1 f3 with
                                          | (w2, f4) =>
                                            if w2 ≠ 1 then ( ERR_IO, { s2 with file := f4 })
                                            else (ERR_NONE, { s2 with file := f4 })) := by
                      rw [with_fault_at_eq]
                      unfold lazily_resize
                      rw [if_neg c1, if_neg (show ¬ ¬ position
                          < ({ s with file := stream_fault_at s.file m } : imgst_file).header.max_files
                          from c2),
                        if_neg c3, if_neg (show ¬ size_already_exists
                          (((({ s with file := stream_fault_at s.file m } : imgst_file).slot
                            position).offset.get? size_code).getD 0) = true from c4)]
                    rw [hpre]
                    obtain ⟨_, _, _, _, hlt, hge⟩ :=
                      load_and_compute_image_fault env position s s1 size_code.toNat m out hf hL
                    by_cases hm : m < 2
                    · obtain ⟨a1, a2⟩ := hlt hm
                      dsimp only
                      rw [if_pos (by rw [a1]; exact h9)]
                      have hm2 : (m - 2) / 2 = 0 := by omega
                      rw [hm2]
                      exact ⟨by rw [a1, if_pos (by simp; omega)], a2⟩
                    · rw [hge (by omega)]
                      obtain ⟨n, rfl⟩ : ∃ n, m = n + 2 := ⟨m - 2, by omega⟩
                      simp only [Nat.add_sub_cancel, set_slot_with_file, set_slot_file,
                        slot_with_file]
                      rw [if_neg (not_not.mpr rfl)]
                      have hw : write_at s.file.content s.file.content.length out
                          = s.file.content ++ out := write_at_end _ _
                      rcases n with _ | _ | _ | _ | n
                      · rw [fseek_fault_zero _ _ _ hf1]
                        exact ⟨by simp, hc1⟩
                      · rw [fseek_fault_succ _ _ _ _ hf1]
                        simp only [hr1', ne_eq, not_true_eq_false, if_false]
                        rw [fwrite_fault_zero _ _ _ _ hfa]
                        dsimp only
                        rw [if_pos (show ¬ (0 : Nat) = 1 by decide)]
                        exact ⟨by simp, q1.trans hc1⟩
                      · rw [fseek_fault_succ _ _ _ _ hf1]
                        simp only [hr1', ne_eq, not_true_eq_false, if_false]
                        rw [fwrite_fault_succ _ _ _ _ _ hfa]
                        simp only [hw1', ne_eq, not_true_eq_false, if_false]
                        rw [fseek_fault_zero _ _ _ hfb]
                        exact ⟨by simp, k1.trans hw.symm⟩
                      · rw [fseek_fault_succ _ _ _ _ hf1]
                        simp only [hr1', ne_eq, not_true_eq_false, if_false]
                        rw [fwrite_fault_succ _ _ _ _ _ hfa]
                        simp only [hw1', ne_eq, not_true_eq_false, if_false]
                        rw [fseek_fault_succ _ _ _ _ hfb]
                        simp only [hr2', ne_eq, not_true_eq_false, if_false]
                        rw [fwrite_fault_zero _ _ _ _ hfc]
                        dsimp only
                        rw [if_pos (show ¬ (0 : Nat) = 1 by decide)]
                        refine ⟨by simp, ?_⟩
                        dsimp only
                        rw [fseek_content]
                        exact k1.trans hw.symm
                      · rw [fseek_fault_succ _ _ _ _ hf1]
                        simp only [hr1', ne_eq, not_true_eq_false, if_false]
                        rw [fwrite_fault_succ _ _ _ _ _ hfa]
                        simp only [hw1', ne_eq, not_true_eq_false, if_false]
                        rw [fseek_fault_succ _ _ _ _ hfb]
                        simp only [hr2', ne_eq, not_true_eq_false, if_false,
                          ftell_stream_fault_at, ← e1]
                        rw [fwrite_fault_succ _ _ _ _ _ hfc]
                        simp only [hw2', ne_eq, not_true_eq_false, if_false]
                        have hm4 : 2 ≤ (n + 1 + 1 + 1 + 1) / 2 := by omega
                        rw [List.take_of_length_le (by simpa using hm4)]
                        refine ⟨by rw [if_neg (by simp)], ?_⟩
                        simp only [stream_fault_at_content, apply_writes, List.foldl]
                        rw [hw]
                        exact k2

/-! ## The claims -/

set_option maxRecDepth 100000
set_option maxHeartbeats 4000000

/-- C1 (evaluated at the failing input): on the 3-slot store made by do_create
and reopened by do_open in mode "r+b", do_insert of img_x as "x", of img_y as
"a" and of img_x as "a" all return ERR_NONE, and the do_read of "a" at
RES_ORIG that follows on the same handle returns ERR_NONE with the 2 bytes of
img_y, not the 3 bytes of img_x just inserted. -/
theorem C1_read_after_insert_returns_older_image :
    (do_create [] (template 3)).1 = ERR_NONE ∧
    (do_open (some created3.file.content) "r+b" [] false (template 0)).1 = ERR_NONE ∧
    do_insert test_env img_x id_x opened3 = some (ERR_NONE, op1) ∧
    do_insert test_env img_y id_a op1 = some (ERR_NONE, op2) ∧
    do_insert test_env img_x id_a op2 = some (ERR_NONE, op3) ∧
    (do_read test_env id_a RES_ORIG op3).map (fun r => (r.err, r.image_buffer, r.image_size))
      = some (ERR_NONE, img_y, 2) := by
  decide!

/-- C2 (evaluated at the failing input): the handle st3, reached from
do_create by three successful do_insert calls, has the two distinct valid
slots 1 and 2 with the same img_id. -/
theorem C2_reachable_duplicate_img_id :
    Reachable test_env st3 ∧
    (st3.slot 1).is_valid = NON_EMPTY ∧ (st3.slot 2).is_valid = NON_EMPTY ∧
    (st3.slot 1).img_id = (st3.slot 2).img_id := by
  refine ⟨?_, by decide!, by decide!, by decide!⟩
  refine Reachable.insert img_x id_a st2 st3 ?_ (by decide!)
  refine Reachable.insert img_y id_a st1 st2 ?_ (by decide!)
  refine Reachable.insert img_x id_x created3 st1 ?_ (by decide!)
  exact Reachable.create [] (template 3) created3 (by decide) (by decide!)

/-- C3 (evaluated at the failing input): in the handle that do_insert hands
to do_name_and_content_dedup when img_x is inserted as "a" into st2, slot 1
is valid and has the img_id of slot 2, slot 0 is valid and has the digest of
slot 2; do_name_and_content_dedup at index 2 returns ERR_NONE, and so does
the do_insert call. -/
theorem C3_dedup_accepts_duplicate_id :
    ((insert_load test_env img_x id_a st2 2).slot 1).is_valid = NON_EMPTY ∧
    ((insert_load test_env img_x id_a st2 2).slot 1).img_id
      = ((insert_load test_env img_x id_a st2 2).slot 2).img_id ∧
    ((insert_load test_env img_x id_a st2 2).slot 0).is_valid = NON_EMPTY ∧
    ((insert_load test_env img_x id_a st2 2).slot 0).SHA
      = ((insert_load test_env img_x id_a st2 2).slot 2).SHA ∧
    (do_name_and_content_dedup (insert_load test_env img_x id_a st2 2) 2).1 = ERR_NONE ∧
    (do_insert test_env img_x id_a st2).map Prod.fst = some ERR_NONE := by
  decide!

/-- C4: in every handle reachable from do_create through successful
do_insert, do_delete and lazily_resize calls, the file being closed and
opened again with do_open at any point (the digest has 32 bytes, the
template of do_create fits its C types and the file stays shorter than 2^64
bytes), two valid slots with equal SHA have the same offset[RES_ORIG] and
the same size[RES_ORIG]. -/
theorem C4_equal_sha_share_original (env : Env) (lim : Nat) (s : imgst_file)
    (hlen : ∀ b, (env.SHA256 b).length = SHA256_DIGEST_LENGTH)
    (hs : ReachableOpen env lim s)
    (i j : Nat) (hi : (s.slot i).is_valid = NON_EMPTY) (hj : (s.slot j).is_valid = NON_EMPTY)
    (hsha : (s.slot i).SHA = (s.slot j).SHA) :
    (s.slot i).offset.orig = (s.slot j).offset.orig ∧
    (s.slot i).size.orig = (s.slot j).size.orig := by
  obtain ⟨_, ⟨_, _, _, h4⟩, _⟩ := reachable_open_inv env lim s hlen hs
  exact h4 i j hi hj (by rw [hsha]; exact are_equal_refl _)

/-- C4 (witness): the 3-slot store is created and opened again, img_x is
inserted as "x" and as "a", and lazily_resize materialises the RES_THUMB
variant of slot 0; slots 0 and 1 are valid, hold the same SHA, and share
offset[RES_ORIG] and size[RES_ORIG]. -/
theorem C4_equal_sha_share_original_witness :
    ReachableOpen test_env 4 op1_same_thumb ∧
    (op1_same_thumb.slot 0).is_valid = NON_EMPTY ∧
    (op1_same_thumb.slot 1).is_valid = NON_EMPTY ∧
    (op1_same_thumb.slot 0).SHA = (op1_same_thumb.slot 1).SHA ∧
    (op1_same_thumb.slot 0).size.thumb ≠ 0 ∧
    (op1_same_thumb.slot 0).offset.orig = (op1_same_thumb.slot 1).offset.orig ∧
    (op1_same_thumb.slot 0).size.orig = (op1_same_thumb.slot 1).size.orig :=
  have hr : ReachableOpen test_env 4 op1_same_thumb :=
    ReachableOpen.resize RES_THUMB 0 op1_same op1_same_thumb
      (ReachableOpen.insert img_x id_a op1 op1_same
        (ReachableOpen.insert img_x id_x opened3 op1
          (ReachableOpen.reopen [] false (template 0) created3 opened3
            (ReachableOpen.create [] (template 3) created3 (by decide) (by decide) (by decide)
              (by decide!))
            (by decide!))
          (by decide) (by decide!) (by decide!))
        (by decide) (by decide!) (by decide!))
      (by decide!) (by decide!)
  ⟨hr, by decide!, by decide!, by decide!, by decide!,
    C4_equal_sha_share_original test_env 4 op1_same_thumb (fun b => fix_len_length _ b) hr 0 1
      (by decide!) (by decide!) (by decide!)⟩

/-- C5 (counterexample): on the freshly created 3-slot store, do_insert of
img_x as "x" and then as "a" both return ERR_NONE and the file grows by 3
bytes in all, the length of img_x, not by that length plus 2 slot sizes. -/
theorem C5_growth_is_not_two_slots_more :
    do_create [] (template 3) = (ERR_NONE, created3) ∧
    do_insert test_env img_x id_x created3 = some (ERR_NONE, st1) ∧
    do_insert test_env img_x id_a st1 = some (ERR_NONE, st1_same) ∧
    st1_same.file.content.length = created3.file.content.length + img_x.length ∧
    st1_same.file.content.length ≠
      created3.file.content.length + (img_x.length + 2 * sizeof_img_metadata) := by
  decide!

/-- C5 (amended): after a successful do_create, when do_insert of a buffer
under one identifier and then do_insert of the same buffer under another
identifier both return ERR_NONE, the first insert grows the file by exactly
the length of the buffer and the second insert leaves the file length as it
is: the file grows by exactly len(buffer) in total. -/
theorem C5_same_bytes_twice_grow_once (env : Env) (faults : List (Option Nat))
    (t s0 s1 s2 : imgst_file) (buffer id1 id2 : List Nat)
    (hc : do_create faults t = (ERR_NONE, s0))
    (h1 : do_insert env buffer id1 s0 = some (ERR_NONE, s1))
    (h2 : do_insert env buffer id2 s1 = some (ERR_NONE, s2)) :
    s1.file.content.length = s0.file.content.length + buffer.length ∧
    s2.file.content.length = s1.file.content.length ∧
    s2.file.content.length = s0.file.content.length + buffer.length := by
  obtain ⟨_, a, b⟩ := same_bytes_twice env faults t s0 s1 s2 buffer id1 id2 hc h1 h2
  exact ⟨a, b, by rw [b, a]⟩

/-- C5 (witness): the amended statement at the 3-slot store with img_x
inserted as "x" and as "a". -/
theorem C5_same_bytes_twice_grow_once_witness :
    do_create [] (template 3) = (ERR_NONE, created3) ∧
    do_insert test_env img_x id_x created3 = some (ERR_NONE, st1) ∧
    do_insert test_env img_x id_a st1 = some (ERR_NONE, st1_same) ∧
    st1.file.content.length = created3.file.content.length + img_x.length ∧
    st1_same.file.content.length = st1.file.content.length ∧
    st1_same.file.content.length = created3.file.content.length + img_x.length :=
  ⟨by decide!, by decide!, by decide!,
    C5_same_bytes_twice_grow_once test_env [] (template 3) created3 st1 st1_same img_x id_x id_a
      (by decide!) (by decide!) (by decide!)⟩

/-- C6 (counterexample): st1 is reached from do_create by one successful
do_insert and has num_files = 1 = its number of valid slots; the do_insert
of img_y under the identifier "x" that follows returns ERR_DUPLICATE_ID and
leaves a handle with num_files = 1 and 2 valid slots. -/
theorem C6_count_after_failed_insert :
    do_insert test_env img_x id_x created3 = some (ERR_NONE, st1) ∧
    st1.header.num_files = valid_count st1 ∧
    do_insert test_env img_y id_x st1 = some (ERR_DUPLICATE_ID, st1_dup_id) ∧
    st1_dup_id.header.num_files = 1 ∧ valid_count st1_dup_id = 2 := by
  decide!

/-- C6 (amended): in every handle reachable from do_create through successful
do_insert, do_delete and lazily_resize calls, the file being closed and
opened again with do_open at any point (the digest has 32 bytes, the
template of do_create fits its C types and the file stays shorter than 2^64
bytes), header.num_files is the number of slots with is_valid = NON_EMPTY;
and after n successful do_insert calls and no do_delete, num_files = n. -/
theorem C6_num_files_counts_valid_slots (env : Env) (lim : Nat) (s : imgst_file)
    (hlen : ∀ b, (env.SHA256 b).length = SHA256_DIGEST_LENGTH)
    (hs : ReachableOpen env lim s) :
    s.header.num_files = valid_count s ∧
    ∀ n, InsertRunOpen env lim n s → s.header.num_files = n :=
  ⟨(reachable_open_count env lim s hlen hs).2,
    fun n hn => (insert_run_open_count env lim n s hlen hn).2⟩

/-- C6 (witness): the 3-slot store is created and opened again, img_x is
inserted as "x", lazily_resize materialises the RES_THUMB variant of slot 0,
the file is opened again and img_y is inserted as "a": the handle has
num_files = 2 = its number of valid slots. -/
theorem C6_num_files_counts_valid_slots_witness :
    ReachableOpen test_env 4 op1_thumb_reopened_y ∧
    InsertRunOpen test_env 4 2 op1_thumb_reopened_y ∧
    (op1_thumb.slot 0).size.thumb ≠ 0 ∧
    op1_thumb_reopened_y.header.num_files = valid_count op1_thumb_reopened_y ∧
    op1_thumb_reopened_y.header.num_files = 2 :=
  have hi : InsertRunOpen test_env 4 2 op1_thumb_reopened_y :=
    InsertRunOpen.insert 1 img_y id_a op1_thumb_reopened op1_thumb_reopened_y
      (InsertRunOpen.reopen 1 [] false (template 0) op1_thumb op1_thumb_reopened
        (InsertRunOpen.resize 1 RES_THUMB 0 op1 op1_thumb
          (InsertRunOpen.insert 0 img_x id_x opened3 op1
            (InsertRunOpen.reopen 0 [] false (template 0) created3 opened3
              (InsertRunOpen.create [] (template 3) created3 (by decide) (by decide) (by decide)
                (by decide!))
              (by decide!))
            (by decide) (by decide!) (by decide!))
          (by decide!) (by decide!))
        (by decide!))
      (by decide) (by decide!) (by decide!)
  have hr : ReachableOpen test_env 4 op1_thumb_reopened_y :=
    insert_run_open_reachable test_env 4 2 op1_thumb_reopened_y hi
  ⟨hr, hi, by decide!, (C6_num_files_counts_valid_slots test_env 4 op1_thumb_reopened_y
      (fun b => fix_len_length _ b) hr).1,
    (C6_num_files_counts_valid_slots test_env 4 op1_thumb_reopened_y
      (fun b => fix_len_length _ b) hr).2 2 hi⟩

/-- C7 (counterexample): on the reopened store holding one image,
lazily_resize to RES_THUMB returns ERR_NONE and materialises the variant
(offset and size of RES_THUMB go from 0 to nonzero) while imgst_version is
not greater than before; and a successful do_insert on a handle whose
imgst_version is 2^32 - 1 leaves imgst_version = 0. -/
theorem C7_version_not_increased :
    (lazily_resize test_env RES_THUMB op1 0).1 = ERR_NONE ∧
    (op1.slot 0).offset.thumb = 0 ∧
    ((lazily_resize test_env RES_THUMB op1 0).2.slot 0).offset.thumb ≠ 0 ∧
    ((lazily_resize test_env RES_THUMB op1 0).2.slot 0).size.thumb ≠ 0 ∧
    ¬ (op1.header.imgst_version <
        (lazily_resize test_env RES_THUMB op1 0).2.header.imgst_version) ∧
    (do_insert test_env img_y id_a op1_max_version).map
      (fun r => (r.1, r.2.header.imgst_version)) = some (ERR_NONE, 0) ∧
    ¬ (op1_max_version.header.imgst_version < 0) := by
  decide!

/-- C7 (amended): on a handle whose imgst_version is below 2^32 - 1, every
successful do_insert and every successful do_delete leaves imgst_version
equal to the old value plus 1, hence strictly greater; lazily_resize,
whatever it returns, leaves imgst_version as it was. -/
theorem C7_version_after_mutation (env : Env) (s s' : imgst_file)
    (hv : s.header.imgst_version < 2 ^ 32 - 1) :
    (∀ buffer img_id, do_insert env buffer img_id s = some (ERR_NONE, s') →
      s'.header.imgst_version = s.header.imgst_version + 1 ∧
      s.header.imgst_version < s'.header.imgst_version) ∧
    (∀ imgID, do_delete imgID s = (ERR_NONE, s') →
      s'.header.imgst_version = s.header.imgst_version + 1 ∧
      s.header.imgst_version < s'.header.imgst_version) ∧
    (∀ size_code position e, lazily_resize env size_code s position = (e, s') →
      s'.header.imgst_version = s.header.imgst_version) := by
  refine ⟨?_, ?_, ?_⟩
  · intro buffer img_id h
    obtain ⟨_, _, _, _, _, hh, _⟩ := do_insert_ok_effect env buffer img_id s s' _ rfl h
    rw [hh]
    simp only
    rw [Nat.mod_eq_of_lt (by omega)]
    omega
  · intro imgID h
    rcases do_delete_cases imgID s s' _ h with ⟨hc, _⟩ | ⟨i, _, _, _, _, _, hd⟩
    · simp at hc
    · obtain ⟨_, _, hok, _⟩ := delete_at_cases s s' i _ hd
      obtain ⟨hh, _⟩ := hok rfl
      rw [hh]
      simp only
      rw [Nat.mod_eq_of_lt (by omega)]
      omega
  · intro size_code position e h
    obtain ⟨hh, _⟩ := lazily_resize_frame env size_code s s' position e h
    rw [hh]

/-- C7 (witness): the first do_insert on the freshly created store takes
imgst_version from 0 to 1. -/
theorem C7_version_after_mutation_witness :
    created3.header.imgst_version < 2 ^ 32 - 1 ∧
    st1.header.imgst_version = created3.header.imgst_version + 1 ∧
    created3.header.imgst_version < st1.header.imgst_version :=
  ⟨by decide!, (C7_version_after_mutation test_env created3 st1 (by decide!)).1 img_x id_x
    (by decide!)⟩

/-- C8 (evaluated at the failing inputs): on the freshly created 3-slot
store, with a decodable buffer, do_insert returns ERR_INVALID_IMGID for an
identifier of 127 characters (as for one of 128), and returns ERR_NONE for
the empty identifier (as for one of 126 characters). -/
theorem C8_insert_identifier_length_checks :
    do_insert test_env img_x (List.replicate 127 65) created3
      = some (ERR_INVALID_IMGID, created3) ∧
    do_insert test_env img_x (List.replicate 128 65) created3
      = some (ERR_INVALID_IMGID, created3) ∧
    (do_insert test_env img_x [] created3).map Prod.fst = some ERR_NONE ∧
    (do_insert test_env img_x (List.replicate 126 65) created3).map Prod.fst = some ERR_NONE ∧
    created3.header.num_files < created3.header.max_files ∧
    test_env.vips_jpegload_buffer img_x ≠ none := by
  decide!

/-- C9 (counterexample): on the freshly created 3-slot store (num_files = 0 =
its number of valid slots, below max_files, no valid slot at all), do_insert
of a decodable buffer of 2^32 bytes returns ERR_NONE and leaves
size[RES_ORIG] = 0 in slot 0, not the length of the buffer. -/
theorem C9_size_of_large_buffer_wraps :
    created3.header.num_files = valid_count created3 ∧
    created3.header.num_files < created3.header.max_files ∧
    (∀ j, (created3.slot j).is_valid = NON_EMPTY →
      are_equal (created3.slot j).SHA (test_env.SHA256 big_buffer) = false) ∧
    big_buffer.length = 2 ^ 32 ∧
    ∃ s', do_insert test_env big_buffer id_x created3 = some (ERR_NONE, s') ∧
      (s'.slot 0).size.orig = 0 ∧ (s'.slot 0).size.orig ≠ big_buffer.length := by
  have hlenb : big_buffer.length = 2 ^ 32 := by
    unfold big_buffer; rw [List.length_replicate]
  have hnov : ∀ j, (created3.slot j).is_valid ≠ NON_EMPTY := by
    intro j
    rw [created_slot_zero [] (template 3) created3 (by decide!) j]
    decide
  have hdec : test_env.vips_jpegload_buffer big_buffer ≠ none := by
    have hne : big_buffer ≠ [] := by
      intro hc
      rw [hc] at hlenb
      simp at hlenb
    simp [test_env, hne]
  have hk0 : find_first_free_meta created3 = 0 := by decide!
  obtain ⟨s', hs'⟩ := do_insert_succeeds test_env big_buffer id_x created3 (by decide!)
    (by decide!) (by decide!) (by decide!) (fun j _ hv => absurd hv (hnov j)) hdec
    (by decide!) (by decide!)
  refine ⟨by decide!, by decide!, fun j hv => absurd hv (hnov j), hlenb, s', hs', ?_⟩
  obtain ⟨_, _, _, _, _, _, _, _, _, _, _, course⟩ :=
    do_insert_ok_effect test_env big_buffer id_x created3 s' 0 hk0 hs'
  have hsz : (s'.slot 0).size.orig = 0 := by
    rcases course with ⟨_, hsz, _⟩ | ⟨c, _, _, hvc, _⟩
    · rw [hsz, hlenb]; rfl
    · exact absurd hvc (hnov c)
  exact ⟨hsz, by rw [hsz, hlenb]; decide⟩

/-- C9 (amended): on a handle whose mirror holds max_files < 2^32 records,
whose file holds the header and the slot table, whose num_files is its number
of valid slots and below max_files, a successful do_insert of a buffer
shorter than 2^32 bytes whose digest matches no valid slot fills exactly the
lowest-index EMPTY slot k < max_files: img_id = id (as C strings), SHA =
SHA-256 of the buffer, size = {0, 0, len(buffer)}, offset = {0, 0, old file
length}, is_valid = NON_EMPTY; every other slot of the mirror is unchanged,
and the buffer is appended at the old end of the file. -/
theorem C9_insert_fills_first_empty_slot (env : Env) (buffer img_id : List Nat)
    (s s' : imgst_file) (hwf : wf s)
    (hfile : sizeof_imgst_header + s.header.max_files * sizeof_img_metadata
      ≤ s.file.content.length)
    (hsize : buffer.length < 2 ^ 32)
    (_hcount : s.header.num_files = valid_count s)
    (_hroom : s.header.num_files < s.header.max_files)
    (hfresh : ∀ j, (s.slot j).is_valid = NON_EMPTY →
      are_equal (s.slot j).SHA (env.SHA256 buffer) = false)
    (h : do_insert env buffer img_id s = some (ERR_NONE, s')) :
    ∃ k, k < s.header.max_files ∧ (s.slot k).is_valid = EMPTY ∧
      (∀ j, j < k → (s.slot j).is_valid ≠ EMPTY) ∧
      c_str (s'.slot k).img_id = c_str img_id ∧
      (s'.slot k).SHA = env.SHA256 buffer ∧
      (s'.slot k).size = ⟨0, 0, buffer.length⟩ ∧
      (s'.slot k).offset = ⟨0, 0, s.file.content.length⟩ ∧
      (s'.slot k).is_valid = NON_EMPTY ∧
      s'.metadata.length = s.metadata.length ∧
      (∀ j, j ≠ k → s'.slot j = s.slot j) ∧
      s'.file.content.length = s.file.content.length + buffer.length ∧
      s'.file.content.drop s.file.content.length = buffer := by
  obtain ⟨k, a1, a2, a3, a4, a5, a6, a7⟩ :=
    insert_fresh_content env buffer img_id s s' hwf hfile hfresh h
  rw [Nat.mod_eq_of_lt hsize] at a6
  exact ⟨k, a1, a2, a3, a4, a5, a6, a7⟩

/-- C9 (witness): the first do_insert on the freshly created 3-slot store
fills slot 0 and appends the 3 bytes of img_x. -/
theorem C9_insert_fills_first_empty_slot_witness :
    wf created3 ∧
    sizeof_imgst_header + created3.header.max_files * sizeof_img_metadata
      ≤ created3.file.content.length ∧
    img_x.length < 2 ^ 32 ∧
    do_insert test_env img_x id_x created3 = some (ERR_NONE, st1) ∧
    ∃ k, k < created3.header.max_files ∧ (created3.slot k).is_valid = EMPTY ∧
      (∀ j, j < k → (created3.slot j).is_valid ≠ EMPTY) ∧
      c_str (st1.slot k).img_id = c_str id_x ∧
      (st1.slot k).SHA = test_env.SHA256 img_x ∧
      (st1.slot k).size = ⟨0, 0, img_x.length⟩ ∧
      (st1.slot k).offset = ⟨0, 0, created3.file.content.length⟩ ∧
      (st1.slot k).is_valid = NON_EMPTY ∧
      st1.metadata.length = created3.metadata.length ∧
      (∀ j, j ≠ k → st1.slot j = created3.slot j) ∧
      st1.file.content.length = created3.file.content.length + img_x.length ∧
      st1.file.content.drop created3.file.content.length = img_x :=
  have hwf : wf created3 := ⟨by decide!, by decide!⟩
  ⟨hwf, by decide!, by decide!, by decide!,
    C9_insert_fills_first_empty_slot test_env img_x id_x created3 st1 hwf (by decide!)
      (by decide!) (by decide!) (by decide!)
      (fun j hv => absurd hv (by
        rw [created_slot_zero [] (template 3) created3 (by decide!) j]; decide))
      (by decide!)⟩

/-- C10: when do_insert returns ERR_INVALID_IMGID, ERR_FULL_IMGSTORE,
ERR_DUPLICATE_ID or ERR_IMGLIB, or returns ERR_IO with the header counters
of the handle not yet incremented (the failure of the fseek or fwrite of the
image content), the bytes of the header and of the slot table in the file,
its first sizeof(header) + max_files * sizeof(metadata) bytes, are those
before the call. -/
theorem C10_error_before_flush_keeps_header_and_table (env : Env) (buffer img_id : List Nat)
    (s s' : imgst_file) (e : Int)
    (hfile : sizeof_imgst_header + s.header.max_files * sizeof_img_metadata
      ≤ s.file.content.length)
    (h : do_insert env buffer img_id s = some (e, s'))
    (he : e = ERR_INVALID_IMGID ∨ e = ERR_FULL_IMGSTORE ∨ e = ERR_DUPLICATE_ID ∨
      e = ERR_IMGLIB ∨ (e = ERR_IO ∧ s'.header = s.header)) :
    s'.file.content.take (sizeof_imgst_header + s.header.max_files * sizeof_img_metadata)
      = s.file.content.take (sizeof_imgst_header + s.header.max_files * sizeof_img_metadata) := by
  have hne : e ≠ ERR_NONE := by
    rcases he with rfl | rfl | rfl | rfl | ⟨rfl, _⟩ <;> decide
  rcases do_insert_cases env buffer img_id s _ h with ⟨_, hr⟩ | ⟨_, _, hr⟩ | ⟨_, _, _, hr⟩ |
    ⟨_, _, _, e2, s2, hd, hr⟩
  · simp only [Option.some.injEq, Prod.mk.injEq] at hr; rw [hr.2]
  · simp only [Option.some.injEq, Prod.mk.injEq] at hr; rw [hr.2]
  · simp at hr
  · obtain ⟨df1, df2, _, _⟩ := dedup_frame _ _ _ _ hd
    have hs2 : s2.file.content = s.file.content := by rw [df1]; rfl
    have hs2h : s2.header = s.header := by rw [df2]; rfl
    rcases hr with ⟨_, hr⟩ | ⟨_, e3, s3, hw, hr⟩
    · simp only [Option.some.injEq, Prod.mk.injEq] at hr
      rw [hr.2, hs2]
    · obtain ⟨wh, _, _, _, wtake⟩ := insert_write_frame _ _ _ _ _ hw
      have hs3 : s3.file.content.take
          (sizeof_imgst_header + s.header.max_files * sizeof_img_metadata)
          = s.file.content.take
            (sizeof_imgst_header + s.header.max_files * sizeof_img_metadata) := by
        rw [wtake _ (by rw [hs2]; exact hfile), hs2]
      rcases hr with ⟨_, hr⟩ | ⟨_, hr⟩
      · simp only [Option.some.injEq, Prod.mk.injEq] at hr
        rw [hr.2]; exact hs3
      · simp only [Option.some.injEq] at hr
        rcases insert_update_cases env buffer s3 s' _ e hr.symm with
          ⟨_, hs', _⟩ | ⟨_, _, _, uh, _, hcode, _⟩
        · rw [hs']; exact hs3
        · exfalso
          rcases he with rfl | rfl | rfl | rfl | ⟨rfl, hsame⟩
          · rcases hcode with hc | hc <;> simp at hc
          · rcases hcode with hc | hc <;> simp at hc
          · rcases hcode with hc | hc <;> simp at hc
          · rcases hcode with hc | hc <;> simp at hc
          · rw [uh, wh, hs2h] at hsame
            have := congrArg imgst_header.imgst_version hsame
            simp only at this
            omega

/-- C10 (witness): the do_insert that fails with ERR_DUPLICATE_ID on st1, and
the do_insert on st1_faulty whose fwrite of the image content fails after one
byte, both leave the first 64 + 3 * 216 bytes of the file as they were. -/
theorem C10_error_before_flush_keeps_header_and_table_witness :
    do_insert test_env img_y id_x st1 = some (ERR_DUPLICATE_ID, st1_dup_id) ∧
    st1_dup_id.file.content.take
        (sizeof_imgst_header + st1.header.max_files * sizeof_img_metadata)
      = st1.file.content.take
        (sizeof_imgst_header + st1.header.max_files * sizeof_img_metadata) ∧
    do_insert test_env img_y id_a st1_faulty = some ( ERR_IO, st1_blob_fail) ∧
    st1_blob_fail.header = st1_faulty.header ∧
    st1_blob_fail.file.content ≠ st1_faulty.file.content ∧
    st1_blob_fail.file.content.take
        (sizeof_imgst_header + st1_faulty.header.max_files * sizeof_img_metadata)
      = st1_faulty.file.content.take
        (sizeof_imgst_header + st1_faulty.header.max_files * sizeof_img_metadata) :=
  ⟨by decide!,
    C10_error_before_flush_keeps_header_and_table test_env img_y id_x st1 st1_dup_id
      ERR_DUPLICATE_ID (by decide!) (by decide!) (Or.inr (Or.inr (Or.inl rfl))),
    by decide!, by decide!, by decide!,
    C10_error_before_flush_keeps_header_and_table test_env img_y id_a st1_faulty st1_blob_fail
      ( ERR_IO) (by decide!) (by decide!) (Or.inr (Or.inr (Or.inr (Or.inr ⟨rfl, by decide!⟩))))⟩



/-- C11: on a handle whose file holds the header and the slot table and
decodes to exactly the header and the mirror of the handle (with a file
shorter than 2^64 bytes and 32-byte digests), after every successful
do_insert, do_delete or lazily_resize the header and slot table stored in the
file again decode to exactly the header and mirror of the handle; and after
do_insert the sizeof(metadata) bytes at absolute offset
sizeof(header) + insertion_index * sizeof(metadata) are the record of the new
slot. -/
theorem C11_stored_table_matches_after_mutation (env : Env) (s s' : imgst_file)
    (hinv : stored_table_matches s) (hsize : s.file.content.length < 2 ^ 64)
    (hsha : ∀ b, (env.SHA256 b).length = SHA256_DIGEST_LENGTH) :
    (∀ buffer img_id, do_insert env buffer img_id s = some (ERR_NONE, s') →
      stored_table_matches s' ∧
      (s'.file.content.drop
          (sizeof_imgst_header + find_first_free_meta s * sizeof_img_metadata)).take
        sizeof_img_metadata = encode_metadata (s'.slot (find_first_free_meta s))) ∧
    (∀ imgID, do_delete imgID s = (ERR_NONE, s') → stored_table_matches s') ∧
    (∀ size_code position, lazily_resize env size_code s position = (ERR_NONE, s') →
      stored_table_matches s') :=
  ⟨fun buffer img_id h => stored_after_insert env buffer img_id s s' hinv (hsha buffer) hsize h,
    fun imgID h => stored_after_delete imgID s s' hinv h,
    fun size_code position h => stored_after_resize env size_code s s' position hinv hsize h⟩

/-- C11 (witness): the freshly created 3-slot store and its first do_insert,
which writes the record of slot 0 at offset 64. -/
theorem C11_stored_table_matches_after_mutation_witness :
    stored_table_matches created3 ∧ created3.file.content.length < 2 ^ 64 ∧
    do_insert test_env img_x id_x created3 = some (ERR_NONE, st1) ∧
    find_first_free_meta created3 = 0 ∧
    stored_table_matches st1 ∧
    (st1.file.content.drop 64).take 216 = encode_metadata (st1.slot 0) :=
  have hinv : stored_table_matches created3 := by
    unfold stored_table_matches
    decide!
  have h := (C11_stored_table_matches_after_mutation test_env created3 st1 hinv (by decide!)
    (fun b => fix_len_length _ b)).1 img_x id_x (by decide!)
  have hk : find_first_free_meta created3 = 0 := by decide!
  ⟨hinv, by decide!, by decide!, hk, h.1, by
    have h2 := h.2
    rw [hk] at h2
    exact h2⟩

/-- C12 (counterexample): on the freshly created 3-slot store, do_insert as
"x" of a buffer that is not an image returns ERR_IMGLIB and leaves slot 0 of
the mirror with is_valid = NON_EMPTY and img_id "x" while num_files stays 0;
on that handle do_delete of "x" returns ERR_FILE_NOT_FOUND although a slot
with is_valid = NON_EMPTY has that img_id. -/
theorem C12_not_found_with_matching_valid_slot :
    (do_insert test_env [] id_x created3).map Prod.fst = some ERR_IMGLIB ∧
    created3_bad_image.header.num_files = 0 ∧
    0 < created3_bad_image.header.max_files ∧
    (created3_bad_image.slot 0).is_valid = NON_EMPTY ∧
    c_str (created3_bad_image.slot 0).img_id = id_x ∧
    strcmp (created3_bad_image.slot 0).img_id id_x = 0 ∧
    do_delete id_x created3_bad_image = (ERR_FILE_NOT_FOUND, created3_bad_image) := by
  decide!

/-- C12 (amended): for every handle and identifier, do_delete returns
ERR_FILE_NOT_FOUND if and only if num_files is 0 or no slot below max_files
with is_valid = NON_EMPTY has that img_id (compared by strcmp), and in that
case the handle (header, mirror) and the file are unchanged; in particular
do_delete of any identifier on a freshly created store returns
ERR_FILE_NOT_FOUND. -/
theorem C12_delete_not_found_iff (imgID : List Nat) (s : imgst_file) :
    ((do_delete imgID s).1 = ERR_FILE_NOT_FOUND ↔
      (s.header.num_files = 0 ∨ ∀ i, i < s.header.max_files →
        ¬ ((s.slot i).is_valid = NON_EMPTY ∧ strcmp (s.slot i).img_id imgID = 0))) ∧
    ((do_delete imgID s).1 = ERR_FILE_NOT_FOUND → (do_delete imgID s).2 = s) ∧
    (∀ faults t, do_create faults t = (ERR_NONE, s) →
      do_delete imgID s = (ERR_FILE_NOT_FOUND, s)) := by
  have hnf : ∀ e s', do_delete imgID s = (e, s') → e = ERR_FILE_NOT_FOUND → s' = s := by
    intro e s' h he
    rcases do_delete_cases imgID s s' e h with ⟨_, hs⟩ | ⟨i, _, _, _, _, _, hd⟩
    · exact hs
    · obtain ⟨_, hor, _⟩ := delete_at_cases s s' i e hd
      rw [he] at hor
      rcases hor with hc | hc <;> exact absurd hc (by decide)
  refine ⟨⟨?_, ?_⟩, fun h => hnf _ _ rfl h, ?_⟩
  · intro h
    by_cases h0 : s.header.num_files = 0
    · exact Or.inl h0
    · right
      have hl : do_delete_loop imgID s s.header.max_files 0
          = ((do_delete imgID s).1, (do_delete imgID s).2) := by
        unfold do_delete
        rw [if_neg h0]
      rcases do_delete_loop_cases imgID s _ _ 0 _ hl with ⟨_, _, hno⟩ | ⟨i, _, _, _, _, _, hd⟩
      · intro i hi
        exact hno i (Nat.zero_le _) (by omega)
      · obtain ⟨_, hor, _⟩ := delete_at_cases s _ i _ hd
        rw [h] at hor
        rcases hor with hc | hc <;> exact absurd hc (by decide)
  · intro h
    rcases h with h0 | hno
    · unfold do_delete
      rw [if_pos h0]
    · rcases do_delete_cases imgID s (do_delete imgID s).2 (do_delete imgID s).1 rfl with
        ⟨he, _⟩ | ⟨i, hi, _, hv, hc, _, _⟩
      · exact he
      · exact absurd ⟨hv, hc⟩ (hno i hi)
  · intro faults t hcr
    obtain ⟨hh, _⟩ := do_create_ok faults t s hcr
    unfold do_delete
    rw [if_pos (by rw [hh])]

/-- C12 (witness): do_delete of "x" on the freshly created 3-slot store. -/
theorem C12_delete_not_found_iff_witness :
    do_create [] (template 3) = (ERR_NONE, created3) ∧
    do_delete id_x created3 = (ERR_FILE_NOT_FOUND, created3) :=
  ⟨by decide!, (C12_delete_not_found_iff id_x created3).2.2 [] (template 3) (by decide!)⟩

/-- C13 (counterexample): on the reopened store that holds one image "x" and
whose imgst_version is 2^32 - 1, do_delete of "x" returns ERR_NONE and leaves
imgst_version = 0, not the old value plus 1. -/
theorem C13_version_wraps_on_delete :
    op1_max_version.header.imgst_version = 2 ^ 32 - 1 ∧
    (do_delete id_x op1_max_version).1 = ERR_NONE ∧
    (do_delete id_x op1_max_version).2.header.imgst_version = 0 ∧
    (do_delete id_x op1_max_version).2.header.imgst_version
      ≠ op1_max_version.header.imgst_version + 1 := by
  decide!

/-- C13 (amended): on a handle whose file holds the header and the slot table
and whose num_files is a uint32_t, a successful do_delete(id) changes only the
lowest-index slot i that is valid and whose img_id equals id, and in that slot
only is_valid (set to EMPTY); num_files decreases by 1, imgst_version becomes
(old + 1) mod 2^32 (old + 1 when old < 2^32 - 1), the other header fields
(max_files, res_resized among them) are unchanged, every other slot is
unchanged, and the file keeps its length and every byte after the slot
table. -/
theorem C13_delete_frame (imgID : List Nat) (s s' : imgst_file)
    (hfile : sizeof_imgst_header + s.header.max_files * sizeof_img_metadata
      ≤ s.file.content.length)
    (hn : s.header.num_files < 2 ^ 32)
    (h : do_delete imgID s = (ERR_NONE, s')) :
    ∃ i, i < s.header.max_files ∧
      (s.slot i).is_valid = NON_EMPTY ∧ strcmp (s.slot i).img_id imgID = 0 ∧
      (∀ j, j < i → ¬ ((s.slot j).is_valid = NON_EMPTY ∧ strcmp (s.slot j).img_id imgID = 0)) ∧
      s'.slot i = { s.slot i with is_valid := EMPTY } ∧
      (∀ j, j ≠ i → s'.slot j = s.slot j) ∧
      s'.metadata.length = s.metadata.length ∧
      s'.header = { s.header with
        imgst_version := (s.header.imgst_version + 1) % 2 ^ 32
        num_files := s.header.num_files - 1 } ∧
      0 < s.header.num_files ∧
      (s.header.imgst_version < 2 ^ 32 - 1 →
        s'.header.imgst_version = s.header.imgst_version + 1) ∧
      s'.header.max_files = s.header.max_files ∧
      s'.header.res_resized = s.header.res_resized ∧
      s'.file.content.length = s.file.content.length ∧
      s'.file.content.drop (sizeof_imgst_header + s.header.max_files * sizeof_img_metadata)
        = s.file.content.drop
          (sizeof_imgst_header + s.header.max_files * sizeof_img_metadata) := by
  rcases do_delete_cases imgID s s' _ h with ⟨hc, _⟩ | ⟨i, hi, hn0, hv, hcmp, hlow, hd⟩
  · exact absurd hc (by decide)
  · obtain ⟨hm, _, hok, _⟩ := delete_at_cases s s' i _ hd
    obtain ⟨hh, hcont⟩ := hok rfl
    have hil : i < s.metadata.length := valid_lt_length s i hv
    have hs : ∀ j, s'.slot j = (s.set_slot i { s.slot i with is_valid := EMPTY }).slot j := by
      intro j
      exact congrArg (fun m => m.getD j default) hm
    have hnum : (s.header.num_files + (2 ^ 32 - 1)) % 2 ^ 32 = s.header.num_files - 1 := by
      omega
    rw [hnum] at hh
    have hlen1 : (write_at s.file.content (sizeof_imgst_header + i * sizeof_img_metadata)
        (encode_metadata (s'.slot i))).length = s.file.content.length := by
      apply write_at_length_inside
      rw [encode_metadata_length]
      have : (i + 1) * sizeof_img_metadata ≤ s.header.max_files * sizeof_img_metadata :=
        Nat.mul_le_mul_right _ hi
      simp only [sizeof_imgst_header, sizeof_img_metadata] at *
      omega
    refine ⟨i, hi, hv, hcmp, hlow, ?_, ?_, ?_, hh, by omega, ?_, by rw [hh], by rw [hh], ?_, ?_⟩
    · rw [hs i]; exact slot_set_slot_eq _ _ _ hil
    · intro j hj
      rw [hs j]; exact slot_set_slot_ne _ _ _ _ (Ne.symm hj)
    · rw [hm]; exact set_slot_length _ _ _
    · intro hv2
      rw [hh]
      simp only
      rw [Nat.mod_eq_of_lt (by omega)]
    · rw [hcont, write_at_length_inside _ _ _ (by
        rw [encode_header_length, hlen1]
        simp only [sizeof_imgst_header, sizeof_img_metadata] at *
        omega), hlen1]
    · rw [hcont, write_at_drop _ _ _ _ (by
        rw [encode_header_length]
        simp only [sizeof_imgst_header, sizeof_img_metadata] at *
        omega), write_at_drop _ _ _ _ (by
        rw [encode_metadata_length]
        have : (i + 1) * sizeof_img_metadata ≤ s.header.max_files * sizeof_img_metadata :=
          Nat.mul_le_mul_right _ hi
        simp only [sizeof_imgst_header, sizeof_img_metadata] at *
        omega)]

/-- C13 (witness): do_delete of "x" on the reopened store that holds the one
image "x". -/
theorem C13_delete_frame_witness :
    sizeof_imgst_header + op1.header.max_files * sizeof_img_metadata
      ≤ op1.file.content.length ∧
    op1.header.num_files < 2 ^ 32 ∧
    do_delete id_x op1 = (ERR_NONE, op1_deleted) ∧
    ∃ i, i < op1.header.max_files ∧
      op1_deleted.slot i = { op1.slot i with is_valid := EMPTY } ∧
      (∀ j, j ≠ i → op1_deleted.slot j = op1.slot j) ∧
      op1_deleted.header.num_files = op1.header.num_files - 1 ∧
      op1_deleted.file.content.length = op1.file.content.length := by
  obtain ⟨i, hi, _, _, _, hsl, hoth, _, hh, _, _, _, _, hlen, _⟩ :=
    C13_delete_frame id_x op1 op1_deleted (by decide!) (by decide!) (by decide!)
  exact ⟨by decide!, by decide!, by decide!, i, hi, hsl, hoth, by rw [hh], hlen⟩


/-- C14 (evaluated at the failing input): on the reachable 3-slot store st2
that holds img_x as "x" and img_y as "a", do_insert of img_x as "a" returns
ERR_NONE (find_duplicate stops at the content match in slot 0 before it
compares the identifier of slot 1), the do_delete of "a" that follows returns
ERR_NONE and empties slot 1, the lowest-index slot named "a", while slot 2
stays valid under the name "a"; then do_insert of the decodable buffer img_z
as "a" returns ERR_DUPLICATE_ID. -/
theorem C14_reinsert_after_delete_is_rejected :
    Reachable test_env st2 ∧
    test_env.vips_jpegload_buffer img_x ≠ none ∧
    test_env.vips_jpegload_buffer img_z ≠ none ∧
    do_insert test_env img_x id_a st2 = some (ERR_NONE, st3) ∧
    do_delete id_a st3 = (ERR_NONE, st3_deleted) ∧
    (st3_deleted.slot 1).is_valid = EMPTY ∧
    (st3_deleted.slot 2).is_valid = NON_EMPTY ∧
    c_str (st3_deleted.slot 2).img_id = id_a ∧
    (do_insert test_env img_z id_a st3_deleted).map Prod.fst = some ERR_DUPLICATE_ID :=
  have hr : Reachable test_env st2 :=
    Reachable.insert img_y id_a st1 st2
      (Reachable.insert img_x id_x created3 st1
        (Reachable.create [] (template 3) created3 (by decide) (by decide!)) (by decide!))
      (by decide!)
  ⟨hr, by decide!, by decide!, by decide!, by decide!, by decide!, by decide!, by decide!,
    by decide!⟩


/-- C15: lazily_resize is idempotent. On a handle whose mirror holds max_files
records, for a resolution r in RES_THUMB, RES_SMALL and any position, when
lazily_resize(r, handle, position) returns ERR_NONE, a second call with the
same arguments returns ERR_NONE and leaves the handle and the file exactly as
the first call left them. -/
theorem C15_lazily_resize_idempotent (env : Env) (s s' : imgst_file) (position : Nat)
    (r : Int) (hr : r = RES_THUMB ∨ r = RES_SMALL)
    (hm : s.metadata.length = s.header.max_files)
    (h : lazily_resize env r s position = (ERR_NONE, s')) :
    lazily_resize env r s' position = (ERR_NONE, s') := by
  rcases lazily_resize_ok_effect env r s s' position h with ⟨hs, _⟩ |
    ⟨hpos, _, _, hne, out_data, _, hh, hmd, _⟩
  · rw [hs] at h ⊢
    exact h
  · have hsl : s'.slot position = { s.slot position with
        offset := (s.slot position).offset.set r s.file.content.length
        size := (s.slot position).size.set r (out_data.length % 2 ^ 32) } := by
      have e1 := congrArg (fun m => m.getD position default) hmd
      exact e1.trans (slot_set_slot_eq _ _ _ (by omega))
    have hget : ((s'.slot position).offset.get? r).getD 0 = s.file.content.length := by
      rw [hsl]
      rcases hr with hr | hr <;> subst hr <;> rfl
    have hnot : ¬ (r = RES_ORIG) := by
      rcases hr with hr | hr <;> subst hr <;> decide
    unfold lazily_resize
    rw [if_neg hnot, if_neg (not_not.mpr (by rw [hh]; exact hpos)),
      if_neg (not_not.mpr hr), if_pos (by
        rw [hget]
        simp only [size_already_exists, bne_iff_ne, ne_eq]
        omega)]

/-- C15 (witness): on the reopened store that holds the one image "x",
lazily_resize of slot 0 to RES_THUMB returns ERR_NONE and appends the
variant; the second call returns ERR_NONE with the same handle. -/
theorem C15_lazily_resize_idempotent_witness :
    op1.metadata.length = op1.header.max_files ∧
    lazily_resize test_env RES_THUMB op1 0 = (ERR_NONE, op1_thumb) ∧
    op1.file.content.length < op1_thumb.file.content.length ∧
    lazily_resize test_env RES_THUMB op1_thumb 0 = (ERR_NONE, op1_thumb) :=
  ⟨by decide!, by decide!, by decide!,
    C15_lazily_resize_idempotent test_env op1 op1_thumb 0 RES_THUMB (Or.inl rfl) (by decide!)
      (by decide!)⟩


/-- C16 (evaluated at the failing input): shrink_value divides the width bound
by the height of the image and the height bound by its width, so its result
is min(max_width / h, max_height / w); for an image of width 100 and height
200 under the bound 128 x 64 it is 16/25, not min(128/100, 64/200) = 8/25,
and the height 200 scaled by it is 128, above the bound 64. -/
theorem C16_shrink_value_swaps_axes :
    (∀ w h mw mh : Nat, shrink_value w h mw mh = min ((mw : ℚ) / h) ((mh : ℚ) / w)) ∧
    shrink_value 100 200 128 64 = 16 / 25 ∧
    min ((128 : ℚ) / 100) ((64 : ℚ) / 200) = 8 / 25 ∧
    (100 : ℚ) * shrink_value 100 200 128 64 ≤ 128 ∧
    ¬ ((200 : ℚ) * shrink_value 100 200 128 64 ≤ 64) := by
  have hgen : ∀ w h mw mh : Nat,
      shrink_value w h mw mh = min ((mw : ℚ) / h) ((mh : ℚ) / w) := by
    intro w h mw mh
    unfold shrink_value
    simp only
    split
    · rename_i hlt
      exact (min_eq_right (le_of_lt hlt)).symm
    · rename_i hlt
      exact (min_eq_left (not_lt.mp hlt)).symm
  refine ⟨hgen, ?_, ?_, ?_, ?_⟩
  · rw [hgen]; norm_num
  · norm_num
  · rw [hgen]; norm_num
  · rw [hgen]; norm_num

/-- C17: after a successful do_create, the header of the handle has
imgst_name = "EPFL ImgStore binary" zero-padded to 32 bytes, num_files = 0,
imgst_version = 0, both reserved fields 0, and the max_files and res_resized
of the template; the mirror consists of max_files all-zero records (every
slot EMPTY); and the file is exactly the header record followed by max_files
records of 216 zero bytes each (the encoding of the all-zero record), of
total length sizeof(header) + max_files * sizeof(metadata). -/
theorem C17_do_create_header_mirror_and_file (faults : List (Option Nat)) (t s : imgst_file)
    (h : do_create faults t = (ERR_NONE, s)) :
    s.header.imgst_name = CAT_TXT ++ List.replicate 12 0 ∧
    s.header.imgst_name.length = MAX_IMGST_NAME + 1 ∧
    s.header.num_files = 0 ∧ s.header.imgst_version = 0 ∧
    s.header.unused_32 = 0 ∧ s.header.unused_64 = 0 ∧
    s.header.max_files = t.header.max_files ∧
    s.header.res_resized = t.header.res_resized ∧
    s.metadata = List.replicate s.header.max_files img_metadata.zero ∧
    (∀ j, (s.slot j).is_valid = EMPTY) ∧
    s.file.content = encode_header s.header
      ++ List.replicate (sizeof_img_metadata * s.header.max_files) 0 ∧
    encode_metadata img_metadata.zero = List.replicate sizeof_img_metadata 0 ∧
    (∀ i, i < s.header.max_files →
      (s.file.content.drop (sizeof_imgst_header + sizeof_img_metadata * i)).take
        sizeof_img_metadata = encode_metadata img_metadata.zero) ∧
    s.file.content.length = sizeof_imgst_header + s.header.max_files * sizeof_img_metadata := by
  obtain ⟨hh, hm, hl, _⟩ := do_create_ok faults t s h
  have hc := do_create_content faults t s h
  have hmax : s.header.max_files = t.header.max_files := by rw [hh]
  have hname : s.header.imgst_name = CAT_TXT ++ List.replicate 12 0 := by
    rw [hh]; exact created_name _
  refine ⟨hname, by rw [hname]; decide, by rw [hh], by rw [hh], by rw [hh], by rw [hh], hmax,
    by rw [hh], by rw [hmax]; exact hm, ?_, by rw [hmax]; exact hc, encode_metadata_zero, ?_, ?_⟩
  · intro j
    rw [created_slot_zero faults t s h j]
    rfl
  · intro i hi
    rw [hc, encode_metadata_zero, ← hmax,
      List.drop_append_eq_append_drop, encode_header_length]
    have e1 : sizeof_imgst_header + sizeof_img_metadata * i - sizeof_imgst_header
        = sizeof_img_metadata * i := by omega
    have e2 : (encode_header s.header).drop (sizeof_imgst_header + sizeof_img_metadata * i)
        = [] := by
      apply List.drop_eq_nil_of_le
      rw [encode_header_length]; omega
    rw [e1, e2, List.nil_append, List.drop_replicate, List.take_replicate]
    congr 1
    have : sizeof_img_metadata * (i + 1) ≤ sizeof_img_metadata * s.header.max_files :=
      Nat.mul_le_mul_left _ hi
    simp only [sizeof_img_metadata] at this ⊢
    omega
  · rw [hl, hmax]; ring

/-- C17 (witness): do_create of the 3-slot store. -/
theorem C17_do_create_header_mirror_and_file_witness :
    do_create [] (template 3) = (ERR_NONE, created3) ∧
    created3.header.imgst_name = CAT_TXT ++ List.replicate 12 0 ∧
    created3.header.max_files = 3 ∧
    created3.metadata = List.replicate 3 img_metadata.zero ∧
    created3.file.content.length = 712 :=
  have h := C17_do_create_header_mirror_and_file [] (template 3) created3 (by decide!)
  ⟨by decide!, h.1, h.2.2.2.2.2.2.1, h.2.2.2.2.2.2.2.2.1, h.2.2.2.2.2.2.2.2.2.2.2.2.2⟩

/-- C18 (counterexample): do_create itself makes no check of max_files. On
the template with max_files = 0 it returns ERR_NONE and writes a file of the
64 header bytes; on the template with max_files = 100001, as on every
template, it returns ERR_NONE when no device failure occurs. -/
theorem C18_do_create_accepts_any_max_files :
    (template 0).header.max_files = 0 ∧
    (do_create [] (template 0)).1 = ERR_NONE ∧
    (do_create [] (template 0)).2.file.content.length = 64 ∧
    (template 100001).header.max_files = 100001 ∧
    (do_create [] (template 100001)).1 = ERR_NONE :=
  ⟨rfl, do_create_no_fault _, by decide!, rfl, do_create_no_fault _⟩

/-- C18 (amended): the bounds check on max_files is made by the command
`create`, not by do_create. For every command line, do_create_cmd returns;
a value of the option -max_files that is 0 or above 100000 makes
do_create_parse_option32 return ERR_MAX_FILES; when that option comes first
(argv[2]), do_create_cmd returns ERR_MAX_FILES without calling do_create; and
whenever do_create_cmd calls do_create, the max_files of the handle is
between 1 and 100000. -/
theorem C18_create_command_checks_max_files (atouint32 atouint16 : List Nat → Nat)
    (faults : List (Option Nat)) (args : Nat) (argv : List (List Nat)) :
    (do_create_cmd atouint32 atouint16 faults args argv).isSome = true ∧
    (∀ i v0, i + 1 < args →
      (atouint32 (argv.getD (i + 1) []) = 0 ∨ MAX_MAX_FILES < atouint32 (argv.getD (i + 1) [])) →
      (do_create_parse_optionN atouint32 args argv i 1 ERR_MAX_FILES MAX_MAX_FILES [v0]).1
        = ERR_MAX_FILES) ∧
    (4 ≤ args → strncmp OPT_MAX_FILES (argv.getD 2 []) 10 = 0 →
      (atouint32 (argv.getD 3 []) = 0 ∨ MAX_MAX_FILES < atouint32 (argv.getD 3 [])) →
      do_create_cmd atouint32 atouint16 faults args argv = some (ERR_MAX_FILES, none)) ∧
    (∀ e s, do_create_cmd atouint32 atouint16 faults args argv = some (e, some s) →
      0 < s.header.max_files ∧ s.header.max_files ≤ MAX_MAX_FILES) := by
  have hpo : ∀ i v0, i + 1 < args →
      (atouint32 (argv.getD (i + 1) []) = 0 ∨ MAX_MAX_FILES < atouint32 (argv.getD (i + 1) [])) →
      do_create_parse_optionN atouint32 args argv i 1 ERR_MAX_FILES MAX_MAX_FILES [v0]
        = (ERR_MAX_FILES, i, [atouint32 (argv.getD (i + 1) [])]) := by
    intro i v0 hi hv
    rw [parse_option_one, if_neg (not_not.mpr hi), if_pos (by omega)]
  refine ⟨?_, fun i v0 hi hv => by rw [hpo i v0 hi hv], ?_, ?_⟩
  · unfold do_create_cmd
    split
    · rfl
    · next ha =>
      have hs := do_create_cmd_loop_ends atouint32 atouint16 args argv (args + 1) 2
        ⟨DEFAULT_MAX_FILES, DEFAULT_RES_THUMB, DEFAULT_RES_THUMB, DEFAULT_RES_SMALL,
          DEFAULT_RES_SMALL⟩ (by omega)
      split
      · next hn => rw [hn] at hs; exact absurd hs (by decide)
      · split <;> rfl
  · intro ha hopt hv
    unfold do_create_cmd
    rw [if_neg (by omega)]
    unfold do_create_cmd_loop
    rw [if_neg (by omega)]
    dsimp only
    rw [if_pos hopt, hpo 2 _ (by omega) hv]
    dsimp only
    rw [if_pos (by decide)]
    dsimp only
    rw [if_pos (by decide)]
  · intro e s h
    unfold do_create_cmd at h
    split at h
    · simp at h
    · split at h
      · simp at h
      · next e1 o hl =>
        split at h
        · simp at h
        · next he =>
          have he1 : e1 = ERR_NONE := not_not.mp he
          rw [he1] at hl
          have hr := do_create_cmd_loop_max_files atouint32 atouint16 args argv _ _ _ o
            (by decide) hl
          dsimp only at h
          simp only [Option.some.injEq, Prod.mk.injEq] at h
          rw [← h.2, (do_create_max_files faults _).1]
          exact hr

/-- C18 (witness): with decimal conversion, `create store -max_files 0` and
`create store -max_files 100001` return ERR_MAX_FILES and call do_create on
no handle, and `create store -max_files 3` creates the 3-slot store. -/
theorem C18_create_command_checks_max_files_witness :
    do_create_cmd test_atouint test_atouint [] 4 argv_max_files_0 = some (ERR_MAX_FILES, none) ∧
    do_create_cmd test_atouint test_atouint [] 4 argv_max_files_100001
      = some (ERR_MAX_FILES, none) ∧
    do_create_cmd test_atouint test_atouint [] 4 argv_max_files_3
      = some (ERR_NONE, some created3) ∧
    0 < created3.header.max_files ∧ created3.header.max_files ≤ MAX_MAX_FILES :=
  ⟨(C18_create_command_checks_max_files test_atouint test_atouint [] 4 argv_max_files_0).2.2.1
      (by decide) (by decide) (by decide),
    (C18_create_command_checks_max_files test_atouint test_atouint [] 4
      argv_max_files_100001).2.2.1 (by decide) (by decide) (by decide),
    by decide!,
    (C18_create_command_checks_max_files test_atouint test_atouint [] 4 argv_max_files_3).2.2.2
      ERR_NONE created3 (by decide!)⟩


/-- C19 (counterexample): the file holds 100 bytes of 'A', so the bytes read
as header give max_files = 1094795585 and the file is shorter than
sizeof(header) + max_files * sizeof(metadata); when the calloc of the mirror
returns NULL, do_open returns ERR_OUT_OF_MEMORY, not ERR_IO. -/
theorem C19_do_open_out_of_memory_on_short_file :
    (decode_header ((List.replicate 100 65).take sizeof_imgst_header)).max_files = 1094795585 ∧
    (List.replicate 100 65).length < sizeof_imgst_header
      + (decode_header ((List.replicate 100 65).take sizeof_imgst_header)).max_files
        * sizeof_img_metadata ∧
    (do_open (some (List.replicate 100 65)) "r+b" [] true (template 0)).1 = ERR_OUT_OF_MEMORY ∧
    (do_open (some (List.replicate 100 65)) "r+b" [] true (template 0)).1 ≠ ERR_IO := by
  decide!

/-- C19 (amended): do_open returns ERR_IO when the file does not exist and
when the file is shorter than sizeof(header) (for every open mode, whatever
the device and the allocator do); when the file holds a header and is
opened in a read mode ("rb", "r+b") with no device failure, it returns
ERR_OUT_OF_MEMORY if the calloc of the mirror returns NULL (also for a file
shorter than sizeof(header) + max_files * sizeof(metadata)), and
ERR_OUT_OF_MEMORY is returned in no other case; when the calloc succeeds it
returns ERR_IO for a file shorter than sizeof(header) + max_files *
sizeof(metadata), max_files being taken from the bytes read as header, and
otherwise ERR_NONE with the header of the handle equal to the decoded header
and the mirror equal to the max_files decoded slot records in file order; in
particular do_open of a file just written by do_create (from a template
whose max_files and res_resized fit their C types) yields the created header
and max_files all-zero, EMPTY slots. -/
theorem C19_do_open_outcome (open_mode : String) (s : imgst_file) :
    (∀ faults calloc_null, (do_open none open_mode faults calloc_null s).1 = ERR_IO) ∧
    (∀ faults calloc_null c, c.length < sizeof_imgst_header →
      (do_open (some c) open_mode faults calloc_null s).1 = ERR_IO) ∧
    (∀ c, open_mode.toList.head? = some 'r' → sizeof_imgst_header ≤ c.length →
      (do_open (some c) open_mode [] true s).1 = ERR_OUT_OF_MEMORY) ∧
    (∀ disk faults calloc_null,
      (do_open disk open_mode faults calloc_null s).1 = ERR_OUT_OF_MEMORY → calloc_null = true) ∧
    (∀ faults c,
      c.length < sizeof_imgst_header + (decode_header (c.take sizeof_imgst_header)).max_files
        * sizeof_img_metadata →
      (do_open (some c) open_mode faults false s).1 = ERR_IO) ∧
    (∀ c, open_mode.toList.head? = some 'r' →
      sizeof_imgst_header + (decode_header (c.take sizeof_imgst_header)).max_files
        * sizeof_img_metadata ≤ c.length →
      (do_open (some c) open_mode [] false s).1 = ERR_NONE ∧
      (do_open (some c) open_mode [] false s).2.header
        = decode_header (c.take sizeof_imgst_header) ∧
      (do_open (some c) open_mode [] false s).2.metadata =
        (List.range (decode_header (c.take sizeof_imgst_header)).max_files).map
          (fun i => decode_metadata (record_bytes c i)) ∧
      (do_open (some c) open_mode [] false s).2.file.content = c) ∧
    (∀ faults t s0, open_mode.toList.head? = some 'r' →
      t.header.max_files < 2 ^ 32 → t.header.res_resized.length = 4 →
      (∀ x, x ∈ t.header.res_resized → x < 2 ^ 16) →
      do_create faults t = (ERR_NONE, s0) →
      (do_open (some s0.file.content) open_mode [] false s).1 = ERR_NONE ∧
      (do_open (some s0.file.content) open_mode [] false s).2.header = s0.header ∧
      (do_open (some s0.file.content) open_mode [] false s).2.metadata
        = List.replicate s0.header.max_files img_metadata.zero ∧
      ∀ j, ((do_open (some s0.file.content) open_mode [] false s).2.slot j).is_valid = EMPTY) := by
  have h21 : (ERR_OUT_OF_MEMORY : Int) ≠ ERR_IO := by decide
  refine ⟨?_, ?_, ?_, ?_, ?_, ?_, ?_⟩
  · intro faults calloc_null
    rcases do_open_cases none open_mode faults calloc_null s
      (do_open none open_mode faults calloc_null s).2 (do_open none open_mode faults calloc_null s).1 rfl with
      he | ⟨_, _, c, hc, _⟩ | ⟨_, _, c, hc, _⟩
    · exact he
    · simp at hc
    · simp at hc
  · intro faults calloc_null c hlt
    rcases do_open_cases (some c) open_mode faults calloc_null s
      (do_open (some c) open_mode faults calloc_null s).2 (do_open (some c) open_mode faults calloc_null s).1 rfl with
      he | ⟨_, _, c', hc, hle, _⟩ | ⟨_, _, c', hc, hle, _⟩
    · exact he
    · simp only [Option.some.injEq] at hc
      rw [← hc] at hle
      omega
    · simp only [Option.some.injEq] at hc
      rw [← hc] at hle
      omega
  · intro c hm hle
    exact do_open_calloc_null c open_mode s hm hle
  · intro disk faults calloc_null he
    rcases do_open_cases disk open_mode faults calloc_null s
      (do_open disk open_mode faults calloc_null s).2 (do_open disk open_mode faults calloc_null s).1 rfl with
      h1 | ⟨_, hnull, _⟩ | ⟨h1, _⟩
    · rw [he] at h1
      exact absurd h1 h21
    · exact hnull
    · rw [he] at h1
      exact absurd h1 (by decide)
  · intro faults c hlt
    rcases do_open_cases (some c) open_mode faults false s
      (do_open (some c) open_mode faults false s).2 (do_open (some c) open_mode faults false s).1 rfl with
      he | ⟨_, hnull, _⟩ | ⟨_, _, c', hc, hle, _⟩
    · exact he
    · exact absurd hnull (by decide)
    · simp only [Option.some.injEq] at hc
      rw [← hc] at hle
      omega
  · intro c hm hle
    have hok := do_open_no_fault c open_mode s hm hle
    rcases do_open_cases (some c) open_mode [] false s
      (do_open (some c) open_mode [] false s).2 (do_open (some c) open_mode [] false s).1 rfl with
      he | ⟨_, hnull, _⟩ | ⟨_, _, c', hc, _, h2, h3, h4⟩
    · rw [hok] at he
      exact absurd he (by decide)
    · exact absurd hnull (by decide)
    · simp only [Option.some.injEq] at hc
      rw [← hc] at h2 h3 h4
      refine ⟨hok, h2, ?_, h4⟩
      rw [h3, h2]
  · intro faults t s0 hm hmax hres hval hcr
    obtain ⟨h1, h2, h3⟩ := do_open_created faults t s0 s open_mode hmax hres hval hcr hm
    refine ⟨h1, h2, h3, fun j => ?_⟩
    unfold imgst_file.slot
    rw [h3]
    exact congrArg img_metadata.is_valid (replicate_zero_getD _ j)

/-- C19 (witness): do_open in mode "r+b" of the file that do_create wrote for
the 3-slot store gives the created header and three all-zero slots; do_open
of a file that does not exist, and of a file of 10 bytes, gives ERR_IO; on
the created file it gives ERR_OUT_OF_MEMORY when the calloc returns NULL. -/
theorem C19_do_open_outcome_witness :
    (do_open none "r+b" [] false (template 0)).1 = ERR_IO ∧
    (do_open (some (List.replicate 10 65)) "r+b" [] true (template 0)).1 = ERR_IO ∧
    (do_open (some created3.file.content) "r+b" [] true (template 0)).1 = ERR_OUT_OF_MEMORY ∧
    (do_open (some (List.replicate 100 65)) "r+b" [] false (template 0)).1 = ERR_IO ∧
    do_create [] (template 3) = (ERR_NONE, created3) ∧
    opened3.header = created3.header ∧
    opened3.metadata = List.replicate 3 img_metadata.zero :=
  have h := (C19_do_open_outcome "r+b" (template 0)).2.2.2.2.2.2 [] (template 3) created3
    (by decide) (by decide) (by decide) (by decide) (by decide!)
  ⟨(C19_do_open_outcome "r+b" (template 0)).1 [] false,
    (C19_do_open_outcome "r+b" (template 0)).2.1 [] true (List.replicate 10 65) (by decide!),
    (C19_do_open_outcome "r+b" (template 0)).2.2.1 created3.file.content (by decide)
      (by decide!),
    (C19_do_open_outcome "r+b" (template 0)).2.2.2.2.1 [] (List.replicate 100 65) (by decide!),
    by decide!, h.2.1, h.2.2.1⟩


/-- C20: for every handle, do_list in mode JSON returns the document with the
one key "Images" whose array is exactly the img_id strings of the slots below
max_files with is_valid = NON_EMPTY, in increasing slot-index order, printing
nothing; the array is empty when no slot is valid; in mode STDOUT it returns
NULL, prints the header and then the metadata of the valid slots in slot
order, and the sentinel "<< empty imgStore >>" is printed if and only if no
slot is valid. -/
theorem C20_do_list_json_and_sentinel (s : imgst_file) :
    (do_list s do_list_mode.JSON).1 = some (json_object.new_object [("Images",
      json_object.new_array
        (((List.range s.header.max_files).filter
            (fun j => (s.slot j).is_valid == NON_EMPTY)).map
          (fun j => json_object.new_string (c_str (s.slot j).img_id))))]) ∧
    (do_list s do_list_mode.JSON).2 = [] ∧
    ((∀ j, j < s.header.max_files → (s.slot j).is_valid ≠ NON_EMPTY) →
      (do_list s do_list_mode.JSON).1
        = some (json_object.new_object [("Images", json_object.new_array [])])) ∧
    (do_list s do_list_mode.STDOUT).1 = none ∧
    (∃ tail, (do_list s do_list_mode.STDOUT).2 = stdout_call.print_header s.header ::
      ((List.range s.header.max_files).filter
          (fun j => (s.slot j).is_valid == NON_EMPTY)).map
        (fun j => stdout_call.print_metadata (s.slot j)) ++ tail) ∧
    (stdout_call.fprintf "<< empty imgStore >>\n" ∈ (do_list s do_list_mode.STDOUT).2 ↔
      ∀ j, j < s.header.max_files → (s.slot j).is_valid ≠ NON_EMPTY) := by
  have hjson : (do_list s do_list_mode.JSON).1 = some (json_object.new_object [("Images",
      json_object.new_array
        (((List.range s.header.max_files).filter
            (fun j => (s.slot j).is_valid == NON_EMPTY)).map
          (fun j => json_object.new_string (c_str (s.slot j).img_id))))]) := by
    unfold do_list
    dsimp only
    rw [do_list_json_loop_eq, List.nil_append, List.range_eq_range']
  obtain ⟨hout, hres⟩ := do_list_stdout_loop_eq s s.header.max_files 0 false
  rw [← List.range_eq_range'] at hout
  refine ⟨hjson, rfl, ?_, rfl, ?_, ?_⟩
  · intro hno
    rw [hjson]
    have : (List.range s.header.max_files).filter
        (fun j => (s.slot j).is_valid == NON_EMPTY) = [] := by
      rw [List.filter_eq_nil_iff]
      intro j hj
      have := hno j (List.mem_range.mp hj)
      simpa using this
    rw [this]
    rfl
  · refine ⟨if (do_list_stdout_loop s s.header.max_files 0 false).1 = false
      then [stdout_call.fprintf "<< empty imgStore >>\n"] else [], ?_⟩
    unfold do_list
    dsimp only
    rw [hout]
  · unfold do_list
    dsimp only
    rw [hout]
    have hsimp : (∀ j, j < s.header.max_files → (s.slot j).is_valid ≠ NON_EMPTY) ↔
        (do_list_stdout_loop s s.header.max_files 0 false).1 = false := by
      rw [hres]
      constructor
      · intro h
        exact ⟨rfl, fun j _ hj => h j (by omega)⟩
      · intro h j hj
        exact h.2 j (Nat.zero_le _) (by omega)
    rw [hsimp]
    by_cases hr : (do_list_stdout_loop s s.header.max_files 0 false).1 = false
    · rw [if_pos hr]
      simp [hr]
    · rw [if_neg hr]
      simp [hr]

/-- C20 (witness): the freshly created 3-slot store has no valid slot, and its
JSON listing is the document with the empty array. -/
theorem C20_do_list_json_and_sentinel_witness :
    (∀ j, j < created3.header.max_files → (created3.slot j).is_valid ≠ NON_EMPTY) ∧
    (do_list created3 do_list_mode.JSON).1
      = some (json_object.new_object [("Images", json_object.new_array [])]) ∧
    stdout_call.fprintf "<< empty imgStore >>\n" ∈ (do_list created3 do_list_mode.STDOUT).2 :=
  have hno : ∀ j, j < created3.header.max_files → (created3.slot j).is_valid ≠ NON_EMPTY :=
    fun j _ => by
      rw [created_slot_zero [] (template 3) created3 (by decide!) j]
      decide
  ⟨hno, (C20_do_list_json_and_sentinel created3).2.2.1 hno,
    (C20_do_list_json_and_sentinel created3).2.2.2.2.2.mpr hno⟩


/-- C21 (evaluated at the failing input): resolution_atoi compares 9
characters, the length of "thumbnail" without its terminator, so every string
that starts with "thumbnail" gives RES_THUMB: "thumbnailX" (bytes 116 104 117
109 98 110 97 105 108 88) returns RES_THUMB, not ERR_RESOLUTIONS. The five
names of the contract give their codes, and NULL, the empty string, "big",
"thumbs", "origin" and "originalX" give ERR_RESOLUTIONS. -/
theorem C21_resolution_atoi_accepts_thumbnail_prefix :
    (∀ t : List Nat, resolution_atoi (some (TXT_THUMBNAIL ++ t)) = RES_THUMB) ∧
    resolution_atoi (some (TXT_THUMBNAIL ++ [88])) = RES_THUMB ∧
    resolution_atoi (some (TXT_THUMBNAIL ++ [88])) ≠ ERR_RESOLUTIONS ∧
    c_str (TXT_THUMBNAIL ++ [88]) ≠ TXT_THUMB ∧ c_str (TXT_THUMBNAIL ++ [88]) ≠ TXT_THUMBNAIL ∧
    resolution_atoi (some TXT_THUMB) = RES_THUMB ∧
    resolution_atoi (some TXT_THUMBNAIL) = RES_THUMB ∧
    resolution_atoi (some TXT_SMALL) = RES_SMALL ∧
    resolution_atoi (some TXT_ORIG) = RES_ORIG ∧
    resolution_atoi (some TXT_ORIGINAL) = RES_ORIG ∧
    resolution_atoi none = ERR_RESOLUTIONS ∧
    resolution_atoi (some []) = ERR_RESOLUTIONS ∧
    resolution_atoi (some [98, 105, 103]) = ERR_RESOLUTIONS ∧
    resolution_atoi (some (TXT_THUMB ++ [115])) = ERR_RESOLUTIONS ∧
    resolution_atoi (some (TXT_ORIG ++ [105, 110])) = ERR_RESOLUTIONS ∧
    resolution_atoi (some (TXT_ORIGINAL ++ [88])) = ERR_RESOLUTIONS := by
  refine ⟨?_, by decide, by decide, by decide, by decide, by decide, by decide, by decide,
    by decide, by decide, by decide, by decide, by decide, by decide, by decide, by decide⟩
  intro t
  have h2 : STR_COMP (TXT_THUMBNAIL ++ t) TXT_THUMBNAIL = 0 := by
    simp [STR_COMP, strncmp]
  unfold resolution_atoi
  dsimp only
  rw [if_pos (Or.inr h2)]

/-- C22 (evaluated at the failing input): the source store holds img_x as "x"
and img_y as "a", then "x" is deleted: num_files = 1, slot 0 is EMPTY and
slot 1 holds "a", which do_read returns. do_gbcollect (its local handle temp
happening to hold max_files = 3, remove and rename failing, so that it
returns ERR_NONE) scans the slots below num_files = 1 only: the store it
builds has num_files = 0 and no valid slot, and do_read of "a" on it returns
ERR_FILE_NOT_FOUND. -/
theorem C22_gbcollect_drops_slots_above_num_files :
    op2_deleted.header.num_files = 1 ∧
    (op2_deleted.slot 0).is_valid = EMPTY ∧
    (op2_deleted.slot 1).is_valid = NON_EMPTY ∧
    c_str (op2_deleted.slot 1).img_id = id_a ∧
    (do_read test_env id_a RES_ORIG
      (do_open (some op2_deleted.file.content) "r+b" [] false (template 0)).2).map
        (fun r => (r.err, r.image_buffer)) = some (ERR_NONE, img_y) ∧
    (do_gbcollect test_env [] [] true true (template 0) (template 3) gc_disk_op2_deleted).map
      (fun r => r.err) = some ERR_NONE ∧
    ((do_gbcollect test_env [] [] true true (template 0) (template 3) gc_disk_op2_deleted).bind
      (fun r => r.temp)).map (fun t => t.header.num_files) = some 0 ∧
    ((do_gbcollect test_env [] [] true true (template 0) (template 3) gc_disk_op2_deleted).bind
      (fun r => r.temp)).map (fun t => valid_count t) = some 0 ∧
    ((do_gbcollect test_env [] [] true true (template 0) (template 3) gc_disk_op2_deleted).bind
      (fun r => r.temp)).map (fun t =>
        (do_read test_env id_a RES_ORIG
          (do_open (some t.file.content) "r+b" [] false (template 0)).2).map (fun r => r.err))
      = some (some ERR_FILE_NOT_FOUND) := by
  decide!


/-- C23 (evaluated at the failing input): the source store holds the image
"x" in slot 0 with its RES_THUMB variant materialised (size and offset of
RES_THUMB nonzero); in the store that do_gbcollect builds from it, slot 0
holds "x" with size[RES_THUMB] = 0 and offset[RES_THUMB] = 0. The inner loop
over the resolutions starts at RES_ORIG, the last code, so that only the
original content of a slot is read and inserted: for every source store and
every slot j, the store built has size and offset 0 for RES_THUMB and
RES_SMALL (the tuple below is (0, 0, 0, 0) whenever the copy loop
completes). -/
theorem C23_gbcollect_leaves_variant_out :
    (op1_thumb.slot 0).is_valid = NON_EMPTY ∧
    (op1_thumb.slot 0).size.thumb ≠ 0 ∧ (op1_thumb.slot 0).offset.thumb ≠ 0 ∧
    (do_gbcollect test_env [] [] true true (template 0) (template 3) gc_disk_op1_thumb).map
      (fun r => r.err) = some ERR_NONE ∧
    ((do_gbcollect test_env [] [] true true (template 0) (template 3) gc_disk_op1_thumb).bind
      (fun r => r.temp)).map (fun t => ((t.slot 0).is_valid, c_str (t.slot 0).img_id,
        (t.slot 0).size.thumb, (t.slot 0).offset.thumb)) = some (NON_EMPTY, id_x, 0, 0) ∧
    ∀ (env : Env) (faults_old faults_tmp : List (Option Nat)) (remove_fails rename_fails : Bool)
      (old temp : imgst_file) (d : gc_disk) (j : Nat),
      ((do_gbcollect env faults_old faults_tmp remove_fails rename_fails old temp d).bind
        (fun r => r.temp)).map (fun t => ((t.slot j).size.thumb, (t.slot j).size.small,
          (t.slot j).offset.thumb, (t.slot j).offset.small))
        ∈ [none, some (0, 0, 0, 0)] := by
  refine ⟨by decide!, by decide!, by decide!, by decide!, by decide!, ?_⟩
  intro env faults_old faults_tmp remove_fails rename_fails old temp d j
  cases h : do_gbcollect env faults_old faults_tmp remove_fails rename_fails old temp d with
  | none => simp
  | some r =>
    cases ht : r.temp with
    | none => simp [ht]
    | some t =>
      obtain ⟨old1, temp1, old2, _, hcr, hloop⟩ :=
        do_gbcollect_temp env faults_old faults_tmp remove_fails rename_fails old temp d r t h ht
      obtain ⟨h1, h2, h3, h4⟩ := gbcollect_loop_no_variant env _ _ _ _ _ _
        (no_variant_create faults_tmp temp temp1 hcr) hloop j
      simp [ht, h1, h2, h3, h4]

/-- C24 (evaluated at the failing input): do_gbcollect treats a nonzero
return of remove and of rename as success. Whenever remove succeeds, and
whenever rename succeeds, it does not return ERR_NONE. On the store file of
op1, when remove succeeds it returns ERR_IO with no file left at imgst_path;
on the store file of op2_deleted, when remove fails and rename succeeds it
returns ERR_IO with the temporary store, not the source, at imgst_path; on
the store file of op1, when both fail it returns ERR_NONE with the source at
imgst_path as it was and the temporary file left at its path. -/
theorem C24_gbcollect_inverts_remove_and_rename_checks :
    (∀ (env : Env) (faults_old faults_tmp : List (Option Nat)) (rename_fails : Bool)
        (old temp : imgst_file) (d : gc_disk),
      (do_gbcollect env faults_old faults_tmp false rename_fails old temp d).map
        (fun r => r.err) ≠ some ERR_NONE) ∧
    (∀ (env : Env) (faults_old faults_tmp : List (Option Nat)) (remove_fails : Bool)
        (old temp : imgst_file) (d : gc_disk),
      (do_gbcollect env faults_old faults_tmp remove_fails false old temp d).map
        (fun r => r.err) ≠ some ERR_NONE) ∧
    (do_gbcollect test_env [] [] false false (template 0) (template 3) gc_disk_op1).map
      (fun r => (r.err, r.disk.imgst_path)) = some ( ERR_IO, none) ∧
    (do_gbcollect test_env [] [] true false (template 0) (template 3)
        gc_disk_op2_deleted).map
      (fun r => (r.err, r.disk.imgst_path == gc_disk_op2_deleted.imgst_path,
        r.disk.imgst_path == r.temp.map (fun t => t.file.content),
        r.disk.imgst_tmp_bkp_path)) = some ( ERR_IO, false, true, none) ∧
    (do_gbcollect test_env [] [] true true (template 0) (template 3) gc_disk_op1).map
      (fun r => (r.err, r.disk.imgst_path == gc_disk_op1.imgst_path,
        r.disk.imgst_tmp_bkp_path.isSome)) = some (ERR_NONE, true, true) := by
  refine ⟨?_, ?_, by decide!, by decide!, by decide!⟩
  · intro env faults_old faults_tmp rename_fails old temp d hc
    cases hr : do_gbcollect env faults_old faults_tmp false rename_fails old temp d with
    | none => rw [hr] at hc; simp at hc
    | some r =>
      rw [hr] at hc
      simp only [Option.map_some', Option.some.injEq] at hc
      have := (do_gbcollect_ok_only_if_both_fail env faults_old faults_tmp false rename_fails
        old temp d r hr hc).1
      exact absurd this (by decide)
  · intro env faults_old faults_tmp remove_fails old temp d hc
    cases hr : do_gbcollect env faults_old faults_tmp remove_fails false old temp d with
    | none => rw [hr] at hc; simp at hc
    | some r =>
      rw [hr] at hc
      simp only [Option.map_some', Option.some.injEq] at hc
      have := (do_gbcollect_ok_only_if_both_fail env faults_old faults_tmp remove_fails false
        old temp d r hr hc).2
      exact absurd this (by decide)


/-- C25 (counterexample): do_create of the 3-slot store succeeds, and the
do_insert of a decodable buffer of 2^32 bytes into it returns ERR_NONE; the
handle it leaves is reachable, its slot 0 is valid, and size[RES_ORIG] of
that slot is 0 while its offset[RES_ORIG] is the old length of the file, not
0: the slot has neither size[ORIG] > 0 nor one of the two allowed shapes. -/
theorem C25_valid_slot_with_zero_orig_size :
    do_create [] (template 3) = (ERR_NONE, created3) ∧
    ∃ s', do_insert test_env big_buffer id_x created3 = some (ERR_NONE, s') ∧
      Reachable test_env s' ∧
      (s'.slot 0).is_valid = NON_EMPTY ∧ (s'.slot 0).size.orig = 0 ∧
      (s'.slot 0).offset.orig = 712 ∧
      ¬ absent_or_after (s'.slot 0).size.orig (s'.slot 0).offset.orig
        (sizeof_imgst_header + s'.header.max_files * sizeof_img_metadata) := by
  have hcr : do_create [] (template 3) = (ERR_NONE, created3) := by decide!
  have hlenb : big_buffer.length = 2 ^ 32 := by
    unfold big_buffer; rw [List.length_replicate]
  have hnov : ∀ j, (created3.slot j).is_valid ≠ NON_EMPTY := by
    intro j
    rw [created_slot_zero [] (template 3) created3 hcr j]
    decide
  have hdec : test_env.vips_jpegload_buffer big_buffer ≠ none := by
    have hne : big_buffer ≠ [] := by
      intro hc
      rw [hc] at hlenb
      simp at hlenb
    simp [test_env, hne]
  have hk0 : find_first_free_meta created3 = 0 := by decide!
  obtain ⟨s', hs'⟩ := do_insert_succeeds test_env big_buffer id_x created3 (by decide!)
    (by decide!) (by decide!) (by decide!) (fun j _ hv => absurd hv (hnov j)) hdec
    (by decide!) (by decide!)
  have hreach : Reachable test_env s' :=
    Reachable.insert big_buffer id_x created3 s'
      (Reachable.create [] (template 3) created3 (by decide) hcr) hs'
  obtain ⟨_, _, _, _, _, _, _, hv, _, _, _, course⟩ :=
    do_insert_ok_effect test_env big_buffer id_x created3 s' 0 hk0 hs'
  have hlen0 : created3.file.content.length = 712 := by decide!
  rcases course with ⟨_, hsz, hof, _⟩ | ⟨c, _, _, hvc, _⟩
  · have h1 : (s'.slot 0).size.orig = 0 := by rw [hsz, hlenb]; rfl
    have h2 : (s'.slot 0).offset.orig = 712 := by rw [hof, hlen0]
    refine ⟨hcr, s', hs', hreach, hv, h1, h2, ?_⟩
    rw [h1, h2]
    unfold absent_or_after
    omega
  · exact absurd hvc (hnov c)

/-- C25 (amended): in every handle reached from do_create through successful
do_insert calls of buffers shorter than 2^32 bytes, successful do_delete and
lazily_resize calls and reopening of the file with do_open, the file staying
shorter than 2^64 bytes, with a codec that does not decode the empty buffer
and encodes every variant in fewer than 2^32 bytes: every valid slot has
size[ORIG] > 0 and, for each resolution r, either size[r] = 0 and
offset[r] = 0, or size[r] > 0 and offset[r] ≥ header_size + max_files ×
slot_size; no valid slot has an offset inside the header or the slot table. -/
theorem C25_valid_slots_lie_after_the_table (env : Env) (s : imgst_file)
    (hsha : ∀ b, (env.SHA256 b).length = SHA256_DIGEST_LENGTH)
    (hdec : env.vips_jpegload_buffer [] = none)
    (henc : ∀ b r out, env.vips_resize_jpegsave b r = some out → out.length < 2 ^ 32)
    (hs : ReachableOpen env (2 ^ 32) s) :
    ∀ i, (s.slot i).is_valid = NON_EMPTY →
      0 < (s.slot i).size.orig ∧
      (∀ size offset, (size, offset) ∈
          [((s.slot i).size.thumb, (s.slot i).offset.thumb),
           ((s.slot i).size.small, (s.slot i).offset.small),
           ((s.slot i).size.orig, (s.slot i).offset.orig)] →
        ((size = 0 ∧ offset = 0) ∨
          (0 < size ∧
            sizeof_imgst_header + s.header.max_files * sizeof_img_metadata ≤ offset)) ∧
        ¬ (0 < offset ∧
            offset < sizeof_imgst_header + s.header.max_files * sizeof_img_metadata)) := by
  intro i hv
  obtain ⟨_, hall⟩ := reachable_open_layout env s hsha hdec henc hs
  obtain ⟨p1, p2, p3, p4⟩ := hall i hv
  refine ⟨p1, ?_⟩
  intro size offset hmem
  simp only [List.mem_cons, Prod.mk.injEq, List.mem_singleton, List.not_mem_nil, or_false] at hmem
  unfold absent_or_after at p2 p3 p4
  rcases hmem with ⟨rfl, rfl⟩ | ⟨rfl, rfl⟩ | ⟨rfl, rfl⟩
  · exact ⟨p2, by omega⟩
  · exact ⟨p3, by omega⟩
  · exact ⟨p4, by omega⟩

/-- C25 (witness): the 3-slot store created, reopened, holding "x" in slot 0
with its RES_THUMB variant materialised by lazily_resize. -/
theorem C25_valid_slots_lie_after_the_table_witness :
    ReachableOpen test_env (2 ^ 32) op1_thumb ∧
    (op1_thumb.slot 0).is_valid = NON_EMPTY ∧
    (op1_thumb.slot 0).size.thumb ≠ 0 ∧
    ∀ i, (op1_thumb.slot i).is_valid = NON_EMPTY →
      0 < (op1_thumb.slot i).size.orig ∧
      (∀ size offset, (size, offset) ∈
          [((op1_thumb.slot i).size.thumb, (op1_thumb.slot i).offset.thumb),
           ((op1_thumb.slot i).size.small, (op1_thumb.slot i).offset.small),
           ((op1_thumb.slot i).size.orig, (op1_thumb.slot i).offset.orig)] →
        ((size = 0 ∧ offset = 0) ∨
          (0 < size ∧
            sizeof_imgst_header + op1_thumb.header.max_files * sizeof_img_metadata ≤ offset)) ∧
        ¬ (0 < offset ∧
            offset < sizeof_imgst_header + op1_thumb.header.max_files * sizeof_img_metadata)) :=
  have hreach : ReachableOpen test_env (2 ^ 32) op1_thumb :=
    ReachableOpen.resize RES_THUMB 0 op1 op1_thumb
      (ReachableOpen.insert img_x id_x opened3 op1
        (ReachableOpen.reopen [] false (template 0) created3 opened3
          (ReachableOpen.create [] (template 3) created3 (by decide) (by decide) (by decide)
            (by decide!))
          (by decide!))
        (by decide) (by decide!) (by decide!))
      (by decide!) (by decide!)
  ⟨hreach, by decide!, by decide!,
    C25_valid_slots_lie_after_the_table test_env op1_thumb (fun b => fix_len_length _ b)
      (by decide) (fun b _ out h => by
        simp only [test_env, Option.some.injEq] at h
        rw [← h, List.length_take]
        exact lt_of_le_of_lt (Nat.min_le_left _ _) (by decide)) hreach⟩


/-- C26 (counterexample): the 3-slot store is created and opened again (the
same header and slots, on a stream that can be read), img_x is inserted as
"x" and then as "a", and lazily_resize materialises the RES_THUMB variant of
slot 0; every call returns ERR_NONE. Slots 0 and 1 are then valid with the
same SHA, and slot 0 records the variant (size 1 at offset 715) while slot 1
records none (size 0, offset 0). -/
theorem C26_variant_recorded_in_one_slot :
    do_create [] (template 3) = (ERR_NONE, created3) ∧
    do_open (some created3.file.content) "r+b" [] false (template 0) = (ERR_NONE, opened3) ∧
    opened3.header = created3.header ∧ opened3.metadata = created3.metadata ∧
    do_insert test_env img_x id_x opened3 = some (ERR_NONE, op1) ∧
    do_insert test_env img_x id_a op1 = some (ERR_NONE, op1_same) ∧
    lazily_resize test_env RES_THUMB op1_same 0 = (ERR_NONE, op1_same_thumb) ∧
    (op1_same_thumb.slot 0).is_valid = NON_EMPTY ∧
    (op1_same_thumb.slot 1).is_valid = NON_EMPTY ∧
    (op1_same_thumb.slot 0).SHA = (op1_same_thumb.slot 1).SHA ∧
    (op1_same_thumb.slot 0).size.thumb = 1 ∧ (op1_same_thumb.slot 0).offset.thumb = 715 ∧
    (op1_same_thumb.slot 1).size.thumb = 0 ∧ (op1_same_thumb.slot 1).offset.thumb = 0 := by
  refine ⟨?_, ?_, ?_, ?_, ?_, ?_, ?_, ?_, ?_, ?_, ?_, ?_, ?_, ?_⟩ <;> decide!

/-- C26 (amended): in every handle reached from do_create through successful
do_insert, do_delete and lazily_resize calls and reopening of the file with
do_open, with 32-byte digests and no two decodable buffers of equal digest
and different resolution, any two valid slots with equal SHA have equal
res_orig, equal offset[ORIG] and equal size[ORIG]; and a successful do_insert
of content that a valid slot already holds gives the new slot the size and
the offset of all three resolutions of a valid slot with the same SHA. (A
variant that lazily_resize materialises afterwards is recorded in the slot
it was called on only.) -/
theorem C26_equal_content_shares_original (env : Env) (lim : Nat) (s : imgst_file)
    (hsha : ∀ b, (env.SHA256 b).length = SHA256_DIGEST_LENGTH)
    (hcoll : ∀ b1 b2 r1 r2, env.SHA256 b1 = env.SHA256 b2 →
      env.vips_jpegload_buffer b1 = some r1 → env.vips_jpegload_buffer b2 = some r2 → r1 = r2)
    (hs : ReachableOpen env lim s) :
    (∀ i j, (s.slot i).is_valid = NON_EMPTY → (s.slot j).is_valid = NON_EMPTY →
      (s.slot i).SHA = (s.slot j).SHA →
      (s.slot i).res_orig = (s.slot j).res_orig ∧
      (s.slot i).offset.orig = (s.slot j).offset.orig ∧
      (s.slot i).size.orig = (s.slot j).size.orig) ∧
    (∀ buffer img_id s', do_insert env buffer img_id s = some (ERR_NONE, s') →
      (∃ j, (s.slot j).is_valid = NON_EMPTY ∧ (s.slot j).SHA = env.SHA256 buffer) →
      ∃ c, c ≠ find_first_free_meta s ∧ (s'.slot c).is_valid = NON_EMPTY ∧
        (s'.slot (find_first_free_meta s)).is_valid = NON_EMPTY ∧
        (s'.slot c).SHA = (s'.slot (find_first_free_meta s)).SHA ∧
        (s'.slot (find_first_free_meta s)).size = (s'.slot c).size ∧
        (s'.slot (find_first_free_meta s)).offset = (s'.slot c).offset) := by
  obtain ⟨_, hshare, hres⟩ := reachable_open_inv env lim s hsha hs
  refine ⟨?_, ?_⟩
  · intro i j hvi hvj he
    obtain ⟨b1, w1, h1, hs1, hd1, hr1⟩ := hres i hvi
    obtain ⟨b2, w2, h2, hs2, hd2, hr2⟩ := hres j hvj
    have hr := hcoll b1 b2 (w1, h1) (w2, h2) (by rw [← hs1, ← hs2, he]) hd1 hd2
    simp only [Prod.mk.injEq] at hr
    refine ⟨by rw [hr1, hr2, hr.1, hr.2], ?_⟩
    exact hshare.2.2.2 i j hvi hvj (by rw [he]; exact are_equal_refl _)
  · intro buffer img_id s' h ⟨j, hvj, hej⟩
    obtain ⟨c, hck, hvc, hec, hvk, hsz, hof⟩ :=
      insert_duplicate_copies env buffer img_id s s' hshare
        (reachable_open_max_files env lim s hsha hs) h j hvj
        (by rw [hej]; exact are_equal_refl _)
    have hres' := res_inv_insert env buffer img_id s s' hres h
    obtain ⟨b1, _, _, hs1, _⟩ := hres' c hvc
    obtain ⟨b2, _, _, hs2, _⟩ := hres' _ hvk
    exact ⟨c, hck, hvc, hvk,
      are_equal_eq _ _ (by rw [hs1]; exact hsha b1) (by rw [hs2]; exact hsha b2) hec, hsz, hof⟩

/-- C26 (witness): the reopened 3-slot store that holds "x" in slot 0 with
its RES_THUMB variant materialised; the store is reachable, and a do_insert
of the same content as "a" succeeds on it. -/
theorem C26_equal_content_shares_original_witness :
    ReachableOpen test_env (2 ^ 32) op1_thumb ∧
    (op1_thumb.slot 0).is_valid = NON_EMPTY ∧ (op1_thumb.slot 0).size.thumb ≠ 0 ∧
    (op1_thumb.slot 0).SHA = test_env.SHA256 img_x ∧
    (do_insert test_env img_x id_a op1_thumb).map Prod.fst = some ERR_NONE ∧
    (∀ i j, (op1_thumb.slot i).is_valid = NON_EMPTY → (op1_thumb.slot j).is_valid = NON_EMPTY →
      (op1_thumb.slot i).SHA = (op1_thumb.slot j).SHA →
      (op1_thumb.slot i).res_orig = (op1_thumb.slot j).res_orig ∧
      (op1_thumb.slot i).offset.orig = (op1_thumb.slot j).offset.orig ∧
      (op1_thumb.slot i).size.orig = (op1_thumb.slot j).size.orig) ∧
    (∀ buffer img_id s', do_insert test_env buffer img_id op1_thumb = some (ERR_NONE, s') →
      (∃ j, (op1_thumb.slot j).is_valid = NON_EMPTY ∧
        (op1_thumb.slot j).SHA = test_env.SHA256 buffer) →
      ∃ c, c ≠ find_first_free_meta op1_thumb ∧ (s'.slot c).is_valid = NON_EMPTY ∧
        (s'.slot (find_first_free_meta op1_thumb)).is_valid = NON_EMPTY ∧
        (s'.slot c).SHA = (s'.slot (find_first_free_meta op1_thumb)).SHA ∧
        (s'.slot (find_first_free_meta op1_thumb)).size = (s'.slot c).size ∧
        (s'.slot (find_first_free_meta op1_thumb)).offset = (s'.slot c).offset) :=
  have hreach : ReachableOpen test_env (2 ^ 32) op1_thumb :=
    ReachableOpen.resize RES_THUMB 0 op1 op1_thumb
      (ReachableOpen.insert img_x id_x opened3 op1
        (ReachableOpen.reopen [] false (template 0) created3 opened3
          (ReachableOpen.create [] (template 3) created3 (by decide) (by decide) (by decide)
            (by decide!))
          (by decide!))
        (by decide) (by decide!) (by decide!))
      (by decide!) (by decide!)
  ⟨hreach, by decide!, by decide!, by decide!, by decide!,
    C26_equal_content_shares_original test_env (2 ^ 32) op1_thumb (fun b => fix_len_length _ b)
      (fun b1 b2 r1 r2 _ h1 h2 => by
        simp only [test_env] at h1 h2
        split at h1
        · exact absurd h1 (by simp)
        · split at h2
          · exact absurd h2 (by simp)
          · simp only [Option.some.injEq] at h1 h2
            rw [← h1, ← h2])
      hreach⟩

/-- C27 (evaluated at the failing input): do_read reads
`metadata[index].size[resolution]` before any check of the resolution code,
so for every handle its execution indexes outside the array (result `none`)
exactly when a valid slot has the requested id and the code is none of
RES_THUMB, RES_SMALL, RES_ORIG; on the reopened store holding "x" in slot 0,
do_read of "x" with the codes 3 and -1 is such an access, not the return of
ERR_RESOLUTIONS, while lazily_resize called directly with the code 3 returns
ERR_RESOLUTIONS and leaves the handle as it is. -/
theorem C27_do_read_indexes_before_validating :
    (∀ (env : Env) (s : imgst_file) (img_id : List Nat) (resolution : Int),
      do_read env img_id resolution s = none ↔
        (find_name_matching s img_id ≠ 2 ^ 64 - 1 ∧ resolution ≠ RES_THUMB ∧
          resolution ≠ RES_SMALL ∧ resolution ≠ RES_ORIG)) ∧
    find_name_matching op1 id_x = 0 ∧ (op1.slot 0).is_valid = NON_EMPTY ∧
    do_read test_env id_x 3 op1 = none ∧
    do_read test_env id_x (-1) op1 = none ∧
    do_read test_env id_x 3 op1 ≠ some ⟨ERR_RESOLUTIONS, [], 0, op1⟩ ∧
    lazily_resize test_env 3 op1 0 = (ERR_RESOLUTIONS, op1) := by
  refine ⟨?_, by decide!, by decide!, by decide!, by decide!, by decide!, by decide!⟩
  intro env s img_id resolution
  unfold do_read
  dsimp only
  split
  · next hnf =>
    constructor
    · intro h; simp at h
    · intro h; exact absurd hnf h.1
  · next hf =>
    split
    · next hget =>
      constructor
      · intro _
        refine ⟨hf, ?_, ?_, ?_⟩ <;> intro hc <;> rw [hc] at hget <;>
          simp [res_table.get?] at hget
      · intro _; rfl
    · next sz hget =>
      constructor
      · intro h
        exfalso
        revert h
        generalize (if sz = 0 then lazily_resize env resolution s (find_name_matching s img_id)
          else (ERR_NONE, s)) = p
        obtain ⟨err, s1⟩ := p
        dsimp only
        split
        · simp
        · split
          · simp
          · split <;> simp
      · intro h
        unfold res_table.get? at hget
        rw [if_neg h.2.1, if_neg h.2.2.1, if_neg h.2.2.2] at hget
        simp at hget

/-- C28 (evaluated at the failing input): do_gc_cmd stores the truth value of
`do_gbcollect(..) == ERR_NONE` in err and returns it, so for every command
with at least 3 arguments it returns 1 when do_gbcollect returned ERR_NONE
and 0 when do_gbcollect returned an error; with no file at imgst_path
do_gbcollect returns ERR_IO and do_gc_cmd returns 0, and on the store file of
op1, when remove and rename both fail, do_gbcollect returns ERR_NONE and
do_gc_cmd returns 1. -/
theorem C28_do_gc_cmd_returns_truth_value :
    (∀ (env : Env) (faults_old faults_tmp : List (Option Nat))
        (remove_fails rename_fails : Bool) (old temp : imgst_file) (args : Nat) (d : gc_disk),
      do_gc_cmd env faults_old faults_tmp remove_fails rename_fails old temp args d =
        if args < 3 then some (ERR_NOT_ENOUGH_ARGUMENTS, d)
        else (do_gbcollect env faults_old faults_tmp remove_fails rename_fails old temp d).map
          (fun r => (if r.err = ERR_NONE then 1 else 0, r.disk))) ∧
    (do_gbcollect test_env [] [] false false (template 0) (template 3) gc_disk_empty).map
      (fun r => r.err) = some ERR_IO ∧
    (do_gc_cmd test_env [] [] false false (template 0) (template 3) 3 gc_disk_empty).map
      Prod.fst = some 0 ∧
    (do_gbcollect test_env [] [] true true (template 0) (template 3) gc_disk_op1).map
      (fun r => r.err) = some ERR_NONE ∧
    (do_gc_cmd test_env [] [] true true (template 0) (template 3) 3 gc_disk_op1).map
      Prod.fst = some 1 := by
  refine ⟨?_, by decide!, by decide!, by decide!, by decide!⟩
  intro env faults_old faults_tmp remove_fails rename_fails old temp args d
  unfold do_gc_cmd
  split
  · rfl
  · split
    · next hn => rw [hn]; rfl
    · next r hr =>
      rw [hr]
      dsimp only
      by_cases he : r.err = ERR_NONE
      · simp [he]
      · simp [he]


/-- C29 (counterexample): do_insert writes the header before
the slot record. On the freshly created 3-slot store, when the stream fails
at its fifth call (the fseek to the slot record; the four calls before it
are the fseek to the end, the fwrite of the image, the fseek to offset 0 and
the fwrite of the header), do_insert of img_x as "x" returns ERR_IO and the
file holds the image at its end and a header with num_files = 1 and
imgst_version = 1, while the record of slot 0 in the file is still EMPTY;
when it fails at its third call the image is appended and the header in the
file still has num_files = 0. The run without failure returns ERR_NONE and
leaves the record of slot 0 NON_EMPTY. do_delete writes in the order of the
claim: on the store holding "x", a failure at its third call (the fseek to
offset 0) leaves the record of slot 0 EMPTY in the file and the header in the
file with num_files = 1. -/
theorem C29_insert_writes_header_before_slot :
    (do_insert test_env img_x id_x (with_fault_at created3 4)).map Prod.fst = some ERR_IO ∧
    ((after_insert test_env img_x id_x (with_fault_at created3 4)).file.content.drop 712
      = img_x) ∧
    (decode_header ((after_insert test_env img_x id_x (with_fault_at created3 4)).file.content.take
      sizeof_imgst_header)).num_files = 1 ∧
    (decode_header ((after_insert test_env img_x id_x (with_fault_at created3 4)).file.content.take
      sizeof_imgst_header)).imgst_version = 1 ∧
    (decode_metadata (record_bytes
      (after_insert test_env img_x id_x (with_fault_at created3 4)).file.content 0)).is_valid
      = EMPTY ∧
    (do_insert test_env img_x id_x (with_fault_at created3 2)).map Prod.fst = some ERR_IO ∧
    ((after_insert test_env img_x id_x (with_fault_at created3 2)).file.content.drop 712
      = img_x) ∧
    (decode_header ((after_insert test_env img_x id_x (with_fault_at created3 2)).file.content.take
      sizeof_imgst_header)).num_files = 0 ∧
    do_insert test_env img_x id_x created3 = some (ERR_NONE, st1) ∧
    (decode_header (st1.file.content.take sizeof_imgst_header)).num_files = 1 ∧
    (decode_metadata (record_bytes st1.file.content 0)).is_valid = NON_EMPTY ∧
    (do_delete id_x (with_fault_at st1 2)).1 = ERR_IO ∧
    (decode_metadata (record_bytes
      (do_delete id_x (with_fault_at st1 2)).2.file.content 0)).is_valid = EMPTY ∧
    (decode_header ((do_delete id_x (with_fault_at st1 2)).2.file.content.take
      sizeof_imgst_header)).num_files = 1 := by
  decide!

/-- C29 (amended): the writes of a successful mutating operation are issued
in the order of the code. The file it leaves is the file after the writes of
the sequence, applied in order; and on a stream that fails at call m + 1
without transferring a byte (the handle itself being on a stream without
failures) the file holds exactly the first writes of the sequence.
For do_insert of a non-empty buffer the sequence is the image content at the
end of the file (when the content has no duplicate), then the header at
offset 0, then the slot record at its fixed offset, each write being the
second of two calls (fseek, fwrite). For do_delete it is the slot record and
then the header. For lazily_resize it is, after the two calls that read the
original, the variant at the end of the file and then the slot record, with
no write of the header; a lazily_resize call that finds the variant present,
or is asked for RES_ORIG, writes nothing. The failing run returns ERR_IO
until all the writes are done. -/
theorem C29_writes_in_code_order :
    (∀ (env : Env) (buffer img_id : List Nat) (s s' : imgst_file),
      s.file.faults = [] → buffer ≠ [] →
      do_insert env buffer img_id s = some (ERR_NONE, s') →
      ∃ blob : List (Nat × List Nat),
        (blob = [(s.file.content.length, buffer)] ∨ blob = []) ∧
        s'.file.content = apply_writes s.file.content
          (blob ++ [(0, encode_header s'.header),
            (sizeof_imgst_header + sizeof_img_metadata * find_first_free_meta s,
              encode_metadata (s'.slot (find_first_free_meta s)))]) ∧
        ∀ m,
          (do_insert env buffer img_id (with_fault_at s m)).map Prod.fst
            = some (if m < 2 * (blob.length + 2) then ERR_IO else ERR_NONE) ∧
          (do_insert env buffer img_id (with_fault_at s m)).map (fun r => r.2.file.content)
            = some (apply_writes s.file.content
              ((blob ++ [(0, encode_header s'.header),
                (sizeof_imgst_header + sizeof_img_metadata * find_first_free_meta s,
                  encode_metadata (s'.slot (find_first_free_meta s)))]).take (m / 2)))) ∧
    (∀ (imgID : List Nat) (s s' : imgst_file),
      s.file.faults = [] → do_delete imgID s = (ERR_NONE, s') →
      ∃ i, i < s.header.max_files ∧ (s.slot i).is_valid = NON_EMPTY ∧
        (s'.slot i).is_valid = EMPTY ∧
        s'.file.content = apply_writes s.file.content
          [(sizeof_imgst_header + i * sizeof_img_metadata, encode_metadata (s'.slot i)),
            (0, encode_header s'.header)] ∧
        ∀ m,
          (do_delete imgID (with_fault_at s m)).1 = (if m < 4 then ERR_IO else ERR_NONE) ∧
          (do_delete imgID (with_fault_at s m)).2.file.content = apply_writes s.file.content
            ([(sizeof_imgst_header + i * sizeof_img_metadata, encode_metadata (s'.slot i)),
              (0, encode_header s'.header)].take (m / 2))) ∧
    (∀ (env : Env) (size_code : Int) (position : Nat) (s s' : imgst_file),
      s.file.faults = [] → lazily_resize env size_code s position = (ERR_NONE, s') →
      ∃ ws : List (Nat × List Nat),
        ((ws = [] ∧ s' = s) ∨
          ∃ out, out ≠ [] ∧ ws = [(s.file.content.length, out),
            (sizeof_imgst_header + position * sizeof_img_metadata,
              encode_metadata (s'.slot position))]) ∧
        s'.file.content = apply_writes s.file.content ws ∧
        ∀ m,
          (lazily_resize env size_code (with_fault_at s m) position).1
            = (if m < 3 * ws.length then ERR_IO else ERR_NONE) ∧
          (lazily_resize env size_code (with_fault_at s m) position).2.file.content
            = apply_writes s.file.content (ws.take ((m - 2) / 2))) :=
  ⟨fun env buffer img_id s s' hf hne h => do_insert_fault env buffer img_id s s' hf hne h,
    fun imgID s s' hf h => do_delete_fault imgID s s' hf h,
    fun env size_code position s s' hf h =>
      lazily_resize_fault env size_code position s s' hf h⟩

/-- C29 (witness): do_insert of img_x as "x" on the freshly created 3-slot
store, do_delete of "x" on the store that holds it, and lazily_resize of
slot 0 to RES_THUMB on the reopened store that holds "x". -/
theorem C29_writes_in_code_order_witness :
    (created3.file.faults = [] ∧ img_x ≠ [] ∧
      do_insert test_env img_x id_x created3 = some (ERR_NONE, st1) ∧
      ∃ blob : List (Nat × List Nat),
        (blob = [(created3.file.content.length, img_x)] ∨ blob = []) ∧
        st1.file.content = apply_writes created3.file.content
          (blob ++ [(0, encode_header st1.header),
            (sizeof_imgst_header + sizeof_img_metadata * find_first_free_meta created3,
              encode_metadata (st1.slot (find_first_free_meta created3)))]) ∧
        ∀ m,
          (do_insert test_env img_x id_x (with_fault_at created3 m)).map Prod.fst
            = some (if m < 2 * (blob.length + 2) then ERR_IO else ERR_NONE) ∧
          (do_insert test_env img_x id_x (with_fault_at created3 m)).map
              (fun r => r.2.file.content)
            = some (apply_writes created3.file.content
              ((blob ++ [(0, encode_header st1.header),
                (sizeof_imgst_header + sizeof_img_metadata * find_first_free_meta created3,
                  encode_metadata (st1.slot (find_first_free_meta created3)))]).take (m / 2)))) ∧
    (st1.file.faults = [] ∧ do_delete id_x st1 = (ERR_NONE, (do_delete id_x st1).2) ∧
      ∃ i, i < st1.header.max_files ∧ (st1.slot i).is_valid = NON_EMPTY ∧
        (((do_delete id_x st1).2).slot i).is_valid = EMPTY ∧
        (do_delete id_x st1).2.file.content = apply_writes st1.file.content
          [(sizeof_imgst_header + i * sizeof_img_metadata,
              encode_metadata (((do_delete id_x st1).2).slot i)),
            (0, encode_header (do_delete id_x st1).2.header)] ∧
        ∀ m,
          (do_delete id_x (with_fault_at st1 m)).1 = (if m < 4 then ERR_IO else ERR_NONE) ∧
          (do_delete id_x (with_fault_at st1 m)).2.file.content
            = apply_writes st1.file.content
              ([(sizeof_imgst_header + i * sizeof_img_metadata,
                  encode_metadata (((do_delete id_x st1).2).slot i)),
                (0, encode_header (do_delete id_x st1).2.header)].take (m / 2))) ∧
    (op1.file.faults = [] ∧ lazily_resize test_env RES_THUMB op1 0 = (ERR_NONE, op1_thumb) ∧
      op1_thumb ≠ op1 ∧
      ∃ ws : List (Nat × List Nat),
        ((ws = [] ∧ op1_thumb = op1) ∨
          ∃ out, out ≠ [] ∧ ws = [(op1.file.content.length, out),
            (sizeof_imgst_header + 0 * sizeof_img_metadata,
              encode_metadata (op1_thumb.slot 0))]) ∧
        op1_thumb.file.content = apply_writes op1.file.content ws ∧
        ∀ m,
          (lazily_resize test_env RES_THUMB (with_fault_at op1 m) 0).1
            = (if m < 3 * ws.length then ERR_IO else ERR_NONE) ∧
          (lazily_resize test_env RES_THUMB (with_fault_at op1 m) 0).2.file.content
            = apply_writes op1.file.content (ws.take ((m - 2) / 2))) :=
  ⟨⟨by decide!, by decide, by decide!,
      C29_writes_in_code_order.1 test_env img_x id_x created3 st1 (by decide!) (by decide)
        (by decide!)⟩,
    ⟨by decide!, by decide!,
      C29_writes_in_code_order.2.1 id_x st1 (do_delete id_x st1).2 (by decide!) (by decide!)⟩,
    ⟨by decide!, by decide!, by decide!,
      C29_writes_in_code_order.2.2 test_env RES_THUMB 0 op1 op1_thumb (by decide!)
        (by decide!)⟩⟩


/-- C30: on a handle whose mirror holds max_files records, for an index
i < max_files such that no other valid slot has the img_id of slot i: if some
valid slot other than i has the SHA of slot i, find_duplicate returns
DUPLICATE_FOUND with the counter equal to the index c of the lowest-index
such slot, and do_name_and_content_dedup returns ERR_NONE with res_orig,
size, offset (all three resolutions) and unused_16 of slot i equal to those
of slot c, the rest of slot i (img_id, SHA, is_valid), every other slot, the
header and the stream unchanged; if no valid slot other than i has that SHA,
it returns ERR_NONE having changed only offset[RES_ORIG] of slot i, which
becomes 0. -/
theorem C30_dedup_copies_from_lowest_duplicate (s : imgst_file) (i : Nat)
    (hi : i < s.header.max_files) (hlen : s.metadata.length = s.header.max_files)
    (hid : ∀ j, j < s.header.max_files → (s.slot j).is_valid = NON_EMPTY → j ≠ i →
      strncmp (s.slot j).img_id (s.slot i).img_id MAX_IMG_ID ≠ 0) :
    ((∃ j, j < s.header.max_files ∧ (s.slot j).is_valid = NON_EMPTY ∧ j ≠ i ∧
        are_equal (s.slot j).SHA (s.slot i).SHA = true) →
      ∃ c, c < s.header.max_files ∧ (s.slot c).is_valid = NON_EMPTY ∧ c ≠ i ∧
        are_equal (s.slot c).SHA (s.slot i).SHA = true ∧
        (∀ j, j < c → (s.slot j).is_valid = NON_EMPTY → j ≠ i →
          are_equal (s.slot j).SHA (s.slot i).SHA = false) ∧
        find_duplicate s i = (DUPLICATE_FOUND, c) ∧
        (do_name_and_content_dedup s i).1 = ERR_NONE ∧
        (do_name_and_content_dedup s i).2.slot i =
          { s.slot i with
            res_orig := (s.slot c).res_orig, size := (s.slot c).size
            offset := (s.slot c).offset, unused_16 := (s.slot c).unused_16 } ∧
        (∀ j, j ≠ i → (do_name_and_content_dedup s i).2.slot j = s.slot j) ∧
        (do_name_and_content_dedup s i).2.metadata.length = s.metadata.length ∧
        (do_name_and_content_dedup s i).2.header = s.header ∧
        (do_name_and_content_dedup s i).2.file = s.file) ∧
    ((∀ j, j < s.header.max_files → (s.slot j).is_valid = NON_EMPTY → j ≠ i →
        are_equal (s.slot j).SHA (s.slot i).SHA = false) →
      (find_duplicate s i).1 = DUPLICATE_NOT_FOUND ∧
      (do_name_and_content_dedup s i).1 = ERR_NONE ∧
      (do_name_and_content_dedup s i).2.slot i =
        { s.slot i with offset := { (s.slot i).offset with orig := 0 } } ∧
      (∀ j, j ≠ i → (do_name_and_content_dedup s i).2.slot j = s.slot j) ∧
      (do_name_and_content_dedup s i).2.metadata.length = s.metadata.length ∧
      (do_name_and_content_dedup s i).2.header = s.header ∧
      (do_name_and_content_dedup s i).2.file = s.file) := by
  have hil : i < s.metadata.length := by omega
  have hframe := dedup_frame s (do_name_and_content_dedup s i).2 i
    (do_name_and_content_dedup s i).1 rfl
  obtain ⟨f1, f2, f3, f4⟩ := hframe
  have hspec := find_duplicate_loop_spec s i s.header.max_files 0
  simp only [Nat.zero_add] at hspec
  have hfd : find_duplicate s i = find_duplicate_loop s i s.header.max_files 0 0 := rfl
  rcases hspec with ⟨hnf, hall⟩ | ⟨c, hc, _, hcm, hcv, hci, _, hce, hcl⟩ |
    ⟨c, _, _, hcm, hcv, hci, hcs, _⟩
  · -- no duplicate
    have hres : do_name_and_content_dedup s i = (ERR_NONE, s.set_slot i
        { s.slot i with offset := { (s.slot i).offset with orig := 0 } }) := by
      unfold do_name_and_content_dedup
      rw [if_neg (not_not.mpr hi)]
      rw [hfd]
      generalize find_duplicate_loop s i s.header.max_files 0 0 = p at hnf
      obtain ⟨r, c⟩ := p
      dsimp only at hnf ⊢
      rw [hnf, if_neg (by decide), if_pos rfl]
    refine ⟨?_, fun _ => ⟨by rw [hfd]; exact hnf, ?_, ?_, f4, f3, f2, f1⟩⟩
    · rintro ⟨j, hj, hjv, hji, hje⟩
      have := (hall j (Nat.zero_le _) hj hjv hji).2
      rw [this] at hje
      exact absurd hje (by decide)
    · rw [hres]
    · rw [hres]
      exact slot_set_slot_eq _ _ _ hil
  · -- a duplicate at c
    have hres : do_name_and_content_dedup s i = (ERR_NONE, s.set_slot i
        (copy_attributes (s.slot i) (s.slot c))) := by
      unfold do_name_and_content_dedup
      rw [if_neg (not_not.mpr hi), hfd, hc]
      dsimp only
      rw [if_pos rfl]
    refine ⟨fun _ => ⟨c, hcm, hcv, hci, hce, fun j hj hjv hji =>
      (hcl j (Nat.zero_le _) hj hjv hji).2, by rw [hfd]; exact hc, ?_, ?_, f4, f3, f2, f1⟩,
      ?_⟩
    · rw [hres]
    · rw [hres]
      exact slot_set_slot_eq _ _ _ hil
    · intro hno
      rw [hno c hcm hcv hci] at hce
      exact absurd hce (by decide)
  · exact absurd hcs (hid c hcm hcv hci)

/-- C30 (witness): in the middle of do_insert of the content of slot 0 under
the new name "a" into slot 1, find_duplicate reports the counter 0 and slot 1
receives size and offset of slot 0. -/
theorem C30_dedup_copies_from_lowest_duplicate_witness :
    1 < st1_loaded.header.max_files ∧
    st1_loaded.metadata.length = st1_loaded.header.max_files ∧
    ∃ c, c < st1_loaded.header.max_files ∧
      find_duplicate st1_loaded 1 = (DUPLICATE_FOUND, c) ∧
      (do_name_and_content_dedup st1_loaded 1).1 = ERR_NONE ∧
      ((do_name_and_content_dedup st1_loaded 1).2.slot 1).offset = (st1_loaded.slot c).offset ∧
      ((do_name_and_content_dedup st1_loaded 1).2.slot 1).size = (st1_loaded.slot c).size := by
  obtain ⟨c, hc, _, _, _, _, hfd, he, hsl, _⟩ :=
    (C30_dedup_copies_from_lowest_duplicate st1_loaded 1 (by decide!) (by decide!)
      (by decide!)).1 ⟨0, by decide!, by decide!, by decide!, by decide!⟩
  exact ⟨by decide!, by decide!, c, hc, hfd, he, by rw [hsl], by rw [hsl]⟩

end ImgStore
